import Mathlib

/-!
# Stack controller and composition patches: shallow embedding and verified properties

Sources: `pkg/controller/stacks/stack/stack.go` and
`apis/apiextensions/v1alpha1/composition_types.go`.

Conventions of the embedding

* Go `map[string]string` values are association lists (`StringMap`); a lookup
  of an absent key yields `""`, as in Go.
* Go `error` values are terms of `Err`; `nil` is `none : Option Err`.
* Loops over slices are structural recursions over lists, in slice order.
* The controller-runtime client is an interface the source only calls; it is
  modelled further down by an idealised API server with a fault oracle.
* The functions of `composition_types.go` work on `interface{}` values and
  nil-able pointers and may panic; their embedding returns an `Outcome`.
-/

namespace Crossplane

/-! ## Strings and maps -/

/-- Go `map[string]string`. -/
abbrev StringMap := List (String × String)

/-- Go `m[k]`: the value stored under `k`, or the empty string. -/
def mapGet (m : StringMap) (k : String) : String :=
  match m with
  | [] => ""
  | (k', v) :: rest => if k' = k then v else mapGet rest k

/-- Go `_, ok := m[k]`. -/
def mapHas (m : StringMap) (k : String) : Bool :=
  match m with
  | [] => false
  | (k', _) :: rest => if k' = k then true else mapHas rest k

/-- Go `delete(m, k)`. -/
def mapDelete (m : StringMap) (k : String) : StringMap :=
  match m with
  | [] => []
  | (k', v) :: rest => if k' = k then mapDelete rest k else (k', v) :: mapDelete rest k

/-- Go `m[k] = v`. -/
def mapSet (m : StringMap) (k v : String) : StringMap :=
  (k, v) :: mapDelete m k

/-- Go `strings.HasPrefix(s, p)`. -/
def HasPrefix (s p : String) : Bool :=
  p.data.isPrefixOf s.data

/-! ## Errors -/

/-- The `metav1.StatusReason` of an error answered by the API server, as far
as the source tells them apart (`kerrors.IsNotFound`,
`kerrors.IsAlreadyExists`). -/
inductive ApiErr where
  | NotFound
  | AlreadyExists
  | Other (msg : String)
  deriving DecidableEq, Repr

/-- Go `error` values built or passed on by the source. `Errorf` keeps the
format string and its arguments (`fmt.Errorf(format, args...)`), `New` is
`errors.New`, `Wrap` is `errors.Wrap(cause, msg)`. -/
inductive Err where
  | Api (e : ApiErr)
  | New (msg : String)
  | Errorf (format : String) (args : List String)
  | Wrap (cause : Err) (msg : String)
  deriving DecidableEq, Repr

/-- The `kerrors.IsNotFound` test: true only of an API status error with reason
NotFound (a wrapped error is not unwrapped). -/
def IsNotFound : Option Err → Bool
  | some (Err.Api ApiErr.NotFound) => true
  | _ => false

/-- The `kerrors.IsAlreadyExists` test. -/
def IsAlreadyExists : Option Err → Bool
  | some (Err.Api ApiErr.AlreadyExists) => true
  | _ => false

/-- The `runtimeresource.IgnoreNotFound` helper: `nil` for a not-found error,
the error itself otherwise. -/
def IgnoreNotFound (err : Option Err) : Option Err :=
  if IsNotFound err then none else err

/-- Go `errors.Wrap(err, msg)`: `nil` stays `nil`. -/
def Wrap (err : Option Err) (msg : String) : Option Err :=
  match err with
  | none => none
  | some e => some (Err.Wrap e msg)

/-! ## Schema descriptors and schema objects -/

/-- A `schema.GroupVersionKind`. -/
structure GroupVersionKind where
  Group : String
  Version : String
  Kind : String
  deriving DecidableEq, Repr

/-- A `metav1.TypeMeta`, the element type of `v1alpha1.CRDList`. -/
structure TypeMeta where
  APIVersion : String
  Kind : String
  deriving DecidableEq, Repr

/-- Number of `/` characters (`strings.Count(gv, "/")`). -/
def countSlash : List Char → Nat
  | [] => 0
  | c :: cs => (if c = '/' then 1 else 0) + countSlash cs

/-- The part before the first `/` (`gv[:i]`). -/
def beforeSlash : List Char → List Char
  | [] => []
  | c :: cs => if c = '/' then [] else c :: beforeSlash cs

/-- The part after the first `/` (`gv[i+1:]`). -/
def afterSlash : List Char → List Char
  | [] => []
  | c :: cs => if c = '/' then cs else afterSlash cs

/-- The apimachinery `TypeMeta.GroupVersionKind()`, that is
`schema.FromAPIVersionAndKind`: the API version is split at its single `/`;
without a `/` it is a bare version; with more than one `/` group and version
are both empty. -/
def TypeMeta.GroupVersionKind (t : TypeMeta) : GroupVersionKind :=
  let gv := t.APIVersion.data
  if gv = [] ∨ gv = ['/'] then ⟨"", "", t.Kind⟩
  else match countSlash gv with
    | 0 => ⟨"", t.APIVersion, t.Kind⟩
    | 1 => ⟨String.mk (beforeSlash gv), String.mk (afterSlash gv), t.Kind⟩
    | _ => ⟨"", "", t.Kind⟩

/-- The `v1alpha1.CRDList` type. -/
abbrev CRDList := List TypeMeta

/-- The `Spec.Subresources` of a CRD: which of `Status` and `Scale` are
non-nil. -/
structure CustomResourceSubresources where
  Status : Bool
  Scale : Bool
  deriving DecidableEq, Repr

/-- An entry of `Spec.Versions` of a CRD (`CustomResourceDefinitionVersion`):
its name and whether the API server serves it. -/
structure CustomResourceDefinitionVersion where
  Name : String
  Served : Bool
  deriving DecidableEq, Repr

/-- The fields of an `apiextensions.CustomResourceDefinition` the source reads
or writes, and the `Served` flag of its versions, which the source does not
read. `Versions` holds `Spec.Versions` in order. -/
structure CustomResourceDefinition where
  Name : String
  Labels : StringMap
  Group : String
  Kind : String
  Plural : String
  Versions : List CustomResourceDefinitionVersion
  Subresources : Option CustomResourceSubresources
  deriving DecidableEq, Repr

/-- The names of the versions a CRD lists, served or not. -/
def CustomResourceDefinition.versionNames (c : CustomResourceDefinition) : List String :=
  c.Versions.map CustomResourceDefinitionVersion.Name

/-- Source `crdVersionExists`. -/
def crdVersionExists (crd : CustomResourceDefinition) (version : String) : Bool :=
  go crd.Versions
where
  go : List CustomResourceDefinitionVersion → Bool
    | [] => false
    | v :: vs => if v.Name = version then true else go vs

/-- The inner loop of `crdListFulfilled`: the final value of `found`. -/
def crdListFulfilled.found (group version kind : String) :
    List CustomResourceDefinition → Bool
  | [] => false
  | c :: rest =>
    if c.Group ≠ group then found group version kind rest
    else if c.Kind ≠ kind then found group version kind rest
    else if crdVersionExists c version then true
    else found group version kind rest

/-- The format string of the fulfillment error. -/
def errMissingCRDFmt : String := "Missing CRD with APIVersion %q and Kind %q"

/-- Source `crdListFulfilled`. -/
def crdListFulfilled (want : CRDList) (got : List CustomResourceDefinition) : Option Err :=
  match want with
  | [] => none
  | crdWant :: rest =>
    let group := crdWant.GroupVersionKind.Group
    let version := crdWant.GroupVersionKind.Version
    let kind := crdWant.GroupVersionKind.Kind
    if !crdListFulfilled.found group version kind got then
      some (Err.Errorf errMissingCRDFmt [crdWant.APIVersion, crdWant.Kind])
    else crdListFulfilled rest got

/-- A live schema object matches a descriptor: same group, same kind, and the
descriptor's version is the name of one of the object's versions. -/
def descriptorMatches (w : TypeMeta) (c : CustomResourceDefinition) : Bool :=
  decide (c.Group = w.GroupVersionKind.Group) &&
  decide (c.Kind = w.GroupVersionKind.Kind) &&
  decide (w.GroupVersionKind.Version ∈ c.versionNames)

/-! ## Kubernetes objects

Only the fields the source reads or writes are kept. Fields filled in by the
API server (resource version, timestamps) are left out. -/

/-- A `metav1.OwnerReference`. -/
structure OwnerReference where
  APIVersion : String
  Kind : String
  Name : String
  UID : String
  deriving DecidableEq, Repr

/-- A `corev1.ObjectReference`. -/
structure ObjectReference where
  APIVersion : String
  Kind : String
  Namespace : String
  Name : String
  UID : String
  deriving DecidableEq, Repr

/-- A `types.NamespacedName`. -/
structure NamespacedName where
  Namespace : String
  Name : String
  deriving DecidableEq, Repr

/-- An `rbacv1.PolicyRule`. -/
structure PolicyRule where
  APIGroups : List String
  Resources : List String
  Verbs : List String
  ResourceNames : List String
  NonResourceURLs : List String
  deriving DecidableEq, Repr

/-- An `rbacv1.RoleRef`. -/
structure RoleRef where
  APIGroup : String
  Kind : String
  Name : String
  deriving DecidableEq, Repr

/-- An `rbacv1.Subject`. -/
structure Subject where
  Kind : String
  Name : String
  Namespace : String
  deriving DecidableEq, Repr

/-- A `corev1.ServiceAccount`. -/
structure ServiceAccount where
  Name : String
  Namespace : String
  OwnerReferences : List OwnerReference
  Annotations : StringMap
  Secrets : List ObjectReference
  deriving DecidableEq, Repr

/-- An `rbacv1.ClusterRole`. -/
structure ClusterRole where
  Name : String
  Labels : StringMap
  Rules : List PolicyRule
  deriving DecidableEq, Repr

/-- An `rbacv1.RoleBinding`. -/
structure RoleBinding where
  Name : String
  Namespace : String
  OwnerReferences : List OwnerReference
  RoleRef : RoleRef
  Subjects : List Subject
  deriving DecidableEq, Repr

/-- An `rbacv1.ClusterRoleBinding`. -/
structure ClusterRoleBinding where
  Name : String
  Labels : StringMap
  RoleRef : RoleRef
  Subjects : List Subject
  deriving DecidableEq, Repr

/-- A `corev1.Secret`; `Data` maps a key to its bytes. -/
structure Secret where
  Name : String
  Namespace : String
  OwnerReferences : List OwnerReference
  Data : List (String × List Nat)
  deriving DecidableEq, Repr

/-- A `corev1.EnvVar`. -/
structure EnvVar where
  Name : String
  Value : String
  deriving DecidableEq, Repr

/-- A `corev1.VolumeMount`. -/
structure VolumeMount where
  Name : String
  ReadOnly : Bool
  MountPath : String
  deriving DecidableEq, Repr

/-- A `corev1.VolumeSource`: a secret source with its `SecretName`, or any
other source (kept as an uninterpreted description). -/
inductive VolumeSource where
  | Secret (SecretName : String)
  | Other (description : String)
  deriving DecidableEq, Repr

/-- A `corev1.Volume`. -/
structure Volume where
  Name : String
  VolumeSource : VolumeSource
  deriving DecidableEq, Repr

/-- A `corev1.Container`. -/
structure Container where
  Name : String
  Image : String
  Env : List EnvVar
  VolumeMounts : List VolumeMount
  deriving DecidableEq, Repr

/-- A `corev1.PodSpec`. `AutomountServiceAccountToken` is a `*bool`. -/
structure PodSpec where
  Volumes : List Volume
  Containers : List Container
  ServiceAccountName : String
  DeprecatedServiceAccount : String
  AutomountServiceAccountToken : Option Bool
  deriving DecidableEq, Repr

/-- A `corev1.PodTemplateSpec`. -/
structure PodTemplateSpec where
  Name : String
  Labels : StringMap
  Spec : PodSpec
  deriving DecidableEq, Repr

/-- A `metav1.LabelSelector`; `MatchExpressions` are kept uninterpreted. -/
structure LabelSelector where
  MatchLabels : StringMap
  MatchExpressions : List String
  deriving DecidableEq, Repr

/-- An `apps.DeploymentSpec`. -/
structure DeploymentSpec where
  Replicas : Option Nat
  Selector : Option LabelSelector
  Template : PodTemplateSpec
  deriving DecidableEq, Repr

/-- An `apps.Deployment`. -/
structure Deployment where
  Name : String
  Namespace : String
  UID : String
  Labels : StringMap
  Annotations : StringMap
  Spec : DeploymentSpec
  deriving DecidableEq, Repr

/-- A `batch.JobSpec`. -/
structure JobSpec where
  Template : PodTemplateSpec
  deriving DecidableEq, Repr

/-- A `batch.Job`. -/
structure Job where
  Name : String
  Namespace : String
  Labels : StringMap
  Annotations : StringMap
  Spec : JobSpec
  deriving DecidableEq, Repr

/-- The type of a status condition (`runtimev1alpha1.ConditionType`). -/
inductive ConditionType where
  | Ready
  | Synced
  deriving DecidableEq, Repr

/-- The status conditions the source sets: `runtimev1alpha1.Creating()`,
`Available()`, `ReconcileSuccess()` and `ReconcileError(err)`. -/
inductive Condition where
  | Creating
  | Available
  | ReconcileSuccess
  | ReconcileError (err : Err)
  deriving DecidableEq, Repr

/-- The type of each condition: `Creating` and `Available` are of type Ready,
`ReconcileSuccess` and `ReconcileError` of type Synced. -/
def Condition.Type : Condition → ConditionType
  | Condition.Creating => ConditionType.Ready
  | Condition.Available => ConditionType.Ready
  | Condition.ReconcileSuccess => ConditionType.Synced
  | Condition.ReconcileError _ => ConditionType.Synced

/-- The `v1alpha1.ControllerDeployment` of a Stack's spec. -/
structure ControllerDeployment where
  Name : String
  Spec : DeploymentSpec
  deriving DecidableEq, Repr

/-- The `v1alpha1.StackSpec` fields the source reads.
`ServiceAccountAnnotations` is the value of the method
`Spec.ServiceAccountAnnotations()`; `ControllerDeployment` is
`Spec.Controller.Deployment`; `PermissionRules` is `Spec.Permissions.Rules`. -/
structure StackSpec where
  CRDs : CRDList
  PermissionRules : List PolicyRule
  PermissionScope : String
  ServiceAccountAnnotations : StringMap
  ControllerDeployment : Option ControllerDeployment
  deriving DecidableEq, Repr

/-- The `v1alpha1.StackStatus` fields the source reads or writes. -/
structure StackStatus where
  ControllerRef : Option ObjectReference
  Conditions : List Condition
  deriving DecidableEq, Repr

/-- A `v1alpha1.Stack`. `DeletionTimestamp` is the `*metav1.Time` of the
object metadata, as a number of seconds (`0` is the zero time). -/
structure Stack where
  Name : String
  Namespace : String
  UID : String
  DeletionTimestamp : Option Nat
  Finalizers : List String
  Spec : StackSpec
  Status : StackStatus
  deriving DecidableEq, Repr

/-- A `hosted.Config`: present in host-aware mode only. -/
structure HostedConfig where
  HostControllerNamespace : String
  TenantAPIServiceHost : String
  TenantAPIServicePort : String
  deriving DecidableEq, Repr

/-- A `reconcile.Result`; `RequeueAfter` is a duration in nanoseconds. -/
structure Result where
  Requeue : Bool
  RequeueAfter : Nat
  deriving DecidableEq, Repr

/-! ## Library helpers on objects (crossplane-runtime `meta`, conditions) -/

/-- The `meta.WasDeleted` helper: the deletion timestamp is set and not the
zero time. -/
def WasDeleted (o : Stack) : Bool :=
  match o.DeletionTimestamp with
  | none => false
  | some t => t != 0

/-- The `meta.AddFinalizer` helper: appends the finalizer unless present. -/
def AddFinalizer (o : Stack) (finalizer : String) : Stack :=
  if finalizer ∈ o.Finalizers then o
  else { o with Finalizers := o.Finalizers ++ [finalizer] }

/-- The `meta.RemoveFinalizer` helper: drops the finalizer from the list. -/
def RemoveFinalizer (o : Stack) (finalizer : String) : Stack :=
  { o with Finalizers := o.Finalizers.filter (fun e => e != finalizer) }

/-- The `meta.RemoveLabels` helper on a label map: deletes each key. -/
def RemoveLabels (l : StringMap) (keys : List String) : StringMap :=
  match keys with
  | [] => l
  | k :: ks => RemoveLabels (mapDelete l k) ks

/-- The `meta.AddLabels` / `meta.AddAnnotations` helper on a map: every entry
of `added` is set on `l`. -/
def AddLabels (l : StringMap) (added : StringMap) : StringMap :=
  match added with
  | [] => l
  | (k, v) :: rest => AddLabels (mapSet l k v) rest

/-- One step of `ConditionedStatus.SetConditions`: an existing condition of
the same type is overwritten in place, otherwise the new one is appended. -/
def setCondition (cs : List Condition) (new : Condition) : List Condition :=
  if cs.any (fun c => c.Type = new.Type) then
    cs.map (fun c => if c.Type = new.Type then new else c)
  else cs ++ [new]

/-- The `Status.SetConditions(c...)` method. -/
def SetConditions (o : Stack) (c : List Condition) : Stack :=
  { o with Status := { o.Status with Conditions := c.foldl setCondition o.Status.Conditions } }

/-- The `GroupVersion.String()` method of apimachinery. -/
def groupVersionString (gvk : GroupVersionKind) : String :=
  if gvk.Group = "" then gvk.Version else gvk.Group ++ "/" ++ gvk.Version

/-- The `meta.ReferenceTo(o, gvk)` helper for a Stack. -/
def ReferenceToStack (o : Stack) (gvk : GroupVersionKind) : ObjectReference :=
  { APIVersion := groupVersionString gvk, Kind := gvk.Kind,
    Namespace := o.Namespace, Name := o.Name, UID := o.UID }

/-- The `meta.ReferenceTo(o, gvk)` helper for a Deployment. -/
def ReferenceToDeployment (o : Deployment) (gvk : GroupVersionKind) : ObjectReference :=
  { APIVersion := groupVersionString gvk, Kind := gvk.Kind,
    Namespace := o.Namespace, Name := o.Name, UID := o.UID }

/-- The `meta.AsOwner` helper. -/
def AsOwner (r : ObjectReference) : OwnerReference :=
  { APIVersion := r.APIVersion, Kind := r.Kind, Name := r.Name, UID := r.UID }

/-! ## Code of the repository outside the verified file

`pkg/stacks` (label keys and names), `pkg/stacks/truncate` and
`pkg/controller/stacks/hosted` are called by the source but are not part of
it. They are parameters of the embedding. -/

/-- The functions and constants of `pkg/stacks`, `pkg/stacks/truncate`,
`pkg/controller/stacks/hosted` and `apis/stacks/v1alpha1` that the source
uses. `LabelNamespaceFmt ns` stands for
`fmt.Sprintf(stacks.LabelNamespaceFmt, ns)` and `LabelAggregateFmt scope
persona` for `fmt.Sprintf(stacks.LabelAggregateFmt, scope, persona)`;
`Truncate` is the string result of `truncate.Truncate`. -/
structure Deps where
  ParentLabels : Stack → StringMap
  MultiParentLabel : Stack → String
  MultiParentLabelPrefix : Stack → String
  LabelNamespaceFmt : String → String
  LabelAggregateFmt : String → String → String
  LabelKubernetesManagedBy : String
  LabelValueStackManager : String
  NamespaceScoped : String
  EnvironmentScoped : String
  PersonaRoleName : Stack → String → String
  Truncate : String → Int → Int → String
  LabelValueLength : Int
  DefaultSuffixLength : Int
  ObjectReferenceOnHost : HostedConfig → String → String → ObjectReference
  ObjectReferenceAnnotationsOnHost : String → String → String → StringMap
  StackGroupVersionKind : GroupVersionKind

/-- Modelled from the spec: `stacks.HasPrefixedLabel`, which is not in the
source file. A schema object keeps its namespace label as long as some
`multi-parent` label for the namespace remains on it: the test is whether any
label key of the object starts with the given prefix. -/
def HasPrefixedLabel (labels : StringMap) (pre : String) : Bool :=
  match labels with
  | [] => false
  | (k, _) :: rest => if HasPrefix k pre then true else HasPrefixedLabel rest pre

/-! ## The API server model

The source talks to two `client.Client` values (`kube`, `hostKube`). The client
is an interface of controller-runtime; it is modelled as an idealised API
server:

* a `Cluster` is the set of live objects, a `World` holds the tenant and the
  host cluster and the trace of every call issued so far;
* `Get` answers NotFound for an absent key, `Create` answers AlreadyExists
  for a present key, `Patch`, `Update` and `Status().Update` answer NotFound
  for an absent key, `List` and `DeleteAllOf` succeed;
* a fault oracle (`Faults`) may make any call fail with any API error; a
  failed call leaves the cluster unchanged;
* only `Get` and `List` write into the caller's object;
* `Update` writes metadata and spec, `Status().Update` writes the status
  (the Stack type has a status subresource); the API server's removal of an
  object whose last finalizer is gone is not modelled. -/

/-- Which cluster a client talks to. -/
inductive ClusterId where
  | tenant
  | host
  deriving DecidableEq, Repr

/-- The client verbs the source uses. -/
inductive Verb where
  | get
  | list
  | create
  | patch
  | update
  | statusUpdate
  | deleteAllOf
  deriving DecidableEq, Repr

/-- The object kinds the source touches. -/
inductive Kind where
  | Stack
  | ServiceAccount
  | ClusterRole
  | RoleBinding
  | ClusterRoleBinding
  | Deployment
  | Job
  | Secret
  | CustomResourceDefinition
  deriving DecidableEq, Repr

/-- One client call: which client, verb, kind, the key of the object (for a
`DeleteAllOf`, its namespace option), and the label selector of a
`DeleteAllOf` (`client.MatchingLabels`). -/
structure Call where
  client : ClusterId
  verb : Verb
  kind : Kind
  Namespace : String
  Name : String
  selector : StringMap
  deriving DecidableEq, Repr

/-- The live objects of one cluster. -/
structure Cluster where
  Stacks : List Stack
  ServiceAccounts : List ServiceAccount
  ClusterRoles : List ClusterRole
  RoleBindings : List RoleBinding
  ClusterRoleBindings : List ClusterRoleBinding
  Deployments : List Deployment
  Jobs : List Job
  Secrets : List Secret
  CRDs : List CustomResourceDefinition
  deriving DecidableEq, Repr

/-- Both clusters and the trace of calls (oldest first). -/
structure World where
  tenant : Cluster
  host : Cluster
  log : List Call
  deriving DecidableEq, Repr

/-- The fault oracle: given the calls issued so far and the call being made,
the API error to answer, if any. -/
abbrev Faults := List Call → Call → Option ApiErr

/-- The cluster behind a client. -/
def World.cluster (w : World) (id : ClusterId) : Cluster :=
  match id with
  | ClusterId.tenant => w.tenant
  | ClusterId.host => w.host

/-- Replace the cluster behind a client. -/
def World.setCluster (w : World) (id : ClusterId) (c : Cluster) : World :=
  match id with
  | ClusterId.tenant => { w with tenant := c }
  | ClusterId.host => { w with host := c }

/-- Append a call to the trace. -/
def World.record (w : World) (c : Call) : World :=
  { w with log := w.log ++ [c] }

/-- Issue a writing call: it is recorded; the oracle's fault, if any, is the
answer and the cluster is untouched; otherwise the server function runs. -/
def issue (F : Faults) (w : World) (c : Call)
    (serve : Cluster → Option ApiErr × Cluster) : Option Err × World :=
  match F w.log c with
  | some e => (some (Err.Api e), w.record c)
  | none =>
    ((serve (w.cluster c.client)).1.map Err.Api,
      (w.record c).setCluster c.client (serve (w.cluster c.client)).2)

/-- Issue a reading call: it is recorded; the oracle's fault, if any, is the
answer; otherwise the reader function runs. -/
def issueRead {α : Type} (F : Faults) (w : World) (c : Call)
    (read : Cluster → Except ApiErr α) : Except Err α × World :=
  match F w.log c with
  | some e => (Except.error (Err.Api e), w.record c)
  | none =>
    match read (w.cluster c.client) with
    | Except.error e => (Except.error (Err.Api e), w.record c)
    | Except.ok a => (Except.ok a, w.record c)

/-- A label selector built by `client.MatchingLabels`: every pair of the
selector is carried by the object. -/
def matchesSelector (selector labels : StringMap) : Bool :=
  selector.all (fun kv => mapHas labels kv.1 && decide (mapGet labels kv.1 = kv.2))

/-- Key-wise JSON merge patch of a label map, as produced by
`client.MergeFrom(orig)` for `modified` and applied to the live labels: keys
dropped between `orig` and `modified` are deleted, keys added or changed are
set. -/
def applyLabelPatch (orig modified live : StringMap) : StringMap :=
  let removed := (orig.map Prod.fst).filter (fun k => !mapHas modified k)
  let changed := modified.filter
    (fun kv => !(mapHas orig kv.1 && decide (mapGet orig kv.1 = kv.2)))
  AddLabels (RemoveLabels live removed) changed

/-- `Get` of a Stack. -/
def getStack (F : Faults) (id : ClusterId) (key : NamespacedName) (w : World) :
    Except Err Stack × World :=
  issueRead F w ⟨id, Verb.get, Kind.Stack, key.Namespace, key.Name, []⟩
    (fun cl =>
      match cl.Stacks.find? (fun o => o.Namespace = key.Namespace ∧ o.Name = key.Name) with
      | some o => Except.ok o
      | none => Except.error ApiErr.NotFound)

/-- `Get` of a ServiceAccount. -/
def getServiceAccount (F : Faults) (id : ClusterId) (key : NamespacedName) (w : World) :
    Except Err ServiceAccount × World :=
  issueRead F w ⟨id, Verb.get, Kind.ServiceAccount, key.Namespace, key.Name, []⟩
    (fun cl =>
      match cl.ServiceAccounts.find?
          (fun o => o.Namespace = key.Namespace ∧ o.Name = key.Name) with
      | some o => Except.ok o
      | none => Except.error ApiErr.NotFound)

/-- `Get` of a Secret. -/
def getSecret (F : Faults) (id : ClusterId) (key : NamespacedName) (w : World) :
    Except Err Secret × World :=
  issueRead F w ⟨id, Verb.get, Kind.Secret, key.Namespace, key.Name, []⟩
    (fun cl =>
      match cl.Secrets.find? (fun o => o.Namespace = key.Namespace ∧ o.Name = key.Name) with
      | some o => Except.ok o
      | none => Except.error ApiErr.NotFound)

/-- `Get` of a Deployment. -/
def getDeployment (F : Faults) (id : ClusterId) (key : NamespacedName) (w : World) :
    Except Err Deployment × World :=
  issueRead F w ⟨id, Verb.get, Kind.Deployment, key.Namespace, key.Name, []⟩
    (fun cl =>
      match cl.Deployments.find?
          (fun o => o.Namespace = key.Namespace ∧ o.Name = key.Name) with
      | some o => Except.ok o
      | none => Except.error ApiErr.NotFound)

/-- `List` of all CustomResourceDefinitions (empty list options). -/
def listCRDs (F : Faults) (id : ClusterId) (w : World) :
    Except Err (List CustomResourceDefinition) × World :=
  issueRead F w ⟨id, Verb.list, Kind.CustomResourceDefinition, "", "", []⟩
    (fun cl => Except.ok cl.CRDs)

/-- `Create` of a ServiceAccount. -/
def createServiceAccount (F : Faults) (id : ClusterId) (o : ServiceAccount) (w : World) :
    Option Err × World :=
  issue F w ⟨id, Verb.create, Kind.ServiceAccount, o.Namespace, o.Name, []⟩
    (fun cl =>
      if cl.ServiceAccounts.any (fun x => x.Namespace = o.Namespace ∧ x.Name = o.Name) then
        (some ApiErr.AlreadyExists, cl)
      else (none, { cl with ServiceAccounts := cl.ServiceAccounts ++ [o] }))

/-- `Create` of a ClusterRole. -/
def createClusterRole (F : Faults) (id : ClusterId) (o : ClusterRole) (w : World) :
    Option Err × World :=
  issue F w ⟨id, Verb.create, Kind.ClusterRole, "", o.Name, []⟩
    (fun cl =>
      if cl.ClusterRoles.any (fun x => x.Name = o.Name) then (some ApiErr.AlreadyExists, cl)
      else (none, { cl with ClusterRoles := cl.ClusterRoles ++ [o] }))

/-- `Create` of a RoleBinding. -/
def createRoleBinding (F : Faults) (id : ClusterId) (o : RoleBinding) (w : World) :
    Option Err × World :=
  issue F w ⟨id, Verb.create, Kind.RoleBinding, o.Namespace, o.Name, []⟩
    (fun cl =>
      if cl.RoleBindings.any (fun x => x.Namespace = o.Namespace ∧ x.Name = o.Name) then
        (some ApiErr.AlreadyExists, cl)
      else (none, { cl with RoleBindings := cl.RoleBindings ++ [o] }))

/-- `Create` of a ClusterRoleBinding. -/
def createClusterRoleBindingObject (F : Faults) (id : ClusterId) (o : ClusterRoleBinding)
    (w : World) : Option Err × World :=
  issue F w ⟨id, Verb.create, Kind.ClusterRoleBinding, "", o.Name, []⟩
    (fun cl =>
      if cl.ClusterRoleBindings.any (fun x => x.Name = o.Name) then
        (some ApiErr.AlreadyExists, cl)
      else (none, { cl with ClusterRoleBindings := cl.ClusterRoleBindings ++ [o] }))

/-- `Create` of a Deployment. -/
def createDeployment (F : Faults) (id : ClusterId) (o : Deployment) (w : World) :
    Option Err × World :=
  issue F w ⟨id, Verb.create, Kind.Deployment, o.Namespace, o.Name, []⟩
    (fun cl =>
      if cl.Deployments.any (fun x => x.Namespace = o.Namespace ∧ x.Name = o.Name) then
        (some ApiErr.AlreadyExists, cl)
      else (none, { cl with Deployments := cl.Deployments ++ [o] }))

/-- `Create` of a Secret. -/
def createSecret (F : Faults) (id : ClusterId) (o : Secret) (w : World) :
    Option Err × World :=
  issue F w ⟨id, Verb.create, Kind.Secret, o.Namespace, o.Name, []⟩
    (fun cl =>
      if cl.Secrets.any (fun x => x.Namespace = o.Namespace ∧ x.Name = o.Name) then
        (some ApiErr.AlreadyExists, cl)
      else (none, { cl with Secrets := cl.Secrets ++ [o] }))

/-- `Patch` of a Stack with `client.MergeFrom(orig)`. Between the copy and the
patch the source changes the finalizers only, so the merge patch carries the
finalizer list when it differs and nothing otherwise. -/
def patchStack (F : Faults) (id : ClusterId) (orig modified : Stack) (w : World) :
    Option Err × World :=
  issue F w ⟨id, Verb.patch, Kind.Stack, modified.Namespace, modified.Name, []⟩
    (fun cl =>
      if cl.Stacks.any (fun x => x.Namespace = modified.Namespace ∧ x.Name = modified.Name) then
        (none, { cl with Stacks := cl.Stacks.map (fun x =>
          if x.Namespace = modified.Namespace ∧ x.Name = modified.Name then
            (if modified.Finalizers = orig.Finalizers then x
             else { x with Finalizers := modified.Finalizers })
          else x) })
      else (some ApiErr.NotFound, cl))

/-- `Patch` of a CustomResourceDefinition with `client.MergeFrom(orig)`.
Between the copy and the patch the source changes labels only. -/
def patchCRD (F : Faults) (id : ClusterId) (orig modified : CustomResourceDefinition)
    (w : World) : Option Err × World :=
  issue F w ⟨id, Verb.patch, Kind.CustomResourceDefinition, "", modified.Name, []⟩
    (fun cl =>
      if cl.CRDs.any (fun x => x.Name = modified.Name) then
        (none, { cl with CRDs := cl.CRDs.map (fun x =>
          if x.Name = modified.Name then
            { x with Labels := applyLabelPatch orig.Labels modified.Labels x.Labels }
          else x) })
      else (some ApiErr.NotFound, cl))

/-- `Update` of a Stack: metadata and spec are written, the live status is
kept. -/
def updateStack (F : Faults) (id : ClusterId) (o : Stack) (w : World) : Option Err × World :=
  issue F w ⟨id, Verb.update, Kind.Stack, o.Namespace, o.Name, []⟩
    (fun cl =>
      if cl.Stacks.any (fun x => x.Namespace = o.Namespace ∧ x.Name = o.Name) then
        (none, { cl with Stacks := cl.Stacks.map (fun x =>
          if x.Namespace = o.Namespace ∧ x.Name = o.Name then { o with Status := x.Status }
          else x) })
      else (some ApiErr.NotFound, cl))

/-- `Status().Update` of a Stack: the status is written, the rest is kept. -/
def statusUpdateStack (F : Faults) (id : ClusterId) (o : Stack) (w : World) :
    Option Err × World :=
  issue F w ⟨id, Verb.statusUpdate, Kind.Stack, o.Namespace, o.Name, []⟩
    (fun cl =>
      if cl.Stacks.any (fun x => x.Namespace = o.Namespace ∧ x.Name = o.Name) then
        (none, { cl with Stacks := cl.Stacks.map (fun x =>
          if x.Namespace = o.Namespace ∧ x.Name = o.Name then { x with Status := o.Status }
          else x) })
      else (some ApiErr.NotFound, cl))

/-- `DeleteAllOf` Deployments with `MatchingLabels` and `InNamespace`. -/
def deleteAllOfDeployments (F : Faults) (id : ClusterId) (labels : StringMap) (ns : String)
    (w : World) : Option Err × World :=
  issue F w ⟨id, Verb.deleteAllOf, Kind.Deployment, ns, "", labels⟩
    (fun cl => (none, { cl with
      Deployments := cl.Deployments.filter (fun x =>
        !(decide (x.Namespace = ns) && matchesSelector labels x.Labels)) }))

/-- `DeleteAllOf` Jobs with `MatchingLabels` and `InNamespace`. -/
def deleteAllOfJobs (F : Faults) (id : ClusterId) (labels : StringMap) (ns : String)
    (w : World) : Option Err × World :=
  issue F w ⟨id, Verb.deleteAllOf, Kind.Job, ns, "", labels⟩
    (fun cl => (none, { cl with
      Jobs := cl.Jobs.filter (fun x =>
        !(decide (x.Namespace = ns) && matchesSelector labels x.Labels)) }))

/-- `DeleteAllOf` ClusterRoles with `MatchingLabels`. -/
def deleteAllOfClusterRoles (F : Faults) (id : ClusterId) (labels : StringMap) (w : World) :
    Option Err × World :=
  issue F w ⟨id, Verb.deleteAllOf, Kind.ClusterRole, "", "", labels⟩
    (fun cl => (none, { cl with
      ClusterRoles := cl.ClusterRoles.filter (fun x => !matchesSelector labels x.Labels) }))

/-- `DeleteAllOf` ClusterRoleBindings with `MatchingLabels`. -/
def deleteAllOfClusterRoleBindings (F : Faults) (id : ClusterId) (labels : StringMap)
    (w : World) : Option Err × World :=
  issue F w ⟨id, Verb.deleteAllOf, Kind.ClusterRoleBinding, "", "", labels⟩
    (fun cl => (none, { cl with
      ClusterRoleBindings :=
        cl.ClusterRoleBindings.filter (fun x => !matchesSelector labels x.Labels) }))

/-! ## The stack handler (`stack.go`) -/

/-- Source constant `stacksFinalizer`. -/
def stacksFinalizer : String := "finalizer.stacks.crossplane.io"
/-- Source constant `labelValueNamespaceMember`. -/
def labelValueNamespaceMember : String := "true"
/-- Source constant `labelValueAggregationEnabled`. -/
def labelValueAggregationEnabled : String := "true"
/-- Source constant `labelValueActiveParentStack`. -/
def labelValueActiveParentStack : String := "true"
/-- Source constant `requeueAfterOnSuccess` (10 seconds), in nanoseconds. -/
def requeueAfterOnSuccess : Nat := 10 * 1000000000
/-- Source constant `saVolumeName`. -/
def saVolumeName : String := "sa-token"
/-- Source constant `envK8SServiceHost`. -/
def envK8SServiceHost : String := "KUBERNETES_SERVICE_HOST"
/-- Source constant `envK8SServicePort`. -/
def envK8SServicePort : String := "KUBERNETES_SERVICE_PORT"
/-- Source constant `envPodNamespace`. -/
def envPodNamespace : String := "POD_NAMESPACE"
/-- Source constant `saMountPath`. -/
def saMountPath : String := "/var/run/secrets/kubernetes.io/serviceaccount"
/-- Source constant `errHostAwareModeNotEnabled`. -/
def errHostAwareModeNotEnabled : String := "host aware mode is not enabled"
/-- Source constant `errFailedToPrepareHostAwareDeployment`. -/
def errFailedToPrepareHostAwareDeployment : String :=
  "failed to prepare host aware stack controller deployment"
/-- Source constant `errFailedToCreateDeployment`. -/
def errFailedToCreateDeployment : String := "failed to create deployment"
/-- Source constant `errFailedToGetDeployment`. -/
def errFailedToGetDeployment : String := "failed to get deployment"
/-- Source constant `errFailedToSyncSASecret`. -/
def errFailedToSyncSASecret : String := "failed sync stack controller service account secret"
/-- Source constant `errServiceAccountNotFound`. -/
def errServiceAccountNotFound : String := "service account is not found (not created yet?)"
/-- Source constant `errFailedToGetServiceAccount`. -/
def errFailedToGetServiceAccount : String := "failed to get service account"
/-- Source constant `errServiceAccountTokenSecretNotGeneratedYet`. -/
def errServiceAccountTokenSecretNotGeneratedYet : String :=
  "service account token secret is not generated yet"
/-- Source constant `errFailedToGetServiceAccountTokenSecret`. -/
def errFailedToGetServiceAccountTokenSecret : String :=
  "failed to get service account token secret"
/-- Source constant `errFailedToCreateTokenSecret`. -/
def errFailedToCreateTokenSecret : String :=
  "failed to create sa token secret on target Kubernetes"

/-- Source variable `resultRequeue`. -/
def resultRequeue : Result := { Requeue := true, RequeueAfter := 0 }
/-- Source variable `requeueOnSuccess`. -/
def requeueOnSuccess : Result := { Requeue := false, RequeueAfter := requeueAfterOnSuccess }
/-- The zero value `reconcile.Result{}`. -/
def emptyResult : Result := { Requeue := false, RequeueAfter := 0 }

/-- Source variable `roleVerbs`. -/
def roleVerbs : List (String × List String) :=
  [("admin", ["get", "list", "watch", "create", "delete", "deletecollection", "patch", "update"]),
   ("edit", ["get", "list", "watch", "create", "delete", "deletecollection", "patch", "update"]),
   ("view", ["get", "list", "watch"])]

/-- Go `roleVerbs[persona]`: the verbs of a persona, `nil` for an unknown one. -/
def roleVerbsOf (persona : String) : List String :=
  match roleVerbs.find? (fun p => p.1 = persona) with
  | some p => p.2
  | none => []

/-- Source variable `disableAutoMount`. -/
def disableAutoMount : Bool := false

/-- The `apiextensions.ClusterScoped` constant. -/
def ClusterScoped : String := "Cluster"
/-- The `apiextensions.NamespaceScoped` constant. -/
def NamespaceScoped : String := "Namespaced"
/-- The `rbacv1.GroupName` constant. -/
def rbacGroupName : String := "rbac.authorization.k8s.io"
/-- The `rbacv1.ServiceAccountKind` constant. -/
def ServiceAccountKind : String := "ServiceAccount"

/-- What surrounds a run of the handler: the repository functions outside the
source file, the fault oracle of the API server model, and the order in which
Go's `range roleVerbs` visits the personas (unspecified by the language). -/
structure Env where
  deps : Deps
  faults : Faults
  personaOrder : List String

/-- Source type `Reconciler` (clients and host config; the factory is the
`stackHandlerFactory` installed by `Setup`). -/
structure Reconciler where
  kube : ClusterId
  hostKube : ClusterId
  hostedConfig : Option HostedConfig
  deriving DecidableEq, Repr

/-- Source type `stackHandler`. `ext` is the Stack the handler works on and
mutates; functions that change it return the new value. -/
structure stackHandler where
  kube : ClusterId
  hostKube : ClusterId
  hostAwareConfig : Option HostedConfig
  ext : Stack
  deriving DecidableEq, Repr

/-- What `create`, `update`, `delete` and `fail` yield: the Go return values
`(reconcile.Result, error)`, the Stack object as left in memory, and the
world. -/
abbrev Ret := (Result × Option Err) × Stack × World

/-- Source `stackHandlerFactory.newHandler`. -/
def newHandler (ext : Stack) (kube hostKube : ClusterId)
    (hostAwareConfig : Option HostedConfig) : stackHandler :=
  { kube := kube, hostKube := hostKube, hostAwareConfig := hostAwareConfig, ext := ext }

/-- Source `fail`. -/
def fail (env : Env) (kube : ClusterId) (i : Stack) (err : Err) (w : World) : Ret :=
  let i1 := SetConditions i [Condition.ReconcileError err]
  ((resultRequeue, (statusUpdateStack env.faults kube i1 w).1), i1,
    (statusUpdateStack env.faults kube i1 w).2)

/-- Source `stackHandler.update`. -/
def update (h : stackHandler) (w : World) : Ret :=
  ((emptyResult, none), h.ext, w)

/-- Source `copyLabels`. -/
def copyLabels (labels : StringMap) : StringMap :=
  AddLabels [] labels

/-- The inner loop of `crdsFromStack`: the live CRDs appended for one wanted
descriptor. -/
def crdsFromStack.matching (group version kind : String) :
    List CustomResourceDefinition → List CustomResourceDefinition
  | [] => []
  | c :: rest =>
    if c.Group ≠ group ∨ c.Kind ≠ kind ∨ !crdVersionExists c version then
      matching group version kind rest
    else c :: matching group version kind rest

/-- The outer loop of `crdsFromStack`. -/
def crdsFromStack.collect (items : List CustomResourceDefinition) :
    CRDList → List CustomResourceDefinition
  | [] => []
  | crdWant :: rest =>
    crdsFromStack.matching crdWant.GroupVersionKind.Group crdWant.GroupVersionKind.Version
        crdWant.GroupVersionKind.Kind items
      ++ collect items rest

/-- Source `stackHandler.crdsFromStack`. -/
def crdsFromStack (env : Env) (h : stackHandler) (w : World) :
    Except Err (List CustomResourceDefinition) × World :=
  if h.ext.Spec.CRDs.length = 0 then (Except.ok [], w)
  else
    match listCRDs env.faults h.kube w with
    | (Except.error err, w1) => (Except.error (Err.Wrap err "CRDs could not be listed"), w1)
    | (Except.ok items, w1) => (Except.ok (crdsFromStack.collect items h.ext.Spec.CRDs), w1)

/-- Source type `crdHandler`. A handler may change the elements of the slice
it is given (the label handlers do), so it yields the slice as well. -/
abbrev crdHandler :=
  List CustomResourceDefinition → World → Option Err × List CustomResourceDefinition × World

/-- The loop of `processCRDs` over the handlers. -/
def processCRDs.run : List crdHandler → List CustomResourceDefinition → World →
    Option Err × World
  | [], _, w => (none, w)
  | handler :: rest, crds, w =>
    match handler crds w with
    | (some err, _, w1) => (some err, w1)
    | (none, crds1, w1) => run rest crds1 w1

/-- Source `stackHandler.processCRDs`. -/
def processCRDs (env : Env) (h : stackHandler) (crdHandlers : List crdHandler) (w : World) :
    Option Err × World :=
  match crdsFromStack env h w with
  | (Except.error err, w1) => (some err, w1)
  | (Except.ok crds, w1) => processCRDs.run crdHandlers crds w1

/-- Source `stackHandler.createListFulfilledCRDHandler`. -/
def createListFulfilledCRDHandler (h : stackHandler) : crdHandler :=
  fun crds w => (crdListFulfilled h.ext.Spec.CRDs crds, crds, w)

/-- The loop shared by the two label handlers: an object that lacks the
ownership marker, or carries `label` with value `value` already, is skipped;
any other one gets the label and is patched; the first patch error ends the
loop. The entries of the list are values of their own: an entry is tested and
patched from its own labels, whatever an earlier entry for the same object
went through. In Go the entries that `crdsFromStack` appends for one listed
object (one per matching descriptor) are copies that share its label map, so
after the first of them is labelled the later ones are skipped; here each of
them is patched, the later patches changing nothing. Which objects are
patched and what the registry holds afterwards is the same; how many patch
calls an object listed more than once receives is not. -/
def labelCRDs (env : Env) (kube : ClusterId) (label value : String) :
    List CustomResourceDefinition → World →
      Option Err × List CustomResourceDefinition × World
  | [], w => (none, [], w)
  | crd :: rest, w =>
    if mapGet crd.Labels env.deps.LabelKubernetesManagedBy ≠ env.deps.LabelValueStackManager then
      match labelCRDs env kube label value rest w with
      | (err, rest1, w1) => (err, crd :: rest1, w1)
    else if mapGet crd.Labels label = value then
      match labelCRDs env kube label value rest w with
      | (err, rest1, w1) => (err, crd :: rest1, w1)
    else
      let crd1 := { crd with Labels := mapSet crd.Labels label value }
      match patchCRD env.faults kube crd crd1 w with
      | (some err, w1) => (some err, crd1 :: rest, w1)
      | (none, w1) =>
        match labelCRDs env kube label value rest w1 with
        | (err, rest1, w2) => (err, crd1 :: rest1, w2)

/-- Source `stackHandler.createNamespaceLabelsCRDHandler`. -/
def createNamespaceLabelsCRDHandler (env : Env) (h : stackHandler) : crdHandler :=
  labelCRDs env h.kube (env.deps.LabelNamespaceFmt h.ext.Namespace) labelValueNamespaceMember

/-- Source `stackHandler.createMultipleParentLabelsCRDHandler`. -/
def createMultipleParentLabelsCRDHandler (env : Env) (h : stackHandler) : crdHandler :=
  labelCRDs env h.kube (env.deps.MultiParentLabel h.ext) labelValueActiveParentStack

/-- Source `stackHandler.isNamespaced`. -/
def isNamespaced (h : stackHandler) : Bool :=
  if h.ext.Spec.PermissionScope = NamespaceScoped ∨ h.ext.Spec.PermissionScope = "" then true
  else false

/-- The policy rules of a persona role: one rule per element of `crds`. -/
def personaRules (persona : String) : List CustomResourceDefinition → List PolicyRule
  | [] => []
  | crd :: rest =>
    let kinds := [crd.Plural] ++
      (match crd.Subresources with
       | none => []
       | some subs =>
         (if subs.Status then [crd.Plural ++ "/status"] else []) ++
         (if subs.Scale then [crd.Plural ++ "/scale"] else []))
    { APIGroups := [crd.Group], Resources := kinds, Verbs := roleVerbsOf persona,
      ResourceNames := [], NonResourceURLs := [] } :: personaRules persona rest

/-- The ClusterRole assembled for one persona. -/
def personaClusterRole (env : Env) (h : stackHandler) (persona : String)
    (crds : List CustomResourceDefinition) : ClusterRole :=
  let labelsCopy := copyLabels (env.deps.ParentLabels h.ext)
  let crossplaneScope :=
    if isNamespaced h then env.deps.NamespaceScoped else env.deps.EnvironmentScoped
  let labelsCopy1 :=
    if isNamespaced h then
      mapSet labelsCopy (env.deps.LabelNamespaceFmt h.ext.Namespace) labelValueNamespaceMember
    else labelsCopy
  let aggregationLabel := env.deps.LabelAggregateFmt crossplaneScope persona
  { Name := env.deps.PersonaRoleName h.ext persona,
    Labels := mapSet labelsCopy1 aggregationLabel labelValueAggregationEnabled,
    Rules := personaRules persona crds }

/-- The loop of the persona handler over the personas. -/
def createPersonaClusterRoles (env : Env) (h : stackHandler)
    (crds : List CustomResourceDefinition) : List String → World → Option Err × World
  | [], w => (none, w)
  | persona :: rest, w =>
    match createClusterRole env.faults h.kube (personaClusterRole env h persona crds) w with
    | (err, w1) =>
      if err ≠ none ∧ !IsAlreadyExists err then
        (Wrap err "failed to create persona cluster roles", w1)
      else createPersonaClusterRoles env h crds rest w1

/-- Source `stackHandler.createPersonaClusterRolesCRDHandler`. -/
def createPersonaClusterRolesCRDHandler (env : Env) (h : stackHandler) : crdHandler :=
  fun crds w =>
    ((createPersonaClusterRoles env h crds env.personaOrder w).1, crds,
      (createPersonaClusterRoles env h crds env.personaOrder w).2)

/-- Source `stackHandler.createDeploymentClusterRole`; yields the role name
and the error. -/
def createDeploymentClusterRole (env : Env) (h : stackHandler) (labels : StringMap)
    (w : World) : (String × Option Err) × World :=
  let name := env.deps.PersonaRoleName h.ext "system"
  let cr : ClusterRole := { Name := name, Labels := labels, Rules := h.ext.Spec.PermissionRules }
  match createClusterRole env.faults h.kube cr w with
  | (err, w1) =>
    if err ≠ none ∧ !IsAlreadyExists err then (("", Wrap err "failed to create cluster role"), w1)
    else ((name, none), w1)

/-- Source `stackHandler.createNamespacedRoleBinding`. -/
def createNamespacedRoleBinding (env : Env) (h : stackHandler) (clusterRoleName : String)
    (owner : OwnerReference) (w : World) : Option Err × World :=
  let crb : RoleBinding :=
    { Name := h.ext.Name, Namespace := h.ext.Namespace, OwnerReferences := [owner],
      RoleRef := { APIGroup := rbacGroupName, Kind := "ClusterRole", Name := clusterRoleName },
      Subjects := [{ Name := h.ext.Name, Namespace := h.ext.Namespace,
                     Kind := ServiceAccountKind }] }
  match createRoleBinding env.faults h.kube crb w with
  | (err, w1) =>
    if err ≠ none ∧ !IsAlreadyExists err then (Wrap err "failed to create role binding", w1)
    else (none, w1)

/-- Source `stackHandler.createClusterRoleBinding`. -/
def createClusterRoleBinding (env : Env) (h : stackHandler) (clusterRoleName : String)
    (labels : StringMap) (w : World) : Option Err × World :=
  let crb : ClusterRoleBinding :=
    { Name := h.ext.Name, Labels := labels,
      RoleRef := { APIGroup := rbacGroupName, Kind := "ClusterRole", Name := clusterRoleName },
      Subjects := [{ Name := h.ext.Name, Namespace := h.ext.Namespace,
                     Kind := ServiceAccountKind }] }
  match createClusterRoleBindingObject env.faults h.kube crb w with
  | (err, w1) =>
    if err ≠ none ∧ !IsAlreadyExists err then
      (Wrap err "failed to create cluster role binding", w1)
    else (none, w1)

/-- Source `stackHandler.processRBAC`. -/
def processRBAC (env : Env) (h : stackHandler) (w : World) : Option Err × World :=
  if h.ext.Spec.PermissionRules.length = 0 then (none, w)
  else
    let owner := AsOwner (ReferenceToStack h.ext env.deps.StackGroupVersionKind)
    let sa : ServiceAccount :=
      { Name := h.ext.Name, Namespace := h.ext.Namespace, OwnerReferences := [owner],
        Annotations := h.ext.Spec.ServiceAccountAnnotations, Secrets := [] }
    match createServiceAccount env.faults h.kube sa w with
    | (err, w1) =>
      if err ≠ none ∧ !IsAlreadyExists err then (Wrap err "failed to create service account", w1)
      else
        let labels := env.deps.ParentLabels h.ext
        match createDeploymentClusterRole env h labels w1 with
        | ((_, some err), w2) => (some err, w2)
        | ((clusterRoleName, none), w2) =>
          if h.ext.Spec.PermissionScope = ClusterScoped then
            createClusterRoleBinding env h clusterRoleName labels w2
          else if h.ext.Spec.PermissionScope = "" ∨
              h.ext.Spec.PermissionScope = NamespaceScoped then
            createNamespacedRoleBinding env h clusterRoleName owner w2
          else (some (Err.New "invalid permissionScope for stack"), w2)

/-- Source `stackHandler.syncSATokenSecret`. -/
def syncSATokenSecret (env : Env) (h : stackHandler) (owner : OwnerReference)
    (fromSARef toSecretRef : ObjectReference) (w : World) : Option Err × World :=
  match getServiceAccount env.faults h.kube ⟨fromSARef.Namespace, fromSARef.Name⟩ w with
  | (Except.error err, w1) =>
    if IsNotFound (some err) then (some (Err.Wrap err errServiceAccountNotFound), w1)
    else (some (Err.Wrap err errFailedToGetServiceAccount), w1)
  | (Except.ok sa, w1) =>
    match sa.Secrets with
    | [] => (some (Err.New errServiceAccountTokenSecretNotGeneratedYet), w1)
    | saSecretRef :: _ =>
      match getSecret env.faults h.kube ⟨fromSARef.Namespace, saSecretRef.Name⟩ w1 with
      | (Except.error err, w2) =>
        (some (Err.Wrap err errFailedToGetServiceAccountTokenSecret), w2)
      | (Except.ok saSecret, w2) =>
        let saSecretOnHost : Secret :=
          { Name := toSecretRef.Name, Namespace := toSecretRef.Namespace,
            OwnerReferences := [owner], Data := saSecret.Data }
        match createSecret env.faults h.hostKube saSecretOnHost w2 with
        | (err, w3) =>
          if err ≠ none ∧ !IsAlreadyExists err then (Wrap err errFailedToCreateTokenSecret, w3)
          else (none, w3)

/-- The loop of `prepareHostAwarePodSpec` over the containers. -/
def prepareHostAwareContainers (cfg : HostedConfig) (extNamespace : String) :
    List Container → List Container
  | [] => []
  | c :: rest =>
    { c with
      Env := c.Env ++
        [{ Name := envK8SServiceHost, Value := cfg.TenantAPIServiceHost },
         { Name := envK8SServicePort, Value := cfg.TenantAPIServicePort },
         { Name := envPodNamespace, Value := extNamespace }],
      VolumeMounts := c.VolumeMounts ++
        [{ Name := saVolumeName, ReadOnly := true, MountPath := saMountPath }] }
      :: prepareHostAwareContainers cfg extNamespace rest

/-- Source `stackHandler.prepareHostAwarePodSpec`; yields the error and the
pod spec as left behind. -/
def prepareHostAwarePodSpec (h : stackHandler) (tokenSecret : String) (ps : PodSpec) :
    Option Err × PodSpec :=
  match h.hostAwareConfig with
  | none => (some (Err.New errHostAwareModeNotEnabled), ps)
  | some cfg =>
    (none,
      { ps with
        AutomountServiceAccountToken := some disableAutoMount,
        ServiceAccountName := "",
        DeprecatedServiceAccount := "",
        Volumes := ps.Volumes ++
          [{ Name := saVolumeName, VolumeSource := VolumeSource.Secret tokenSecret }],
        Containers := prepareHostAwareContainers cfg h.ext.Namespace ps.Containers })

/-- Source `stackHandler.prepareHostAwareDeployment`. -/
def prepareHostAwareDeployment (env : Env) (h : stackHandler) (d : Deployment)
    (tokenSecret : String) : Option Err × Deployment :=
  match h.hostAwareConfig with
  | none => (some (Err.New errHostAwareModeNotEnabled), d)
  | some cfg =>
    match prepareHostAwarePodSpec h tokenSecret d.Spec.Template.Spec with
    | (some err, ps) =>
      (some err, { d with Spec := { d.Spec with Template := { d.Spec.Template with Spec := ps } } })
    | (none, ps) =>
      let o := env.deps.ObjectReferenceOnHost cfg d.Name d.Namespace
      let a := env.deps.ObjectReferenceAnnotationsOnHost "stack" h.ext.Name h.ext.Namespace
      (none,
        { d with
          Name := o.Name, Namespace := o.Namespace,
          Annotations := AddLabels d.Annotations a,
          Spec := { d.Spec with Template := { d.Spec.Template with Spec := ps } } })

/-- Source `stackHandler.prepareHostAwareJob`. -/
def prepareHostAwareJob (env : Env) (h : stackHandler) (j : Job) (tokenSecret : String) :
    Option Err × Job :=
  match h.hostAwareConfig with
  | none => (some (Err.New errHostAwareModeNotEnabled), j)
  | some cfg =>
    match prepareHostAwarePodSpec h tokenSecret j.Spec.Template.Spec with
    | (some err, ps) =>
      (some err, { j with Spec := { j.Spec with Template := { j.Spec.Template with Spec := ps } } })
    | (none, ps) =>
      let o := env.deps.ObjectReferenceOnHost cfg j.Name j.Namespace
      let a := env.deps.ObjectReferenceAnnotationsOnHost "stack" h.ext.Name h.ext.Namespace
      (none,
        { j with
          Name := o.Name, Namespace := o.Namespace,
          Annotations := AddLabels j.Annotations a,
          Spec := { j.Spec with Template := { j.Spec.Template with Spec := ps } } })

/-- Source `stackHandler.prepareDeployment`. -/
def prepareDeployment (env : Env) (h : stackHandler) (d : Deployment) : Deployment :=
  match h.ext.Spec.ControllerDeployment with
  | none => d
  | some controllerDeployment =>
    let suffix := "-controller"
    let name := env.deps.Truncate h.ext.Name
      (env.deps.LabelValueLength - (suffix.length : Int)) env.deps.DefaultSuffixLength
      ++ suffix
    let matchLabels : StringMap := [("app", name)]
    let labels := env.deps.ParentLabels h.ext
    let spec := controllerDeployment.Spec
    { d with
      Name := name,
      Namespace := h.ext.Namespace,
      Labels := AddLabels d.Labels labels,
      Spec :=
        { spec with
          Template :=
            { spec.Template with
              Name := name,
              Labels := AddLabels spec.Template.Labels matchLabels,
              Spec := { spec.Template.Spec with ServiceAccountName := h.ext.Name } },
          Selector := some { MatchLabels := matchLabels, MatchExpressions := [] } } }

/-- The zero value `&apps.Deployment{}`. -/
def emptyDeployment : Deployment :=
  { Name := "", Namespace := "", UID := "", Labels := [], Annotations := [],
    Spec := { Replicas := none, Selector := none,
              Template := { Name := "", Labels := [],
                            Spec := { Volumes := [], Containers := [], ServiceAccountName := "",
                                      DeprecatedServiceAccount := "",
                                      AutomountServiceAccountToken := none } } } }

/-- The `apps.SchemeGroupVersion.WithKind("Deployment")` value. -/
def deploymentGVK : GroupVersionKind := { Group := "apps", Version := "v1", Kind := "Deployment" }

/-- The second half of `processDeployment`, from the `Get` of the workload
on: get-or-create, secret sync in host-aware mode, and the `ControllerRef`. -/
def processDeployment.getOrCreate (env : Env) (h : stackHandler) (d : Deployment)
    (saRef saSecretRef : ObjectReference) (w : World) : Option Err × Stack × World :=
  let finish := fun (d1 : Deployment) (w2 : World) =>
    match h.hostAwareConfig with
    | some _ =>
      let owner := AsOwner (ReferenceToDeployment d1 deploymentGVK)
      match syncSATokenSecret env h owner saRef saSecretRef w2 with
      | (some err, w3) => (some (Err.Wrap err errFailedToSyncSASecret), h.ext, w3)
      | (none, w3) =>
        (none, { h.ext with Status := { h.ext.Status with
          ControllerRef := some (ReferenceToDeployment d1 deploymentGVK) } }, w3)
    | none =>
      (none, { h.ext with Status := { h.ext.Status with
        ControllerRef := some (ReferenceToDeployment d1 deploymentGVK) } }, w2)
  match getDeployment env.faults h.hostKube ⟨d.Namespace, d.Name⟩ w with
  | (Except.ok live, w1) => finish live w1
  | (Except.error err, w1) =>
    if IsNotFound (some err) then
      match createDeployment env.faults h.hostKube d w1 with
      | (some err1, w2) => (some (Err.Wrap err1 errFailedToCreateDeployment), h.ext, w2)
      | (none, w2) => finish d w2
    else (some (Err.Wrap err errFailedToGetDeployment), h.ext, w1)

/-- Source `stackHandler.processDeployment`; yields the error and the Stack
(whose `ControllerRef` it sets). -/
def processDeployment (env : Env) (h : stackHandler) (w : World) : Option Err × Stack × World :=
  match h.ext.Spec.ControllerDeployment with
  | none => (none, h.ext, w)
  | some _ =>
    let d := prepareDeployment env h emptyDeployment
    match h.hostAwareConfig with
    | some cfg =>
      let saRef : ObjectReference :=
        { APIVersion := "", Kind := "", UID := "",
          Name := d.Spec.Template.Spec.ServiceAccountName, Namespace := d.Namespace }
      let saSecretRef := env.deps.ObjectReferenceOnHost cfg saRef.Name saRef.Namespace
      match prepareHostAwareDeployment env h d saSecretRef.Name with
      | (some err, _) => (some (Err.Wrap err errFailedToPrepareHostAwareDeployment), h.ext, w)
      | (none, d1) => processDeployment.getOrCreate env h d1 saRef saSecretRef w
    | none =>
      let zero : ObjectReference :=
        { APIVersion := "", Kind := "", UID := "", Name := "", Namespace := "" }
      processDeployment.getOrCreate env h d zero zero w

/-- Source `stackHandler.create`. -/
def create (env : Env) (h : stackHandler) (w : World) : Ret :=
  let ext1 := SetConditions h.ext [Condition.Creating]
  let patchCopy := ext1
  let ext2 := AddFinalizer ext1 stacksFinalizer
  let h2 : stackHandler := { h with ext := ext2 }
  match patchStack env.faults h.kube patchCopy ext2 w with
  | (some err, w1) => fail env h.kube ext2 err w1
  | (none, w1) =>
    match processRBAC env h2 w1 with
    | (some err, w2) => fail env h.kube ext2 err w2
    | (none, w2) =>
      match processCRDs env h2
          [createListFulfilledCRDHandler h2,
           createNamespaceLabelsCRDHandler env h2,
           createMultipleParentLabelsCRDHandler env h2,
           createPersonaClusterRolesCRDHandler env h2] w2 with
      | (some err, w3) => fail env h.kube ext2 err w3
      | (none, w3) =>
        match processDeployment env h2 w3 with
        | (some err, ext3, w4) => fail env h.kube ext3 err w4
        | (none, ext3, w4) =>
          let ext4 := SetConditions ext3 [Condition.Available, Condition.ReconcileSuccess]
          ((requeueOnSuccess, (statusUpdateStack env.faults h.kube ext4 w4).1), ext4,
            (statusUpdateStack env.faults h.kube ext4 w4).2)

/-- Source `stackHandler.sync`. -/
def sync (env : Env) (h : stackHandler) (w : World) : Ret :=
  match h.ext.Status.ControllerRef with
  | none => create env h w
  | some _ => update h w

/-- The labels of a CRD after the label statements of the loop body of
`removeCRDLabels`: this Stack's multi-parent label is removed; then, when no
label with the multi-parent prefix of the namespace is left, the namespace
label is removed too. -/
def removeCRDLabels.labels (env : Env) (h : stackHandler) (labels : StringMap) : StringMap :=
  let labels1 := RemoveLabels labels [env.deps.MultiParentLabel h.ext]
  if !HasPrefixedLabel labels1 (env.deps.MultiParentLabelPrefix h.ext) then
    RemoveLabels labels1 [env.deps.LabelNamespaceFmt h.ext.Namespace]
  else labels1

/-- The loop of `removeCRDLabels` over the matched CRDs. -/
def removeCRDLabels.loop (env : Env) (h : stackHandler) :
    List CustomResourceDefinition → World → Option Err × World
  | [], w => (none, w)
  | crd :: rest, w =>
    if mapGet crd.Labels env.deps.LabelKubernetesManagedBy ≠ env.deps.LabelValueStackManager then
      loop env h rest w
    else
      match patchCRD env.faults h.kube crd
          { crd with Labels := removeCRDLabels.labels env h crd.Labels } w with
      | (some err, w1) => (some err, w1)
      | (none, w1) => loop env h rest w1

/-- Source `stackHandler.removeCRDLabels`. -/
def removeCRDLabels (env : Env) (h : stackHandler) (w : World) : Option Err × World :=
  match crdsFromStack env h w with
  | (Except.error err, w1) => (some err, w1)
  | (Except.ok crds, w1) => removeCRDLabels.loop env h crds w1

/-- The local variable `stackControllerNamespace` of `delete`: the host
controller namespace in host-aware mode, the Stack's namespace otherwise. -/
def stackControllerNamespace (h : stackHandler) : String :=
  match h.hostAwareConfig with
  | some cfg => cfg.HostControllerNamespace
  | none => h.ext.Namespace

/-- Source `stackHandler.delete`. Each step fails the teardown when
`IgnoreNotFound(err) != nil`; the error handed to `fail` is then `err`
itself. -/
def delete (env : Env) (h : stackHandler) (w : World) : Ret :=
  let labels := env.deps.ParentLabels h.ext
  let r1 := deleteAllOfDeployments env.faults h.hostKube labels (stackControllerNamespace h) w
  match IgnoreNotFound r1.1 with
  | some err => fail env h.kube h.ext err r1.2
  | none =>
    let r2 := deleteAllOfJobs env.faults h.hostKube labels (stackControllerNamespace h) r1.2
    match IgnoreNotFound r2.1 with
    | some err => fail env h.kube h.ext err r2.2
    | none =>
      let r3 := deleteAllOfClusterRoles env.faults h.kube labels r2.2
      match IgnoreNotFound r3.1 with
      | some err => fail env h.kube h.ext err r3.2
      | none =>
        let r4 := deleteAllOfClusterRoleBindings env.faults h.kube labels r3.2
        match IgnoreNotFound r4.1 with
        | some err => fail env h.kube h.ext err r4.2
        | none =>
          let r5 := removeCRDLabels env h r4.2
          match r5.1 with
          | some err => fail env h.kube h.ext err r5.2
          | none =>
            let ext1 := RemoveFinalizer h.ext stacksFinalizer
            let r6 := updateStack env.faults h.kube ext1 r5.2
            match r6.1 with
            | some err => fail env h.kube ext1 err r6.2
            | none => ((emptyResult, none), ext1, r6.2)

/-- Source `Reconciler.Reconcile`; yields the Go return values and the
world. -/
def Reconcile (env : Env) (r : Reconciler) (req : NamespacedName) (w : World) :
    (Result × Option Err) × World :=
  match getStack env.faults r.kube req w with
  | (Except.error err, w1) =>
    if IsNotFound (some err) then ((emptyResult, none), w1)
    else ((emptyResult, some err), w1)
  | (Except.ok i, w1) =>
    let handler := newHandler i r.kube r.hostKube r.hostedConfig
    if WasDeleted i then ((delete env handler w1).1, (delete env handler w1).2.2)
    else ((sync env handler w1).1, (sync env handler w1).2.2)

/-- An error names a descriptor when it is the fulfillment error built from
that descriptor's API version (group and version) and kind. -/
def Err.namesDescriptor (e : Err) (d : TypeMeta) : Bool :=
  match e with
  | Err.Errorf _ args => decide (args = [d.APIVersion, d.Kind])
  | _ => false

/-- Between two worlds only calls satisfying `P` were issued: the trace of the
second is the trace of the first followed by such calls. -/
def CallsOnly (P : Call → Prop) (w w' : World) : Prop :=
  ∃ calls, w'.log = w.log ++ calls ∧ ∀ c ∈ calls, P c

/-- The teardown of `h` started in world `w` stopped with `err` in world
`wk` and yielded `ret`: a retry is requested; the Stack in memory is the
handler's Stack with the `ReconcileError(err)` condition set, finalizers
untouched; after `wk` the only call issued is the status update of the Stack
(no later teardown step ran); no live Stack changed its finalizers since `w`;
and when the status update succeeded the live Stack carries the reported
status. -/
def TeardownStopped (h : stackHandler) (err : Err) (w wk : World) (ret : Ret) : Prop :=
  ret.1.1 = resultRequeue ∧
  ret.2.1 = SetConditions h.ext [Condition.ReconcileError err] ∧
  Condition.ReconcileError err ∈ ret.2.1.Status.Conditions ∧
  ret.2.1.Finalizers = h.ext.Finalizers ∧
  ret.2.2.log = wk.log ++
    [⟨h.kube, Verb.statusUpdate, Kind.Stack, h.ext.Namespace, h.ext.Name, []⟩] ∧
  (∀ id, ((ret.2.2.cluster id).Stacks.map fun s => (s.Namespace, s.Name, s.Finalizers)) =
    ((w.cluster id).Stacks.map fun s => (s.Namespace, s.Name, s.Finalizers))) ∧
  (ret.1.2 = none →
    (∃ s ∈ (ret.2.2.cluster h.kube).Stacks,
      s.Namespace = h.ext.Namespace ∧ s.Name = h.ext.Name) ∧
    ∀ s ∈ (ret.2.2.cluster h.kube).Stacks,
      s.Namespace = h.ext.Namespace → s.Name = h.ext.Name →
        s.Status = ret.2.1.Status)

/-- The creates of `processRBAC`: the service account, the system
ClusterRole, and a namespaced or a cluster binding. -/
def RBACCall (env : Env) (h : stackHandler) (c : Call) : Prop :=
  c = ⟨h.kube, Verb.create, Kind.ServiceAccount, h.ext.Namespace, h.ext.Name, []⟩ ∨
  c = ⟨h.kube, Verb.create, Kind.ClusterRole, "", env.deps.PersonaRoleName h.ext "system", []⟩ ∨
  c = ⟨h.kube, Verb.create, Kind.RoleBinding, h.ext.Namespace, h.ext.Name, []⟩ ∨
  c = ⟨h.kube, Verb.create, Kind.ClusterRoleBinding, "", h.ext.Name, []⟩

/-- The calls `create` may issue before its schema handlers run, and the
status report: the finalizer patch on the Stack, the RBAC creates, the list
of the schema registry, and the status update of the Stack. -/
def PreSchemaCall (env : Env) (h : stackHandler) (c : Call) : Prop :=
  c = ⟨h.kube, Verb.patch, Kind.Stack, h.ext.Namespace, h.ext.Name, []⟩ ∨
  RBACCall env h c ∨
  c = ⟨h.kube, Verb.list, Kind.CustomResourceDefinition, "", "", []⟩ ∨
  c = ⟨h.kube, Verb.statusUpdate, Kind.Stack, h.ext.Namespace, h.ext.Name, []⟩

/-- The system ClusterRole `createDeploymentClusterRole` builds. -/
def systemClusterRole (env : Env) (h : stackHandler) : ClusterRole :=
  { Name := env.deps.PersonaRoleName h.ext "system", Labels := env.deps.ParentLabels h.ext,
    Rules := h.ext.Spec.PermissionRules }

/-- From `w` to `w'` only calls satisfying `P` were issued, no schema object
changed in either cluster, and the only ClusterRole that may have been added
is `role`. -/
def PreSchema (P : Call → Prop) (role : ClusterRole) (w w' : World) : Prop :=
  CallsOnly P w w' ∧
  (∀ id, (w'.cluster id).CRDs = (w.cluster id).CRDs) ∧
  (∀ id, ∀ r ∈ (w'.cluster id).ClusterRoles, r ∈ (w.cluster id).ClusterRoles ∨ r = role)

/-- The Stack as `create` holds it after its first statements: the `Creating`
condition set and the finalizer added. -/
def creatingStack (ext : Stack) : Stack :=
  AddFinalizer (SetConditions ext [Condition.Creating]) stacksFinalizer

/-- The handler as `create` uses it from the finalizer patch on. -/
def creatingHandler (h : stackHandler) : stackHandler :=
  { h with ext := creatingStack h.ext }

/-- Whether the release patch of a Stack, computed from the labels `orig` of
a schema object as listed, keeps the key `k` of the live labels: a key that
`orig` lacks is kept; a key of `orig` is kept unless the label statements of
the release loop drop it. -/
def releaseKeeps (env : Env) (h : stackHandler) (orig : StringMap) (k : String) : Bool :=
  !(mapHas orig k) ||
    (decide (k ≠ env.deps.MultiParentLabel h.ext) &&
      (HasPrefixedLabel (RemoveLabels orig [env.deps.MultiParentLabel h.ext])
          (env.deps.MultiParentLabelPrefix h.ext) ||
        decide (k ≠ env.deps.LabelNamespaceFmt h.ext.Namespace)))

/-! ## A concrete environment

Concrete values for the parameters of the embedding, used to run the
definitions on explicit inputs. The label and name formats follow the key
formats named in the specification. -/

/-- A concrete `Deps`. -/
def exampleDeps : Deps :=
  { ParentLabels := fun s =>
      [("core.crossplane.io/parent-namespace", s.Namespace),
       ("core.crossplane.io/parent-name", s.Name)],
    MultiParentLabel := fun s => "parent.stacks.crossplane.io/" ++ s.Namespace ++ "-" ++ s.Name,
    MultiParentLabelPrefix := fun s => "parent.stacks.crossplane.io/" ++ s.Namespace,
    LabelNamespaceFmt := fun ns => "namespace.crossplane.io/" ++ ns,
    LabelAggregateFmt := fun scope persona =>
      "rbac.crossplane.io/aggregate-to-" ++ scope ++ "-" ++ persona,
    LabelKubernetesManagedBy := "app.kubernetes.io/managed-by",
    LabelValueStackManager := "stack-manager",
    NamespaceScoped := "namespace",
    EnvironmentScoped := "environment",
    PersonaRoleName := fun s persona => "stack:" ++ s.Namespace ++ ":" ++ s.Name ++ "::" ++ persona,
    Truncate := fun s _ _ => s,
    LabelValueLength := 63,
    DefaultSuffixLength := 5,
    ObjectReferenceOnHost := fun cfg name ns =>
      { APIVersion := "", Kind := "", Namespace := cfg.HostControllerNamespace,
        Name := ns ++ "." ++ name, UID := "" },
    ObjectReferenceAnnotationsOnHost := fun kind name ns =>
      [("stacks.crossplane.io/" ++ kind ++ "-name", name),
       ("stacks.crossplane.io/" ++ kind ++ "-namespace", ns)],
    StackGroupVersionKind :=
      { Group := "stacks.crossplane.io", Version := "v1alpha1", Kind := "Stack" } }

/-- The oracle that injects no fault. -/
def noFaults : Faults := fun _ _ => none

/-- An environment without faults. -/
def exampleEnv : Env :=
  { deps := exampleDeps, faults := noFaults, personaOrder := ["admin", "edit", "view"] }

/-- A cluster without objects. -/
def emptyCluster : Cluster :=
  { Stacks := [], ServiceAccounts := [], ClusterRoles := [], RoleBindings := [],
    ClusterRoleBindings := [], Deployments := [], Jobs := [], Secrets := [], CRDs := [] }

/-- A Stack `ns/a` that declares the schema `example.org/v1` `Foo` and one
permission rule, with the default (unset) permission scope. -/
def stackA : Stack :=
  { Name := "a", Namespace := "ns", UID := "uid-a", DeletionTimestamp := none, Finalizers := [],
    Spec := { CRDs := [{ APIVersion := "example.org/v1", Kind := "Foo" }],
              PermissionRules := [{ APIGroups := ["*"], Resources := ["*"], Verbs := ["*"],
                                    ResourceNames := [], NonResourceURLs := [] }],
              PermissionScope := "",
              ServiceAccountAnnotations := [],
              ControllerDeployment := none },
    Status := { ControllerRef := none, Conditions := [] } }

/-- A second Stack `ns/b` in the same namespace, declaring the same schema. -/
def stackB : Stack := { stackA with Name := "b", UID := "uid-b" }

/-- The schema object `foos.example.org`, owned by the stack manager. -/
def fooCRD : CustomResourceDefinition :=
  { Name := "foos.example.org",
    Labels := [("app.kubernetes.io/managed-by", "stack-manager")],
    Group := "example.org", Kind := "Foo", Plural := "foos",
    Versions := [{ Name := "v1", Served := true }],
    Subresources := some { Status := true, Scale := false } }

/-- A world whose tenant cluster holds `stackA` and no schema object. -/
def worldNoCRD : World :=
  { tenant := { emptyCluster with Stacks := [stackA] }, host := emptyCluster, log := [] }

/-- A world whose tenant cluster holds `stackA` and `fooCRD`. -/
def worldFoo : World :=
  { tenant := { emptyCluster with Stacks := [stackA], CRDs := [fooCRD] },
    host := emptyCluster, log := [] }

/-- The handler `Reconcile` builds for `stackA` in single-cluster mode. -/
def handlerA : stackHandler := newHandler stackA ClusterId.tenant ClusterId.tenant none

/-- A single-cluster reconciler. -/
def exampleReconciler : Reconciler :=
  { kube := ClusterId.tenant, hostKube := ClusterId.tenant, hostedConfig := none }

/-- A Stack that is being deleted: `ns/a` with the finalizer in place and a
deletion timestamp. -/
def stackDeleting : Stack :=
  { stackA with DeletionTimestamp := some 1700000000, Finalizers := [stacksFinalizer] }

/-- A world whose tenant cluster holds `stackDeleting` and `fooCRD`. -/
def worldDeleting : World :=
  { tenant := { emptyCluster with Stacks := [stackDeleting], CRDs := [fooCRD] },
    host := emptyCluster, log := [] }

/-- The handler for `stackDeleting` in single-cluster mode. -/
def handlerDeleting : stackHandler :=
  newHandler stackDeleting ClusterId.tenant ClusterId.tenant none

/-- An oracle that makes every `DeleteAllOf` of ClusterRoleBindings fail with
an internal error, and injects no other fault. -/
def faultsCRBDelete : Faults := fun _ c =>
  if c.verb = Verb.deleteAllOf ∧ c.kind = Kind.ClusterRoleBinding then
    some (ApiErr.Other "internal error")
  else none

/-- The example environment with `faultsCRBDelete`. -/
def envCRBDeleteFails : Env := { exampleEnv with faults := faultsCRBDelete }

/-- The world after the Deployment delete of the teardown of `stackDeleting`
without faults. -/
def teardownWorld1 : World :=
  (deleteAllOfDeployments noFaults ClusterId.tenant (exampleDeps.ParentLabels stackDeleting)
    "ns" worldDeleting).2

/-- The world after the Job delete of that teardown. -/
def teardownWorld2 : World :=
  (deleteAllOfJobs noFaults ClusterId.tenant (exampleDeps.ParentLabels stackDeleting)
    "ns" teardownWorld1).2

/-- The world after the ClusterRole delete of that teardown. -/
def teardownWorld3 : World :=
  (deleteAllOfClusterRoles noFaults ClusterId.tenant (exampleDeps.ParentLabels stackDeleting)
    teardownWorld2).2

/-- The world after the ClusterRoleBinding delete of that teardown. -/
def teardownWorld4 : World :=
  (deleteAllOfClusterRoleBindings noFaults ClusterId.tenant
    (exampleDeps.ParentLabels stackDeleting) teardownWorld3).2

/-- The world after the label release of that teardown. -/
def teardownWorld5 : World := (removeCRDLabels exampleEnv handlerDeleting teardownWorld4).2

/-- The world after the final update of that teardown. -/
def teardownWorld6 : World :=
  (updateStack noFaults ClusterId.tenant (RemoveFinalizer stackDeleting stacksFinalizer)
    teardownWorld5).2

/-- The schema object `foos.example.org` shared by `stackA` and `stackB`: it
carries the ownership marker, both multi-parent labels and the namespace
label of `ns`. -/
def sharedCRD : CustomResourceDefinition :=
  { fooCRD with
    Labels := [("app.kubernetes.io/managed-by", "stack-manager"),
               ("namespace.crossplane.io/ns", "true"),
               ("parent.stacks.crossplane.io/ns-a", "true"),
               ("parent.stacks.crossplane.io/ns-b", "true")] }

/-- A world whose tenant cluster holds both Stacks and `sharedCRD`. -/
def worldShared : World :=
  { tenant := { emptyCluster with Stacks := [stackA, stackB], CRDs := [sharedCRD] },
    host := emptyCluster, log := [] }

/-- The handler for `stackB` in single-cluster mode. -/
def handlerB : stackHandler := newHandler stackB ClusterId.tenant ClusterId.tenant none

/-! ## Spec-side vocabulary and further example values -/

/-- Whether a schema object declares a status subresource. -/
def declaresStatus (crd : CustomResourceDefinition) : Bool :=
  match crd.Subresources with
  | some subs => subs.Status
  | none => false

/-- Whether a schema object declares a scale subresource. -/
def declaresScale (crd : CustomResourceDefinition) : Bool :=
  match crd.Subresources with
  | some subs => subs.Scale
  | none => false

/-- The scope word of a persona role: the namespace scope for a namespaced
Stack, the environment scope otherwise. -/
def personaScope (env : Env) (h : stackHandler) : String :=
  if isNamespaced h then env.deps.NamespaceScoped else env.deps.EnvironmentScoped

/-- A pod spec with one container. -/
def examplePodSpec : PodSpec :=
  { Volumes := [], ServiceAccountName := "a", DeprecatedServiceAccount := "",
    AutomountServiceAccountToken := none,
    Containers := [{ Name := "controller", Image := "example/controller:1", Env := [],
                     VolumeMounts := [] }] }

/-- A Deployment `ns/a-controller` around `examplePodSpec`. -/
def exampleDeployment : Deployment :=
  { Name := "a-controller", Namespace := "ns", UID := "", Labels := [],
    Annotations := [("note", "kept")],
    Spec := { Replicas := some 1, Selector := none,
              Template := { Name := "a-controller", Labels := [], Spec := examplePodSpec } } }

/-- A Job `ns/a-job` around `examplePodSpec`. -/
def exampleJob : Job :=
  { Name := "a-job", Namespace := "ns", Labels := [], Annotations := [("note", "kept")],
    Spec := { Template := { Name := "a-job", Labels := [], Spec := examplePodSpec } } }

/-- The schema object `foos.example.org` serving the versions `v1` and
`v2`. -/
def fooTwoVersions : CustomResourceDefinition :=
  { fooCRD with
    Versions := [{ Name := "v1", Served := true }, { Name := "v2", Served := true }] }

/-- A Stack `ns/a` whose declaration list names the kind `Foo` of
`example.org` twice, once per version. -/
def stackTwoVersions : Stack :=
  { stackA with
    Spec := { stackA.Spec with
      CRDs := [{ APIVersion := "example.org/v1", Kind := "Foo" },
               { APIVersion := "example.org/v2", Kind := "Foo" }] } }

/-- A world whose tenant cluster holds `stackTwoVersions` and
`fooTwoVersions`. -/
def worldTwoVersions : World :=
  { tenant := { emptyCluster with Stacks := [stackTwoVersions], CRDs := [fooTwoVersions] },
    host := emptyCluster, log := [] }

/-- The handler for `stackTwoVersions` in single-cluster mode. -/
def handlerTwoVersions : stackHandler :=
  newHandler stackTwoVersions ClusterId.tenant ClusterId.tenant none


/-- A Stack `ns/a` whose permission scope is none of unset, `Namespaced` and
`Cluster`, and which declares no permission rule. -/
def stackOddScope : Stack :=
  { stackA with Spec := { stackA.Spec with PermissionRules := [], PermissionScope := "Bogus" } }

/-- A world whose tenant cluster holds `stackOddScope` and `fooCRD`. -/
def worldOddScope : World :=
  { tenant := { emptyCluster with Stacks := [stackOddScope], CRDs := [fooCRD] },
    host := emptyCluster, log := [] }

/-- The handler for `stackOddScope` in single-cluster mode. -/
def handlerOddScope : stackHandler :=
  newHandler stackOddScope ClusterId.tenant ClusterId.tenant none

/-- The Stack `ns/a` with its one permission rule and a permission scope that
is none of unset, `Namespaced` and `Cluster`. -/
def stackOddScopeRules : Stack :=
  { stackA with Spec := { stackA.Spec with PermissionScope := "Bogus" } }

/-- A world whose tenant cluster holds `stackOddScopeRules` and `fooCRD`. -/
def worldOddScopeRules : World :=
  { tenant := { emptyCluster with Stacks := [stackOddScopeRules], CRDs := [fooCRD] },
    host := emptyCluster, log := [] }

/-- The handler for `stackOddScopeRules` in single-cluster mode. -/
def handlerOddScopeRules : stackHandler :=
  newHandler stackOddScopeRules ClusterId.tenant ClusterId.tenant none

/-- A call that creates a role binding of either kind. -/
def BindingCreate (c : Call) : Prop :=
  c.verb = Verb.create ∧ (c.kind = Kind.RoleBinding ∨ c.kind = Kind.ClusterRoleBinding)


/-- The Stack `ns/a` with a controller Deployment template around
`examplePodSpec`. -/
def stackWithController : Stack :=
  { stackA with
    Spec := { stackA.Spec with
      ControllerDeployment := some { Name := "", Spec := exampleDeployment.Spec } } }

/-- A world whose tenant cluster holds `stackWithController` and `fooCRD`. -/
def worldWithController : World :=
  { tenant := { emptyCluster with Stacks := [stackWithController], CRDs := [fooCRD] },
    host := emptyCluster, log := [] }

/-- The handler for `stackWithController` in single-cluster mode. -/
def handlerWithController : stackHandler :=
  newHandler stackWithController ClusterId.tenant ClusterId.tenant none


/-- Whether a label handler patches a schema object: the object carries the
ownership marker and does not carry `label` with value `value`. -/
def needsLabel (env : Env) (label value : String) (c : CustomResourceDefinition) : Bool :=
  decide (mapGet c.Labels env.deps.LabelKubernetesManagedBy = env.deps.LabelValueStackManager) &&
    decide (mapGet c.Labels label ≠ value)

/-- A schema object with `label` set to `value`. -/
def withLabel (label value : String) (c : CustomResourceDefinition) :
    CustomResourceDefinition :=
  { c with Labels := mapSet c.Labels label value }

/-- What a label handler makes of one schema object. -/
def labelled (env : Env) (label value : String) (c : CustomResourceDefinition) :
    CustomResourceDefinition :=
  if needsLabel env label value c then withLabel label value c else c

/-- The patch call on a schema object. -/
def crdPatchCall (kube : ClusterId) (c : CustomResourceDefinition) : Call :=
  ⟨kube, Verb.patch, Kind.CustomResourceDefinition, "", c.Name, []⟩


/-- How the label release of a Stack may leave a schema object `x`, as `y`:
`y` differs from `x` in its labels at most; every label of `y` is a label of
`x`; every label of `x` other than the Stack's multi-parent label and the
namespace-member label of its install namespace is a label of `y`; and an
object without the ownership marker is unchanged. -/
def ReleasedFrom (env : Env) (h : stackHandler) (x y : CustomResourceDefinition) : Prop :=
  y = { x with Labels := y.Labels } ∧
  (∀ kv ∈ y.Labels, kv ∈ x.Labels) ∧
  (∀ kv ∈ x.Labels, kv.1 ≠ env.deps.MultiParentLabel h.ext →
    kv.1 ≠ env.deps.LabelNamespaceFmt h.ext.Namespace → kv ∈ y.Labels) ∧
  (mapGet x.Labels env.deps.LabelKubernetesManagedBy ≠ env.deps.LabelValueStackManager → y = x)

/-- The Stack `ns/b` being deleted, with the finalizer in place. -/
def stackBDeleting : Stack :=
  { stackB with DeletionTimestamp := some 1700000000, Finalizers := [stacksFinalizer] }

/-- The handler for `stackBDeleting` in single-cluster mode. -/
def handlerBDeleting : stackHandler :=
  newHandler stackBDeleting ClusterId.tenant ClusterId.tenant none

/-- A schema object `bars.example.org` that lacks the ownership marker and
carries a label of its own. -/
def barCRD : CustomResourceDefinition :=
  { Name := "bars.example.org", Labels := [("team", "blue")],
    Group := "example.org", Kind := "Foo", Plural := "bars",
    Versions := [{ Name := "v1", Served := true }],
    Subresources := none }

/-- A world whose tenant cluster holds `stackBDeleting`, the shared schema
object `sharedCRD` and the unowned `barCRD`. -/
def worldRelease : World :=
  { tenant := { emptyCluster with Stacks := [stackBDeleting], CRDs := [sharedCRD, barCRD] },
    host := emptyCluster, log := [] }

/-- A world whose tenant cluster holds `stackBDeleting` and no schema
object. -/
def worldReleaseNoCRD : World :=
  { tenant := { emptyCluster with Stacks := [stackBDeleting] }, host := emptyCluster, log := [] }


/-- The second cluster holds what the first holds and possibly more: each
list of service accounts, roles, bindings, Deployments and Secrets is the
old one with objects appended, and the Stacks have the same keys and
finalizers, in the same order. Schema objects are not compared. -/
def Extends (cl cl' : Cluster) : Prop :=
  (∃ e, cl'.ServiceAccounts = cl.ServiceAccounts ++ e) ∧
  (∃ e, cl'.ClusterRoles = cl.ClusterRoles ++ e) ∧
  (∃ e, cl'.RoleBindings = cl.RoleBindings ++ e) ∧
  (∃ e, cl'.ClusterRoleBindings = cl.ClusterRoleBindings ++ e) ∧
  (∃ e, cl'.Deployments = cl.Deployments ++ e) ∧
  (∃ e, cl'.Secrets = cl.Secrets ++ e) ∧
  (cl'.Stacks.map fun s => (s.Namespace, s.Name, s.Finalizers)) =
    (cl.Stacks.map fun s => (s.Namespace, s.Name, s.Finalizers))

/-- `Extends` for both clusters of two worlds. -/
def WorldExtends (w w' : World) : Prop :=
  ∀ id, Extends (w.cluster id) (w'.cluster id)

/-- A call that neither patches a schema object nor creates a Deployment. -/
def IdleCall (c : Call) : Prop :=
  ¬ (c.verb = Verb.patch ∧ c.kind = Kind.CustomResourceDefinition) ∧
  ¬ (c.verb = Verb.create ∧ c.kind = Kind.Deployment)

/-- From `w` to `w'` no object was added, removed or changed in either
cluster, and only idle calls were issued. -/
def Quiet (w w' : World) : Prop :=
  (∀ id, w'.cluster id = w.cluster id) ∧ CallsOnly IdleCall w w'


/-- The objects `processRBAC` creates for the handler's Stack are present in
the cluster `cl`: the service account, the system ClusterRole and, by
permission scope, the cluster role binding or the namespaced role binding. -/
def RBACPresent (env : Env) (h : stackHandler) (cl : Cluster) : Prop :=
  (cl.ServiceAccounts.any
    fun x => decide (x.Namespace = h.ext.Namespace ∧ x.Name = h.ext.Name)) = true ∧
  (cl.ClusterRoles.any
    fun x => decide (x.Name = env.deps.PersonaRoleName h.ext "system")) = true ∧
  ((h.ext.Spec.PermissionScope = ClusterScoped ∧
      (cl.ClusterRoleBindings.any fun x => decide (x.Name = h.ext.Name)) = true) ∨
    (h.ext.Spec.PermissionScope ≠ ClusterScoped ∧
      (h.ext.Spec.PermissionScope = "" ∨ h.ext.Spec.PermissionScope = NamespaceScoped) ∧
      (cl.RoleBindings.any
        fun x => decide (x.Namespace = h.ext.Namespace ∧ x.Name = h.ext.Name)) = true))


/-- A host configuration: controllers run in the namespace `host-ns` of the
host cluster. -/
def exampleHostedConfig : HostedConfig :=
  { HostControllerNamespace := "host-ns", TenantAPIServiceHost := "tenant.example",
    TenantAPIServicePort := "6443" }

/-- The handler for `stackWithController` in host-aware mode: the tenant
cluster holds the Stack, the host cluster runs the workload. -/
def handlerHosted : stackHandler :=
  newHandler stackWithController ClusterId.tenant ClusterId.host (some exampleHostedConfig)

/-- A world for `handlerHosted`: the tenant cluster holds the Stack, the
schema object, the Stack's service account with a generated token secret, and
that secret; the host cluster is empty. -/
def worldHosted : World :=
  { tenant :=
      { emptyCluster with
        Stacks := [stackWithController], CRDs := [fooCRD],
        ServiceAccounts :=
          [{ Name := "a", Namespace := "ns", OwnerReferences := [], Annotations := [],
             Secrets := [{ APIVersion := "", Kind := "", Namespace := "", Name := "a-token",
                           UID := "" }] }],
        Secrets := [{ Name := "a-token", Namespace := "ns", OwnerReferences := [],
                      Data := [("token", [1, 2, 3])] }] },
    host := emptyCluster, log := [] }

/-! ## Further examples for the workload step -/

/-- A truncation helper for the examples: the first `n` characters of the
string (the helper of `pkg/stacks/truncate` also ends a shortened name with a
hash suffix; the examples only need its length bound). -/
def exampleTruncate (s : String) (n : Int) (_suffixLength : Int) : String :=
  String.mk (s.data.take n.toNat)

/-- The example dependencies with a truncation helper that shortens. -/
def truncatingDeps : Deps :=
  { exampleDeps with Truncate := exampleTruncate }

/-- An environment without faults over `truncatingDeps`. -/
def truncatingEnv : Env :=
  { exampleEnv with deps := truncatingDeps }

/-- A Stack with a name of 60 characters and a controller Deployment. -/
def stackLongName : Stack :=
  { stackWithController with
    Name := "a-stack-with-a-name-that-is-much-longer-than-fifty-two-chars" }

/-- The handler for `stackLongName`. -/
def handlerLongName : stackHandler :=
  newHandler stackLongName ClusterId.tenant ClusterId.tenant none

/-- An owner reference for the examples: the relocated workload. -/
def exampleOwner : OwnerReference :=
  { APIVersion := "apps/v1", Kind := "Deployment", Name := "ns.a-controller", UID := "" }

/-- The reference to the service account of `stackWithController`. -/
def exampleSARef : ObjectReference :=
  { APIVersion := "", Kind := "", Namespace := "ns", Name := "a", UID := "" }

/-- The reference to the token secret of the examples on the host. -/
def exampleTokenRef : ObjectReference :=
  { APIVersion := "", Kind := "", Namespace := "host-ns", Name := "ns.a", UID := "" }

/-- The tenant token secret of `worldHosted`. -/
def exampleTenantSecret : Secret :=
  { Name := "a-token", Namespace := "ns", OwnerReferences := [],
    Data := [("token", [1, 2, 3])] }

/-- The world `worldHosted` with a token secret already on the host, of other
content than the tenant secret. -/
def worldHostedSynced : World :=
  { worldHosted with
    host := { emptyCluster with
      Secrets := [{ Name := "ns.a", Namespace := "host-ns", OwnerReferences := [],
                    Data := [("token", [9])] }] } }
/-! ## Composition patches and transforms

The embedding of `apis/apiextensions/v1alpha1/composition_types.go`:
`Patch.Apply`, `Transform.Transform`, `MathTransform.Resolve` and
`MapTransform.Resolve`.

The functions take and return values of the empty interface, call methods
through pointers that may be nil, and call `reflect`; a Go call either returns
or panics, so the embedding returns an `Outcome`. -/

/-- What a Go call does: it returns, or it panics with a runtime error. -/
inductive Outcome (α : Type) where
  | ret (a : α)
  | panic (msg : String)
  deriving DecidableEq, Repr

/-- The runtime error of a nil pointer dereference. -/
def nilDereference : String :=
  "runtime error: invalid memory address or nil pointer dereference"

/-- A value of the empty interface `interface{}`, as far as the transforms
tell values apart: the nil interface, a `string`, an `int64`, an `int`, or a
value of any other dynamic type, kept as the text `reflect` prints for its
type and an uninterpreted rendering of its content. -/
inductive Value where
  | nil
  | string (s : String)
  | int64 (i : Int)
  | int (i : Int)
  | other (typeName : String) (content : String)
  deriving DecidableEq, Repr

/-- The value of `reflect.TypeOf(v).String()`. `reflect.TypeOf` of the nil
interface is the nil `reflect.Type`, and a method call on it is a nil
dereference. -/
def reflectTypeString : Value → Outcome String
  | Value.nil => Outcome.panic nilDereference
  | Value.string _ => Outcome.ret "string"
  | Value.int64 _ => Outcome.ret "int64"
  | Value.int _ => Outcome.ret "int"
  | Value.other typeName _ => Outcome.ret typeName

/-- Two's-complement wrap of an integer into `int64`. -/
def wrapInt64 (x : Int) : Int :=
  (x + 2 ^ 63) % 2 ^ 64 - 2 ^ 63

/-- Source constant `errMathNoMultiplier`. -/
def errMathNoMultiplier : String := "no input is given"
/-- Source constant `errMathInputNonNumber`. -/
def errMathInputNonNumber : String := "input is required to be a number for math transformer"
/-- Source function `errTransformAtIndex`. -/
def errTransformAtIndex (i : Nat) : String :=
  "transform at index " ++ toString i ++ " returned error"
/-- Source function `errMapNotFound`. -/
def errMapNotFound (s : String) : String := "given value " ++ s ++ " is not found in map"
/-- Source function `errMapTypeNotSupported`. -/
def errMapTypeNotSupported (s : String) : String :=
  "type " ++ s ++ " is not supported for map transform"
/-- Source function `errTypeNotSupported`. -/
def errTypeNotSupported (s : String) : String := "transform type " ++ s ++ " is not supported"
/-- Source function `errConfigMissing`. -/
def errConfigMissing (s : String) : String := "given type " ++ s ++ " requires configuration"
/-- Source function `errTransformWithType`. -/
def errTransformWithType (s : String) : String := s ++ " transform could not resolve"

/-- Source constant `TransformTypeMap`. -/
def TransformTypeMap : String := "map"
/-- Source constant `TransformTypeMath`. -/
def TransformTypeMath : String := "math"

/-- Source type `MathTransform`; `Multiply` is a pointer. -/
structure MathTransform where
  Multiply : Option Int
  deriving DecidableEq, Repr

/-- Source type `MapTransform`. -/
structure MapTransform where
  Pairs : StringMap
  deriving DecidableEq, Repr

/-- Source type `Transform`; `Math` and `Map` are pointers. -/
structure Transform where
  «Type» : String
  Math : Option MathTransform
  Map : Option MapTransform
  deriving DecidableEq, Repr

/-- Source type `Patch`. -/
structure Patch where
  FromFieldPath : String
  ToFieldPath : String
  Transforms : List Transform
  deriving DecidableEq, Repr

/-- Source `MathTransform.Resolve`, on its pointer receiver: `m.Multiply` on
a nil receiver is a nil dereference. The product is an `int64`. -/
def MathTransform.Resolve (m : Option MathTransform) (input : Value) :
    Outcome (Value × Option Err) :=
  match m with
  | none => Outcome.panic nilDereference
  | some m =>
    match m.Multiply with
    | none => Outcome.ret (Value.nil, some (Err.New errMathNoMultiplier))
    | some multiply =>
      match input with
      | Value.int64 i => Outcome.ret (Value.int64 (wrapInt64 (multiply * i)), none)
      | Value.int i => Outcome.ret (Value.int64 (wrapInt64 (multiply * i)), none)
      | _ => Outcome.ret (Value.nil, some (Err.New errMathInputNonNumber))

/-- Source `MapTransform.Resolve`, on its pointer receiver. The type switch
is on the input; the receiver is dereferenced in the `string` case only
(`m.Pairs`), and the default case calls `reflect.TypeOf(input).String()`. -/
def MapTransform.Resolve (m : Option MapTransform) (input : Value) :
    Outcome (Value × Option Err) :=
  match input with
  | Value.string i =>
    match m with
    | none => Outcome.panic nilDereference
    | some m =>
      if !mapHas m.Pairs i then Outcome.ret (Value.nil, some (Err.New (errMapNotFound i)))
      else Outcome.ret (Value.string (mapGet m.Pairs i), none)
  | _ =>
    match reflectTypeString input with
    | Outcome.panic msg => Outcome.panic msg
    | Outcome.ret typeName =>
      Outcome.ret (Value.nil, some (Err.New (errMapTypeNotSupported typeName)))

/-- What the interface variable `transformer` of `Transform.Transform` holds
once assigned: a dynamic type, `*MathTransform` or `*MapTransform`, and the
pointer, which may be nil. -/
inductive Transformer where
  | math (p : Option MathTransform)
  | map (p : Option MapTransform)
  deriving DecidableEq, Repr

/-- The method call `transformer.Resolve(input)`, dispatched on the dynamic
type. -/
def Transformer.Resolve (t : Transformer) (input : Value) : Outcome (Value × Option Err) :=
  match t with
  | Transformer.math p => MathTransform.Resolve p input
  | Transformer.map p => MapTransform.Resolve p input

/-- The switch of `Transform.Transform`: the value of the interface variable
`transformer` after it, or the error of the default case. `none` is the nil
interface. An interface assigned from a pointer holds the pointer's type also
when the pointer is nil, so neither case leaves the nil interface. -/
def Transform.transformer (t : Transform) : Except Err (Option Transformer) :=
  if t.Type = TransformTypeMath then Except.ok (some (Transformer.math t.Math))
  else if t.Type = TransformTypeMap then Except.ok (some (Transformer.map t.Map))
  else Except.error (Err.New (errTypeNotSupported t.Type))

set_option linter.dupNamespace false in
/-- Source `Transform.Transform`. The test `transformer == nil` compares the
interface with the nil interface. -/
def Transform.Transform (t : Transform) (input : Value) : Outcome (Value × Option Err) :=
  match t.transformer with
  | Except.error err => Outcome.ret (Value.nil, some err)
  | Except.ok none => Outcome.ret (Value.nil, some (Err.New (errConfigMissing t.Type)))
  | Except.ok (some transformer) =>
    match transformer.Resolve input with
    | Outcome.panic msg => Outcome.panic msg
    | Outcome.ret (out, err) => Outcome.ret (out, Wrap err (errTransformWithType t.Type))

/-- The library calls of `Patch.Apply`, which are not part of the source:
`runtime.DefaultUnstructuredConverter` of apimachinery and `fieldpath.Pave` of
crossplane-runtime. They are parameters of the embedding.

* `ToUnstructured`, `FromUnstructured`: the converter; `FromUnstructured`
  writes into the object it is given and may fail;
* `UnstructuredContent`: the type assertion on `to` and the content map it
  yields; `WithContent`: the object once that map, which it shares with the
  caller, was written;
* `GetValue`, `SetValue`: reading and writing a field path of a paved
  content map; `SetValue` writes in place and may fail. -/
structure FieldLibrary (Obj Content : Type) where
  ToUnstructured : Obj → Except Err Content
  FromUnstructured : Content → Obj → Option Err × Obj
  UnstructuredContent : Obj → Option Content
  WithContent : Obj → Content → Obj
  GetValue : Content → String → Except Err Value
  SetValue : Content → String → Value → Option Err × Content

/-- The loop of `Patch.Apply` over the transforms, from index `i` on. -/
def Patch.Apply.transforms : List Transform → Nat → Value → Outcome (Value × Option Err)
  | [], _, out => Outcome.ret (out, none)
  | f :: rest, i, out =>
    match f.Transform out with
    | Outcome.panic msg => Outcome.panic msg
    | Outcome.ret (out1, some err) =>
      Outcome.ret (out1, some (Err.Wrap err (errTransformAtIndex i)))
    | Outcome.ret (out1, none) => Patch.Apply.transforms rest (i + 1) out1

/-- Source `Patch.Apply`; yields the error and the object `to` as left
behind. -/
def Patch.Apply {Obj Content : Type} (lib : FieldLibrary Obj Content) (c : Patch)
    (fromObj toObj : Obj) : Outcome (Option Err × Obj) :=
  match lib.ToUnstructured fromObj with
  | Except.error err => Outcome.ret (some err, toObj)
  | Except.ok fromMap =>
    match lib.GetValue fromMap c.FromFieldPath with
    | Except.error err => Outcome.ret (some err, toObj)
    | Except.ok input =>
      match Patch.Apply.transforms c.Transforms 0 input with
      | Outcome.panic msg => Outcome.panic msg
      | Outcome.ret (_, some err) => Outcome.ret (some err, toObj)
      | Outcome.ret (out, none) =>
        match lib.UnstructuredContent toObj with
        | some content =>
          Outcome.ret ((lib.SetValue content c.ToFieldPath out).1,
            lib.WithContent toObj (lib.SetValue content c.ToFieldPath out).2)
        | none =>
          match lib.ToUnstructured toObj with
          | Except.error err => Outcome.ret (some err, toObj)
          | Except.ok toMap =>
            match lib.SetValue toMap c.ToFieldPath out with
            | (some err, _) => Outcome.ret (some err, toObj)
            | (none, toMap1) =>
              Outcome.ret ((lib.FromUnstructured toMap1 toObj).1,
                (lib.FromUnstructured toMap1 toObj).2)

/-! ### An example library

Objects are unstructured and flat: a finite map from field paths to values. -/

/-- An example object: its fields by path. -/
abbrev FlatObject := List (String × Value)

/-- Reading a path of a flat object. -/
def flatGet (o : FlatObject) (path : String) : Except Err Value :=
  match o.find? (fun kv => kv.1 = path) with
  | some kv => Except.ok kv.2
  | none => Except.error (Err.Errorf "%s: no such field" [path])

/-- Writing a path of a flat object. A path without segments names no field:
the write loop over the segments has nothing to do and nothing is written. -/
def flatSet (o : FlatObject) (path : String) (v : Value) : Option Err × FlatObject :=
  if path = "" then (none, o)
  else (none, (path, v) :: o.filter (fun kv => kv.1 ≠ path))

/-- The example library over flat objects. -/
def flatLibrary : FieldLibrary FlatObject FlatObject :=
  { ToUnstructured := fun o => Except.ok o,
    FromUnstructured := fun m _ => (none, m),
    UnstructuredContent := fun o => some o,
    WithContent := fun _ m => m,
    GetValue := flatGet,
    SetValue := flatSet }

/-- A source object with `spec.size = "large"`. -/
def exampleSource : FlatObject := [("spec.size", Value.string "large")]

/-- A target object without `spec.size`. -/
def exampleTarget : FlatObject := [("spec.region", Value.string "eu")]

/-- A patch from `spec.size` with `ToFieldPath` left empty. -/
def patchSamePath : Patch :=
  { FromFieldPath := "spec.size", ToFieldPath := "", Transforms := [] }
/-! ## Further examples: versions, label values, cluster scope -/

/-- The schema object `foos.example.org` listing `v1`, served, and `v2`, not
served. -/
def fooUnservedV2 : CustomResourceDefinition :=
  { fooCRD with
    Versions := [{ Name := "v1", Served := true }, { Name := "v2", Served := false }] }

/-- The descriptor of kind `Foo` of `example.org` in version `v2`. -/
def wantFooV2 : TypeMeta := { APIVersion := "example.org/v2", Kind := "Foo" }

/-- A CRD with every version marked by `serve`. -/
def withServed (serve : CustomResourceDefinitionVersion → Bool)
    (c : CustomResourceDefinition) : CustomResourceDefinition :=
  { c with Versions := c.Versions.map (fun v => { v with Served := serve v }) }

/-- The schema object `foos.example.org`, owned by the stack manager, carrying
the namespace-member label of `ns` and the multi-parent label of `ns/a`, both
with the value "false". -/
def fooLabelledFalse : CustomResourceDefinition :=
  { fooCRD with
    Labels := [("app.kubernetes.io/managed-by", "stack-manager"),
               ("namespace.crossplane.io/ns", "false"),
               ("parent.stacks.crossplane.io/ns-a", "false")] }

/-- A world whose tenant cluster holds `stackA` and `fooLabelledFalse`. -/
def worldLabelledFalse : World :=
  { tenant := { emptyCluster with Stacks := [stackA], CRDs := [fooLabelledFalse] },
    host := emptyCluster, log := [] }

/-- The Stack `ns/a` with the permission scope `Cluster`. -/
def stackClusterScope : Stack :=
  { stackA with Spec := { stackA.Spec with PermissionScope := "Cluster" } }

/-- The handler for `stackClusterScope` in single-cluster mode. -/
def handlerClusterScope : stackHandler :=
  newHandler stackClusterScope ClusterId.tenant ClusterId.tenant none

/-! ## The label maps of the persona handler as Go maps

A Go map is a reference. `labels`, which the persona handler obtains from
`ParentLabels` once, before its loop, is one map for all iterations: a write
through any variable that refers to it would show in every later role. The
heap below holds maps by address, so that sharing and copying can be told
apart; `personaClusterRole` gives the same label maps by value. -/

/-- The maps on the Go heap: the content of the map at each address, and the
next address not yet in use. -/
structure MapHeap where
  content : Nat → StringMap
  next : Nat

/-- The content of the map at an address. -/
def MapHeap.read (heap : MapHeap) (a : Nat) : StringMap :=
  heap.content a

/-- Go `m[k] = v` for the map `m` at address `a`. -/
def MapHeap.write (heap : MapHeap) (a : Nat) (k v : String) : MapHeap :=
  { heap with content := fun b => if b = a then mapSet (heap.content a) k v else heap.content b }

/-- Go `map[string]string{}`: a new, empty map; yields its address. -/
def MapHeap.make (heap : MapHeap) : Nat × MapHeap :=
  (heap.next,
    { content := fun b => if b = heap.next then [] else heap.content b,
      next := heap.next + 1 })

/-- The loop of `copyLabels`: every pair of the source map is written into
the map at `labelsCopy`. -/
def copyLabels.fill (labelsCopy : Nat) : StringMap → MapHeap → MapHeap
  | [], heap => heap
  | (k, v) :: rest, heap => copyLabels.fill labelsCopy rest (heap.write labelsCopy k v)

/-- Source `copyLabels` on the heap: a new map is made, the pairs of the map
at `labels` are written into it, and its address is returned. -/
def copyLabels.onHeap (heap : MapHeap) (labels : Nat) : Nat × MapHeap :=
  (heap.make.1, copyLabels.fill heap.make.1 (heap.read labels) heap.make.2)

/-- The label statements of one iteration of the persona loop on the heap,
`labels` being the address of the map obtained from `ParentLabels`; yields the
address of `labelsCopy`, the map handed to the ClusterRole. -/
def personaLabels (env : Env) (h : stackHandler) (persona : String) (heap : MapHeap)
    (labels : Nat) : Nat × MapHeap :=
  let copied := copyLabels.onHeap heap labels
  let labelsCopy := copied.1
  let crossplaneScope :=
    if isNamespaced h then env.deps.NamespaceScoped else env.deps.EnvironmentScoped
  let heap1 :=
    if isNamespaced h then
      copied.2.write labelsCopy (env.deps.LabelNamespaceFmt h.ext.Namespace)
        labelValueNamespaceMember
    else copied.2
  let aggregationLabel := env.deps.LabelAggregateFmt crossplaneScope persona
  (labelsCopy, heap1.write labelsCopy aggregationLabel labelValueAggregationEnabled)

/-- The label statements over the whole loop of the persona handler: the
addresses of the label maps of the roles, in the order of the personas. -/
def personaLabels.loop (env : Env) (h : stackHandler) :
    List String → MapHeap → Nat → List Nat × MapHeap
  | [], heap, _ => ([], heap)
  | persona :: rest, heap, labels =>
    ((personaLabels env h persona heap labels).1 ::
        (personaLabels.loop env h rest (personaLabels env h persona heap labels).2 labels).1,
      (personaLabels.loop env h rest (personaLabels env h persona heap labels).2 labels).2)

/-- A heap that holds one map, at address 0. -/
def heapOf (m : StringMap) : MapHeap :=
  { content := fun a => if a = 0 then m else [], next := 1 }
/-! ## Basic facts about the API server model -/

@[simp] theorem record_log (w : World) (c : Call) : (w.record c).log = w.log ++ [c] := rfl

@[simp] theorem record_cluster (w : World) (c : Call) (id : ClusterId) :
    (w.record c).cluster id = w.cluster id := by
  cases id <;> rfl

@[simp] theorem setCluster_log (w : World) (id : ClusterId) (cl : Cluster) :
    (w.setCluster id cl).log = w.log := by
  cases id <;> rfl

@[simp] theorem setCluster_cluster_same (w : World) (id : ClusterId) (cl : Cluster) :
    (w.setCluster id cl).cluster id = cl := by
  cases id <;> rfl

theorem setCluster_cluster (w : World) (id id' : ClusterId) (cl : Cluster) :
    (w.setCluster id cl).cluster id' = if id' = id then cl else w.cluster id' := by
  cases id <;> cases id' <;> simp [World.setCluster, World.cluster]

theorem issue_log (F : Faults) (w : World) (c : Call)
    (serve : Cluster → Option ApiErr × Cluster) :
    (issue F w c serve).2.log = w.log ++ [c] := by
  unfold issue
  cases F w.log c <;> simp

theorem issueRead_world {α : Type} (F : Faults) (w : World) (c : Call)
    (read : Cluster → Except ApiErr α) :
    (issueRead F w c read).2 = w.record c := by
  unfold issueRead
  cases F w.log c with
  | some e => rfl
  | none =>
    simp only []
    cases read (w.cluster c.client) <;> rfl

/-- A projection of the cluster that the server function leaves alone is left
alone by the call, in both clusters. -/
theorem issue_frame {β : Type} (proj : Cluster → β) (F : Faults) (w : World) (c : Call)
    (serve : Cluster → Option ApiErr × Cluster)
    (hserve : ∀ cl, proj (serve cl).2 = proj cl) (id : ClusterId) :
    proj ((issue F w c serve).2.cluster id) = proj (w.cluster id) := by
  unfold issue
  cases F w.log c with
  | some e => simp
  | none =>
    simp only [setCluster_cluster]
    by_cases h : id = c.client
    · simp [h, hserve]
    · simp [h]

theorem issue_of_fault (F : Faults) (w : World) (c : Call)
    (serve : Cluster → Option ApiErr × Cluster) (e : ApiErr) (h : F w.log c = some e) :
    issue F w c serve = (some (Err.Api e), w.record c) := by
  unfold issue
  rw [h]

theorem issue_of_none (F : Faults) (w : World) (c : Call)
    (serve : Cluster → Option ApiErr × Cluster) (h : F w.log c = none) :
    issue F w c serve =
      ((serve (w.cluster c.client)).1.map Err.Api,
        (w.record c).setCluster c.client (serve (w.cluster c.client)).2) := by
  unfold issue
  rw [h]

theorem log_of_issue_eq {F : Faults} {w : World} {c : Call}
    {serve : Cluster → Option ApiErr × Cluster} {r : Option Err × World}
    (h : issue F w c serve = r) : r.2.log = w.log ++ [c] := by
  rw [← h]
  exact issue_log F w c serve

/-! ## Matching descriptors against the registry -/

theorem crdVersionExists_go_iff (version : String) (vs : List CustomResourceDefinitionVersion) :
    crdVersionExists.go version vs = true ↔
      version ∈ vs.map CustomResourceDefinitionVersion.Name := by
  induction vs with
  | nil => simp [crdVersionExists.go]
  | cons v vs ih =>
    rw [List.map_cons, List.mem_cons]
    by_cases h : v.Name = version
    · simp [crdVersionExists.go, h]
    · have h' : ¬ version = v.Name := fun e => h e.symm
      rw [crdVersionExists.go, if_neg h, ih]
      simp [h']

theorem crdVersionExists_iff (crd : CustomResourceDefinition) (version : String) :
    crdVersionExists crd version = true ↔ version ∈ crd.versionNames := by
  unfold crdVersionExists CustomResourceDefinition.versionNames
  exact crdVersionExists_go_iff version crd.Versions

theorem found_iff (group version kind : String) (got : List CustomResourceDefinition) :
    crdListFulfilled.found group version kind got = true ↔
      ∃ c ∈ got, c.Group = group ∧ c.Kind = kind ∧ version ∈ c.versionNames := by
  induction got with
  | nil => simp [crdListFulfilled.found]
  | cons c rest ih =>
    unfold crdListFulfilled.found
    by_cases hg : c.Group = group
    · by_cases hk : c.Kind = kind
      · by_cases hv : crdVersionExists c version = true
        · have hv' := (crdVersionExists_iff c version).1 hv
          simp [hg, hk, hv]
          exact Or.inl hv'
        · have hv' : version ∉ c.versionNames :=
            fun h => hv ((crdVersionExists_iff c version).2 h)
          simp [hg, hk, hv, ih, hv']
      · simp [hg, hk, ih]
    · simp [hg, ih]

theorem found_eq_any (w : TypeMeta) (got : List CustomResourceDefinition) :
    crdListFulfilled.found w.GroupVersionKind.Group w.GroupVersionKind.Version
      w.GroupVersionKind.Kind got = got.any (descriptorMatches w) := by
  rw [Bool.eq_iff_iff, found_iff, List.any_eq_true]
  simp [descriptorMatches, and_assoc]

theorem crdListFulfilled_cons (w : TypeMeta) (rest : CRDList)
    (got : List CustomResourceDefinition) :
    crdListFulfilled (w :: rest) got =
      if got.any (descriptorMatches w) then crdListFulfilled rest got
      else some (Err.Errorf errMissingCRDFmt [w.APIVersion, w.Kind]) := by
  rw [crdListFulfilled]
  simp only [found_eq_any]
  cases got.any (descriptorMatches w) <;> simp

theorem crdListFulfilled_none_iff (want : CRDList) (got : List CustomResourceDefinition) :
    crdListFulfilled want got = none ↔ ∀ w ∈ want, got.any (descriptorMatches w) = true := by
  induction want with
  | nil => simp [crdListFulfilled]
  | cons w rest ih =>
    rw [crdListFulfilled_cons]
    by_cases h : got.any (descriptorMatches w) = true
    · rw [if_pos h, ih]
      constructor
      · intro hr x hx
        rcases List.mem_cons.1 hx with rfl | hx
        · exact h
        · exact hr x hx
      · intro hr x hx
        exact hr x (List.mem_cons_of_mem _ hx)
    · rw [if_neg h]
      constructor
      · intro hr
        cases hr
      · intro hr
        exact absurd (hr w (List.mem_cons_self _ _)) h

theorem any_filter_relevant (want : CRDList) (got : List CustomResourceDefinition)
    (w : TypeMeta) (hw : w ∈ want) :
    (got.filter (fun c => want.any (fun x => descriptorMatches x c))).any (descriptorMatches w)
      = got.any (descriptorMatches w) := by
  rw [Bool.eq_iff_iff, List.any_eq_true, List.any_eq_true]
  constructor
  · rintro ⟨c, hc, hm⟩
    exact ⟨c, (List.mem_filter.1 hc).1, hm⟩
  · rintro ⟨c, hc, hm⟩
    refine ⟨c, List.mem_filter.2 ⟨hc, ?_⟩, hm⟩
    exact List.any_eq_true.2 ⟨w, hw, hm⟩

theorem crdListFulfilled_congr (want : CRDList) (got got' : List CustomResourceDefinition)
    (h : ∀ w ∈ want, got'.any (descriptorMatches w) = got.any (descriptorMatches w)) :
    crdListFulfilled want got' = crdListFulfilled want got := by
  induction want with
  | nil => simp [crdListFulfilled]
  | cons w rest ih =>
    rw [crdListFulfilled_cons, crdListFulfilled_cons, h w (List.mem_cons_self _ _),
      ih (fun x hx => h x (List.mem_cons_of_mem _ hx))]

theorem versionNames_withServed (serve : CustomResourceDefinitionVersion → Bool)
    (c : CustomResourceDefinition) : (withServed serve c).versionNames = c.versionNames := by
  unfold withServed CustomResourceDefinition.versionNames
  simp [List.map_map, Function.comp_def]

theorem descriptorMatches_withServed (serve : CustomResourceDefinitionVersion → Bool)
    (w : TypeMeta) (c : CustomResourceDefinition) :
    descriptorMatches w (withServed serve c) = descriptorMatches w c := by
  unfold descriptorMatches
  rw [versionNames_withServed]
  rfl

theorem mem_versionNames (c : CustomResourceDefinition) (version : String) :
    version ∈ c.versionNames ↔ ∃ v ∈ c.Versions, v.Name = version := by
  unfold CustomResourceDefinition.versionNames
  simp [List.mem_map]

/-- C2 as stated fails: the registry holds `foos.example.org`, which lists
`v2` with `served: false`; for the wanted descriptor Foo `example.org/v2`
the check returns no error although no live CRD has `v2` among its served
versions. -/
theorem crdListFulfilled_accepts_unserved_version :
    crdListFulfilled [wantFooV2] [fooUnservedV2] = none ∧
      ¬ ∃ c ∈ [fooUnservedV2], c.Group = wantFooV2.GroupVersionKind.Group ∧
        c.Kind = wantFooV2.GroupVersionKind.Kind ∧
        ∃ v ∈ c.Versions, v.Name = wantFooV2.GroupVersionKind.Version ∧ v.Served = true := by
  decide

/-- C2, amended: `crdListFulfilled` returns no error exactly when every wanted
descriptor has a live CRD of the same group and kind that lists a version of
the descriptor's name, served or not: the result is the same whatever the
`Served` flags of the registry are. Dropping from the registry every CRD that
matches no wanted descriptor leaves the result (error included) unchanged. -/
theorem crdListFulfilled_iff_all_matched (want : CRDList)
    (got : List CustomResourceDefinition) :
    (crdListFulfilled want got = none ↔
      ∀ w ∈ want, ∃ c ∈ got, c.Group = w.GroupVersionKind.Group ∧
        c.Kind = w.GroupVersionKind.Kind ∧
        ∃ v ∈ c.Versions, v.Name = w.GroupVersionKind.Version) ∧
    (∀ serve : CustomResourceDefinitionVersion → Bool,
      crdListFulfilled want (got.map (withServed serve)) = crdListFulfilled want got) ∧
    crdListFulfilled want
        (got.filter (fun c => want.any (fun w => descriptorMatches w c))) =
      crdListFulfilled want got := by
  refine ⟨?_, ?_, crdListFulfilled_congr want got _ (any_filter_relevant want got)⟩
  · rw [crdListFulfilled_none_iff]
    simp only [List.any_eq_true, descriptorMatches, Bool.and_eq_true, decide_eq_true_eq,
      mem_versionNames, and_assoc]
  · intro serve
    apply crdListFulfilled_congr
    intro w _
    rw [List.any_map]
    congr 1
    funext c
    exact descriptorMatches_withServed serve w c
/-! ## Dispatch (C1) -/

/-- C1: for a Stack `i` fetched by `Reconcile`, a Stack carrying a deletion
marker is handed to `delete`; otherwise a Stack with an empty
`Status.ControllerRef` is handed to `create`; otherwise `update` runs, which
returns the empty result and no error and leaves the Stack and the world as
they are. -/
theorem Reconcile_dispatch (env : Env) (r : Reconciler) (req : NamespacedName)
    (w w1 : World) (i : Stack)
    (hget : getStack env.faults r.kube req w = (Except.ok i, w1)) :
    (WasDeleted i = true →
      Reconcile env r req w =
        ((delete env (newHandler i r.kube r.hostKube r.hostedConfig) w1).1,
         (delete env (newHandler i r.kube r.hostKube r.hostedConfig) w1).2.2)) ∧
    (WasDeleted i = false → i.Status.ControllerRef = none →
      Reconcile env r req w =
        ((create env (newHandler i r.kube r.hostKube r.hostedConfig) w1).1,
         (create env (newHandler i r.kube r.hostKube r.hostedConfig) w1).2.2)) ∧
    (WasDeleted i = false → i.Status.ControllerRef ≠ none →
      Reconcile env r req w = ((emptyResult, none), w1)) ∧
    (∀ (h : stackHandler) (w' : World), update h w' = ((emptyResult, none), h.ext, w')) := by
  refine ⟨?_, ?_, ?_, fun _ _ => rfl⟩
  · intro hd
    simp [Reconcile, hget, hd]
  · intro hd hc
    simp [Reconcile, hget, hd, sync, newHandler, hc]
  · intro hd hc
    cases href : i.Status.ControllerRef with
    | none => exact absurd href hc
    | some ref => simp [Reconcile, hget, hd, sync, newHandler, href, update]

/-- Witness of C1: `stackA` is live, carries no deletion marker and no
`ControllerRef`, so `Reconcile` runs `create` on it. -/
theorem Reconcile_dispatch_witness :
    Reconcile exampleEnv exampleReconciler ⟨"ns", "a"⟩ worldNoCRD =
      ((create exampleEnv handlerA
          (worldNoCRD.record ⟨ClusterId.tenant, Verb.get, Kind.Stack, "ns", "a", []⟩)).1,
       (create exampleEnv handlerA
          (worldNoCRD.record ⟨ClusterId.tenant, Verb.get, Kind.Stack, "ns", "a", []⟩)).2.2) :=
  (Reconcile_dispatch exampleEnv exampleReconciler ⟨"ns", "a"⟩ worldNoCRD
    (worldNoCRD.record ⟨ClusterId.tenant, Verb.get, Kind.Stack, "ns", "a", []⟩) stackA
    rfl).2.1 (by decide) (by decide)

/-! ## Host-aware pod rewrite (C5) -/

theorem prepareHostAwareContainers_eq_map (cfg : HostedConfig) (ns : String)
    (cs : List Container) :
    prepareHostAwareContainers cfg ns cs =
      cs.map (fun c =>
        { c with
          Env := c.Env ++
            [{ Name := envK8SServiceHost, Value := cfg.TenantAPIServiceHost },
             { Name := envK8SServicePort, Value := cfg.TenantAPIServicePort },
             { Name := envPodNamespace, Value := ns }],
          VolumeMounts := c.VolumeMounts ++
            [{ Name := saVolumeName, ReadOnly := true, MountPath := saMountPath }] }) := by
  induction cs with
  | nil => rfl
  | cons c rest ih => simp [prepareHostAwareContainers, ih]

/-- C5: with a host-aware config present, `prepareHostAwarePodSpec` returns
no error; the volumes are the old ones followed by the one `sa-token` volume
sourced from the token secret; every container keeps its name and image, its
environment is the old one followed by `KUBERNETES_SERVICE_HOST`,
`KUBERNETES_SERVICE_PORT` and `POD_NAMESPACE` (tenant host, tenant port, the
Stack's namespace), its volume mounts are the old ones followed by one
read-only mount of `sa-token` at the service-account path; auto-mounting is
switched off and the service account name is cleared. -/
theorem prepareHostAwarePodSpec_rewrite (h : stackHandler) (cfg : HostedConfig)
    (tokenSecret : String) (ps : PodSpec) (hcfg : h.hostAwareConfig = some cfg) :
    prepareHostAwarePodSpec h tokenSecret ps =
      (none,
        { Volumes := ps.Volumes ++
            [{ Name := "sa-token", VolumeSource := VolumeSource.Secret tokenSecret }],
          Containers := ps.Containers.map (fun c =>
            { Name := c.Name, Image := c.Image,
              Env := c.Env ++
                [{ Name := "KUBERNETES_SERVICE_HOST", Value := cfg.TenantAPIServiceHost },
                 { Name := "KUBERNETES_SERVICE_PORT", Value := cfg.TenantAPIServicePort },
                 { Name := "POD_NAMESPACE", Value := h.ext.Namespace }],
              VolumeMounts := c.VolumeMounts ++
                [{ Name := "sa-token", ReadOnly := true,
                   MountPath := "/var/run/secrets/kubernetes.io/serviceaccount" }] }),
          ServiceAccountName := "",
          DeprecatedServiceAccount := "",
          AutomountServiceAccountToken := some false }) := by
  simp only [prepareHostAwarePodSpec, hcfg, prepareHostAwareContainers_eq_map]
  rfl

/-- Witness of C5: a pod spec with two containers, rewritten for a host
config; each container gains the three variables and the mount. -/
theorem prepareHostAwarePodSpec_rewrite_witness :
    prepareHostAwarePodSpec
        (newHandler stackA ClusterId.tenant ClusterId.host
          (some { HostControllerNamespace := "host-ns", TenantAPIServiceHost := "10.0.0.1",
                  TenantAPIServicePort := "6443" }))
        "ns.a"
        { Volumes := [{ Name := "data", VolumeSource := VolumeSource.Other "emptyDir" }],
          Containers := [{ Name := "c1", Image := "img1", Env := [⟨"X", "1"⟩], VolumeMounts := [] },
                         { Name := "c2", Image := "img2", Env := [], VolumeMounts := [] }],
          ServiceAccountName := "a", DeprecatedServiceAccount := "a",
          AutomountServiceAccountToken := none } =
      (none,
        { Volumes := [{ Name := "data", VolumeSource := VolumeSource.Other "emptyDir" },
                      { Name := "sa-token", VolumeSource := VolumeSource.Secret "ns.a" }],
          Containers :=
            [{ Name := "c1", Image := "img1",
               Env := [⟨"X", "1"⟩, ⟨"KUBERNETES_SERVICE_HOST", "10.0.0.1"⟩,
                       ⟨"KUBERNETES_SERVICE_PORT", "6443"⟩, ⟨"POD_NAMESPACE", "ns"⟩],
               VolumeMounts := [⟨"sa-token", true,
                 "/var/run/secrets/kubernetes.io/serviceaccount"⟩] },
             { Name := "c2", Image := "img2",
               Env := [⟨"KUBERNETES_SERVICE_HOST", "10.0.0.1"⟩,
                       ⟨"KUBERNETES_SERVICE_PORT", "6443"⟩, ⟨"POD_NAMESPACE", "ns"⟩],
               VolumeMounts := [⟨"sa-token", true,
                 "/var/run/secrets/kubernetes.io/serviceaccount"⟩] }],
          ServiceAccountName := "", DeprecatedServiceAccount := "",
          AutomountServiceAccountToken := some false }) :=
  prepareHostAwarePodSpec_rewrite _
    { HostControllerNamespace := "host-ns", TenantAPIServiceHost := "10.0.0.1",
      TenantAPIServicePort := "6443" } "ns.a" _ rfl

/-! ## The fulfillment error (C10) -/

theorem crdListFulfilled_some_split (want : CRDList) (got : List CustomResourceDefinition)
    (e : Err) (h : crdListFulfilled want got = some e) :
    ∃ pre d post, want = pre ++ d :: post ∧
      (∀ x ∈ pre, got.any (descriptorMatches x) = true) ∧
      got.any (descriptorMatches d) = false ∧
      e = Err.Errorf errMissingCRDFmt [d.APIVersion, d.Kind] := by
  induction want with
  | nil => simp [crdListFulfilled] at h
  | cons w rest ih =>
    rw [crdListFulfilled_cons] at h
    by_cases hm : got.any (descriptorMatches w) = true
    · rw [if_pos hm] at h
      obtain ⟨pre, d, post, hsplit, hpre, hd, he⟩ := ih h
      refine ⟨w :: pre, d, post, by simp [hsplit], ?_, hd, he⟩
      intro x hx
      rcases List.mem_cons.1 hx with rfl | hx
      · exact hm
      · exact hpre x hx
    · rw [if_neg hm] at h
      refine ⟨[], w, rest, rfl, by simp, by simpa using hm, ?_⟩
      exact (Option.some.inj h).symm

/-- Counterexample to C10 as stated: with two wanted descriptors and an empty
registry both are unmatched, yet the error names the first one only. -/
theorem crdListFulfilled_second_missing_unnamed :
    crdListFulfilled [⟨"example.org/v1", "Foo"⟩, ⟨"example.org/v1", "Bar"⟩] [] =
        some (Err.Errorf "Missing CRD with APIVersion %q and Kind %q" ["example.org/v1", "Foo"]) ∧
      ([] : List CustomResourceDefinition).any
        (descriptorMatches ⟨"example.org/v1", "Bar"⟩) = false ∧
      (Err.Errorf "Missing CRD with APIVersion %q and Kind %q"
        ["example.org/v1", "Foo"]).namesDescriptor ⟨"example.org/v1", "Bar"⟩ = false := by
  decide

/-- C10, amended: when the fulfillment check fails, the error names exactly
one descriptor, the first wanted descriptor (in want-list order) that has no
match in the registry: every descriptor before it has a match, it has none,
and the error carries its API version and kind; the error names no wanted
descriptor that has a match; for a want-list of one descriptor it names that
descriptor. -/
theorem crdListFulfilled_error_names_first_missing (want : CRDList)
    (got : List CustomResourceDefinition) (e : Err)
    (h : crdListFulfilled want got = some e) :
    (∃ pre d post, want = pre ++ d :: post ∧
      (∀ x ∈ pre, got.any (descriptorMatches x) = true) ∧
      got.any (descriptorMatches d) = false ∧
      e = Err.Errorf "Missing CRD with APIVersion %q and Kind %q" [d.APIVersion, d.Kind] ∧
      (∀ d' : TypeMeta, e.namesDescriptor d' = true ↔ d' = d)) ∧
    (∀ d' ∈ want, e.namesDescriptor d' = true → got.any (descriptorMatches d') = false) ∧
    (∀ d0, want = [d0] →
      e = Err.Errorf "Missing CRD with APIVersion %q and Kind %q" [d0.APIVersion, d0.Kind]) := by
  obtain ⟨pre, d, post, hsplit, hpre, hd, he⟩ := crdListFulfilled_some_split want got e h
  have hnames : ∀ d' : TypeMeta, e.namesDescriptor d' = true ↔ d' = d := by
    intro d'
    subst he
    obtain ⟨a, k⟩ := d
    obtain ⟨a', k'⟩ := d'
    simp only [Err.namesDescriptor, decide_eq_true_eq, List.cons.injEq, and_true,
      TypeMeta.mk.injEq]
    constructor
    · rintro ⟨h1, h2⟩
      exact ⟨h1.symm, h2.symm⟩
    · rintro ⟨h1, h2⟩
      exact ⟨h1.symm, h2.symm⟩
  refine ⟨⟨pre, d, post, hsplit, hpre, hd, he, hnames⟩, ?_, ?_⟩
  · intro d' _ hn
    rw [(hnames d').1 hn]
    exact hd
  · intro d0 h0
    subst h0
    cases pre with
    | nil =>
      simp only [List.nil_append, List.cons.injEq] at hsplit
      rw [hsplit.1]
      exact he
    | cons x xs => simp at hsplit

/-- Witness of C10 (amended): the want-list of the single descriptor
`example.org/v1` `Foo` against an empty registry fails with the error naming
that descriptor, which has no match. -/
theorem crdListFulfilled_error_names_first_missing_witness :
    crdListFulfilled [⟨"example.org/v1", "Foo"⟩] [] =
      some (Err.Errorf "Missing CRD with APIVersion %q and Kind %q" ["example.org/v1", "Foo"]) ∧
    ([] : List CustomResourceDefinition).any
      (descriptorMatches ⟨"example.org/v1", "Foo"⟩) = false :=
  ⟨by decide,
    (crdListFulfilled_error_names_first_missing [⟨"example.org/v1", "Foo"⟩] []
      (Err.Errorf "Missing CRD with APIVersion %q and Kind %q" ["example.org/v1", "Foo"])
      (by decide)).2.1 ⟨"example.org/v1", "Foo"⟩ (by decide) (by decide)⟩

/-! ## RBAC provisioning (C4) -/

theorem any_eq_false_of_forall {α : Type} (l : List α) (p : α → Prop) [DecidablePred p]
    (h : ∀ x ∈ l, ¬ p x) : (l.any fun x => decide (p x)) = false := by
  rw [List.any_eq_false]
  intro x hx
  simpa using h x hx

theorem createServiceAccount_fresh (F : Faults) (id : ClusterId) (o : ServiceAccount)
    (w : World)
    (hF : F w.log ⟨id, Verb.create, Kind.ServiceAccount, o.Namespace, o.Name, []⟩ = none)
    (hfresh : ∀ x ∈ (w.cluster id).ServiceAccounts,
      ¬ (x.Namespace = o.Namespace ∧ x.Name = o.Name)) :
    createServiceAccount F id o w =
      (none, (w.record ⟨id, Verb.create, Kind.ServiceAccount, o.Namespace, o.Name, []⟩).setCluster
        id { w.cluster id with ServiceAccounts := (w.cluster id).ServiceAccounts ++ [o] }) := by
  unfold createServiceAccount
  rw [issue_of_none _ _ _ _ hF]
  simp only [any_eq_false_of_forall _ _ hfresh]
  rfl

theorem createClusterRole_fresh (F : Faults) (id : ClusterId) (o : ClusterRole) (w : World)
    (hF : F w.log ⟨id, Verb.create, Kind.ClusterRole, "", o.Name, []⟩ = none)
    (hfresh : ∀ x ∈ (w.cluster id).ClusterRoles, ¬ x.Name = o.Name) :
    createClusterRole F id o w =
      (none, (w.record ⟨id, Verb.create, Kind.ClusterRole, "", o.Name, []⟩).setCluster
        id { w.cluster id with ClusterRoles := (w.cluster id).ClusterRoles ++ [o] }) := by
  unfold createClusterRole
  rw [issue_of_none _ _ _ _ hF]
  simp only [any_eq_false_of_forall _ _ hfresh]
  rfl

theorem createRoleBinding_fresh (F : Faults) (id : ClusterId) (o : RoleBinding) (w : World)
    (hF : F w.log ⟨id, Verb.create, Kind.RoleBinding, o.Namespace, o.Name, []⟩ = none)
    (hfresh : ∀ x ∈ (w.cluster id).RoleBindings,
      ¬ (x.Namespace = o.Namespace ∧ x.Name = o.Name)) :
    createRoleBinding F id o w =
      (none, (w.record ⟨id, Verb.create, Kind.RoleBinding, o.Namespace, o.Name, []⟩).setCluster
        id { w.cluster id with RoleBindings := (w.cluster id).RoleBindings ++ [o] }) := by
  unfold createRoleBinding
  rw [issue_of_none _ _ _ _ hF]
  simp only [any_eq_false_of_forall _ _ hfresh]
  rfl

theorem createClusterRoleBindingObject_fresh (F : Faults) (id : ClusterId)
    (o : ClusterRoleBinding) (w : World)
    (hF : F w.log ⟨id, Verb.create, Kind.ClusterRoleBinding, "", o.Name, []⟩ = none)
    (hfresh : ∀ x ∈ (w.cluster id).ClusterRoleBindings, ¬ x.Name = o.Name) :
    createClusterRoleBindingObject F id o w =
      (none, (w.record ⟨id, Verb.create, Kind.ClusterRoleBinding, "", o.Name, []⟩).setCluster
        id { w.cluster id with
             ClusterRoleBindings := (w.cluster id).ClusterRoleBindings ++ [o] }) := by
  unfold createClusterRoleBindingObject
  rw [issue_of_none _ _ _ _ hF]
  simp only [any_eq_false_of_forall _ _ hfresh]
  rfl

/-- C4: for a Stack with a non-empty rule set and a scope among unset,
namespaced and cluster, when every create succeeds (no fault, and the objects
are new) `processRBAC` returns no error and issues three creates: the service
account, the system ClusterRole, and one binding. With scope cluster the
binding is a ClusterRoleBinding and the RoleBindings are unchanged; with
scope namespaced or unset it is a RoleBinding in the install namespace and
the ClusterRoleBindings are unchanged. Either binding refers to the system
ClusterRole just created and has the Stack's ServiceAccount as only
subject. -/
theorem processRBAC_creates_one_binding (env : Env) (h : stackHandler) (w : World)
    (hrules : h.ext.Spec.PermissionRules ≠ [])
    (hscope : h.ext.Spec.PermissionScope = "" ∨ h.ext.Spec.PermissionScope = "Namespaced" ∨
      h.ext.Spec.PermissionScope = "Cluster")
    (hF : ∀ l c, c.verb = Verb.create → env.faults l c = none)
    (hsa : ∀ x ∈ (w.cluster h.kube).ServiceAccounts,
      ¬ (x.Namespace = h.ext.Namespace ∧ x.Name = h.ext.Name))
    (hcr : ∀ x ∈ (w.cluster h.kube).ClusterRoles,
      ¬ x.Name = env.deps.PersonaRoleName h.ext "system")
    (hrb : h.ext.Spec.PermissionScope ≠ "Cluster" →
      ∀ x ∈ (w.cluster h.kube).RoleBindings,
        ¬ (x.Namespace = h.ext.Namespace ∧ x.Name = h.ext.Name))
    (hcrb : h.ext.Spec.PermissionScope = "Cluster" →
      ∀ x ∈ (w.cluster h.kube).ClusterRoleBindings, ¬ x.Name = h.ext.Name) :
    (processRBAC env h w).1 = none ∧
    ((processRBAC env h w).2.cluster h.kube).ClusterRoles =
      (w.cluster h.kube).ClusterRoles ++
        [{ Name := env.deps.PersonaRoleName h.ext "system",
           Labels := env.deps.ParentLabels h.ext,
           Rules := h.ext.Spec.PermissionRules }] ∧
    (h.ext.Spec.PermissionScope = "Cluster" →
      ((processRBAC env h w).2.cluster h.kube).ClusterRoleBindings =
        (w.cluster h.kube).ClusterRoleBindings ++
          [{ Name := h.ext.Name, Labels := env.deps.ParentLabels h.ext,
             RoleRef := { APIGroup := "rbac.authorization.k8s.io", Kind := "ClusterRole",
                          Name := env.deps.PersonaRoleName h.ext "system" },
             Subjects := [{ Kind := "ServiceAccount", Name := h.ext.Name,
                            Namespace := h.ext.Namespace }] }] ∧
      ((processRBAC env h w).2.cluster h.kube).RoleBindings = (w.cluster h.kube).RoleBindings ∧
      (processRBAC env h w).2.log = w.log ++
        [⟨h.kube, Verb.create, Kind.ServiceAccount, h.ext.Namespace, h.ext.Name, []⟩,
         ⟨h.kube, Verb.create, Kind.ClusterRole, "", env.deps.PersonaRoleName h.ext "system", []⟩,
         ⟨h.kube, Verb.create, Kind.ClusterRoleBinding, "", h.ext.Name, []⟩]) ∧
    (h.ext.Spec.PermissionScope ≠ "Cluster" →
      ((processRBAC env h w).2.cluster h.kube).RoleBindings =
        (w.cluster h.kube).RoleBindings ++
          [{ Name := h.ext.Name, Namespace := h.ext.Namespace,
             OwnerReferences :=
               [AsOwner (ReferenceToStack h.ext env.deps.StackGroupVersionKind)],
             RoleRef := { APIGroup := "rbac.authorization.k8s.io", Kind := "ClusterRole",
                          Name := env.deps.PersonaRoleName h.ext "system" },
             Subjects := [{ Kind := "ServiceAccount", Name := h.ext.Name,
                            Namespace := h.ext.Namespace }] }] ∧
      ((processRBAC env h w).2.cluster h.kube).ClusterRoleBindings =
        (w.cluster h.kube).ClusterRoleBindings ∧
      (processRBAC env h w).2.log = w.log ++
        [⟨h.kube, Verb.create, Kind.ServiceAccount, h.ext.Namespace, h.ext.Name, []⟩,
         ⟨h.kube, Verb.create, Kind.ClusterRole, "", env.deps.PersonaRoleName h.ext "system", []⟩,
         ⟨h.kube, Verb.create, Kind.RoleBinding, h.ext.Namespace, h.ext.Name, []⟩]) := by
  have hlen : ¬ h.ext.Spec.PermissionRules.length = 0 := by
    intro h0
    exact hrules (List.length_eq_zero.1 h0)
  have hsa' : ¬ ∃ x ∈ (w.cluster h.kube).ServiceAccounts,
      x.Namespace = h.ext.Namespace ∧ x.Name = h.ext.Name := by
    rintro ⟨x, hx, hh⟩
    exact hsa x hx hh
  have hcr' : ¬ ∃ x ∈ (w.cluster h.kube).ClusterRoles,
      x.Name = env.deps.PersonaRoleName h.ext "system" := by
    rintro ⟨x, hx, hh⟩
    exact hcr x hx hh
  by_cases hc : h.ext.Spec.PermissionScope = "Cluster"
  · have hcrb' : ¬ ∃ x ∈ (w.cluster h.kube).ClusterRoleBindings, x.Name = h.ext.Name := by
      rintro ⟨x, hx, hh⟩
      exact hcrb hc x hx hh
    simp [processRBAC, hlen, createDeploymentClusterRole, createClusterRoleBinding,
      createServiceAccount, createClusterRole, createClusterRoleBindingObject, issue, hF,
      hsa', hcr', hcrb', hc, ClusterScoped, setCluster_cluster, IsAlreadyExists,
      rbacGroupName, ServiceAccountKind]
  · have hns : h.ext.Spec.PermissionScope = "" ∨ h.ext.Spec.PermissionScope = "Namespaced" := by
      rcases hscope with h1 | h1 | h1
      · exact Or.inl h1
      · exact Or.inr h1
      · exact absurd h1 hc
    have hrb' : ¬ ∃ x ∈ (w.cluster h.kube).RoleBindings,
        x.Namespace = h.ext.Namespace ∧ x.Name = h.ext.Name := by
      rintro ⟨x, hx, hh⟩
      exact hrb hc x hx hh
    simp [processRBAC, hlen, createDeploymentClusterRole, createNamespacedRoleBinding,
      createServiceAccount, createClusterRole, createRoleBinding, issue, hF,
      hsa', hcr', hrb', hc, hns, ClusterScoped, NamespaceScoped, setCluster_cluster,
      IsAlreadyExists, rbacGroupName, ServiceAccountKind]

/-- Witness of C4: for `stackA` (scope unset) in a cluster without RBAC
objects, `processRBAC` adds one RoleBinding in namespace `ns` and no
ClusterRoleBinding. -/
theorem processRBAC_creates_one_binding_witness :
    ((processRBAC exampleEnv handlerA worldNoCRD).2.cluster ClusterId.tenant).RoleBindings =
      [{ Name := "a", Namespace := "ns",
         OwnerReferences := [{ APIVersion := "stacks.crossplane.io/v1alpha1", Kind := "Stack",
                               Name := "a", UID := "uid-a" }],
         RoleRef := { APIGroup := "rbac.authorization.k8s.io", Kind := "ClusterRole",
                      Name := "stack:ns:a::system" },
         Subjects := [{ Kind := "ServiceAccount", Name := "a", Namespace := "ns" }] }] ∧
    ((processRBAC exampleEnv handlerA worldNoCRD).2.cluster ClusterId.tenant).ClusterRoleBindings
      = [] :=
  have t := (processRBAC_creates_one_binding exampleEnv handlerA worldNoCRD (by decide)
    (Or.inl rfl) (fun _ _ _ => rfl) (by decide) (by decide) (fun _ => by decide)
    (fun _ => by decide)).2.2.2 (by decide)
  ⟨t.1, t.2.1⟩

/-! ## Traces -/

theorem callsOnly_refl (P : Call → Prop) (w : World) : CallsOnly P w w :=
  ⟨[], by simp, by simp⟩

theorem callsOnly_trans {P : Call → Prop} {w1 w2 w3 : World}
    (h12 : CallsOnly P w1 w2) (h23 : CallsOnly P w2 w3) : CallsOnly P w1 w3 := by
  obtain ⟨c1, e1, p1⟩ := h12
  obtain ⟨c2, e2, p2⟩ := h23
  refine ⟨c1 ++ c2, by rw [e2, e1, List.append_assoc], ?_⟩
  intro c hc
  rcases List.mem_append.1 hc with hc | hc
  · exact p1 c hc
  · exact p2 c hc

theorem callsOnly_mono {P Q : Call → Prop} {w1 w2 : World} (hPQ : ∀ c, P c → Q c)
    (h : CallsOnly P w1 w2) : CallsOnly Q w1 w2 := by
  obtain ⟨c1, e1, p1⟩ := h
  exact ⟨c1, e1, fun c hc => hPQ c (p1 c hc)⟩

theorem callsOnly_issue (P : Call → Prop) (F : Faults) (w : World) (c : Call)
    (serve : Cluster → Option ApiErr × Cluster) (hc : P c) :
    CallsOnly P w (issue F w c serve).2 :=
  ⟨[c], issue_log F w c serve, by simpa using hc⟩

theorem callsOnly_issueRead {α : Type} (P : Call → Prop) (F : Faults) (w : World) (c : Call)
    (read : Cluster → Except ApiErr α) (hc : P c) :
    CallsOnly P w (issueRead F w c read).2 := by
  rw [issueRead_world]
  exact ⟨[c], rfl, by simpa using hc⟩

/-! ## Conditions and `fail` -/

theorem mem_setCondition (cs : List Condition) (new : Condition) :
    new ∈ setCondition cs new := by
  unfold setCondition
  by_cases h : (cs.any fun c => decide (c.Type = new.Type)) = true
  · rw [if_pos h]
    obtain ⟨c, hc, ht⟩ := List.any_eq_true.1 h
    refine List.mem_map.2 ⟨c, hc, ?_⟩
    simp only [decide_eq_true_eq] at ht
    simp [ht]
  · rw [if_neg h]
    simp

theorem stacks_key_finalizers_issue_status (F : Faults) (w : World) (id : ClusterId)
    (o : Stack) (id' : ClusterId) :
    (((statusUpdateStack F id o w).2.cluster id').Stacks.map
        fun s => (s.Namespace, s.Name, s.Finalizers)) =
      ((w.cluster id').Stacks.map fun s => (s.Namespace, s.Name, s.Finalizers)) := by
  unfold statusUpdateStack
  refine issue_frame (fun cl => cl.Stacks.map fun s => (s.Namespace, s.Name, s.Finalizers))
    F w _ _ ?_ id'
  intro cl
  by_cases hany : (cl.Stacks.any fun x => decide (x.Namespace = o.Namespace ∧ x.Name = o.Name))
      = true
  · simp only [hany, if_true, List.map_map]
    apply List.map_congr_left
    intro s _
    by_cases hk : s.Namespace = o.Namespace ∧ s.Name = o.Name
    · simp [hk]
    · simp [hk]
  · simp only [hany]
    rfl

theorem statusUpdateStack_persisted (F : Faults) (w : World) (id : ClusterId) (o : Stack)
    (hok : (statusUpdateStack F id o w).1 = none) :
    (∃ s ∈ ((statusUpdateStack F id o w).2.cluster id).Stacks,
      s.Namespace = o.Namespace ∧ s.Name = o.Name) ∧
    ∀ s ∈ ((statusUpdateStack F id o w).2.cluster id).Stacks,
      s.Namespace = o.Namespace → s.Name = o.Name → s.Status = o.Status := by
  unfold statusUpdateStack issue at hok ⊢
  cases hF : F w.log ⟨id, Verb.statusUpdate, Kind.Stack, o.Namespace, o.Name, []⟩ with
  | some e => simp [hF] at hok
  | none =>
    simp only [hF, Call.client] at hok ⊢
    by_cases hany : ((w.cluster id).Stacks.any
        fun x => decide (x.Namespace = o.Namespace ∧ x.Name = o.Name)) = true
    · simp only [hany, if_true, setCluster_cluster_same]
      constructor
      · obtain ⟨x, hx, hkey⟩ := List.any_eq_true.1 hany
        simp only [decide_eq_true_eq] at hkey
        refine ⟨{ x with Status := o.Status }, List.mem_map.2 ⟨x, hx, by simp [hkey]⟩, hkey⟩
      · intro s hs hn hm
        obtain ⟨x, _, rfl⟩ := List.mem_map.1 hs
        by_cases hk : x.Namespace = o.Namespace ∧ x.Name = o.Name
        · simp [hk]
        · rw [if_neg hk] at hn hm
          exact absurd ⟨hn, hm⟩ hk
    · exfalso
      rw [if_neg hany] at hok
      simp at hok

theorem SetConditions_finalizers (o : Stack) (c : List Condition) :
    (SetConditions o c).Finalizers = o.Finalizers := rfl

theorem SetConditions_key (o : Stack) (c : List Condition) :
    (SetConditions o c).Namespace = o.Namespace ∧ (SetConditions o c).Name = o.Name :=
  ⟨rfl, rfl⟩

/-- What `fail` does, for a handler's own Stack: see `TeardownStopped`. The
finalizer clause is stated against any earlier world `w` whose live Stacks
have the finalizers of `wk`. -/
theorem fail_stops (env : Env) (h : stackHandler) (err : Err) (w wk : World)
    (hframe : ∀ id, ((wk.cluster id).Stacks.map fun s => (s.Namespace, s.Name, s.Finalizers)) =
      ((w.cluster id).Stacks.map fun s => (s.Namespace, s.Name, s.Finalizers))) :
    TeardownStopped h err w wk (fail env h.kube h.ext err wk) := by
  refine ⟨rfl, rfl, ?_, rfl, ?_, ?_, ?_⟩
  · show Condition.ReconcileError err ∈
      [Condition.ReconcileError err].foldl setCondition h.ext.Status.Conditions
    exact mem_setCondition _ _
  · show (statusUpdateStack env.faults h.kube _ wk).2.log = _
    unfold statusUpdateStack
    rw [issue_log]
    rfl
  · intro id
    show (((statusUpdateStack env.faults h.kube _ wk).2.cluster id).Stacks.map _) = _
    rw [stacks_key_finalizers_issue_status, hframe]
  · intro hok
    exact statusUpdateStack_persisted env.faults wk h.kube _ hok

/-! ## Frame: teardown steps leave the live Stacks alone -/

theorem deleteAllOfDeployments_stacks (F : Faults) (id : ClusterId) (l : StringMap)
    (ns : String) (w : World) (id' : ClusterId) :
    ((deleteAllOfDeployments F id l ns w).2.cluster id').Stacks = (w.cluster id').Stacks :=
  issue_frame (fun cl => cl.Stacks) F w _ _ (fun _ => rfl) id'

theorem deleteAllOfJobs_stacks (F : Faults) (id : ClusterId) (l : StringMap)
    (ns : String) (w : World) (id' : ClusterId) :
    ((deleteAllOfJobs F id l ns w).2.cluster id').Stacks = (w.cluster id').Stacks :=
  issue_frame (fun cl => cl.Stacks) F w _ _ (fun _ => rfl) id'

theorem deleteAllOfClusterRoles_stacks (F : Faults) (id : ClusterId) (l : StringMap)
    (w : World) (id' : ClusterId) :
    ((deleteAllOfClusterRoles F id l w).2.cluster id').Stacks = (w.cluster id').Stacks :=
  issue_frame (fun cl => cl.Stacks) F w _ _ (fun _ => rfl) id'

theorem deleteAllOfClusterRoleBindings_stacks (F : Faults) (id : ClusterId) (l : StringMap)
    (w : World) (id' : ClusterId) :
    ((deleteAllOfClusterRoleBindings F id l w).2.cluster id').Stacks =
      (w.cluster id').Stacks :=
  issue_frame (fun cl => cl.Stacks) F w _ _ (fun _ => rfl) id'

theorem patchCRD_stacks (F : Faults) (id : ClusterId) (orig modified : CustomResourceDefinition)
    (w : World) (id' : ClusterId) :
    ((patchCRD F id orig modified w).2.cluster id').Stacks = (w.cluster id').Stacks := by
  unfold patchCRD
  refine issue_frame (fun cl => cl.Stacks) F w _ _ ?_ id'
  intro cl
  split <;> rfl

theorem crdsFromStack_world (env : Env) (h : stackHandler) (w : World) :
    (crdsFromStack env h w).2 = w ∨
    (crdsFromStack env h w).2 =
      w.record ⟨h.kube, Verb.list, Kind.CustomResourceDefinition, "", "", []⟩ := by
  unfold crdsFromStack
  by_cases h0 : h.ext.Spec.CRDs.length = 0
  · left
    simp [h0]
  · right
    rw [if_neg h0]
    have hw := issueRead_world env.faults w
      ⟨h.kube, Verb.list, Kind.CustomResourceDefinition, "", "", []⟩
      (fun cl => Except.ok cl.CRDs)
    unfold listCRDs
    generalize issueRead env.faults w
      ⟨h.kube, Verb.list, Kind.CustomResourceDefinition, "", "", []⟩
      (fun cl => (Except.ok cl.CRDs : Except ApiErr _)) = r at hw
    obtain ⟨res, w1⟩ := r
    cases res <;> exact hw

theorem crdsFromStack_cluster (env : Env) (h : stackHandler) (w : World) (id : ClusterId) :
    (crdsFromStack env h w).2.cluster id = w.cluster id := by
  rcases crdsFromStack_world env h w with e | e <;> rw [e]
  exact record_cluster _ _ _

theorem removeCRDLabels_loop_stacks (env : Env) (h : stackHandler)
    (crds : List CustomResourceDefinition) (w : World) (id : ClusterId) :
    ((removeCRDLabels.loop env h crds w).2.cluster id).Stacks = (w.cluster id).Stacks := by
  induction crds generalizing w with
  | nil => rfl
  | cons crd rest ih =>
    unfold removeCRDLabels.loop
    split
    · exact ih w
    · split
      · next err w1 heq =>
        have hw1 := congrArg Prod.snd heq
        simp only [] at hw1
        rw [← hw1]
        exact patchCRD_stacks _ _ _ _ _ _
      · next w1 heq =>
        have hw1 := congrArg Prod.snd heq
        simp only [] at hw1
        rw [ih w1, ← hw1]
        exact patchCRD_stacks _ _ _ _ _ _

theorem removeCRDLabels_stacks (env : Env) (h : stackHandler) (w : World) (id : ClusterId) :
    ((removeCRDLabels env h w).2.cluster id).Stacks = (w.cluster id).Stacks := by
  unfold removeCRDLabels
  have hc := crdsFromStack_cluster env h w id
  generalize crdsFromStack env h w = r at hc
  obtain ⟨res, w1⟩ := r
  cases res with
  | error e => simp only []; rw [hc]
  | ok crds =>
    simp only []
    rw [removeCRDLabels_loop_stacks, hc]

/-! ## Teardown stops at the failing step (C6) -/

theorem stacks_frame_of_eq {w w' : World}
    (hst : ∀ id, (w'.cluster id).Stacks = (w.cluster id).Stacks) :
    ∀ id, ((w'.cluster id).Stacks.map fun s => (s.Namespace, s.Name, s.Finalizers)) =
      ((w.cluster id).Stacks.map fun s => (s.Namespace, s.Name, s.Finalizers)) :=
  fun id => by rw [hst id]

theorem IgnoreNotFound_some (e : Err) (h : IsNotFound (some e) = false) :
    IgnoreNotFound (some e) = some e := by
  simp [IgnoreNotFound, h]

/-- C6: in a teardown, when one of the steps delete Deployments, delete Jobs,
delete ClusterRoles, delete ClusterRoleBindings (each after the earlier ones
passed, that is returned nil or not-found) returns an error `e` other than
not-found, or the schema label release returns an error `e`, the teardown
stops there: `delete` is `fail` on that error in the world the failing step
left; a retry is requested, the `ReconcileError(e)` condition is set on the
Stack and handed to the status update, which is the only call issued after
the failing step; the finalizers of the Stack in memory and of every live
Stack are unchanged. -/
theorem delete_stops_at_failing_step (env : Env) (h : stackHandler) (w : World) (e : Err) :
    (∀ w1,
      deleteAllOfDeployments env.faults h.hostKube (env.deps.ParentLabels h.ext)
        (stackControllerNamespace h) w = (some e, w1) →
      IsNotFound (some e) = false →
      delete env h w = fail env h.kube h.ext e w1 ∧
        TeardownStopped h e w w1 (delete env h w)) ∧
    (∀ err1 w1 w2,
      deleteAllOfDeployments env.faults h.hostKube (env.deps.ParentLabels h.ext)
        (stackControllerNamespace h) w = (err1, w1) →
      IgnoreNotFound err1 = none →
      deleteAllOfJobs env.faults h.hostKube (env.deps.ParentLabels h.ext)
        (stackControllerNamespace h) w1 = (some e, w2) →
      IsNotFound (some e) = false →
      delete env h w = fail env h.kube h.ext e w2 ∧
        TeardownStopped h e w w2 (delete env h w)) ∧
    (∀ err1 w1 err2 w2 w3,
      deleteAllOfDeployments env.faults h.hostKube (env.deps.ParentLabels h.ext)
        (stackControllerNamespace h) w = (err1, w1) →
      IgnoreNotFound err1 = none →
      deleteAllOfJobs env.faults h.hostKube (env.deps.ParentLabels h.ext)
        (stackControllerNamespace h) w1 = (err2, w2) →
      IgnoreNotFound err2 = none →
      deleteAllOfClusterRoles env.faults h.kube (env.deps.ParentLabels h.ext) w2 =
        (some e, w3) →
      IsNotFound (some e) = false →
      delete env h w = fail env h.kube h.ext e w3 ∧
        TeardownStopped h e w w3 (delete env h w)) ∧
    (∀ err1 w1 err2 w2 err3 w3 w4,
      deleteAllOfDeployments env.faults h.hostKube (env.deps.ParentLabels h.ext)
        (stackControllerNamespace h) w = (err1, w1) →
      IgnoreNotFound err1 = none →
      deleteAllOfJobs env.faults h.hostKube (env.deps.ParentLabels h.ext)
        (stackControllerNamespace h) w1 = (err2, w2) →
      IgnoreNotFound err2 = none →
      deleteAllOfClusterRoles env.faults h.kube (env.deps.ParentLabels h.ext) w2 =
        (err3, w3) →
      IgnoreNotFound err3 = none →
      deleteAllOfClusterRoleBindings env.faults h.kube (env.deps.ParentLabels h.ext) w3 =
        (some e, w4) →
      IsNotFound (some e) = false →
      delete env h w = fail env h.kube h.ext e w4 ∧
        TeardownStopped h e w w4 (delete env h w) ∧
        (stacksFinalizer ∈ h.ext.Finalizers →
          stacksFinalizer ∈ (delete env h w).2.1.Finalizers)) ∧
    (∀ err1 w1 err2 w2 err3 w3 err4 w4 w5,
      deleteAllOfDeployments env.faults h.hostKube (env.deps.ParentLabels h.ext)
        (stackControllerNamespace h) w = (err1, w1) →
      IgnoreNotFound err1 = none →
      deleteAllOfJobs env.faults h.hostKube (env.deps.ParentLabels h.ext)
        (stackControllerNamespace h) w1 = (err2, w2) →
      IgnoreNotFound err2 = none →
      deleteAllOfClusterRoles env.faults h.kube (env.deps.ParentLabels h.ext) w2 =
        (err3, w3) →
      IgnoreNotFound err3 = none →
      deleteAllOfClusterRoleBindings env.faults h.kube (env.deps.ParentLabels h.ext) w3 =
        (err4, w4) →
      IgnoreNotFound err4 = none →
      removeCRDLabels env h w4 = (some e, w5) →
      delete env h w = fail env h.kube h.ext e w5 ∧
        TeardownStopped h e w w5 (delete env h w)) := by
  refine ⟨?_, ?_, ?_, ?_, ?_⟩
  · intro w1 e1 hnf
    have hd : delete env h w = fail env h.kube h.ext e w1 := by
      simp [delete, e1, IgnoreNotFound_some e hnf]
    refine ⟨hd, ?_⟩
    rw [hd]
    apply fail_stops
    apply stacks_frame_of_eq
    intro id
    have h1 := deleteAllOfDeployments_stacks env.faults h.hostKube
      (env.deps.ParentLabels h.ext) (stackControllerNamespace h) w id
    rw [e1] at h1
    exact h1
  · intro err1 w1 w2 e1 n1 e2 hnf
    have hd : delete env h w = fail env h.kube h.ext e w2 := by
      simp [delete, e1, n1, e2, IgnoreNotFound_some e hnf]
    refine ⟨hd, ?_⟩
    rw [hd]
    apply fail_stops
    apply stacks_frame_of_eq
    intro id
    have h1 := deleteAllOfDeployments_stacks env.faults h.hostKube
      (env.deps.ParentLabels h.ext) (stackControllerNamespace h) w id
    have h2 := deleteAllOfJobs_stacks env.faults h.hostKube
      (env.deps.ParentLabels h.ext) (stackControllerNamespace h) w1 id
    rw [e1] at h1
    rw [e2] at h2
    exact h2.trans h1
  · intro err1 w1 err2 w2 w3 e1 n1 e2 n2 e3 hnf
    have hd : delete env h w = fail env h.kube h.ext e w3 := by
      simp [delete, e1, n1, e2, n2, e3, IgnoreNotFound_some e hnf]
    refine ⟨hd, ?_⟩
    rw [hd]
    apply fail_stops
    apply stacks_frame_of_eq
    intro id
    have h1 := deleteAllOfDeployments_stacks env.faults h.hostKube
      (env.deps.ParentLabels h.ext) (stackControllerNamespace h) w id
    have h2 := deleteAllOfJobs_stacks env.faults h.hostKube
      (env.deps.ParentLabels h.ext) (stackControllerNamespace h) w1 id
    have h3 := deleteAllOfClusterRoles_stacks env.faults h.kube
      (env.deps.ParentLabels h.ext) w2 id
    rw [e1] at h1
    rw [e2] at h2
    rw [e3] at h3
    exact h3.trans (h2.trans h1)
  · intro err1 w1 err2 w2 err3 w3 w4 e1 n1 e2 n2 e3 n3 e4 hnf
    have hd : delete env h w = fail env h.kube h.ext e w4 := by
      simp [delete, e1, n1, e2, n2, e3, n3, e4, IgnoreNotFound_some e hnf]
    refine ⟨hd, ?_, ?_⟩
    · rw [hd]
      apply fail_stops
      apply stacks_frame_of_eq
      intro id
      have h1 := deleteAllOfDeployments_stacks env.faults h.hostKube
        (env.deps.ParentLabels h.ext) (stackControllerNamespace h) w id
      have h2 := deleteAllOfJobs_stacks env.faults h.hostKube
        (env.deps.ParentLabels h.ext) (stackControllerNamespace h) w1 id
      have h3 := deleteAllOfClusterRoles_stacks env.faults h.kube
        (env.deps.ParentLabels h.ext) w2 id
      have h4 := deleteAllOfClusterRoleBindings_stacks env.faults h.kube
        (env.deps.ParentLabels h.ext) w3 id
      rw [e1] at h1
      rw [e2] at h2
      rw [e3] at h3
      rw [e4] at h4
      exact h4.trans (h3.trans (h2.trans h1))
    · intro hfin
      rw [hd]
      exact hfin
  · intro err1 w1 err2 w2 err3 w3 err4 w4 w5 e1 n1 e2 n2 e3 n3 e4 n4 e5
    have hd : delete env h w = fail env h.kube h.ext e w5 := by
      simp [delete, e1, n1, e2, n2, e3, n3, e4, n4, e5]
    refine ⟨hd, ?_⟩
    rw [hd]
    apply fail_stops
    apply stacks_frame_of_eq
    intro id
    have h1 := deleteAllOfDeployments_stacks env.faults h.hostKube
      (env.deps.ParentLabels h.ext) (stackControllerNamespace h) w id
    have h2 := deleteAllOfJobs_stacks env.faults h.hostKube
      (env.deps.ParentLabels h.ext) (stackControllerNamespace h) w1 id
    have h3 := deleteAllOfClusterRoles_stacks env.faults h.kube
      (env.deps.ParentLabels h.ext) w2 id
    have h4 := deleteAllOfClusterRoleBindings_stacks env.faults h.kube
      (env.deps.ParentLabels h.ext) w3 id
    have h5 := removeCRDLabels_stacks env h w4 id
    rw [e1] at h1
    rw [e2] at h2
    rw [e3] at h3
    rw [e4] at h4
    rw [e5] at h5
    exact h5.trans (h4.trans (h3.trans (h2.trans h1)))

/-- Witness of C6: with every ClusterRoleBinding delete failing on an
internal error, the teardown of `stackDeleting` stops at that step; the
finalizer stays on the Stack and a retry is requested. -/
theorem delete_stops_at_failing_step_witness :
    stacksFinalizer ∈ (delete envCRBDeleteFails handlerDeleting worldDeleting).2.1.Finalizers ∧
    (delete envCRBDeleteFails handlerDeleting worldDeleting).1.1 = resultRequeue ∧
    Condition.ReconcileError (Err.Api (ApiErr.Other "internal error")) ∈
      (delete envCRBDeleteFails handlerDeleting worldDeleting).2.1.Status.Conditions :=
  have t := (delete_stops_at_failing_step envCRBDeleteFails handlerDeleting worldDeleting
    (Err.Api (ApiErr.Other "internal error"))).2.2.2.1
      none
      (deleteAllOfDeployments faultsCRBDelete ClusterId.tenant
        (exampleDeps.ParentLabels stackDeleting) "ns" worldDeleting).2
      none
      (deleteAllOfJobs faultsCRBDelete ClusterId.tenant
        (exampleDeps.ParentLabels stackDeleting) "ns"
        (deleteAllOfDeployments faultsCRBDelete ClusterId.tenant
          (exampleDeps.ParentLabels stackDeleting) "ns" worldDeleting).2).2
      none
      (deleteAllOfClusterRoles faultsCRBDelete ClusterId.tenant
        (exampleDeps.ParentLabels stackDeleting)
        (deleteAllOfJobs faultsCRBDelete ClusterId.tenant
          (exampleDeps.ParentLabels stackDeleting) "ns"
          (deleteAllOfDeployments faultsCRBDelete ClusterId.tenant
            (exampleDeps.ParentLabels stackDeleting) "ns" worldDeleting).2).2).2
      (deleteAllOfClusterRoleBindings faultsCRBDelete ClusterId.tenant
        (exampleDeps.ParentLabels stackDeleting)
        (deleteAllOfClusterRoles faultsCRBDelete ClusterId.tenant
          (exampleDeps.ParentLabels stackDeleting)
          (deleteAllOfJobs faultsCRBDelete ClusterId.tenant
            (exampleDeps.ParentLabels stackDeleting) "ns"
            (deleteAllOfDeployments faultsCRBDelete ClusterId.tenant
              (exampleDeps.ParentLabels stackDeleting) "ns" worldDeleting).2).2).2).2
      rfl rfl rfl rfl rfl rfl rfl rfl
  ⟨t.2.2 (by decide), t.2.1.1, t.2.1.2.2.1⟩

/-! ## Teardown in order (C7) -/

theorem patchCRD_callsOnly (F : Faults) (id : ClusterId)
    (orig modified : CustomResourceDefinition) (w : World) :
    CallsOnly (fun c => c.client = id ∧ c.kind = Kind.CustomResourceDefinition ∧
      (c.verb = Verb.list ∨ c.verb = Verb.patch)) w (patchCRD F id orig modified w).2 :=
  callsOnly_issue _ F w _ _ ⟨rfl, rfl, Or.inr rfl⟩

theorem crdsFromStack_callsOnly (env : Env) (h : stackHandler) (w : World) :
    CallsOnly (fun c => c.client = h.kube ∧ c.kind = Kind.CustomResourceDefinition ∧
      (c.verb = Verb.list ∨ c.verb = Verb.patch)) w (crdsFromStack env h w).2 := by
  rcases crdsFromStack_world env h w with e | e <;> rw [e]
  · exact callsOnly_refl _ _
  · exact ⟨[_], rfl, by simp⟩

theorem removeCRDLabels_loop_callsOnly (env : Env) (h : stackHandler)
    (crds : List CustomResourceDefinition) (w : World) :
    CallsOnly (fun c => c.client = h.kube ∧ c.kind = Kind.CustomResourceDefinition ∧
      (c.verb = Verb.list ∨ c.verb = Verb.patch)) w (removeCRDLabels.loop env h crds w).2 := by
  induction crds generalizing w with
  | nil => exact callsOnly_refl _ _
  | cons crd rest ih =>
    unfold removeCRDLabels.loop
    split
    · exact ih w
    · split
      · next err w1 heq =>
        have hw1 := congrArg Prod.snd heq
        simp only [] at hw1
        rw [← hw1]
        exact patchCRD_callsOnly _ _ _ _ _
      · next w1 heq =>
        have hw1 := congrArg Prod.snd heq
        simp only [] at hw1
        refine callsOnly_trans ?_ (ih w1)
        rw [← hw1]
        exact patchCRD_callsOnly _ _ _ _ _

theorem removeCRDLabels_callsOnly (env : Env) (h : stackHandler) (w : World) :
    CallsOnly (fun c => c.client = h.kube ∧ c.kind = Kind.CustomResourceDefinition ∧
      (c.verb = Verb.list ∨ c.verb = Verb.patch)) w (removeCRDLabels env h w).2 := by
  unfold removeCRDLabels
  have hc := crdsFromStack_callsOnly env h w
  generalize crdsFromStack env h w = r at hc
  obtain ⟨res, w1⟩ := r
  cases res with
  | error e => exact hc
  | ok crds => exact callsOnly_trans hc (removeCRDLabels_loop_callsOnly env h crds w1)

theorem updateStack_persisted (F : Faults) (w : World) (id : ClusterId) (o : Stack)
    (hok : (updateStack F id o w).1 = none) :
    (∃ s ∈ ((updateStack F id o w).2.cluster id).Stacks,
      s.Namespace = o.Namespace ∧ s.Name = o.Name) ∧
    ∀ s ∈ ((updateStack F id o w).2.cluster id).Stacks,
      s.Namespace = o.Namespace → s.Name = o.Name → s.Finalizers = o.Finalizers := by
  unfold updateStack issue at hok ⊢
  cases hF : F w.log ⟨id, Verb.update, Kind.Stack, o.Namespace, o.Name, []⟩ with
  | some e => simp [hF] at hok
  | none =>
    simp only [hF, Call.client] at hok ⊢
    by_cases hany : ((w.cluster id).Stacks.any
        fun x => decide (x.Namespace = o.Namespace ∧ x.Name = o.Name)) = true
    · simp only [hany, if_true, setCluster_cluster_same]
      constructor
      · obtain ⟨x, hx, hkey⟩ := List.any_eq_true.1 hany
        simp only [decide_eq_true_eq] at hkey
        exact ⟨{ o with Status := x.Status }, List.mem_map.2 ⟨x, hx, by simp [hkey]⟩, rfl, rfl⟩
      · intro s hs hn hm
        obtain ⟨x, _, rfl⟩ := List.mem_map.1 hs
        by_cases hk : x.Namespace = o.Namespace ∧ x.Name = o.Name
        · simp [hk]
        · rw [if_neg hk] at hn hm
          exact absurd ⟨hn, hm⟩ hk
    · exfalso
      rw [if_neg hany] at hok
      simp at hok

theorem not_mem_RemoveFinalizer (o : Stack) (f : String) :
    f ∉ (RemoveFinalizer o f).Finalizers := by
  simp [RemoveFinalizer]

/-- C7: in a teardown where each of the four delete-by-label steps returns
nil or not-found and the label release and the final update succeed, the
calls are issued in the order Deployments, Jobs (both through the host
client; in host-aware mode in the host controller namespace, otherwise in
the install namespace), ClusterRoles, ClusterRoleBindings (through the
tenant client), all selected by the Stack's parent labels; then come the
calls of the label release (list and patches of schema objects), then the
update of the Stack. The Stack that is updated, and the live Stack
afterwards, no longer carry the finalizer, and `delete` returns the empty
result and no error. -/
theorem delete_runs_in_order (env : Env) (h : stackHandler) (w : World)
    (err1 err2 err3 err4 : Option Err) (w1 w2 w3 w4 w5 w6 : World)
    (e1 : deleteAllOfDeployments env.faults h.hostKube (env.deps.ParentLabels h.ext)
      (stackControllerNamespace h) w = (err1, w1))
    (n1 : IgnoreNotFound err1 = none)
    (e2 : deleteAllOfJobs env.faults h.hostKube (env.deps.ParentLabels h.ext)
      (stackControllerNamespace h) w1 = (err2, w2))
    (n2 : IgnoreNotFound err2 = none)
    (e3 : deleteAllOfClusterRoles env.faults h.kube (env.deps.ParentLabels h.ext) w2 =
      (err3, w3))
    (n3 : IgnoreNotFound err3 = none)
    (e4 : deleteAllOfClusterRoleBindings env.faults h.kube (env.deps.ParentLabels h.ext) w3 =
      (err4, w4))
    (n4 : IgnoreNotFound err4 = none)
    (e5 : removeCRDLabels env h w4 = (none, w5))
    (e6 : updateStack env.faults h.kube (RemoveFinalizer h.ext stacksFinalizer) w5 =
      (none, w6)) :
    delete env h w = ((emptyResult, none), RemoveFinalizer h.ext stacksFinalizer, w6) ∧
    emptyResult = { Requeue := false, RequeueAfter := 0 } ∧
    w4.log = w.log ++
      [⟨h.hostKube, Verb.deleteAllOf, Kind.Deployment, stackControllerNamespace h, "",
          env.deps.ParentLabels h.ext⟩,
       ⟨h.hostKube, Verb.deleteAllOf, Kind.Job, stackControllerNamespace h, "",
          env.deps.ParentLabels h.ext⟩,
       ⟨h.kube, Verb.deleteAllOf, Kind.ClusterRole, "", "", env.deps.ParentLabels h.ext⟩,
       ⟨h.kube, Verb.deleteAllOf, Kind.ClusterRoleBinding, "", "",
          env.deps.ParentLabels h.ext⟩] ∧
    (∀ cfg, h.hostAwareConfig = some cfg →
      stackControllerNamespace h = cfg.HostControllerNamespace) ∧
    (h.hostAwareConfig = none → stackControllerNamespace h = h.ext.Namespace) ∧
    CallsOnly (fun c => c.client = h.kube ∧ c.kind = Kind.CustomResourceDefinition ∧
      (c.verb = Verb.list ∨ c.verb = Verb.patch)) w4 w5 ∧
    w6.log = w5.log ++ [⟨h.kube, Verb.update, Kind.Stack, h.ext.Namespace, h.ext.Name, []⟩] ∧
    stacksFinalizer ∉ (RemoveFinalizer h.ext stacksFinalizer).Finalizers ∧
    (∃ s ∈ (w6.cluster h.kube).Stacks, s.Namespace = h.ext.Namespace ∧ s.Name = h.ext.Name) ∧
    (∀ s ∈ (w6.cluster h.kube).Stacks, s.Namespace = h.ext.Namespace → s.Name = h.ext.Name →
      stacksFinalizer ∉ s.Finalizers) := by
  have hw1 := log_of_issue_eq e1
  have hw2 := log_of_issue_eq e2
  have hw3 := log_of_issue_eq e3
  have hw4 := log_of_issue_eq e4
  have hw5 := removeCRDLabels_callsOnly env h w4
  rw [e5] at hw5
  have hw6 := log_of_issue_eq e6
  have hp := updateStack_persisted env.faults w5 h.kube (RemoveFinalizer h.ext stacksFinalizer)
    (by rw [e6])
  rw [e6] at hp
  refine ⟨?_, rfl, ?_, ?_, ?_, hw5, hw6, not_mem_RemoveFinalizer _ _, hp.1, ?_⟩
  · simp [delete, e1, n1, e2, n2, e3, n3, e4, n4, e5, e6]
  · simp only [] at hw1 hw2 hw3 hw4
    rw [hw4, hw3, hw2, hw1]
    simp
  · intro cfg hcfg
    simp [stackControllerNamespace, hcfg]
  · intro hcfg
    simp [stackControllerNamespace, hcfg]
  · intro s hs hn hm
    rw [hp.2 s hs hn hm]
    exact not_mem_RemoveFinalizer _ _

/-- Witness of C7: the teardown of `stackDeleting` without faults runs to the
end; the live Stack has lost the finalizer. -/
theorem delete_runs_in_order_witness :
    delete exampleEnv handlerDeleting worldDeleting =
      ((emptyResult, none), RemoveFinalizer stackDeleting stacksFinalizer, teardownWorld6) ∧
    (∀ s ∈ (teardownWorld6.cluster ClusterId.tenant).Stacks, s.Namespace = "ns" → s.Name = "a" →
      stacksFinalizer ∉ s.Finalizers) :=
  have t := delete_runs_in_order exampleEnv handlerDeleting worldDeleting none none none none
    teardownWorld1 teardownWorld2 teardownWorld3 teardownWorld4 teardownWorld5 teardownWorld6
    rfl rfl rfl rfl rfl rfl rfl rfl rfl rfl
  ⟨t.1, t.2.2.2.2.2.2.2.2.2⟩

/-! ## The fulfillment check in the creation pipeline (C8, C9) -/

theorem mem_matching (group version kind : String) (items : List CustomResourceDefinition)
    (c : CustomResourceDefinition) :
    c ∈ crdsFromStack.matching group version kind items ↔
      c ∈ items ∧ c.Group = group ∧ c.Kind = kind ∧ version ∈ c.versionNames := by
  induction items with
  | nil => simp [crdsFromStack.matching]
  | cons x rest ih =>
    unfold crdsFromStack.matching
    by_cases hx : x.Group ≠ group ∨ x.Kind ≠ kind ∨ (!crdVersionExists x version) = true
    · rw [if_pos hx, ih]
      constructor
      · rintro ⟨hm, hrest⟩
        exact ⟨List.mem_cons_of_mem _ hm, hrest⟩
      · rintro ⟨hm, hg, hk, hv⟩
        rcases List.mem_cons.1 hm with rfl | hm
        · exfalso
          rcases hx with hx | hx | hx
          · exact hx hg
          · exact hx hk
          · have := (crdVersionExists_iff c version).2 hv
            simp [this] at hx
        · exact ⟨hm, hg, hk, hv⟩
    · rw [if_neg hx]
      have hx' : x.Group = group ∧ x.Kind = kind ∧ version ∈ x.versionNames := by
        refine ⟨?_, ?_, ?_⟩
        · by_contra hg
          exact hx (Or.inl hg)
        · by_contra hk
          exact hx (Or.inr (Or.inl hk))
        · by_contra hv
          apply hx
          right
          right
          have : crdVersionExists x version = false := by
            cases hb : crdVersionExists x version with
            | false => rfl
            | true => exact absurd ((crdVersionExists_iff x version).1 hb) hv
          simp [this]
      rw [List.mem_cons, ih, List.mem_cons]
      constructor
      · rintro (rfl | ⟨hm, hrest⟩)
        · exact ⟨Or.inl rfl, hx'⟩
        · exact ⟨Or.inr hm, hrest⟩
      · rintro ⟨rfl | hm, hrest⟩
        · exact Or.inl rfl
        · exact Or.inr ⟨hm, hrest⟩

theorem mem_collect (items : List CustomResourceDefinition) (want : CRDList)
    (c : CustomResourceDefinition) :
    c ∈ crdsFromStack.collect items want ↔
      c ∈ items ∧ ∃ d ∈ want, descriptorMatches d c = true := by
  induction want with
  | nil => simp [crdsFromStack.collect]
  | cons d rest ih =>
    unfold crdsFromStack.collect
    rw [List.mem_append, mem_matching, ih]
    have hdm : descriptorMatches d c = true ↔
        (c.Group = d.GroupVersionKind.Group ∧ c.Kind = d.GroupVersionKind.Kind ∧
          d.GroupVersionKind.Version ∈ c.versionNames) := by
      simp [descriptorMatches, and_assoc]
    rw [← hdm]
    constructor
    · rintro (⟨hc, hm⟩ | ⟨hc, x, hx, hm⟩)
      · exact ⟨hc, d, List.mem_cons_self _ _, hm⟩
      · exact ⟨hc, x, List.mem_cons_of_mem _ hx, hm⟩
    · rintro ⟨hc, x, hx, hm⟩
      rcases List.mem_cons.1 hx with rfl | hx
      · exact Or.inl ⟨hc, hm⟩
      · exact Or.inr ⟨hc, x, hx, hm⟩

theorem collect_any (items : List CustomResourceDefinition) (want : CRDList) (d : TypeMeta)
    (hd : d ∈ want) :
    (crdsFromStack.collect items want).any (descriptorMatches d) =
      items.any (descriptorMatches d) := by
  rw [Bool.eq_iff_iff, List.any_eq_true, List.any_eq_true]
  constructor
  · rintro ⟨c, hc, hm⟩
    exact ⟨c, ((mem_collect items want c).1 hc).1, hm⟩
  · rintro ⟨c, hc, hm⟩
    exact ⟨c, (mem_collect items want c).2 ⟨hc, d, hd, hm⟩, hm⟩

theorem crdListFulfilled_collect (items : List CustomResourceDefinition) (want : CRDList) :
    crdListFulfilled want (crdsFromStack.collect items want) = crdListFulfilled want items :=
  crdListFulfilled_congr want items _ (fun d hd => collect_any items want d hd)

theorem run_fulfilled_fails (h : stackHandler) (rest : List crdHandler)
    (crds : List CustomResourceDefinition) (w : World) (e : Err)
    (hf : crdListFulfilled h.ext.Spec.CRDs crds = some e) :
    processCRDs.run (createListFulfilledCRDHandler h :: rest) crds w = (some e, w) := by
  simp [processCRDs.run, createListFulfilledCRDHandler, hf]

theorem listCRDs_of_none (F : Faults) (id : ClusterId) (w : World)
    (hF : F w.log ⟨id, Verb.list, Kind.CustomResourceDefinition, "", "", []⟩ = none) :
    listCRDs F id w =
      (Except.ok (w.cluster id).CRDs,
        w.record ⟨id, Verb.list, Kind.CustomResourceDefinition, "", "", []⟩) := by
  simp [listCRDs, issueRead, hF]

theorem listCRDs_of_fault (F : Faults) (id : ClusterId) (w : World) (e : ApiErr)
    (hF : F w.log ⟨id, Verb.list, Kind.CustomResourceDefinition, "", "", []⟩ = some e) :
    listCRDs F id w =
      (Except.error (Err.Api e),
        w.record ⟨id, Verb.list, Kind.CustomResourceDefinition, "", "", []⟩) := by
  simp [listCRDs, issueRead, hF]

/-- With an unfulfilled declaration the schema step of `create` always fails,
and all it does is list the registry. -/
theorem processCRDs_unfulfilled (env : Env) (h : stackHandler) (rest : List crdHandler)
    (w : World) (hunf : crdListFulfilled h.ext.Spec.CRDs (w.cluster h.kube).CRDs ≠ none) :
    ∃ err, processCRDs env h (createListFulfilledCRDHandler h :: rest) w =
      (some err, w.record ⟨h.kube, Verb.list, Kind.CustomResourceDefinition, "", "", []⟩) ∧
      (env.faults w.log ⟨h.kube, Verb.list, Kind.CustomResourceDefinition, "", "", []⟩ = none →
        crdListFulfilled h.ext.Spec.CRDs (w.cluster h.kube).CRDs = some err) := by
  have hne : ¬ h.ext.Spec.CRDs.length = 0 := by
    intro h0
    apply hunf
    rw [List.length_eq_zero.1 h0]
    rfl
  cases hF : env.faults w.log ⟨h.kube, Verb.list, Kind.CustomResourceDefinition, "", "", []⟩ with
  | some e =>
    refine ⟨Err.Wrap (Err.Api e) "CRDs could not be listed", ?_, by simp⟩
    simp [processCRDs, crdsFromStack, hne, listCRDs_of_fault _ _ _ _ hF]
  | none =>
    obtain ⟨err, herr⟩ := Option.ne_none_iff_exists'.1 hunf
    refine ⟨err, ?_, fun _ => herr⟩
    simp only [processCRDs, crdsFromStack, hne, if_false, listCRDs_of_none _ _ _ hF]
    exact run_fulfilled_fails h rest _ _ err (by rw [crdListFulfilled_collect]; exact herr)

theorem preSchema_refl (P : Call → Prop) (role : ClusterRole) (w : World) :
    PreSchema P role w w :=
  ⟨callsOnly_refl _ _, fun _ => rfl, fun _ _ hr => Or.inl hr⟩

theorem preSchema_trans {P : Call → Prop} {role : ClusterRole} {w1 w2 w3 : World}
    (h12 : PreSchema P role w1 w2) (h23 : PreSchema P role w2 w3) : PreSchema P role w1 w3 := by
  refine ⟨callsOnly_trans h12.1 h23.1, fun id => (h23.2.1 id).trans (h12.2.1 id), ?_⟩
  intro id r hr
  rcases h23.2.2 id r hr with hr | hr
  · exact h12.2.2 id r hr
  · exact Or.inr hr

theorem preSchema_mono {P Q : Call → Prop} {role : ClusterRole} {w1 w2 : World}
    (hPQ : ∀ c, P c → Q c) (h : PreSchema P role w1 w2) : PreSchema Q role w1 w2 :=
  ⟨callsOnly_mono hPQ h.1, h.2.1, h.2.2⟩

theorem preSchema_issue (P : Call → Prop) (role : ClusterRole) (F : Faults) (w : World)
    (c : Call) (serve : Cluster → Option ApiErr × Cluster) (hc : P c)
    (hcrd : ∀ cl, (serve cl).2.CRDs = cl.CRDs)
    (hcr : ∀ cl, ∀ r ∈ (serve cl).2.ClusterRoles, r ∈ cl.ClusterRoles ∨ r = role) :
    PreSchema P role w (issue F w c serve).2 := by
  refine ⟨callsOnly_issue _ F w c serve hc, ?_, ?_⟩
  · intro id
    exact issue_frame (fun cl => cl.CRDs) F w c serve hcrd id
  · intro id r
    unfold Crossplane.issue
    cases F w.log c with
    | some e => simp only [record_cluster]; exact fun hr => Or.inl hr
    | none =>
      simp only [setCluster_cluster]
      by_cases hid : id = c.client
      · simp only [hid, if_true, record_cluster]
        exact hcr _ r
      · simp only [hid, if_false, record_cluster]
        exact fun hr => Or.inl hr

theorem preSchema_record (P : Call → Prop) (role : ClusterRole) (w : World) (c : Call)
    (hc : P c) : PreSchema P role w (w.record c) :=
  ⟨⟨[c], rfl, by simpa using hc⟩, fun id => by rw [record_cluster],
    fun id r hr => Or.inl (by rwa [record_cluster] at hr)⟩

theorem createServiceAccount_preSchema (env : Env) (h : stackHandler) (o : ServiceAccount)
    (w : World) (hns : o.Namespace = h.ext.Namespace) (hn : o.Name = h.ext.Name) :
    PreSchema (RBACCall env h) (systemClusterRole env h) w
      (createServiceAccount env.faults h.kube o w).2 := by
  unfold createServiceAccount
  apply preSchema_issue
  · rw [hns, hn]
    exact Or.inl rfl
  · intro cl
    split <;> rfl
  · intro cl r
    split <;> exact fun hr => Or.inl hr

theorem createClusterRole_preSchema (env : Env) (h : stackHandler) (w : World) :
    PreSchema (RBACCall env h) (systemClusterRole env h) w
      (createClusterRole env.faults h.kube (systemClusterRole env h) w).2 := by
  unfold createClusterRole
  apply preSchema_issue
  · exact Or.inr (Or.inl rfl)
  · intro cl
    split <;> rfl
  · intro cl r
    split
    · exact fun hr => Or.inl hr
    · intro hr
      simp only [List.mem_append, List.mem_singleton] at hr
      exact hr

theorem createRoleBinding_preSchema (env : Env) (h : stackHandler) (o : RoleBinding)
    (w : World) (hns : o.Namespace = h.ext.Namespace) (hn : o.Name = h.ext.Name) :
    PreSchema (RBACCall env h) (systemClusterRole env h) w
      (createRoleBinding env.faults h.kube o w).2 := by
  unfold createRoleBinding
  apply preSchema_issue
  · rw [hns, hn]
    exact Or.inr (Or.inr (Or.inl rfl))
  · intro cl
    split <;> rfl
  · intro cl r
    split <;> exact fun hr => Or.inl hr

theorem createClusterRoleBindingObject_preSchema (env : Env) (h : stackHandler)
    (o : ClusterRoleBinding) (w : World) (hn : o.Name = h.ext.Name) :
    PreSchema (RBACCall env h) (systemClusterRole env h) w
      (createClusterRoleBindingObject env.faults h.kube o w).2 := by
  unfold createClusterRoleBindingObject
  apply preSchema_issue
  · rw [hn]
    exact Or.inr (Or.inr (Or.inr rfl))
  · intro cl
    split <;> rfl
  · intro cl r
    split <;> exact fun hr => Or.inl hr

theorem patchStack_preSchema (env : Env) (h : stackHandler) (orig modified : Stack)
    (w : World) (hns : modified.Namespace = h.ext.Namespace) (hn : modified.Name = h.ext.Name) :
    PreSchema (PreSchemaCall env h) (systemClusterRole env h) w
      (patchStack env.faults h.kube orig modified w).2 := by
  unfold patchStack
  apply preSchema_issue
  · rw [hns, hn]
    exact Or.inl rfl
  · intro cl
    split <;> rfl
  · intro cl r
    split <;> exact fun hr => Or.inl hr

theorem statusUpdateStack_preSchema (env : Env) (h : stackHandler) (o : Stack)
    (w : World) (hns : o.Namespace = h.ext.Namespace) (hn : o.Name = h.ext.Name) :
    PreSchema (PreSchemaCall env h) (systemClusterRole env h) w
      (statusUpdateStack env.faults h.kube o w).2 := by
  unfold statusUpdateStack
  apply preSchema_issue
  · rw [hns, hn]
    exact Or.inr (Or.inr (Or.inr rfl))
  · intro cl
    split <;> rfl
  · intro cl r
    split <;> exact fun hr => Or.inl hr

theorem fail_preSchema (env : Env) (h : stackHandler) (i : Stack) (err : Err) (w : World)
    (hns : i.Namespace = h.ext.Namespace) (hn : i.Name = h.ext.Name) :
    PreSchema (PreSchemaCall env h) (systemClusterRole env h) w
      (fail env h.kube i err w).2.2 :=
  statusUpdateStack_preSchema env h _ w hns hn

theorem createDeploymentClusterRole_world (env : Env) (h : stackHandler) (w : World) :
    (createDeploymentClusterRole env h (env.deps.ParentLabels h.ext) w).2 =
      (createClusterRole env.faults h.kube (systemClusterRole env h) w).2 := by
  unfold createDeploymentClusterRole systemClusterRole
  simp only []
  split <;> rfl

theorem createNamespacedRoleBinding_preSchema (env : Env) (h : stackHandler) (name : String)
    (owner : OwnerReference) (w : World) :
    PreSchema (RBACCall env h) (systemClusterRole env h) w
      (createNamespacedRoleBinding env h name owner w).2 := by
  have := createRoleBinding_preSchema env h
    { Name := h.ext.Name, Namespace := h.ext.Namespace, OwnerReferences := [owner],
      RoleRef := { APIGroup := rbacGroupName, Kind := "ClusterRole", Name := name },
      Subjects := [{ Name := h.ext.Name, Namespace := h.ext.Namespace,
                     Kind := ServiceAccountKind }] } w rfl rfl
  unfold createNamespacedRoleBinding
  simp only []
  split <;> exact this

theorem createClusterRoleBinding_preSchema (env : Env) (h : stackHandler) (name : String)
    (labels : StringMap) (w : World) :
    PreSchema (RBACCall env h) (systemClusterRole env h) w
      (createClusterRoleBinding env h name labels w).2 := by
  have := createClusterRoleBindingObject_preSchema env h
    { Name := h.ext.Name, Labels := labels,
      RoleRef := { APIGroup := rbacGroupName, Kind := "ClusterRole", Name := name },
      Subjects := [{ Name := h.ext.Name, Namespace := h.ext.Namespace,
                     Kind := ServiceAccountKind }] } w rfl
  unfold createClusterRoleBinding
  simp only []
  split <;> exact this

/-- Whatever the faults, `processRBAC` issues RBAC creates only, changes no
schema object, and adds no ClusterRole but the system role. -/
theorem processRBAC_preSchema (env : Env) (h : stackHandler) (w : World) :
    PreSchema (RBACCall env h) (systemClusterRole env h) w (processRBAC env h w).2 := by
  unfold processRBAC
  split
  · exact preSchema_refl _ _ w
  · simp only []
    have h1 := createServiceAccount_preSchema env h
      { Name := h.ext.Name, Namespace := h.ext.Namespace,
        OwnerReferences := [AsOwner (ReferenceToStack h.ext env.deps.StackGroupVersionKind)],
        Annotations := h.ext.Spec.ServiceAccountAnnotations, Secrets := [] } w rfl rfl
    generalize createServiceAccount env.faults h.kube
      { Name := h.ext.Name, Namespace := h.ext.Namespace,
        OwnerReferences := [AsOwner (ReferenceToStack h.ext env.deps.StackGroupVersionKind)],
        Annotations := h.ext.Spec.ServiceAccountAnnotations, Secrets := [] } w = r1 at h1 ⊢
    obtain ⟨err1, w1⟩ := r1
    simp only [] at h1 ⊢
    split
    · exact h1
    · have h2 := createClusterRole_preSchema env h w1
      rw [← createDeploymentClusterRole_world] at h2
      generalize createDeploymentClusterRole env h (env.deps.ParentLabels h.ext) w1 = r2 at h2 ⊢
      obtain ⟨⟨name, err2⟩, w2⟩ := r2
      simp only [] at h2 ⊢
      cases err2 with
      | some e => exact preSchema_trans h1 h2
      | none =>
        simp only []
        split
        · exact preSchema_trans h1
            (preSchema_trans h2 (createClusterRoleBinding_preSchema env h _ _ w2))
        · split
          · exact preSchema_trans h1
              (preSchema_trans h2 (createNamespacedRoleBinding_preSchema env h _ _ w2))
          · exact preSchema_trans h1 h2

theorem AddFinalizer_key (o : Stack) (f : String) :
    (AddFinalizer o f).Namespace = o.Namespace ∧ (AddFinalizer o f).Name = o.Name ∧
      (AddFinalizer o f).Spec = o.Spec := by
  unfold AddFinalizer
  split <;> exact ⟨rfl, rfl, rfl⟩

theorem creatingStack_key (ext : Stack) :
    (creatingStack ext).Namespace = ext.Namespace ∧ (creatingStack ext).Name = ext.Name ∧
      (creatingStack ext).Spec = ext.Spec :=
  AddFinalizer_key _ _

/-- The body of `create`, written with `creatingStack` and `creatingHandler`. -/
theorem create_eq (env : Env) (h : stackHandler) (w : World) :
    create env h w =
      match patchStack env.faults h.kube (SetConditions h.ext [Condition.Creating])
          (creatingStack h.ext) w with
      | (some err, w1) => fail env h.kube (creatingStack h.ext) err w1
      | (none, w1) =>
        match processRBAC env (creatingHandler h) w1 with
        | (some err, w2) => fail env h.kube (creatingStack h.ext) err w2
        | (none, w2) =>
          match processCRDs env (creatingHandler h)
              [createListFulfilledCRDHandler (creatingHandler h),
               createNamespaceLabelsCRDHandler env (creatingHandler h),
               createMultipleParentLabelsCRDHandler env (creatingHandler h),
               createPersonaClusterRolesCRDHandler env (creatingHandler h)] w2 with
          | (some err, w3) => fail env h.kube (creatingStack h.ext) err w3
          | (none, w3) =>
            match processDeployment env (creatingHandler h) w3 with
            | (some err, ext3, w4) => fail env h.kube ext3 err w4
            | (none, ext3, w4) =>
              ((requeueOnSuccess,
                (statusUpdateStack env.faults h.kube
                  (SetConditions ext3 [Condition.Available, Condition.ReconcileSuccess]) w4).1),
                SetConditions ext3 [Condition.Available, Condition.ReconcileSuccess],
                (statusUpdateStack env.faults h.kube
                  (SetConditions ext3 [Condition.Available, Condition.ReconcileSuccess])
                  w4).2) :=
  rfl

/-- With an unfulfilled declaration, `create` fails whatever the faults, and
from start to end it stays before its schema handlers. -/
theorem create_unfulfilled (env : Env) (h : stackHandler) (w : World)
    (hunf : crdListFulfilled h.ext.Spec.CRDs (w.cluster h.kube).CRDs ≠ none) :
    (create env h w).1.1 = resultRequeue ∧
    PreSchema (PreSchemaCall env (creatingHandler h)) (systemClusterRole env (creatingHandler h))
      w (create env h w).2.2 := by
  obtain ⟨kns, kn, kspec⟩ := creatingStack_key h.ext
  have hp := patchStack_preSchema env (creatingHandler h)
    (SetConditions h.ext [Condition.Creating]) (creatingStack h.ext) w rfl rfl
  rw [create_eq]
  change PreSchema _ _ w (patchStack env.faults h.kube
    (SetConditions h.ext [Condition.Creating]) (creatingStack h.ext) w).2 at hp
  generalize patchStack env.faults h.kube
    (SetConditions h.ext [Condition.Creating]) (creatingStack h.ext) w = r1 at hp ⊢
  obtain ⟨err1, w1⟩ := r1
  cases err1 with
  | some err =>
    exact ⟨rfl, preSchema_trans hp (fail_preSchema env (creatingHandler h) _ err w1 rfl rfl)⟩
  | none =>
    simp only [] at hp ⊢
    have hr := preSchema_mono (Q := PreSchemaCall env (creatingHandler h))
      (fun c hc => Or.inr (Or.inl hc)) (processRBAC_preSchema env (creatingHandler h) w1)
    generalize processRBAC env (creatingHandler h) w1 = r2 at hr ⊢
    obtain ⟨err2, w2⟩ := r2
    cases err2 with
    | some err =>
      exact ⟨rfl, preSchema_trans hp
        (preSchema_trans hr (fail_preSchema env (creatingHandler h) _ err w2 rfl rfl))⟩
    | none =>
      simp only [] at hr ⊢
      have hunf2 : crdListFulfilled (creatingHandler h).ext.Spec.CRDs
          (w2.cluster (creatingHandler h).kube).CRDs ≠ none := by
        have e1 : (w2.cluster h.kube).CRDs = (w.cluster h.kube).CRDs :=
          (hr.2.1 h.kube).trans (hp.2.1 h.kube)
        show crdListFulfilled (creatingStack h.ext).Spec.CRDs (w2.cluster h.kube).CRDs ≠ none
        rw [kspec, e1]
        exact hunf
      obtain ⟨err, herr, _⟩ := processCRDs_unfulfilled env (creatingHandler h)
        [createNamespaceLabelsCRDHandler env (creatingHandler h),
         createMultipleParentLabelsCRDHandler env (creatingHandler h),
         createPersonaClusterRolesCRDHandler env (creatingHandler h)] w2 hunf2
      rw [herr]
      simp only []
      exact ⟨rfl, preSchema_trans hp (preSchema_trans hr (preSchema_trans
        (preSchema_record _ _ w2 _ (Or.inr (Or.inr (Or.inl rfl))))
        (fail_preSchema env (creatingHandler h) _ err _ rfl rfl)))⟩

/-- Counterexample to C8 as stated: `stackA` declares a schema the registry
lacks; when `create` reaches the fulfillment check (the list of the
registry) it has already patched the Stack and created the service account,
the system ClusterRole and the RoleBinding, which are live afterwards. -/
theorem create_unfulfilled_writes_before_check :
    crdListFulfilled stackA.Spec.CRDs (worldNoCRD.cluster ClusterId.tenant).CRDs =
      some (Err.Errorf "Missing CRD with APIVersion %q and Kind %q" ["example.org/v1", "Foo"]) ∧
    (create exampleEnv handlerA worldNoCRD).2.2.log =
      [⟨ClusterId.tenant, Verb.patch, Kind.Stack, "ns", "a", []⟩,
       ⟨ClusterId.tenant, Verb.create, Kind.ServiceAccount, "ns", "a", []⟩,
       ⟨ClusterId.tenant, Verb.create, Kind.ClusterRole, "", "stack:ns:a::system", []⟩,
       ⟨ClusterId.tenant, Verb.create, Kind.RoleBinding, "ns", "a", []⟩,
       ⟨ClusterId.tenant, Verb.list, Kind.CustomResourceDefinition, "", "", []⟩,
       ⟨ClusterId.tenant, Verb.statusUpdate, Kind.Stack, "ns", "a", []⟩] ∧
    ((create exampleEnv handlerA worldNoCRD).2.2.cluster ClusterId.tenant).ServiceAccounts.length
      = 1 ∧
    ((create exampleEnv handlerA worldNoCRD).2.2.cluster ClusterId.tenant).ClusterRoles.length
      = 1 ∧
    ((create exampleEnv handlerA worldNoCRD).2.2.cluster ClusterId.tenant).RoleBindings.length
      = 1 ∧
    ((create exampleEnv handlerA worldNoCRD).2.2.cluster ClusterId.tenant).Stacks.map
      (fun s => s.Finalizers) = [["finalizer.stacks.crossplane.io"]] := by
  decide

/-- C8, amended: for a Stack whose declared schema list is not fulfilled by
the live registry, when the finalizer patch, the RBAC step and the listing of
the registry succeed, `create` aborts with the fulfillment error `e`: it is
`fail` on `e`, a retry is requested and `ReconcileError(e)` is set. The calls
issued are the finalizer patch on the Stack, then RBAC creates only (service
account, system ClusterRole, binding), then the list of the registry, then the
status update. No schema object has changed, and no ClusterRole but the
system role has been added. -/
theorem create_unfulfilled_aborts_after_rbac (env : Env) (h : stackHandler)
    (w w1 w2 : World) (e : Err)
    (hunf : crdListFulfilled h.ext.Spec.CRDs (w.cluster h.kube).CRDs = some e)
    (hpatch : patchStack env.faults h.kube (SetConditions h.ext [Condition.Creating])
      (creatingStack h.ext) w = (none, w1))
    (hrbac : processRBAC env (creatingHandler h) w1 = (none, w2))
    (hlist : env.faults w2.log
      ⟨h.kube, Verb.list, Kind.CustomResourceDefinition, "", "", []⟩ = none) :
    create env h w = fail env h.kube (creatingStack h.ext) e
      (w2.record ⟨h.kube, Verb.list, Kind.CustomResourceDefinition, "", "", []⟩) ∧
    (create env h w).1.1 = resultRequeue ∧
    Condition.ReconcileError e ∈ (create env h w).2.1.Status.Conditions ∧
    w1.log = w.log ++ [⟨h.kube, Verb.patch, Kind.Stack, h.ext.Namespace, h.ext.Name, []⟩] ∧
    CallsOnly (RBACCall env (creatingHandler h)) w1 w2 ∧
    (create env h w).2.2.log = w2.log ++
      [⟨h.kube, Verb.list, Kind.CustomResourceDefinition, "", "", []⟩,
       ⟨h.kube, Verb.statusUpdate, Kind.Stack, h.ext.Namespace, h.ext.Name, []⟩] ∧
    (∀ id, ((create env h w).2.2.cluster id).CRDs = (w.cluster id).CRDs) ∧
    (∀ id, ∀ r ∈ ((create env h w).2.2.cluster id).ClusterRoles,
      r ∈ (w.cluster id).ClusterRoles ∨ r = systemClusterRole env (creatingHandler h)) := by
  obtain ⟨kns, kn, kspec⟩ := creatingStack_key h.ext
  have hall := create_unfulfilled env h w (by rw [hunf]; simp)
  have hp := patchStack_preSchema env (creatingHandler h)
    (SetConditions h.ext [Condition.Creating]) (creatingStack h.ext) w rfl rfl
  change PreSchema _ _ w (patchStack env.faults h.kube
    (SetConditions h.ext [Condition.Creating]) (creatingStack h.ext) w).2 at hp
  rw [hpatch] at hp
  have hr := processRBAC_preSchema env (creatingHandler h) w1
  rw [hrbac] at hr
  have hunf2 : crdListFulfilled (creatingHandler h).ext.Spec.CRDs
      (w2.cluster (creatingHandler h).kube).CRDs = some e := by
    have e1 : (w2.cluster h.kube).CRDs = (w.cluster h.kube).CRDs :=
      (hr.2.1 h.kube).trans (hp.2.1 h.kube)
    show crdListFulfilled (creatingStack h.ext).Spec.CRDs (w2.cluster h.kube).CRDs = some e
    rw [kspec, e1]
    exact hunf
  obtain ⟨err, herr, herr2⟩ := processCRDs_unfulfilled env (creatingHandler h)
    [createNamespaceLabelsCRDHandler env (creatingHandler h),
     createMultipleParentLabelsCRDHandler env (creatingHandler h),
     createPersonaClusterRolesCRDHandler env (creatingHandler h)] w2
    (by rw [hunf2]; simp)
  have hee : err = e := by
    have := herr2 hlist
    rw [hunf2] at this
    exact (Option.some.inj this).symm
  subst hee
  have hc : create env h w = fail env h.kube (creatingStack h.ext) err
      (w2.record ⟨h.kube, Verb.list, Kind.CustomResourceDefinition, "", "", []⟩) := by
    rw [create_eq, hpatch]
    simp only []
    rw [hrbac]
    simp only []
    rw [herr]
    rfl
  have hw1 := log_of_issue_eq hpatch
  refine ⟨hc, hall.1, ?_, ?_, hr.1, ?_, hall.2.2.1, hall.2.2.2⟩
  · rw [hc]
    show Condition.ReconcileError err ∈
      [Condition.ReconcileError err].foldl setCondition (creatingStack h.ext).Status.Conditions
    exact mem_setCondition _ _
  · simp only [] at hw1
    rw [hw1, kns, kn]
  · rw [hc]
    show (statusUpdateStack env.faults h.kube _ _).2.log = _
    unfold statusUpdateStack
    rw [issue_log]
    simp only [record_log, List.append_assoc, List.singleton_append]
    rw [(SetConditions_key _ _).1, (SetConditions_key _ _).2, kns, kn]

/-- Witness of C8 (amended): `stackA` against a registry without schema
objects. -/
theorem create_unfulfilled_aborts_after_rbac_witness :
    (create exampleEnv handlerA worldNoCRD).1.1 = resultRequeue ∧
    Condition.ReconcileError
        (Err.Errorf "Missing CRD with APIVersion %q and Kind %q" ["example.org/v1", "Foo"]) ∈
      (create exampleEnv handlerA worldNoCRD).2.1.Status.Conditions :=
  have t := create_unfulfilled_aborts_after_rbac exampleEnv handlerA worldNoCRD
    (patchStack noFaults ClusterId.tenant (SetConditions stackA [Condition.Creating])
      (creatingStack stackA) worldNoCRD).2
    (processRBAC exampleEnv (creatingHandler handlerA)
      (patchStack noFaults ClusterId.tenant (SetConditions stackA [Condition.Creating])
        (creatingStack stackA) worldNoCRD).2).2
    (Err.Errorf "Missing CRD with APIVersion %q and Kind %q" ["example.org/v1", "Foo"])
    rfl rfl rfl rfl
  ⟨t.2.1, t.2.2.1⟩

/-- C9: for a Stack with a declared descriptor `d` that no live schema object
matches, `create` (whatever the faults) ends in failure with a retry
requested, and every call it issues is the finalizer patch, an RBAC create,
the list of the registry or the status update: none is a patch of a schema
object, and the only ClusterRole create is that of the system role. No schema
object changes (no label is added), and no ClusterRole but the system role is
added (no persona role). The fulfillment handler comes first in the handler
list, and its failure ends `processCRDs` before any later handler runs. -/
theorem create_unfulfilled_never_labels (env : Env) (h : stackHandler) (w : World)
    (d : TypeMeta) (hd : d ∈ h.ext.Spec.CRDs)
    (hno : ∀ c ∈ (w.cluster h.kube).CRDs, descriptorMatches d c = false) :
    (create env h w).1.1 = resultRequeue ∧
    CallsOnly (fun c => PreSchemaCall env (creatingHandler h) c ∧
        ¬ (c.verb = Verb.patch ∧ c.kind = Kind.CustomResourceDefinition) ∧
        (c.verb = Verb.create → c.kind = Kind.ClusterRole →
          c.Name = env.deps.PersonaRoleName (creatingStack h.ext) "system"))
      w (create env h w).2.2 ∧
    (∀ id, ((create env h w).2.2.cluster id).CRDs = (w.cluster id).CRDs) ∧
    (∀ id, ∀ r ∈ ((create env h w).2.2.cluster id).ClusterRoles,
      r ∈ (w.cluster id).ClusterRoles ∨
        r = { Name := env.deps.PersonaRoleName (creatingStack h.ext) "system",
              Labels := env.deps.ParentLabels (creatingStack h.ext),
              Rules := h.ext.Spec.PermissionRules }) ∧
    (∀ (rest : List crdHandler) (crds : List CustomResourceDefinition) (w' : World) (e : Err),
      crdListFulfilled h.ext.Spec.CRDs crds = some e →
        processCRDs.run (createListFulfilledCRDHandler h :: rest) crds w' = (some e, w')) := by
  have hunf : crdListFulfilled h.ext.Spec.CRDs (w.cluster h.kube).CRDs ≠ none := by
    intro hnone
    have := (crdListFulfilled_none_iff _ _).1 hnone d hd
    obtain ⟨c, hc, hm⟩ := List.any_eq_true.1 this
    rw [hno c hc] at hm
    cases hm
  obtain ⟨hres, hcalls, hcrds, hroles⟩ := create_unfulfilled env h w hunf
  refine ⟨hres, callsOnly_mono ?_ hcalls, hcrds, ?_,
    fun rest crds w' e he => run_fulfilled_fails h rest crds w' e he⟩
  · intro c hc
    refine ⟨hc, ?_, ?_⟩
    · rintro ⟨hv, hk⟩
      rcases hc with rfl | (rfl | rfl | rfl | rfl) | rfl | rfl <;> simp at hv hk
    · intro hv hk
      rcases hc with rfl | (rfl | rfl | rfl | rfl) | rfl | rfl <;> first | rfl | simp at hv hk
  · intro id r hr
    rcases hroles id r hr with hr | hr
    · exact Or.inl hr
    · right
      rw [hr]
      show systemClusterRole env (creatingHandler h) = _
      unfold systemClusterRole creatingHandler
      simp only []
      rw [(creatingStack_key h.ext).2.2]

/-- Witness of C9: `stackA` declares `example.org/v1` `Foo`, which the empty
registry of `worldNoCRD` does not hold; `create` fails and leaves the
registry as it was. -/
theorem create_unfulfilled_never_labels_witness :
    (create exampleEnv handlerA worldNoCRD).1.1 = resultRequeue ∧
    ((create exampleEnv handlerA worldNoCRD).2.2.cluster ClusterId.tenant).CRDs =
      (worldNoCRD.cluster ClusterId.tenant).CRDs :=
  have t := create_unfulfilled_never_labels exampleEnv handlerA worldNoCRD
    ⟨"example.org/v1", "Foo"⟩ (by decide) (by decide)
  ⟨t.1, t.2.2.1 ClusterId.tenant⟩

/-! ## Label maps -/

theorem mapDelete_eq_filter (m : StringMap) (k : String) :
    mapDelete m k = m.filter (fun p => decide (p.1 ≠ k)) := by
  induction m with
  | nil => rfl
  | cons p rest ih =>
    obtain ⟨k', v⟩ := p
    unfold mapDelete
    by_cases h : k' = k
    · simp [h, ih]
    · simp [h, ih]

theorem RemoveLabels_eq_filter (m : StringMap) (ks : List String) :
    RemoveLabels m ks = m.filter (fun p => decide (p.1 ∉ ks)) := by
  induction ks generalizing m with
  | nil => simp [RemoveLabels]
  | cons k rest ih =>
    unfold RemoveLabels
    rw [ih, mapDelete_eq_filter, List.filter_filter]
    apply List.filter_congr
    intro p _
    by_cases h1 : p.1 = k <;> by_cases h2 : p.1 ∈ rest <;> simp [h1, h2]

theorem mapHas_cons (k' v : String) (rest : StringMap) (k : String) :
    mapHas ((k', v) :: rest) k = (decide (k' = k) || mapHas rest k) := by
  rw [mapHas]
  by_cases h : k' = k <;> simp [h]

theorem mapGet_cons (k' v : String) (rest : StringMap) (k : String) :
    mapGet ((k', v) :: rest) k = if k' = k then v else mapGet rest k := by
  rw [mapGet]

theorem mapHas_iff (m : StringMap) (k : String) :
    mapHas m k = true ↔ k ∈ m.map Prod.fst := by
  induction m with
  | nil => simp [mapHas]
  | cons p rest ih =>
    obtain ⟨k', v⟩ := p
    rw [mapHas_cons]
    by_cases h : k' = k
    · simp [h]
    · have h' : ¬ k = k' := fun e => h e.symm
      simp [h, h', ih]

theorem mapHas_filter (m : StringMap) (f : String → Bool) (k : String) :
    mapHas (m.filter fun p => f p.1) k = (mapHas m k && f k) := by
  induction m with
  | nil => simp [mapHas]
  | cons p rest ih =>
    obtain ⟨k', v⟩ := p
    by_cases hf : f k' = true
    · rw [List.filter_cons_of_pos (by simpa using hf), mapHas_cons, mapHas_cons, ih]
      by_cases h : k' = k
      · subst h
        simp [hf]
      · simp [h]
    · rw [List.filter_cons_of_neg (by simpa using hf), ih, mapHas_cons]
      by_cases h : k' = k
      · subst h
        have hf' : f k' = false := by simpa using hf
        simp [hf']
      · simp [h]

theorem mapGet_filter (m : StringMap) (f : String → Bool) (k : String) (hk : f k = true) :
    mapGet (m.filter fun p => f p.1) k = mapGet m k := by
  induction m with
  | nil => simp [mapGet]
  | cons p rest ih =>
    obtain ⟨k', v⟩ := p
    by_cases hf : f k' = true
    · rw [List.filter_cons_of_pos (by simpa using hf), mapGet_cons, mapGet_cons, ih]
    · rw [List.filter_cons_of_neg (by simpa using hf), ih, mapGet_cons]
      have h : ¬ k' = k := by
        intro e
        rw [e] at hf
        exact hf hk
      rw [if_neg h]

theorem nodup_keys_filter (m : StringMap) (g : String × String → Bool)
    (h : (m.map Prod.fst).Nodup) : ((m.filter g).map Prod.fst).Nodup :=
  List.Nodup.sublist (List.Sublist.map _ (List.filter_sublist m)) h

theorem mapGet_of_mem_nodup (m : StringMap) (h : (m.map Prod.fst).Nodup)
    (p : String × String) (hp : p ∈ m) : mapHas m p.1 = true ∧ mapGet m p.1 = p.2 := by
  induction m with
  | nil => cases hp
  | cons q rest ih =>
    obtain ⟨k', v⟩ := q
    simp only [List.map_cons, List.nodup_cons] at h
    rw [mapHas_cons, mapGet_cons]
    rcases List.mem_cons.1 hp with rfl | hp
    · simp
    · have hne : ¬ k' = p.1 := by
        intro e
        apply h.1
        rw [e]
        exact List.mem_map.2 ⟨p, hp, rfl⟩
      obtain ⟨h1, h2⟩ := ih h.2 hp
      simp [hne, h1, h2]

theorem mem_removed_iff (orig : StringMap) (f : String → Bool) (k : String) :
    k ∈ (orig.map Prod.fst).filter (fun k => !mapHas (orig.filter fun p => f p.1) k) ↔
      (mapHas orig k = true ∧ f k = false) := by
  rw [List.mem_filter, ← mapHas_iff, mapHas_filter]
  constructor
  · rintro ⟨h1, h2⟩
    refine ⟨h1, ?_⟩
    rw [h1] at h2
    simpa using h2
  · rintro ⟨h1, h2⟩
    exact ⟨h1, by simp [h1, h2]⟩

/-- The merge patch computed from `orig` and a key-wise filtering of `orig`,
applied to the live labels, removes from the live labels exactly the keys of
`orig` that the filter drops. -/
theorem applyLabelPatch_filter (orig live : StringMap) (f : String → Bool)
    (hnd : (orig.map Prod.fst).Nodup) :
    applyLabelPatch orig (orig.filter fun p => f p.1) live =
      live.filter (fun p => !(mapHas orig p.1) || f p.1) := by
  unfold applyLabelPatch
  have hchanged : ((orig.filter fun p => f p.1).filter
      (fun kv => !(mapHas orig kv.1 && decide (mapGet orig kv.1 = kv.2)))) = [] := by
    rw [List.filter_eq_nil_iff]
    intro p hp
    obtain ⟨h1, h2⟩ := mapGet_of_mem_nodup orig hnd p (List.mem_filter.1 hp).1
    simp [h1, h2]
  simp only [hchanged, AddLabels]
  rw [RemoveLabels_eq_filter]
  apply List.filter_congr
  intro p _
  have hiff := mem_removed_iff orig f p.1
  by_cases hm : mapHas orig p.1 = true
  · by_cases hfp : f p.1 = true
    · have : p.1 ∉ (orig.map Prod.fst).filter
          (fun k => !mapHas (orig.filter fun p => f p.1) k) := by
        rw [hiff]
        simp [hfp]
      simp [this, hm, hfp]
    · have hfp' : f p.1 = false := by simpa using hfp
      have : p.1 ∈ (orig.map Prod.fst).filter
          (fun k => !mapHas (orig.filter fun p => f p.1) k) := hiff.2 ⟨hm, hfp'⟩
      simp [this, hm, hfp']
  · have hm' : mapHas orig p.1 = false := by simpa using hm
    have : p.1 ∉ (orig.map Prod.fst).filter
        (fun k => !mapHas (orig.filter fun p => f p.1) k) := by
      rw [hiff]
      simp [hm']
    simp [this, hm']

/-! ## The label release loop -/

theorem HasPrefixedLabel_iff (m : StringMap) (pre : String) :
    HasPrefixedLabel m pre = true ↔ ∃ k, mapHas m k = true ∧ HasPrefix k pre = true := by
  induction m with
  | nil => simp [HasPrefixedLabel, mapHas]
  | cons p rest ih =>
    obtain ⟨k', v⟩ := p
    rw [HasPrefixedLabel]
    by_cases hp : HasPrefix k' pre = true
    · simp only [hp, if_true, true_iff]
      exact ⟨k', by simp [mapHas_cons], hp⟩
    · rw [if_neg hp, ih]
      constructor
      · rintro ⟨k, hk, hpk⟩
        exact ⟨k, by simp [mapHas_cons, hk], hpk⟩
      · rintro ⟨k, hk, hpk⟩
        rw [mapHas_cons] at hk
        by_cases hkk : k' = k
        · subst hkk
          exact absurd hpk hp
        · exact ⟨k, by simpa [hkk] using hk, hpk⟩

/-- The label statements of the release loop as a key-wise filter. -/
theorem removeCRDLabels_labels_eq_filter (env : Env) (h : stackHandler) (L : StringMap) :
    removeCRDLabels.labels env h L =
      L.filter (fun p =>
        decide (p.1 ≠ env.deps.MultiParentLabel h.ext) &&
          (HasPrefixedLabel (RemoveLabels L [env.deps.MultiParentLabel h.ext])
              (env.deps.MultiParentLabelPrefix h.ext) ||
            decide (p.1 ≠ env.deps.LabelNamespaceFmt h.ext.Namespace))) := by
  unfold removeCRDLabels.labels
  simp only []
  cases hp : HasPrefixedLabel (RemoveLabels L [env.deps.MultiParentLabel h.ext])
      (env.deps.MultiParentLabelPrefix h.ext) with
  | true =>
    simp only [Bool.not_true, Bool.false_eq_true, if_false, Bool.true_or, Bool.and_true]
    rw [RemoveLabels_eq_filter]
    apply List.filter_congr
    intro p _
    simp
  | false =>
    simp only [Bool.not_false, if_true, Bool.false_or]
    rw [RemoveLabels_eq_filter, RemoveLabels_eq_filter, List.filter_filter]
    apply List.filter_congr
    intro p _
    simp [Bool.and_comm]

theorem patchCRD_of_live (F : Faults) (id : ClusterId) (orig modified : CustomResourceDefinition)
    (w : World)
    (hF : F w.log ⟨id, Verb.patch, Kind.CustomResourceDefinition, "", modified.Name, []⟩ = none)
    (hlive : ((w.cluster id).CRDs.any fun x => decide (x.Name = modified.Name)) = true) :
    patchCRD F id orig modified w =
      (none,
        (w.record ⟨id, Verb.patch, Kind.CustomResourceDefinition, "", modified.Name,
          []⟩).setCluster id
          { w.cluster id with
            CRDs := (w.cluster id).CRDs.map (fun x =>
              if x.Name = modified.Name then
                { x with Labels := applyLabelPatch orig.Labels modified.Labels x.Labels }
              else x) }) := by
  unfold patchCRD
  rw [issue_of_none _ _ _ _ hF]
  simp only [hlive, if_true, Option.map_none']

/-- An invariant of the registry carried through the label release loop when
no fault is injected: skipping an unmanaged element keeps it, and patching a
managed element (which must be live) keeps it. Then the loop returns no
error. -/
theorem removeCRDLabels_loop_invariant (env : Env) (h : stackHandler)
    (hF : ∀ l c, env.faults l c = none)
    (I : List CustomResourceDefinition → List CustomResourceDefinition → Prop)
    (hskip : ∀ c rest cl, I (c :: rest) cl →
      mapGet c.Labels env.deps.LabelKubernetesManagedBy ≠ env.deps.LabelValueStackManager →
      I rest cl)
    (hpatch : ∀ c rest cl, I (c :: rest) cl →
      mapGet c.Labels env.deps.LabelKubernetesManagedBy = env.deps.LabelValueStackManager →
      (cl.any fun x => decide (x.Name = c.Name)) = true ∧
      I rest (cl.map fun x =>
        if x.Name = c.Name then
          { x with Labels :=
              applyLabelPatch c.Labels (removeCRDLabels.labels env h c.Labels) x.Labels }
        else x))
    (cs : List CustomResourceDefinition) (w : World)
    (hI : I cs (w.cluster h.kube).CRDs) :
    (removeCRDLabels.loop env h cs w).1 = none ∧
      I [] ((removeCRDLabels.loop env h cs w).2.cluster h.kube).CRDs := by
  induction cs generalizing w with
  | nil => exact ⟨rfl, hI⟩
  | cons c rest ih =>
    rw [removeCRDLabels.loop]
    by_cases hm : mapGet c.Labels env.deps.LabelKubernetesManagedBy =
        env.deps.LabelValueStackManager
    · obtain ⟨hlive, hnext⟩ := hpatch c rest _ hI hm
      have hp := patchCRD_of_live env.faults h.kube c
        { c with Labels := removeCRDLabels.labels env h c.Labels } w (hF _ _) hlive
      simp only [hm, ne_eq, not_true_eq_false, if_false]
      rw [hp]
      simp only []
      apply ih
      simpa using hnext
    · simp only [ne_eq, hm, not_false_eq_true, if_true]
      exact ih w (hskip c rest _ hI hm)

theorem eq_of_name_eq_of_nodup (items : List CustomResourceDefinition)
    (hnd : (items.map fun x => x.Name).Nodup) (a b : CustomResourceDefinition)
    (ha : a ∈ items) (hb : b ∈ items) (hname : a.Name = b.Name) : a = b :=
  List.inj_on_of_nodup_map hnd ha hb hname

/-- One phase of label release on a registry `items` with unique names, seen
from one live schema object `target` that the loop visits: `P` holds of the
labels of `target`, each patch computed from `target` keeps `P` and
establishes `D`. Then the loop returns no error, the registry keeps its
names, and the object named like `target` is `target` with labels satisfying
`P` and `D`. -/
theorem removeCRDLabels_loop_phase (env : Env) (h : stackHandler)
    (hF : ∀ l c, env.faults l c = none)
    (items : List CustomResourceDefinition) (hnd : (items.map fun x => x.Name).Nodup)
    (target : CustomResourceDefinition) (ht : target ∈ items)
    (hman : mapGet target.Labels env.deps.LabelKubernetesManagedBy =
      env.deps.LabelValueStackManager)
    (P D : StringMap → Prop) (hP0 : P target.Labels)
    (hstep : ∀ L, P L →
      P (applyLabelPatch target.Labels (removeCRDLabels.labels env h target.Labels) L) ∧
      D (applyLabelPatch target.Labels (removeCRDLabels.labels env h target.Labels) L))
    (cs : List CustomResourceDefinition) (hcs : ∀ c ∈ cs, c ∈ items) (htin : target ∈ cs)
    (w : World) (hw : (w.cluster h.kube).CRDs = items) :
    (removeCRDLabels.loop env h cs w).1 = none ∧
    (((removeCRDLabels.loop env h cs w).2.cluster h.kube).CRDs.map fun x => x.Name) =
      (items.map fun x => x.Name) ∧
    ∀ x ∈ ((removeCRDLabels.loop env h cs w).2.cluster h.kube).CRDs, x.Name = target.Name →
      x = { target with Labels := x.Labels } ∧ P x.Labels ∧ D x.Labels := by
  have key := removeCRDLabels_loop_invariant env h hF
    (fun rest cl =>
      (∀ c ∈ rest, c ∈ items) ∧
      (cl.map fun x => x.Name) = (items.map fun x => x.Name) ∧
      (∀ x ∈ cl, x.Name = target.Name → x = { target with Labels := x.Labels } ∧ P x.Labels) ∧
      (target ∈ rest ∨ ∀ x ∈ cl, x.Name = target.Name → D x.Labels))
    ?_ ?_ cs w ?_
  · obtain ⟨hnone, _, hnames, hP, hD⟩ := key
    refine ⟨hnone, hnames, ?_⟩
    intro x hx hn
    rcases hD with hD | hD
    · cases hD
    · exact ⟨(hP x hx hn).1, (hP x hx hn).2, hD x hx hn⟩
  · -- skipping an unmanaged element
    rintro c rest cl ⟨hmem, hnames, hP, hD⟩ hunm
    refine ⟨fun c' hc' => hmem c' (List.mem_cons_of_mem _ hc'), hnames, hP, ?_⟩
    rcases hD with hD | hD
    · rcases List.mem_cons.1 hD with rfl | hD
      · exact absurd hman hunm
      · exact Or.inl hD
    · exact Or.inr hD
  · -- patching a managed element
    rintro c rest cl ⟨hmem, hnames, hP, hD⟩ _
    have hc : c ∈ items := hmem c (List.mem_cons_self _ _)
    refine ⟨?_, fun c' hc' => hmem c' (List.mem_cons_of_mem _ hc'), ?_, ?_, ?_⟩
    · have : c.Name ∈ cl.map fun x => x.Name := by
        rw [hnames]
        exact List.mem_map.2 ⟨c, hc, rfl⟩
      obtain ⟨x, hx, hxn⟩ := List.mem_map.1 this
      exact List.any_eq_true.2 ⟨x, hx, by simpa using hxn⟩
    · rw [List.map_map, ← hnames]
      apply List.map_congr_left
      intro x _
      simp only [Function.comp]
      split <;> rfl
    · intro y hy hyn
      obtain ⟨x, hx, rfl⟩ := List.mem_map.1 hy
      by_cases hxc : x.Name = c.Name
      · rw [if_pos hxc] at hyn ⊢
        have hxt : x.Name = target.Name := hyn
        have hct : c = target :=
          eq_of_name_eq_of_nodup items hnd c target hc ht (hxc.symm.trans hxt)
        subst hct
        obtain ⟨hxe, hxP⟩ := hP x hx hxc
        refine ⟨?_, (hstep _ hxP).1⟩
        show ({ x with Labels := _ } : CustomResourceDefinition) = { c with Labels := _ }
        rw [hxe]
      · rw [if_neg hxc] at hyn ⊢
        exact hP x hx hyn
    · by_cases hct : c = target
      · right
        subst hct
        intro y hy hyn
        obtain ⟨x, hx, rfl⟩ := List.mem_map.1 hy
        by_cases hxc : x.Name = c.Name
        · rw [if_pos hxc]
          exact (hstep _ (hP x hx hxc).2).2
        · rw [if_neg hxc] at hyn
          exact absurd hyn hxc
      · rcases hD with hD | hD
        · rcases List.mem_cons.1 hD with rfl | hD
          · exact absurd rfl hct
          · exact Or.inl hD
        · right
          intro y hy hyn
          obtain ⟨x, hx, rfl⟩ := List.mem_map.1 hy
          by_cases hxc : x.Name = c.Name
          · exfalso
            rw [if_pos hxc] at hyn
            have hxt : x.Name = target.Name := hyn
            exact hct (eq_of_name_eq_of_nodup items hnd c target hc ht (hxc.symm.trans hxt))
          · rw [if_neg hxc] at hyn ⊢
            exact hD x hx hyn
  · rw [hw]
    exact ⟨hcs, rfl, fun x hx hn => by
      rw [eq_of_name_eq_of_nodup items hnd x target hx ht hn]
      exact ⟨rfl, hP0⟩, Or.inl htin⟩

/-! ## Reference counting of shared schema objects (C3) -/

theorem removeCRDLabels_of_nofault (env : Env) (h : stackHandler) (w : World)
    (hF : ∀ l c, env.faults l c = none) (hne : h.ext.Spec.CRDs ≠ []) :
    removeCRDLabels env h w =
      removeCRDLabels.loop env h
        (crdsFromStack.collect (w.cluster h.kube).CRDs h.ext.Spec.CRDs)
        (w.record ⟨h.kube, Verb.list, Kind.CustomResourceDefinition, "", "", []⟩) := by
  have hlen : ¬ h.ext.Spec.CRDs.length = 0 := fun h0 => hne (List.length_eq_zero.1 h0)
  simp only [removeCRDLabels, crdsFromStack, hlen, if_false,
    listCRDs_of_none _ _ _ (hF _ _)]

/-- The release patch of a Stack, computed from the labels `orig` of the
object as listed and applied to live labels `L`, as a key-wise filter. -/
theorem release_patch_eq_filter (env : Env) (h : stackHandler) (orig L : StringMap)
    (hnd : (orig.map Prod.fst).Nodup) :
    applyLabelPatch orig (removeCRDLabels.labels env h orig) L =
      L.filter (fun p => releaseKeeps env h orig p.1) := by
  rw [removeCRDLabels_labels_eq_filter]
  exact applyLabelPatch_filter orig L
    (fun k => decide (k ≠ env.deps.MultiParentLabel h.ext) &&
      (HasPrefixedLabel (RemoveLabels orig [env.deps.MultiParentLabel h.ext])
          (env.deps.MultiParentLabelPrefix h.ext) ||
        decide (k ≠ env.deps.LabelNamespaceFmt h.ext.Namespace))) hnd

theorem mapHas_RemoveLabels_single (m : StringMap) (k k' : String) :
    mapHas (RemoveLabels m [k]) k' = (mapHas m k' && decide (k' ≠ k)) := by
  rw [RemoveLabels_eq_filter]
  exact (mapHas_filter m (fun x => decide (x ∉ [k])) k').trans (by simp)

theorem mapHas_of_mem (m : StringMap) (p : String × String) (hp : p ∈ m) :
    mapHas m p.1 = true :=
  (mapHas_iff m p.1).2 (List.mem_map.2 ⟨p, hp, rfl⟩)

theorem exists_mem_of_mapHas (m : StringMap) (k : String) (hk : mapHas m k = true) :
    ∃ p ∈ m, p.1 = k := by
  obtain ⟨p, hp, hpk⟩ := List.mem_map.1 ((mapHas_iff m k).1 hk)
  exact ⟨p, hp, hpk⟩

/-- C3: a schema object `crd` of a registry with unique names carries the
ownership marker, the multi-parent labels of two Stacks A and B installed in
one namespace, and the namespace label of that namespace; both Stacks declare
a descriptor matching it; the label keys are distinct, the multi-parent label
of B starts with the multi-parent prefix of the namespace, and no other label
of `crd` does. Without faults, the label release for A returns no error and
leaves the object without the multi-parent label of A, with the multi-parent
label of B and with the namespace label; the following label release for B
returns no error and leaves the object without the multi-parent label of B
and without the namespace label. -/
theorem removeCRDLabels_reference_count (env : Env) (hA hB : stackHandler) (w : World)
    (crd : CustomResourceDefinition)
    (hF : ∀ l c, env.faults l c = none)
    (hkube : hA.kube = hB.kube)
    (hns : hA.ext.Namespace = hB.ext.Namespace)
    (hnames : ((w.cluster hA.kube).CRDs.map fun x => x.Name).Nodup)
    (hcrd : crd ∈ (w.cluster hA.kube).CRDs)
    (hmatchA : ∃ d ∈ hA.ext.Spec.CRDs, descriptorMatches d crd = true)
    (hmatchB : ∃ d ∈ hB.ext.Spec.CRDs, descriptorMatches d crd = true)
    (hkeys : (crd.Labels.map Prod.fst).Nodup)
    (hman : mapGet crd.Labels env.deps.LabelKubernetesManagedBy =
      env.deps.LabelValueStackManager)
    (hlA : mapHas crd.Labels (env.deps.MultiParentLabel hA.ext) = true)
    (hlB : mapHas crd.Labels (env.deps.MultiParentLabel hB.ext) = true)
    (hlNS : mapHas crd.Labels (env.deps.LabelNamespaceFmt hA.ext.Namespace) = true)
    (hAB : env.deps.MultiParentLabel hA.ext ≠ env.deps.MultiParentLabel hB.ext)
    (hNSA : env.deps.LabelNamespaceFmt hA.ext.Namespace ≠ env.deps.MultiParentLabel hA.ext)
    (hMA : env.deps.LabelKubernetesManagedBy ≠ env.deps.MultiParentLabel hA.ext)
    (hpreA : HasPrefix (env.deps.MultiParentLabel hB.ext)
      (env.deps.MultiParentLabelPrefix hA.ext) = true)
    (honly : ∀ p ∈ crd.Labels, HasPrefix p.1 (env.deps.MultiParentLabelPrefix hB.ext) = true →
      p.1 = env.deps.MultiParentLabel hA.ext ∨ p.1 = env.deps.MultiParentLabel hB.ext) :
    (removeCRDLabels env hA w).1 = none ∧
    (∃ x ∈ ((removeCRDLabels env hA w).2.cluster hA.kube).CRDs, x.Name = crd.Name) ∧
    (∀ x ∈ ((removeCRDLabels env hA w).2.cluster hA.kube).CRDs, x.Name = crd.Name →
      mapHas x.Labels (env.deps.MultiParentLabel hA.ext) = false ∧
      mapHas x.Labels (env.deps.MultiParentLabel hB.ext) = true ∧
      mapHas x.Labels (env.deps.LabelNamespaceFmt hA.ext.Namespace) = true) ∧
    (removeCRDLabels env hB (removeCRDLabels env hA w).2).1 = none ∧
    (∃ x ∈ ((removeCRDLabels env hB (removeCRDLabels env hA w).2).2.cluster hA.kube).CRDs,
      x.Name = crd.Name) ∧
    (∀ x ∈ ((removeCRDLabels env hB (removeCRDLabels env hA w).2).2.cluster hA.kube).CRDs,
      x.Name = crd.Name →
      mapHas x.Labels (env.deps.MultiParentLabel hB.ext) = false ∧
      mapHas x.Labels (env.deps.LabelNamespaceFmt hA.ext.Namespace) = false) := by
  obtain ⟨dA, hdA, hmA⟩ := hmatchA
  obtain ⟨dB, hdB, hmB⟩ := hmatchB
  have hneA : hA.ext.Spec.CRDs ≠ [] := List.ne_nil_of_mem hdA
  have hneB : hB.ext.Spec.CRDs ≠ [] := List.ne_nil_of_mem hdB
  -- phase A
  have hHPA : HasPrefixedLabel (RemoveLabels crd.Labels [env.deps.MultiParentLabel hA.ext])
      (env.deps.MultiParentLabelPrefix hA.ext) = true := by
    rw [HasPrefixedLabel_iff]
    refine ⟨env.deps.MultiParentLabel hB.ext, ?_, hpreA⟩
    rw [mapHas_RemoveLabels_single, hlB]
    simpa using fun e => hAB e.symm
  have phaseA := removeCRDLabels_loop_phase env hA hF (w.cluster hA.kube).CRDs hnames crd hcrd
    hman
    (fun L => (L.map Prod.fst).Nodup ∧
      mapGet L env.deps.LabelKubernetesManagedBy = env.deps.LabelValueStackManager ∧
      mapHas L (env.deps.MultiParentLabel hB.ext) = true ∧
      mapHas L (env.deps.LabelNamespaceFmt hA.ext.Namespace) = true ∧
      ∀ k, mapHas L k = true → mapHas crd.Labels k = true)
    (fun L => mapHas L (env.deps.MultiParentLabel hA.ext) = false)
    ⟨hkeys, hman, hlB, hlNS, fun _ hk => hk⟩
    (by
      rintro L ⟨hLnd, hLman, hLB, hLNS, hLsub⟩
      rw [release_patch_eq_filter env hA crd.Labels L hkeys]
      have hkeep : ∀ k, k ≠ env.deps.MultiParentLabel hA.ext →
          releaseKeeps env hA crd.Labels k = true := by
        intro k hk
        simp [releaseKeeps, hHPA, hk]
      refine ⟨⟨nodup_keys_filter _ _ hLnd, ?_, ?_, ?_, ?_⟩, ?_⟩
      · rw [mapGet_filter L (releaseKeeps env hA crd.Labels) _ (hkeep _ hMA)]
        exact hLman
      · rw [mapHas_filter L (releaseKeeps env hA crd.Labels), hLB,
          hkeep _ (fun e => hAB e.symm)]
        rfl
      · rw [mapHas_filter L (releaseKeeps env hA crd.Labels), hLNS, hkeep _ hNSA]
        rfl
      · intro k hk
        rw [mapHas_filter L (releaseKeeps env hA crd.Labels)] at hk
        exact hLsub k (Bool.and_eq_true_iff.1 hk).1
      · show mapHas (L.filter fun p => releaseKeeps env hA crd.Labels p.1) _ = false
        rw [mapHas_filter L (releaseKeeps env hA crd.Labels)]
        simp [releaseKeeps, hlA])
    (crdsFromStack.collect (w.cluster hA.kube).CRDs hA.ext.Spec.CRDs)
    (fun c hc => ((mem_collect _ _ c).1 hc).1)
    ((mem_collect _ _ crd).2 ⟨hcrd, dA, hdA, hmA⟩)
    (w.record ⟨hA.kube, Verb.list, Kind.CustomResourceDefinition, "", "", []⟩)
    (by rw [record_cluster])
  rw [← removeCRDLabels_of_nofault env hA w hF hneA] at phaseA
  obtain ⟨hnoneA, hnamesA, hpropA⟩ := phaseA
  have hexA : ∃ x ∈ ((removeCRDLabels env hA w).2.cluster hA.kube).CRDs, x.Name = crd.Name := by
    have : crd.Name ∈ (((removeCRDLabels env hA w).2.cluster hA.kube).CRDs.map fun x => x.Name) := by
      rw [hnamesA]
      exact List.mem_map.2 ⟨crd, hcrd, rfl⟩
    obtain ⟨x, hx, hxn⟩ := List.mem_map.1 this
    exact ⟨x, hx, hxn⟩
  refine ⟨hnoneA, hexA, fun x hx hn => ⟨(hpropA x hx hn).2.2, (hpropA x hx hn).2.1.2.2.1,
    (hpropA x hx hn).2.1.2.2.2.1⟩, ?_⟩
  -- phase B
  obtain ⟨x0, hx0, hx0n⟩ := hexA
  obtain ⟨hx0e, ⟨h0nd, h0man, h0B, h0NS, h0sub⟩, h0A⟩ := hpropA x0 hx0 hx0n
  have hmB0 : descriptorMatches dB x0 = true := by
    rw [hx0e]
    exact hmB
  have hHPB : HasPrefixedLabel (RemoveLabels x0.Labels [env.deps.MultiParentLabel hB.ext])
      (env.deps.MultiParentLabelPrefix hB.ext) = false := by
    cases hb : HasPrefixedLabel (RemoveLabels x0.Labels [env.deps.MultiParentLabel hB.ext])
        (env.deps.MultiParentLabelPrefix hB.ext) with
    | false => rfl
    | true =>
      exfalso
      obtain ⟨k, hk, hpk⟩ := (HasPrefixedLabel_iff _ _).1 hb
      rw [mapHas_RemoveLabels_single] at hk
      obtain ⟨hk1, hk2⟩ := Bool.and_eq_true_iff.1 hk
      have hk2' : k ≠ env.deps.MultiParentLabel hB.ext := by simpa using hk2
      obtain ⟨p, hp, hpk'⟩ := exists_mem_of_mapHas crd.Labels k (h0sub k hk1)
      rcases honly p hp (by rw [hpk']; exact hpk) with e | e
      · rw [hpk'] at e
        rw [e, h0A] at hk1
        cases hk1
      · rw [hpk'] at e
        exact hk2' e
  have hnames1 : (((removeCRDLabels env hA w).2.cluster hB.kube).CRDs.map fun x => x.Name).Nodup := by
    rw [← hkube, hnamesA]
    exact hnames
  have phaseB := removeCRDLabels_loop_phase env hB hF
    ((removeCRDLabels env hA w).2.cluster hB.kube).CRDs hnames1 x0 (by rw [← hkube]; exact hx0)
    h0man
    (fun _ => True)
    (fun L => mapHas L (env.deps.MultiParentLabel hB.ext) = false ∧
      mapHas L (env.deps.LabelNamespaceFmt hA.ext.Namespace) = false)
    trivial
    (by
      intro L _
      rw [release_patch_eq_filter env hB x0.Labels L h0nd]
      refine ⟨trivial, ?_, ?_⟩
      · show mapHas (L.filter fun p => releaseKeeps env hB x0.Labels p.1) _ = false
        rw [mapHas_filter L (releaseKeeps env hB x0.Labels)]
        simp [releaseKeeps, h0B]
      · show mapHas (L.filter fun p => releaseKeeps env hB x0.Labels p.1) _ = false
        rw [mapHas_filter L (releaseKeeps env hB x0.Labels)]
        simp [releaseKeeps, h0NS, hHPB, ← hns])
    (crdsFromStack.collect ((removeCRDLabels env hA w).2.cluster hB.kube).CRDs hB.ext.Spec.CRDs)
    (fun c hc => ((mem_collect _ _ c).1 hc).1)
    ((mem_collect _ _ x0).2 ⟨by rw [← hkube]; exact hx0, dB, hdB, hmB0⟩)
    ((removeCRDLabels env hA w).2.record
      ⟨hB.kube, Verb.list, Kind.CustomResourceDefinition, "", "", []⟩)
    (by rw [record_cluster])
  rw [← removeCRDLabels_of_nofault env hB _ hF hneB] at phaseB
  obtain ⟨hnoneB, hnamesB, hpropB⟩ := phaseB
  rw [← hkube] at hnamesB hpropB
  refine ⟨hnoneB, ?_, fun x hx hn => (hpropB x hx (hn.trans hx0n.symm)).2.2⟩
  have : crd.Name ∈ (((removeCRDLabels env hB (removeCRDLabels env hA w).2).2.cluster
      hA.kube).CRDs.map fun x => x.Name) := by
    rw [hnamesB, hnamesA]
    exact List.mem_map.2 ⟨crd, hcrd, rfl⟩
  obtain ⟨x, hx, hxn⟩ := List.mem_map.1 this
  exact ⟨x, hx, hxn⟩

/-- Witness of C3: `sharedCRD` is owned by `stackA` and `stackB` of namespace
`ns`; releasing A leaves B's label and the namespace label, releasing B then
removes both. -/
theorem removeCRDLabels_reference_count_witness :
    (∀ x ∈ ((removeCRDLabels exampleEnv handlerA worldShared).2.cluster ClusterId.tenant).CRDs,
      x.Name = "foos.example.org" →
      mapHas x.Labels "parent.stacks.crossplane.io/ns-a" = false ∧
      mapHas x.Labels "parent.stacks.crossplane.io/ns-b" = true ∧
      mapHas x.Labels "namespace.crossplane.io/ns" = true) ∧
    (∀ x ∈ ((removeCRDLabels exampleEnv handlerB
        (removeCRDLabels exampleEnv handlerA worldShared).2).2.cluster ClusterId.tenant).CRDs,
      x.Name = "foos.example.org" →
      mapHas x.Labels "parent.stacks.crossplane.io/ns-b" = false ∧
      mapHas x.Labels "namespace.crossplane.io/ns" = false) :=
  have t := removeCRDLabels_reference_count exampleEnv handlerA handlerB worldShared sharedCRD
    (fun _ _ => rfl) rfl rfl (by decide) (by decide) (by decide) (by decide) (by decide)
    (by decide) (by decide) (by decide) (by decide) (by decide) (by decide) (by decide)
    (by decide) (by decide)
  ⟨t.2.2.1, t.2.2.2.2.2⟩

/-! ## Host-aware preparation without a host configuration -/

/-- C19: when the handler has no host-aware configuration,
`prepareHostAwarePodSpec`, `prepareHostAwareDeployment` and
`prepareHostAwareJob` each return the error "host aware mode is not enabled",
for every pod spec, Deployment, Job and token secret name, and hand back the
object they were given as it was (so its pod spec, name, namespace and
annotations are unmodified). -/
theorem prepareHostAware_not_enabled (env : Env) (h : stackHandler)
    (hcfg : h.hostAwareConfig = none) (tokenSecret : String) (ps : PodSpec) (d : Deployment)
    (j : Job) :
    prepareHostAwarePodSpec h tokenSecret ps =
      (some (Err.New "host aware mode is not enabled"), ps) ∧
    prepareHostAwareDeployment env h d tokenSecret =
      (some (Err.New "host aware mode is not enabled"), d) ∧
    prepareHostAwareJob env h j tokenSecret =
      (some (Err.New "host aware mode is not enabled"), j) := by
  unfold prepareHostAwarePodSpec prepareHostAwareDeployment prepareHostAwareJob
  rw [hcfg]
  exact ⟨rfl, rfl, rfl⟩

theorem prepareHostAware_not_enabled_witness :
    handlerA.hostAwareConfig = none ∧
    prepareHostAwarePodSpec handlerA "token" examplePodSpec =
      (some (Err.New "host aware mode is not enabled"), examplePodSpec) ∧
    prepareHostAwareDeployment exampleEnv handlerA exampleDeployment "token" =
      (some (Err.New "host aware mode is not enabled"), exampleDeployment) ∧
    prepareHostAwareJob exampleEnv handlerA exampleJob "token" =
      (some (Err.New "host aware mode is not enabled"), exampleJob) :=
  ⟨rfl, prepareHostAware_not_enabled exampleEnv handlerA rfl "token" examplePodSpec
    exampleDeployment exampleJob⟩

/-! ## Persona roles -/

theorem personaRules_cons (persona : String) (c : CustomResourceDefinition)
    (rest : List CustomResourceDefinition) :
    personaRules persona (c :: rest) =
      { APIGroups := [c.Group],
        Resources := [c.Plural] ++
          (if declaresStatus c then [c.Plural ++ "/status"] else []) ++
          (if declaresScale c then [c.Plural ++ "/scale"] else []),
        Verbs := roleVerbsOf persona, ResourceNames := [], NonResourceURLs := [] } ::
        personaRules persona rest := by
  obtain ⟨name, labels, group, kind, plural, versions, subs⟩ := c
  cases subs <;> simp [personaRules, declaresStatus, declaresScale]

theorem mem_personaRules (persona : String) (crds : List CustomResourceDefinition)
    (r : PolicyRule) :
    r ∈ personaRules persona crds ↔
      ∃ crd ∈ crds, r =
        { APIGroups := [crd.Group],
          Resources := [crd.Plural] ++
            (if declaresStatus crd then [crd.Plural ++ "/status"] else []) ++
            (if declaresScale crd then [crd.Plural ++ "/scale"] else []),
          Verbs := roleVerbsOf persona, ResourceNames := [], NonResourceURLs := [] } := by
  induction crds with
  | nil => simp [personaRules]
  | cons c rest ih =>
    rw [personaRules_cons]
    simp only [List.mem_cons, ih, exists_eq_or_imp]

theorem createClusterRole_added (F : Faults) (id : ClusterId) (o : ClusterRole) (w : World)
    (id' : ClusterId) (r : ClusterRole)
    (hr : r ∈ ((createClusterRole F id o w).2.cluster id').ClusterRoles) :
    r ∈ (w.cluster id').ClusterRoles ∨ r = o := by
  unfold createClusterRole issue at hr
  cases hF : F w.log ⟨id, Verb.create, Kind.ClusterRole, "", o.Name, []⟩ with
  | some e =>
    rw [hF] at hr
    simp at hr
    exact Or.inl hr
  | none =>
    rw [hF] at hr
    simp only [setCluster_cluster, record_cluster] at hr
    by_cases hid : id' = id
    · subst hid
      simp only [if_true] at hr
      split at hr
      · exact Or.inl hr
      · simp only [List.mem_append, List.mem_singleton] at hr
        exact hr
    · rw [if_neg hid] at hr
      exact Or.inl hr

/-- Every ClusterRole the persona loop adds to a cluster is the role built
for one of the personas it went through. -/
theorem createPersonaClusterRoles_added (env : Env) (h : stackHandler)
    (crds : List CustomResourceDefinition) (personas : List String) (w : World)
    (id : ClusterId) (r : ClusterRole)
    (hr : r ∈ ((createPersonaClusterRoles env h crds personas w).2.cluster id).ClusterRoles) :
    r ∈ (w.cluster id).ClusterRoles ∨
      ∃ p ∈ personas, r = personaClusterRole env h p crds := by
  induction personas generalizing w with
  | nil => exact Or.inl hr
  | cons p rest ih =>
    unfold createPersonaClusterRoles at hr
    have hstep := createClusterRole_added env.faults h.kube (personaClusterRole env h p crds) w id r
    generalize createClusterRole env.faults h.kube (personaClusterRole env h p crds) w = res
      at hr hstep
    obtain ⟨err, w1⟩ := res
    simp only [] at hr hstep
    split at hr
    · rcases hstep hr with h1 | h1
      · exact Or.inl h1
      · exact Or.inr ⟨p, List.mem_cons_self _ _, h1⟩
    · rcases ih w1 hr with h1 | ⟨q, hq, h1⟩
      · rcases hstep h1 with h2 | h2
        · exact Or.inl h2
        · exact Or.inr ⟨p, List.mem_cons_self _ _, h2⟩
      · exact Or.inr ⟨q, List.mem_cons_of_mem _ hq, h1⟩

/-- C14: for each persona of admin, edit and view and each schema object of
the matched list, the ClusterRole built for the persona contains the policy
rule whose API groups are the object's group, whose resources are the plural,
then plural/status when a status subresource is declared, then plural/scale
when a scale subresource is declared, and whose verbs are the persona's fixed
verb set; and every ClusterRole the persona handler adds to a cluster is the
role so built for one of the personas it iterates over. -/
theorem persona_role_has_rule_per_schema (env : Env) (h : stackHandler)
    (crds : List CustomResourceDefinition) (persona : String)
    (hp : persona ∈ ["admin", "edit", "view"]) (crd : CustomResourceDefinition)
    (hc : crd ∈ crds) :
    ({ APIGroups := [crd.Group],
       Resources := [crd.Plural] ++
         (if declaresStatus crd then [crd.Plural ++ "/status"] else []) ++
         (if declaresScale crd then [crd.Plural ++ "/scale"] else []),
       Verbs :=
         if persona = "view" then ["get", "list", "watch"]
         else ["get", "list", "watch", "create", "delete", "deletecollection", "patch",
               "update"],
       ResourceNames := [], NonResourceURLs := [] } : PolicyRule) ∈
      (personaClusterRole env h persona crds).Rules ∧
    ∀ (w : World) (id : ClusterId),
      ∀ r ∈ ((createPersonaClusterRolesCRDHandler env h crds w).2.2.cluster id).ClusterRoles,
        r ∈ (w.cluster id).ClusterRoles ∨
          ∃ p ∈ env.personaOrder, r = personaClusterRole env h p crds := by
  constructor
  · show _ ∈ personaRules persona crds
    rw [mem_personaRules]
    refine ⟨crd, hc, ?_⟩
    have hv : roleVerbsOf persona =
        (if persona = "view" then ["get", "list", "watch"]
         else ["get", "list", "watch", "create", "delete", "deletecollection", "patch",
               "update"]) := by
      simp only [List.mem_cons, List.mem_singleton, List.not_mem_nil, or_false] at hp
      rcases hp with rfl | rfl | rfl <;> decide
    rw [hv]
  · intro w id r hr
    exact createPersonaClusterRoles_added env h crds env.personaOrder w id r hr

theorem persona_role_has_rule_per_schema_witness :
    "view" ∈ ["admin", "edit", "view"] ∧ fooCRD ∈ [fooCRD] ∧
    (({ APIGroups := ["example.org"], Resources := ["foos", "foos/status"],
        Verbs := ["get", "list", "watch"], ResourceNames := [], NonResourceURLs := [] } :
        PolicyRule) ∈ (personaClusterRole exampleEnv handlerA "view" [fooCRD]).Rules ∧
      ∀ (w : World) (id : ClusterId),
        ∀ r ∈ ((createPersonaClusterRolesCRDHandler exampleEnv handlerA [fooCRD] w).2.2.cluster
            id).ClusterRoles,
          r ∈ (w.cluster id).ClusterRoles ∨
            ∃ p ∈ exampleEnv.personaOrder, r = personaClusterRole exampleEnv handlerA p [fooCRD]) :=
  ⟨by decide, by decide,
    persona_role_has_rule_per_schema exampleEnv handlerA [fooCRD] "view" (by decide) fooCRD
      (by decide)⟩

/-! ## Setting and copying labels -/

theorem mapGet_mapSet (m : StringMap) (k v k' : String) :
    mapGet (mapSet m k v) k' = if k' = k then v else mapGet m k' := by
  unfold mapSet
  rw [mapGet_cons]
  by_cases h : k = k'
  · simp [h]
  · have h' : ¬ k' = k := fun e => h e.symm
    rw [if_neg h, if_neg h', mapDelete_eq_filter]
    exact mapGet_filter m (fun x => decide (x ≠ k)) k' (by simpa using h')

theorem mapHas_mapSet (m : StringMap) (k v k' : String) :
    mapHas (mapSet m k v) k' = (decide (k' = k) || mapHas m k') := by
  unfold mapSet
  rw [mapHas_cons, mapDelete_eq_filter]
  have := mapHas_filter m (fun x => decide (x ≠ k)) k'
  rw [this]
  by_cases h : k = k'
  · simp [h]
  · have h' : ¬ k' = k := fun e => h e.symm
    simp [h, h']

theorem nodup_keys_mapSet (m : StringMap) (k v : String) (hm : (m.map Prod.fst).Nodup) :
    ((mapSet m k v).map Prod.fst).Nodup := by
  unfold mapSet
  rw [mapDelete_eq_filter, List.map_cons, List.nodup_cons]
  constructor
  · intro hmem
    rw [List.mem_map] at hmem
    obtain ⟨p, hp, hk⟩ := hmem
    rw [List.mem_filter] at hp
    simp at hp
    exact hp.2 hk
  · exact nodup_keys_filter m _ hm

theorem mapHas_AddLabels (l m : StringMap) (k : String) :
    mapHas (AddLabels l m) k = (mapHas m k || mapHas l k) := by
  induction m generalizing l with
  | nil => simp [AddLabels, mapHas]
  | cons p rest ih =>
    obtain ⟨k', v⟩ := p
    rw [AddLabels, ih, mapHas_mapSet, mapHas_cons]
    by_cases h : k' = k
    · simp [h]
    · have h' : ¬ k = k' := fun e => h e.symm
      simp [h, h']

theorem mapGet_AddLabels (l m : StringMap) (k : String) (hm : (m.map Prod.fst).Nodup) :
    mapGet (AddLabels l m) k = if mapHas m k then mapGet m k else mapGet l k := by
  induction m generalizing l with
  | nil => simp [AddLabels, mapHas]
  | cons p rest ih =>
    obtain ⟨k', v⟩ := p
    rw [List.map_cons, List.nodup_cons] at hm
    rw [AddLabels, ih _ hm.2, mapHas_cons, mapGet_cons, mapGet_mapSet]
    by_cases h : k' = k
    · subst h
      have hrest : mapHas rest k' = false := by
        cases hh : mapHas rest k' with
        | false => rfl
        | true => exact absurd ((mapHas_iff rest k').1 hh) hm.1
      simp [hrest]
    · have h' : ¬ k = k' := fun e => h e.symm
      simp [h, h']

theorem mapHas_copyLabels (m : StringMap) (k : String) : mapHas (copyLabels m) k = mapHas m k := by
  unfold copyLabels
  rw [mapHas_AddLabels]
  simp [mapHas]

theorem mapGet_copyLabels (m : StringMap) (k : String) (hm : (m.map Prod.fst).Nodup) :
    mapGet (copyLabels m) k = mapGet m k := by
  unfold copyLabels
  rw [mapGet_AddLabels _ _ _ hm]
  cases hh : mapHas m k with
  | true => simp
  | false =>
    have : mapGet m k = "" := by
      clear hm
      induction m with
      | nil => rfl
      | cons p rest ih =>
        obtain ⟨k', v⟩ := p
        rw [mapHas_cons] at hh
        rw [mapGet_cons]
        by_cases h : k' = k
        · simp [h] at hh
        · simp [h] at hh
          rw [if_neg h]
          exact ih hh
    simp [this, mapGet]

/-! ## The label maps of the persona handler on the heap -/

theorem read_write (heap : MapHeap) (a : Nat) (k v : String) (b : Nat) :
    (heap.write a k v).read b = if b = a then mapSet (heap.read a) k v else heap.read b :=
  rfl

theorem next_write (heap : MapHeap) (a : Nat) (k v : String) :
    (heap.write a k v).next = heap.next :=
  rfl

theorem fill_next (a : Nat) (m : StringMap) (heap : MapHeap) :
    (copyLabels.fill a m heap).next = heap.next := by
  induction m generalizing heap with
  | nil => rfl
  | cons p rest ih =>
    obtain ⟨k, v⟩ := p
    rw [copyLabels.fill, ih, next_write]

theorem fill_read_other (a : Nat) (m : StringMap) (heap : MapHeap) (b : Nat) (hb : b ≠ a) :
    (copyLabels.fill a m heap).read b = heap.read b := by
  induction m generalizing heap with
  | nil => rfl
  | cons p rest ih =>
    obtain ⟨k, v⟩ := p
    rw [copyLabels.fill, ih, read_write, if_neg hb]

theorem fill_read_same (a : Nat) (m : StringMap) (heap : MapHeap) :
    (copyLabels.fill a m heap).read a = AddLabels (heap.read a) m := by
  induction m generalizing heap with
  | nil => rfl
  | cons p rest ih =>
    obtain ⟨k, v⟩ := p
    rw [copyLabels.fill, ih, read_write, if_pos rfl, AddLabels]

/-- `copyLabels` on the heap: the map returned is new, holds what the value
form of `copyLabels` gives, and no map that was there is written. -/
theorem copyLabels_onHeap (heap : MapHeap) (labels : Nat) :
    (copyLabels.onHeap heap labels).1 = heap.next ∧
      (copyLabels.onHeap heap labels).2.next = heap.next + 1 ∧
      (copyLabels.onHeap heap labels).2.read heap.next = copyLabels (heap.read labels) ∧
      ∀ a, a < heap.next → (copyLabels.onHeap heap labels).2.read a = heap.read a := by
  refine ⟨rfl, ?_, ?_, ?_⟩
  · unfold copyLabels.onHeap
    rw [fill_next]
    rfl
  · unfold copyLabels.onHeap
    show (copyLabels.fill heap.next _ _).read heap.next = _
    rw [fill_read_same]
    unfold copyLabels MapHeap.make MapHeap.read
    simp
  · intro a ha
    unfold copyLabels.onHeap
    show (copyLabels.fill heap.next _ _).read a = _
    rw [fill_read_other _ _ _ _ (by omega)]
    unfold MapHeap.make MapHeap.read
    simp only []
    rw [if_neg (by omega)]

/-- One iteration of the persona loop on the heap: the label map of the role
is a new map with the labels `personaClusterRole` gives, and no map that was
there before, the shared parent-label map included, is written. -/
theorem personaLabels_spec (env : Env) (h : stackHandler) (persona : String)
    (crds : List CustomResourceDefinition) (heap : MapHeap) (labels : Nat)
    (hparent : heap.read labels = env.deps.ParentLabels h.ext) :
    (personaLabels env h persona heap labels).1 = heap.next ∧
      (personaLabels env h persona heap labels).2.next = heap.next + 1 ∧
      (personaLabels env h persona heap labels).2.read
          (personaLabels env h persona heap labels).1 =
        (personaClusterRole env h persona crds).Labels ∧
      ∀ a, a < heap.next → (personaLabels env h persona heap labels).2.read a = heap.read a := by
  obtain ⟨c1, c2, c3, c4⟩ := copyLabels_onHeap heap labels
  unfold personaLabels personaClusterRole
  simp only []
  rw [c1]
  cases isNamespaced h with
  | false =>
    simp only [Bool.false_eq_true, if_false]
    refine ⟨trivial, ?_, ?_, ?_⟩
    · rw [next_write, c2]
    · rw [read_write, if_pos rfl, c3, hparent]
    · intro a ha
      rw [read_write, if_neg (by omega), c4 a ha]
  | true =>
    simp only [if_true]
    refine ⟨trivial, ?_, ?_, ?_⟩
    · rw [next_write, next_write, c2]
    · rw [read_write, if_pos rfl, read_write, if_pos rfl, c3, hparent]
    · intro a ha
      rw [read_write, if_neg (by omega), read_write, if_neg (by omega), c4 a ha]

/-- The whole loop on the heap: every role gets the labels `personaClusterRole`
gives, and the shared parent-label map is at the end as it was. -/
theorem personaLabels_loop_spec (env : Env) (h : stackHandler)
    (crds : List CustomResourceDefinition) (personas : List String) (heap : MapHeap)
    (labels : Nat) (hlabels : labels < heap.next)
    (hparent : heap.read labels = env.deps.ParentLabels h.ext) :
    (personaLabels.loop env h personas heap labels).1.map
        (personaLabels.loop env h personas heap labels).2.read =
      personas.map (fun p => (personaClusterRole env h p crds).Labels) ∧
    heap.next ≤ (personaLabels.loop env h personas heap labels).2.next ∧
    (∀ a ∈ (personaLabels.loop env h personas heap labels).1, heap.next ≤ a) ∧
    ∀ a, a < heap.next →
      (personaLabels.loop env h personas heap labels).2.read a = heap.read a := by
  induction personas generalizing heap with
  | nil =>
    refine ⟨rfl, Nat.le_refl _, ?_, fun _ _ => rfl⟩
    intro a ha
    cases ha
  | cons p rest ih =>
    obtain ⟨s1, s2, s3, s4⟩ := personaLabels_spec env h p crds heap labels hparent
    have hl1 : labels < (personaLabels env h p heap labels).2.next := by
      rw [s2]
      omega
    have hp1 : (personaLabels env h p heap labels).2.read labels =
        env.deps.ParentLabels h.ext := by
      rw [s4 labels hlabels, hparent]
    obtain ⟨i1, i2, i3, i4⟩ := ih (personaLabels env h p heap labels).2 hl1 hp1
    rw [s2] at i2 i3 i4
    unfold personaLabels.loop
    simp only [List.map_cons]
    refine ⟨?_, by omega, ?_, ?_⟩
    · rw [i1, i4 _ (by rw [s1]; omega), s3]
    · intro a ha
      rcases List.mem_cons.1 ha with rfl | ha
      · rw [s1]
      · have := i3 a ha
        omega
    · intro a ha
      rw [i4 a (by omega), s4 a ha]

/-- C16 as stated fails: the role built for the admin persona of the
namespaced Stack `ns/a` carries the aggregation label, the namespace-member
label and the two parent labels, and the role of the same Stack with scope
`Cluster` carries the aggregation label and the two parent labels: in
neither is there a label besides these, so no scope label of its own. -/
theorem persona_role_has_no_scope_label :
    (personaClusterRole exampleEnv handlerA "admin" [fooCRD]).Labels =
        [("rbac.crossplane.io/aggregate-to-namespace-admin", "true"),
         ("namespace.crossplane.io/ns", "true"),
         ("core.crossplane.io/parent-name", "a"),
         ("core.crossplane.io/parent-namespace", "ns")] ∧
      (personaClusterRole exampleEnv handlerClusterScope "admin" [fooCRD]).Labels =
        [("rbac.crossplane.io/aggregate-to-environment-admin", "true"),
         ("core.crossplane.io/parent-name", "a"),
         ("core.crossplane.io/parent-namespace", "ns")] ∧
      (¬ ∃ k, mapHas (personaClusterRole exampleEnv handlerA "admin" [fooCRD]).Labels k = true ∧
        mapHas (exampleEnv.deps.ParentLabels handlerA.ext) k = false ∧
        k ≠ exampleEnv.deps.LabelNamespaceFmt "ns" ∧
        k ≠ exampleEnv.deps.LabelAggregateFmt exampleEnv.deps.NamespaceScoped "admin") ∧
      (¬ ∃ k,
        mapHas (personaClusterRole exampleEnv handlerClusterScope "admin" [fooCRD]).Labels k
          = true ∧
        mapHas (exampleEnv.deps.ParentLabels handlerClusterScope.ext) k = false ∧
        k ≠ exampleEnv.deps.LabelNamespaceFmt "ns" ∧
        k ≠ exampleEnv.deps.LabelAggregateFmt exampleEnv.deps.EnvironmentScoped "admin") := by
  have hA : (personaClusterRole exampleEnv handlerA "admin" [fooCRD]).Labels =
      [("rbac.crossplane.io/aggregate-to-namespace-admin", "true"),
       ("namespace.crossplane.io/ns", "true"),
       ("core.crossplane.io/parent-name", "a"),
       ("core.crossplane.io/parent-namespace", "ns")] := by decide
  have hC : (personaClusterRole exampleEnv handlerClusterScope "admin" [fooCRD]).Labels =
      [("rbac.crossplane.io/aggregate-to-environment-admin", "true"),
       ("core.crossplane.io/parent-name", "a"),
       ("core.crossplane.io/parent-namespace", "ns")] := by decide
  have pA : exampleEnv.deps.ParentLabels handlerA.ext =
      [("core.crossplane.io/parent-namespace", "ns"),
       ("core.crossplane.io/parent-name", "a")] := rfl
  have pC : exampleEnv.deps.ParentLabels handlerClusterScope.ext =
      [("core.crossplane.io/parent-namespace", "ns"),
       ("core.crossplane.io/parent-name", "a")] := rfl
  have nsKey : exampleEnv.deps.LabelNamespaceFmt "ns" = "namespace.crossplane.io/ns" := by
    decide
  have aggN : exampleEnv.deps.LabelAggregateFmt exampleEnv.deps.NamespaceScoped "admin" =
      "rbac.crossplane.io/aggregate-to-namespace-admin" := by decide
  have aggE : exampleEnv.deps.LabelAggregateFmt exampleEnv.deps.EnvironmentScoped "admin" =
      "rbac.crossplane.io/aggregate-to-environment-admin" := by decide
  refine ⟨hA, hC, ?_, ?_⟩
  · rintro ⟨k, hk, hp, hns, hagg⟩
    rw [hA, mapHas_iff] at hk
    rw [pA] at hp
    rw [nsKey] at hns
    rw [aggN] at hagg
    simp only [List.map_cons, List.map_nil, List.mem_cons, List.mem_singleton,
      List.not_mem_nil, or_false] at hk
    rcases hk with rfl | rfl | rfl | rfl
    · exact hagg rfl
    · exact hns rfl
    · revert hp
      decide
    · revert hp
      decide
  · rintro ⟨k, hk, hp, hns, hagg⟩
    rw [hC, mapHas_iff] at hk
    rw [pC] at hp
    rw [aggE] at hagg
    simp only [List.map_cons, List.map_nil, List.mem_cons, List.mem_singleton,
      List.not_mem_nil, or_false] at hk
    rcases hk with rfl | rfl | rfl
    · exact hagg rfl
    · revert hp
      decide
    · revert hp
      decide

/-- C16, amended: the ClusterRole built for a persona is named
`PersonaRoleName(Stack, persona)`; its label keys are the keys of the Stack's
parent labels, the aggregation key for the scope and the persona, and, for a
namespaced Stack, the namespace-member key of the install namespace, and no
other key: the scope is marked in the aggregation key alone. The aggregation
label and the namespace-member label have value "true" and every other key
has the value of the parent labels. The scope in the aggregation key is the
namespace scope when PermissionScope is namespaced or unset and the
environment scope otherwise (so for cluster). When the parent labels and the
aggregation key do not themselves use the namespace-member key, the role
carries it exactly when the Stack is namespaced. On the Go heap, with
`labels` the one map obtained from `ParentLabels` before the loop: the label
map of a role is a new map, made by `copyLabels`, and the statements of an
iteration write into it alone, so the shared parent-label map and every other
map already there are left as they were, after one iteration and after the
whole loop, and every role of the loop gets the labels computed from the
parent labels as `ParentLabels` returned them. Every ClusterRole the handler
adds to a cluster is the role so built for one of the personas. -/
theorem persona_role_name_and_labels (env : Env) (h : stackHandler)
    (crds : List CustomResourceDefinition) (persona : String)
    (hparent : ((env.deps.ParentLabels h.ext).map Prod.fst).Nodup) :
    (personaClusterRole env h persona crds).Name = env.deps.PersonaRoleName h.ext persona ∧
    (isNamespaced h = true ↔
      (h.ext.Spec.PermissionScope = "Namespaced" ∨ h.ext.Spec.PermissionScope = "")) ∧
    personaScope env h =
      (if h.ext.Spec.PermissionScope = "Namespaced" ∨ h.ext.Spec.PermissionScope = "" then
        env.deps.NamespaceScoped
       else env.deps.EnvironmentScoped) ∧
    (∀ k, mapHas (personaClusterRole env h persona crds).Labels k =
      (decide (k = env.deps.LabelAggregateFmt (personaScope env h) persona) ||
        (isNamespaced h && decide (k = env.deps.LabelNamespaceFmt h.ext.Namespace)) ||
        mapHas (env.deps.ParentLabels h.ext) k)) ∧
    (∀ k, mapGet (personaClusterRole env h persona crds).Labels k =
      (if k = env.deps.LabelAggregateFmt (personaScope env h) persona then "true"
       else if isNamespaced h = true ∧ k = env.deps.LabelNamespaceFmt h.ext.Namespace then "true"
       else mapGet (env.deps.ParentLabels h.ext) k)) ∧
    (mapHas (env.deps.ParentLabels h.ext) (env.deps.LabelNamespaceFmt h.ext.Namespace) = false →
      env.deps.LabelNamespaceFmt h.ext.Namespace ≠
        env.deps.LabelAggregateFmt (personaScope env h) persona →
      (mapHas (personaClusterRole env h persona crds).Labels
          (env.deps.LabelNamespaceFmt h.ext.Namespace) = true ↔ isNamespaced h = true)) ∧
    (∀ (heap : MapHeap) (labels : Nat), labels < heap.next →
      heap.read labels = env.deps.ParentLabels h.ext →
      (personaLabels env h persona heap labels).1 = heap.next ∧
      (personaLabels env h persona heap labels).2.read
          (personaLabels env h persona heap labels).1 =
        (personaClusterRole env h persona crds).Labels ∧
      (personaLabels env h persona heap labels).2.read labels = heap.read labels ∧
      ∀ a, a < heap.next →
        (personaLabels env h persona heap labels).2.read a = heap.read a) ∧
    (∀ (personas : List String) (heap : MapHeap) (labels : Nat), labels < heap.next →
      heap.read labels = env.deps.ParentLabels h.ext →
      (personaLabels.loop env h personas heap labels).1.map
          (personaLabels.loop env h personas heap labels).2.read =
        personas.map (fun p => (personaClusterRole env h p crds).Labels) ∧
      (personaLabels.loop env h personas heap labels).2.read labels = heap.read labels ∧
      ∀ a, a < heap.next →
        (personaLabels.loop env h personas heap labels).2.read a = heap.read a) ∧
    (∀ (w : World) (id : ClusterId),
      ∀ r ∈ ((createPersonaClusterRolesCRDHandler env h crds w).2.2.cluster id).ClusterRoles,
        r ∈ (w.cluster id).ClusterRoles ∨
          ∃ p ∈ env.personaOrder, r = personaClusterRole env h p crds) := by
  have hns : isNamespaced h = true ↔
      (h.ext.Spec.PermissionScope = "Namespaced" ∨ h.ext.Spec.PermissionScope = "") := by
    unfold isNamespaced NamespaceScoped
    by_cases hs : h.ext.Spec.PermissionScope = "Namespaced" ∨ h.ext.Spec.PermissionScope = ""
    · simp [hs]
    · simp [hs]
  have hhas : ∀ k, mapHas (personaClusterRole env h persona crds).Labels k =
      (decide (k = env.deps.LabelAggregateFmt (personaScope env h) persona) ||
        (isNamespaced h && decide (k = env.deps.LabelNamespaceFmt h.ext.Namespace)) ||
        mapHas (env.deps.ParentLabels h.ext) k) := by
    intro k
    unfold personaClusterRole personaScope
    simp only [mapHas_mapSet]
    cases isNamespaced h
    · simp [mapHas_copyLabels]
    · simp [mapHas_copyLabels, mapHas_mapSet, Bool.or_assoc]
  refine ⟨rfl, hns, ?_, hhas, ?_, ?_, ?_, ?_, ?_⟩
  · unfold personaScope
    by_cases hs : h.ext.Spec.PermissionScope = "Namespaced" ∨ h.ext.Spec.PermissionScope = ""
    · rw [if_pos (hns.2 hs), if_pos hs]
    · have : ¬ isNamespaced h = true := fun e => hs (hns.1 e)
      rw [if_neg this, if_neg hs]
  · intro k
    unfold personaClusterRole personaScope labelValueAggregationEnabled
      labelValueNamespaceMember
    simp only [mapGet_mapSet]
    cases isNamespaced h
    · simp [mapGet_copyLabels _ _ hparent]
    · simp [mapGet_copyLabels _ _ hparent, mapGet_mapSet]
  · intro hfresh hne
    rw [hhas, hfresh]
    simp [hne]
  · intro heap labels hlabels hread
    obtain ⟨s1, _, s3, s4⟩ := personaLabels_spec env h persona crds heap labels hread
    exact ⟨s1, s3, s4 labels hlabels, s4⟩
  · intro personas heap labels hlabels hread
    obtain ⟨l1, _, _, l4⟩ := personaLabels_loop_spec env h crds personas heap labels hlabels hread
    exact ⟨l1, l4 labels hlabels, l4⟩
  · intro w id r hr
    exact createPersonaClusterRoles_added env h crds env.personaOrder w id r hr

theorem persona_role_name_and_labels_witness :
    ((exampleEnv.deps.ParentLabels handlerA.ext).map Prod.fst).Nodup ∧
    (personaClusterRole exampleEnv handlerA "admin" [fooCRD]).Name = "stack:ns:a::admin" ∧
    mapGet (personaClusterRole exampleEnv handlerA "admin" [fooCRD]).Labels
      "rbac.crossplane.io/aggregate-to-namespace-admin" = "true" ∧
    mapGet (personaClusterRole exampleEnv handlerA "admin" [fooCRD]).Labels
      "namespace.crossplane.io/ns" = "true" ∧
    mapGet (personaClusterRole exampleEnv handlerA "admin" [fooCRD]).Labels
      "core.crossplane.io/parent-name" = "a" ∧
    (personaLabels.loop exampleEnv handlerA ["admin", "edit", "view"]
        (heapOf (exampleEnv.deps.ParentLabels handlerA.ext)) 0).2.read 0 =
      [("core.crossplane.io/parent-namespace", "ns"),
       ("core.crossplane.io/parent-name", "a")] :=
  have hw := persona_role_name_and_labels exampleEnv handlerA [fooCRD] "admin" (by decide)
  ⟨by decide, hw.1, by rw [hw.2.2.2.2.1]; decide, by rw [hw.2.2.2.2.1]; decide,
    by rw [hw.2.2.2.2.1]; decide,
    (hw.2.2.2.2.2.2.2.1 ["admin", "edit", "view"]
      (heapOf (exampleEnv.deps.ParentLabels handlerA.ext)) 0 (by decide) rfl).2.1⟩

/-! ## How many rules a persona role has (C15) -/

theorem matching_eq_filter (d : TypeMeta) (items : List CustomResourceDefinition) :
    crdsFromStack.matching d.GroupVersionKind.Group d.GroupVersionKind.Version
      d.GroupVersionKind.Kind items = items.filter (descriptorMatches d) := by
  induction items with
  | nil => rfl
  | cons x rest ih =>
    unfold crdsFromStack.matching
    by_cases hm : descriptorMatches d x = true
    · have hm' := hm
      simp only [descriptorMatches, Bool.and_eq_true, decide_eq_true_eq] at hm'
      have hv : crdVersionExists x d.GroupVersionKind.Version = true :=
        (crdVersionExists_iff x _).2 hm'.2
      rw [if_neg (by simp [hm'.1.1, hm'.1.2, hv]), List.filter_cons_of_pos hm, ih]
    · have hc : x.Group ≠ d.GroupVersionKind.Group ∨ x.Kind ≠ d.GroupVersionKind.Kind ∨
          (!crdVersionExists x d.GroupVersionKind.Version) = true := by
        by_contra hcon
        apply hm
        simp only [not_or, ne_eq, not_not, Bool.not_eq_true', Bool.not_eq_false] at hcon
        simp only [descriptorMatches, Bool.and_eq_true, decide_eq_true_eq]
        exact ⟨⟨hcon.1, hcon.2.1⟩, (crdVersionExists_iff x _).1 hcon.2.2⟩
      rw [if_pos hc, List.filter_cons_of_neg hm, ih]

theorem length_collect (items : List CustomResourceDefinition) (want : CRDList) :
    (crdsFromStack.collect items want).length =
      (want.map fun d => (items.filter (descriptorMatches d)).length).sum := by
  induction want with
  | nil => rfl
  | cons d rest ih =>
    rw [crdsFromStack.collect, List.length_append, matching_eq_filter, ih, List.map_cons,
      List.sum_cons]

theorem count_collect (items : List CustomResourceDefinition) (want : CRDList)
    (hnd : items.Nodup) (c : CustomResourceDefinition) (hc : c ∈ items) :
    (crdsFromStack.collect items want).count c =
      (want.filter fun d => descriptorMatches d c).length := by
  induction want with
  | nil => rfl
  | cons d rest ih =>
    rw [crdsFromStack.collect, List.count_append, matching_eq_filter, ih]
    by_cases hm : descriptorMatches d c = true
    · rw [List.filter_cons (p := fun d => descriptorMatches d c), if_pos hm, List.length_cons]
      have hmem : c ∈ items.filter (descriptorMatches d) := List.mem_filter.2 ⟨hc, hm⟩
      rw [List.count_eq_one_of_mem (hnd.filter _) hmem]
      omega
    · rw [List.filter_cons (p := fun d => descriptorMatches d c), if_neg hm]
      have hmem : c ∉ items.filter (descriptorMatches d) := fun hin =>
        hm (List.mem_filter.1 hin).2
      rw [List.count_eq_zero_of_not_mem hmem]
      omega

theorem personaRules_length (persona : String) (crds : List CustomResourceDefinition) :
    (personaRules persona crds).length = crds.length := by
  induction crds with
  | nil => rfl
  | cons c rest ih => rw [personaRules_cons, List.length_cons, List.length_cons, ih]

/-- The label handlers change labels only: the rules derived from the list
they hand on are those of the list they were given. -/
theorem personaRules_labelCRDs (env : Env) (kube : ClusterId) (label value persona : String)
    (crds : List CustomResourceDefinition) (w : World) :
    personaRules persona (labelCRDs env kube label value crds w).2.1 =
      personaRules persona crds := by
  induction crds generalizing w with
  | nil => rfl
  | cons c rest ih =>
    unfold labelCRDs
    split
    · have := ih w
      generalize labelCRDs env kube label value rest w = res at this ⊢
      obtain ⟨err, rest1, w1⟩ := res
      simp only [] at this ⊢
      rw [personaRules_cons, personaRules_cons, this]
    · split
      · have := ih w
        generalize labelCRDs env kube label value rest w = res at this ⊢
        obtain ⟨err, rest1, w1⟩ := res
        simp only [] at this ⊢
        rw [personaRules_cons, personaRules_cons, this]
      · simp only []
        generalize patchCRD env.faults kube c { c with Labels := mapSet c.Labels label value } w
          = pres
        obtain ⟨perr, w1⟩ := pres
        cases perr with
        | some e =>
          simp only []
          rw [personaRules_cons, personaRules_cons]
          rfl
        | none =>
          simp only []
          have := ih w1
          generalize labelCRDs env kube label value rest w1 = res at this ⊢
          obtain ⟨err, rest1, w2⟩ := res
          simp only [] at this ⊢
          rw [personaRules_cons, personaRules_cons, this]
          rfl

/-- C15 as stated fails: the live registry holds the single schema object
`foos.example.org`, which serves `v1` and `v2`, and the Stack declares the
kind once per version. The creation pipeline succeeds, and the `view`
persona role it creates has two policy rules for that one object. -/
theorem persona_role_two_rules_for_one_schema :
    worldTwoVersions.tenant.CRDs = [fooTwoVersions] ∧
    (create exampleEnv handlerTwoVersions worldTwoVersions).1 = (requeueOnSuccess, none) ∧
    ((create exampleEnv handlerTwoVersions worldTwoVersions).2.2.tenant.ClusterRoles.filter
        (fun r => r.Name = exampleDeps.PersonaRoleName stackTwoVersions "view")).map
      (fun r => r.Rules.length) = [2] := by
  decide

/-- C15, amended: the list of schema objects that `crdsFromStack` hands to
the handlers holds a live object once per declared descriptor that matches
it, and each persona ClusterRole has one policy rule per element of that
list (the label handlers in between change labels only). So the number of
rules is the sum, over the declared descriptors, of the number of live
objects the descriptor matches, and a live object matched by `k` descriptors
yields `k` rules. -/
theorem persona_role_rule_per_match (env : Env) (h : stackHandler) (persona : String)
    (w w1 w2 : World)
    (hF : env.faults w.log ⟨h.kube, Verb.list, Kind.CustomResourceDefinition, "", "", []⟩ = none)
    (hnd : (w.cluster h.kube).CRDs.Nodup) :
    (crdsFromStack env h w).1 =
      Except.ok (crdsFromStack.collect (w.cluster h.kube).CRDs h.ext.Spec.CRDs) ∧
    (personaClusterRole env h persona
        (createMultipleParentLabelsCRDHandler env h
          (createNamespaceLabelsCRDHandler env h
            (crdsFromStack.collect (w.cluster h.kube).CRDs h.ext.Spec.CRDs) w1).2.1 w2).2.1).Rules =
      personaRules persona (crdsFromStack.collect (w.cluster h.kube).CRDs h.ext.Spec.CRDs) ∧
    (personaRules persona
        (crdsFromStack.collect (w.cluster h.kube).CRDs h.ext.Spec.CRDs)).length =
      (h.ext.Spec.CRDs.map fun d =>
        ((w.cluster h.kube).CRDs.filter (descriptorMatches d)).length).sum ∧
    ∀ c ∈ (w.cluster h.kube).CRDs,
      (crdsFromStack.collect (w.cluster h.kube).CRDs h.ext.Spec.CRDs).count c =
        (h.ext.Spec.CRDs.filter fun d => descriptorMatches d c).length := by
  refine ⟨?_, ?_, ?_, ?_⟩
  · unfold crdsFromStack
    split
    · rename_i hlen
      have : h.ext.Spec.CRDs = [] := List.eq_nil_of_length_eq_zero hlen
      rw [this]
      rfl
    · rw [listCRDs_of_none env.faults h.kube w hF]
  · show personaRules persona _ = _
    unfold createMultipleParentLabelsCRDHandler createNamespaceLabelsCRDHandler
    rw [personaRules_labelCRDs, personaRules_labelCRDs]
  · rw [personaRules_length, length_collect]
  · intro c hc
    exact count_collect _ _ hnd c hc

theorem persona_role_rule_per_match_witness :
    exampleEnv.faults worldTwoVersions.log
      ⟨handlerTwoVersions.kube, Verb.list, Kind.CustomResourceDefinition, "", "", []⟩ = none ∧
    (worldTwoVersions.cluster handlerTwoVersions.kube).CRDs.Nodup ∧
    (crdsFromStack exampleEnv handlerTwoVersions worldTwoVersions).1 =
      Except.ok [fooTwoVersions, fooTwoVersions] ∧
    (personaRules "view" [fooTwoVersions, fooTwoVersions]).length = 1 + (1 + 0) ∧
    [fooTwoVersions, fooTwoVersions].count fooTwoVersions = 2 :=
  have hw := persona_role_rule_per_match exampleEnv handlerTwoVersions "view" worldTwoVersions
    worldTwoVersions worldTwoVersions rfl (by decide)
  ⟨rfl, by decide, hw.1, hw.2.2.1, hw.2.2.2 fooTwoVersions (by decide)⟩

/-! ## Frames of the single calls

Each call changes at most one field of one cluster; a projection of the
cluster that ignores that field is left alone. -/

theorem createServiceAccount_frame {β : Type} (proj : Cluster → β)
    (hproj : ∀ cl l, proj { cl with ServiceAccounts := l } = proj cl)
    (F : Faults) (id : ClusterId) (o : ServiceAccount) (w : World) (id' : ClusterId) :
    proj ((createServiceAccount F id o w).2.cluster id') = proj (w.cluster id') := by
  unfold createServiceAccount
  refine issue_frame proj F w _ _ ?_ id'
  intro cl
  split
  · rfl
  · exact hproj _ _

theorem createClusterRole_frame {β : Type} (proj : Cluster → β)
    (hproj : ∀ cl l, proj { cl with ClusterRoles := l } = proj cl)
    (F : Faults) (id : ClusterId) (o : ClusterRole) (w : World) (id' : ClusterId) :
    proj ((createClusterRole F id o w).2.cluster id') = proj (w.cluster id') := by
  unfold createClusterRole
  refine issue_frame proj F w _ _ ?_ id'
  intro cl
  split
  · rfl
  · exact hproj _ _

theorem createRoleBinding_frame {β : Type} (proj : Cluster → β)
    (hproj : ∀ cl l, proj { cl with RoleBindings := l } = proj cl)
    (F : Faults) (id : ClusterId) (o : RoleBinding) (w : World) (id' : ClusterId) :
    proj ((createRoleBinding F id o w).2.cluster id') = proj (w.cluster id') := by
  unfold createRoleBinding
  refine issue_frame proj F w _ _ ?_ id'
  intro cl
  split
  · rfl
  · exact hproj _ _

theorem createClusterRoleBindingObject_frame {β : Type} (proj : Cluster → β)
    (hproj : ∀ cl l, proj { cl with ClusterRoleBindings := l } = proj cl)
    (F : Faults) (id : ClusterId) (o : ClusterRoleBinding) (w : World) (id' : ClusterId) :
    proj ((createClusterRoleBindingObject F id o w).2.cluster id') = proj (w.cluster id') := by
  unfold createClusterRoleBindingObject
  refine issue_frame proj F w _ _ ?_ id'
  intro cl
  split
  · rfl
  · exact hproj _ _

theorem createDeployment_frame {β : Type} (proj : Cluster → β)
    (hproj : ∀ cl l, proj { cl with Deployments := l } = proj cl)
    (F : Faults) (id : ClusterId) (o : Deployment) (w : World) (id' : ClusterId) :
    proj ((createDeployment F id o w).2.cluster id') = proj (w.cluster id') := by
  unfold createDeployment
  refine issue_frame proj F w _ _ ?_ id'
  intro cl
  split
  · rfl
  · exact hproj _ _

theorem createSecret_frame {β : Type} (proj : Cluster → β)
    (hproj : ∀ cl l, proj { cl with Secrets := l } = proj cl)
    (F : Faults) (id : ClusterId) (o : Secret) (w : World) (id' : ClusterId) :
    proj ((createSecret F id o w).2.cluster id') = proj (w.cluster id') := by
  unfold createSecret
  refine issue_frame proj F w _ _ ?_ id'
  intro cl
  split
  · rfl
  · exact hproj _ _

theorem patchStack_frame {β : Type} (proj : Cluster → β)
    (hproj : ∀ cl l, proj { cl with Stacks := l } = proj cl)
    (F : Faults) (id : ClusterId) (orig modified : Stack) (w : World) (id' : ClusterId) :
    proj ((patchStack F id orig modified w).2.cluster id') = proj (w.cluster id') := by
  unfold patchStack
  refine issue_frame proj F w _ _ ?_ id'
  intro cl
  split
  · exact hproj _ _
  · rfl

theorem statusUpdateStack_frame {β : Type} (proj : Cluster → β)
    (hproj : ∀ cl l, proj { cl with Stacks := l } = proj cl)
    (F : Faults) (id : ClusterId) (o : Stack) (w : World) (id' : ClusterId) :
    proj ((statusUpdateStack F id o w).2.cluster id') = proj (w.cluster id') := by
  unfold statusUpdateStack
  refine issue_frame proj F w _ _ ?_ id'
  intro cl
  split
  · exact hproj _ _
  · rfl

theorem patchCRD_frame {β : Type} (proj : Cluster → β)
    (hproj : ∀ cl l, proj { cl with CRDs := l } = proj cl)
    (F : Faults) (id : ClusterId) (orig modified : CustomResourceDefinition) (w : World)
    (id' : ClusterId) :
    proj ((patchCRD F id orig modified w).2.cluster id') = proj (w.cluster id') := by
  unfold patchCRD
  refine issue_frame proj F w _ _ ?_ id'
  intro cl
  split
  · exact hproj _ _
  · rfl

theorem fail_frame {β : Type} (proj : Cluster → β)
    (hproj : ∀ cl l, proj { cl with Stacks := l } = proj cl)
    (env : Env) (kube : ClusterId) (i : Stack) (err : Err) (w : World) (id' : ClusterId) :
    proj ((fail env kube i err w).2.2.cluster id') = proj (w.cluster id') :=
  statusUpdateStack_frame proj hproj env.faults kube _ w id'

/-! ## Answers of a create without faults -/

theorem issue_err_of_nofault (F : Faults) (hF : ∀ l c, F l c = none) (w : World) (c : Call)
    (serve : Cluster → Option ApiErr × Cluster) :
    (issue F w c serve).1 = (serve (w.cluster c.client)).1.map Err.Api := by
  rw [issue_of_none F w c serve (hF _ _)]

theorem Wrap_some (e : Err) (msg : String) : Wrap (some e) msg = some (Err.Wrap e msg) := rfl

theorem absorbed_of_create_answer (err : Option Err)
    (h : err = none ∨ err = some (Err.Api ApiErr.AlreadyExists)) :
    ¬ (err ≠ none ∧ (!IsAlreadyExists err) = true) := by
  rcases h with rfl | rfl
  · simp
  · simp [IsAlreadyExists]

theorem createServiceAccount_answer (F : Faults) (hF : ∀ l c, F l c = none) (id : ClusterId)
    (o : ServiceAccount) (w : World) :
    (createServiceAccount F id o w).1 = none ∨
      (createServiceAccount F id o w).1 = some (Err.Api ApiErr.AlreadyExists) := by
  unfold createServiceAccount
  rw [issue_err_of_nofault F hF]
  split
  · exact Or.inr rfl
  · exact Or.inl rfl

theorem createClusterRole_answer (F : Faults) (hF : ∀ l c, F l c = none) (id : ClusterId)
    (o : ClusterRole) (w : World) :
    (createClusterRole F id o w).1 = none ∨
      (createClusterRole F id o w).1 = some (Err.Api ApiErr.AlreadyExists) := by
  unfold createClusterRole
  rw [issue_err_of_nofault F hF]
  split
  · exact Or.inr rfl
  · exact Or.inl rfl

/-! ## Conditions -/

theorem of_mem_setCondition (cs : List Condition) (new x : Condition)
    (hx : x ∈ setCondition cs new) : x = new ∨ (x ∈ cs ∧ x.Type ≠ new.Type) := by
  unfold setCondition at hx
  by_cases hany : (cs.any fun c => decide (c.Type = new.Type)) = true
  · rw [if_pos hany] at hx
    obtain ⟨c, hc, rfl⟩ := List.mem_map.1 hx
    by_cases ht : c.Type = new.Type
    · rw [if_pos ht]
      exact Or.inl rfl
    · rw [if_neg ht]
      exact Or.inr ⟨hc, ht⟩
  · rw [if_neg hany] at hx
    rcases List.mem_append.1 hx with hx | hx
    · refine Or.inr ⟨hx, ?_⟩
      intro ht
      exact hany (List.any_eq_true.2 ⟨x, hx, by simpa using ht⟩)
    · exact Or.inl (List.mem_singleton.1 hx)

/-- A Stack on which `create` has set `Creating` and `fail` then reports an
error does not carry `Available`. -/
theorem not_available_of_fail (ext : Stack) (err : Err) :
    Condition.Available ∉
      (SetConditions (creatingStack ext) [Condition.ReconcileError err]).Status.Conditions := by
  intro hmem
  have h0 : (creatingStack ext).Status.Conditions =
      setCondition ext.Status.Conditions Condition.Creating := by
    unfold creatingStack AddFinalizer
    split <;> rfl
  have h1 : (SetConditions (creatingStack ext) [Condition.ReconcileError err]).Status.Conditions
      = setCondition (setCondition ext.Status.Conditions Condition.Creating)
          (Condition.ReconcileError err) := by
    rw [← h0]
    rfl
  rw [h1] at hmem
  rcases of_mem_setCondition _ _ _ hmem with h2 | ⟨h2, _⟩
  · cases h2
  · rcases of_mem_setCondition _ _ _ h2 with h3 | ⟨_, h3⟩
    · cases h3
    · exact h3 rfl

/-! ## An invalid permission scope (C17) -/

theorem fail_callsOnly (P : Call → Prop) (env : Env) (kube : ClusterId) (i : Stack) (err : Err)
    (w : World) (hP : P ⟨kube, Verb.statusUpdate, Kind.Stack, i.Namespace, i.Name, []⟩) :
    CallsOnly P w (fail env kube i err w).2.2 :=
  callsOnly_issue P env.faults w _ _ hP

theorem patchStack_ok (F : Faults) (hF : ∀ l c, F l c = none) (id : ClusterId)
    (orig modified : Stack) (w : World)
    (hlive : ∃ s ∈ (w.cluster id).Stacks,
      s.Namespace = modified.Namespace ∧ s.Name = modified.Name) :
    (patchStack F id orig modified w).1 = none := by
  unfold patchStack
  rw [issue_err_of_nofault F hF]
  have hany : ((w.cluster id).Stacks.any
      fun x => decide (x.Namespace = modified.Namespace ∧ x.Name = modified.Name)) = true := by
    obtain ⟨s, hs, hk⟩ := hlive
    exact List.any_eq_true.2 ⟨s, hs, by simpa using hk⟩
  simp only [hany, if_true]
  rfl

/-- With permission rules and a scope that is none of the three known
values, `processRBAC` fails, whatever the faults; it creates no binding; and
when no fault is injected its error is the invalid-scope error. -/
theorem processRBAC_invalid_scope (env : Env) (h : stackHandler) (w : World)
    (hrules : h.ext.Spec.PermissionRules ≠ [])
    (hscope : h.ext.Spec.PermissionScope ≠ "" ∧ h.ext.Spec.PermissionScope ≠ "Namespaced" ∧
      h.ext.Spec.PermissionScope ≠ "Cluster") :
    ∃ err, (processRBAC env h w).1 = some err ∧
      (∀ id, ((processRBAC env h w).2.cluster id).RoleBindings = (w.cluster id).RoleBindings) ∧
      (∀ id, ((processRBAC env h w).2.cluster id).ClusterRoleBindings =
        (w.cluster id).ClusterRoleBindings) ∧
      CallsOnly (fun c => ¬ BindingCreate c) w (processRBAC env h w).2 ∧
      ((∀ l c, env.faults l c = none) → err = Err.New "invalid permissionScope for stack") := by
  have hlen : ¬ h.ext.Spec.PermissionRules.length = 0 := fun e =>
    hrules (List.eq_nil_of_length_eq_zero e)
  unfold processRBAC
  rw [if_neg hlen]
  simp only []
  have a1 := fun id => createServiceAccount_frame (fun cl => cl.RoleBindings) (fun _ _ => rfl)
    env.faults h.kube
    { Name := h.ext.Name, Namespace := h.ext.Namespace,
      OwnerReferences := [AsOwner (ReferenceToStack h.ext env.deps.StackGroupVersionKind)],
      Annotations := h.ext.Spec.ServiceAccountAnnotations, Secrets := [] } w id
  have a2 := fun id => createServiceAccount_frame (fun cl => cl.ClusterRoleBindings)
    (fun _ _ => rfl) env.faults h.kube
    { Name := h.ext.Name, Namespace := h.ext.Namespace,
      OwnerReferences := [AsOwner (ReferenceToStack h.ext env.deps.StackGroupVersionKind)],
      Annotations := h.ext.Spec.ServiceAccountAnnotations, Secrets := [] } w id
  have a3 : CallsOnly (fun c => ¬ BindingCreate c) w (createServiceAccount env.faults h.kube
    { Name := h.ext.Name, Namespace := h.ext.Namespace,
      OwnerReferences := [AsOwner (ReferenceToStack h.ext env.deps.StackGroupVersionKind)],
      Annotations := h.ext.Spec.ServiceAccountAnnotations, Secrets := [] } w).2 :=
    callsOnly_issue _ env.faults w _ _ (by rintro ⟨_, hk | hk⟩ <;> cases hk)
  have a4 := fun hF => absorbed_of_create_answer _ (createServiceAccount_answer env.faults hF
    h.kube
    { Name := h.ext.Name, Namespace := h.ext.Namespace,
      OwnerReferences := [AsOwner (ReferenceToStack h.ext env.deps.StackGroupVersionKind)],
      Annotations := h.ext.Spec.ServiceAccountAnnotations, Secrets := [] } w)
  generalize createServiceAccount env.faults h.kube
    { Name := h.ext.Name, Namespace := h.ext.Namespace,
      OwnerReferences := [AsOwner (ReferenceToStack h.ext env.deps.StackGroupVersionKind)],
      Annotations := h.ext.Spec.ServiceAccountAnnotations, Secrets := [] } w = r1
    at a1 a2 a3 a4 ⊢
  obtain ⟨err1, w1⟩ := r1
  simp only [] at a1 a2 a3 a4 ⊢
  by_cases hc1 : err1 ≠ none ∧ (!IsAlreadyExists err1) = true
  · rw [if_pos hc1]
    obtain ⟨e1, rfl⟩ := Option.ne_none_iff_exists'.1 hc1.1
    exact ⟨_, rfl, a1, a2, a3, fun hF => absurd hc1 (a4 hF)⟩
  · rw [if_neg hc1]
    unfold createDeploymentClusterRole
    simp only []
    have b1 := fun id => createClusterRole_frame (fun cl => cl.RoleBindings) (fun _ _ => rfl)
      env.faults h.kube
      { Name := env.deps.PersonaRoleName h.ext "system", Labels := env.deps.ParentLabels h.ext,
        Rules := h.ext.Spec.PermissionRules } w1 id
    have b2 := fun id => createClusterRole_frame (fun cl => cl.ClusterRoleBindings)
      (fun _ _ => rfl) env.faults h.kube
      { Name := env.deps.PersonaRoleName h.ext "system", Labels := env.deps.ParentLabels h.ext,
        Rules := h.ext.Spec.PermissionRules } w1 id
    have b3 : CallsOnly (fun c => ¬ BindingCreate c) w1 (createClusterRole env.faults h.kube
      { Name := env.deps.PersonaRoleName h.ext "system", Labels := env.deps.ParentLabels h.ext,
        Rules := h.ext.Spec.PermissionRules } w1).2 :=
      callsOnly_issue _ env.faults w1 _ _ (by rintro ⟨_, hk | hk⟩ <;> cases hk)
    have b4 := fun hF => absorbed_of_create_answer _ (createClusterRole_answer env.faults hF
      h.kube
      { Name := env.deps.PersonaRoleName h.ext "system", Labels := env.deps.ParentLabels h.ext,
        Rules := h.ext.Spec.PermissionRules } w1)
    generalize createClusterRole env.faults h.kube
      { Name := env.deps.PersonaRoleName h.ext "system", Labels := env.deps.ParentLabels h.ext,
        Rules := h.ext.Spec.PermissionRules } w1 = r2 at b1 b2 b3 b4 ⊢
    obtain ⟨err2, w2⟩ := r2
    simp only [] at b1 b2 b3 b4 ⊢
    have c1 : ∀ id, (w2.cluster id).RoleBindings = (w.cluster id).RoleBindings :=
      fun id => (b1 id).trans (a1 id)
    have c2 : ∀ id, (w2.cluster id).ClusterRoleBindings = (w.cluster id).ClusterRoleBindings :=
      fun id => (b2 id).trans (a2 id)
    have c3 := callsOnly_trans a3 b3
    by_cases hc2 : err2 ≠ none ∧ (!IsAlreadyExists err2) = true
    · rw [if_pos hc2]
      obtain ⟨e2, rfl⟩ := Option.ne_none_iff_exists'.1 hc2.1
      exact ⟨_, rfl, c1, c2, c3, fun hF => absurd hc2 (b4 hF)⟩
    · rw [if_neg hc2]
      simp only []
      have s1 : ¬ h.ext.Spec.PermissionScope = ClusterScoped := hscope.2.2
      have s2 : ¬ (h.ext.Spec.PermissionScope = "" ∨
          h.ext.Spec.PermissionScope = NamespaceScoped) := by
        rintro (e | e)
        · exact hscope.1 e
        · exact hscope.2.1 e
      rw [if_neg s1, if_neg s2]
      exact ⟨_, rfl, c1, c2, c3, fun _ => rfl⟩

/-- C17 as stated fails: `stackOddScope` has the permission scope `Bogus` and
declares no permission rule. `processRBAC` returns before it looks at the
scope, the creation pipeline succeeds, and the Stack reaches `Available`, in
memory and in the cluster. -/
theorem create_invalid_scope_without_rules_succeeds :
    stackOddScope.Spec.PermissionScope ≠ "" ∧
    stackOddScope.Spec.PermissionScope ≠ "Namespaced" ∧
    stackOddScope.Spec.PermissionScope ≠ "Cluster" ∧
    (create exampleEnv handlerOddScope worldOddScope).1 = (requeueOnSuccess, none) ∧
    (create exampleEnv handlerOddScope worldOddScope).2.1.Status.Conditions =
      [Condition.Available, Condition.ReconcileSuccess] ∧
    (create exampleEnv handlerOddScope worldOddScope).2.2.tenant.Stacks.map
      (fun s => s.Status.Conditions) = [[Condition.Available, Condition.ReconcileSuccess]] := by
  decide

/-- C17, amended: for a Stack that declares at least one permission rule and
whose PermissionScope is none of unset, `Namespaced` and `Cluster`, `create`
fails whatever the faults: it asks for a retry, the Stack carries a
`ReconcileError` condition and not `Available` (also in the cluster, when the
status update succeeded), and no role binding of either kind is created (no
create call for one is issued and the bindings of both clusters are as
before). When no fault is injected and the Stack is live, the error reported
is "invalid permissionScope for stack". -/
theorem create_invalid_scope_fails (env : Env) (h : stackHandler) (w : World)
    (hrules : h.ext.Spec.PermissionRules ≠ [])
    (hscope : h.ext.Spec.PermissionScope ≠ "" ∧ h.ext.Spec.PermissionScope ≠ "Namespaced" ∧
      h.ext.Spec.PermissionScope ≠ "Cluster") :
    (create env h w).1.1 = resultRequeue ∧
    (∃ err,
      (create env h w).2.1 =
        SetConditions (creatingStack h.ext) [Condition.ReconcileError err] ∧
      Condition.ReconcileError err ∈ (create env h w).2.1.Status.Conditions ∧
      ((∀ l c, env.faults l c = none) →
        (∃ s ∈ (w.cluster h.kube).Stacks, s.Namespace = h.ext.Namespace ∧ s.Name = h.ext.Name) →
          err = Err.New "invalid permissionScope for stack")) ∧
    Condition.Available ∉ (create env h w).2.1.Status.Conditions ∧
    (∀ id, ((create env h w).2.2.cluster id).RoleBindings = (w.cluster id).RoleBindings ∧
      ((create env h w).2.2.cluster id).ClusterRoleBindings =
        (w.cluster id).ClusterRoleBindings) ∧
    CallsOnly (fun c => ¬ BindingCreate c) w (create env h w).2.2 ∧
    ((create env h w).1.2 = none →
      ∀ s ∈ ((create env h w).2.2.cluster h.kube).Stacks,
        s.Namespace = h.ext.Namespace → s.Name = h.ext.Name →
          Condition.Available ∉ s.Status.Conditions) := by
  obtain ⟨kns, kn, kspec⟩ := creatingStack_key h.ext
  -- every failing exit has these properties
  have hfail : ∀ (err : Err) (wk : World),
      (∀ id, (wk.cluster id).RoleBindings = (w.cluster id).RoleBindings) →
      (∀ id, (wk.cluster id).ClusterRoleBindings = (w.cluster id).ClusterRoleBindings) →
      CallsOnly (fun c => ¬ BindingCreate c) w wk →
      ((∀ l c, env.faults l c = none) →
        (∃ s ∈ (w.cluster h.kube).Stacks, s.Namespace = h.ext.Namespace ∧ s.Name = h.ext.Name) →
          err = Err.New "invalid permissionScope for stack") →
      (fail env h.kube (creatingStack h.ext) err wk).1.1 = resultRequeue ∧
      (∃ err',
        (fail env h.kube (creatingStack h.ext) err wk).2.1 =
          SetConditions (creatingStack h.ext) [Condition.ReconcileError err'] ∧
        Condition.ReconcileError err' ∈
          (fail env h.kube (creatingStack h.ext) err wk).2.1.Status.Conditions ∧
        ((∀ l c, env.faults l c = none) →
          (∃ s ∈ (w.cluster h.kube).Stacks,
            s.Namespace = h.ext.Namespace ∧ s.Name = h.ext.Name) →
            err' = Err.New "invalid permissionScope for stack")) ∧
      Condition.Available ∉ (fail env h.kube (creatingStack h.ext) err wk).2.1.Status.Conditions ∧
      (∀ id, ((fail env h.kube (creatingStack h.ext) err wk).2.2.cluster id).RoleBindings =
          (w.cluster id).RoleBindings ∧
        ((fail env h.kube (creatingStack h.ext) err wk).2.2.cluster id).ClusterRoleBindings =
          (w.cluster id).ClusterRoleBindings) ∧
      CallsOnly (fun c => ¬ BindingCreate c) w
        (fail env h.kube (creatingStack h.ext) err wk).2.2 ∧
      ((fail env h.kube (creatingStack h.ext) err wk).1.2 = none →
        ∀ s ∈ ((fail env h.kube (creatingStack h.ext) err wk).2.2.cluster h.kube).Stacks,
          s.Namespace = h.ext.Namespace → s.Name = h.ext.Name →
            Condition.Available ∉ s.Status.Conditions) := by
    intro err wk f1 f2 f3 f4
    refine ⟨rfl, ⟨err, rfl, ?_, f4⟩, not_available_of_fail h.ext err, ?_, ?_, ?_⟩
    · show Condition.ReconcileError err ∈
        [Condition.ReconcileError err].foldl setCondition (creatingStack h.ext).Status.Conditions
      exact mem_setCondition _ _
    · intro id
      exact ⟨(fail_frame (fun cl => cl.RoleBindings) (fun _ _ => rfl) env h.kube _ err wk
          id).trans (f1 id),
        (fail_frame (fun cl => cl.ClusterRoleBindings) (fun _ _ => rfl) env h.kube _ err wk
          id).trans (f2 id)⟩
    · exact callsOnly_trans f3
        (fail_callsOnly _ env h.kube _ err wk (by rintro ⟨hv, _⟩; cases hv))
    · intro hok s hs hn hm
      have hp := (statusUpdateStack_persisted env.faults wk h.kube
        (SetConditions (creatingStack h.ext) [Condition.ReconcileError err]) hok).2 s hs
        (by rw [hn]; exact kns.symm) (by rw [hm]; exact kn.symm)
      rw [hp]
      exact not_available_of_fail h.ext err
  rw [create_eq]
  have p1 := fun id => patchStack_frame (fun cl => cl.RoleBindings) (fun _ _ => rfl) env.faults
    h.kube (SetConditions h.ext [Condition.Creating]) (creatingStack h.ext) w id
  have p2 := fun id => patchStack_frame (fun cl => cl.ClusterRoleBindings) (fun _ _ => rfl)
    env.faults h.kube (SetConditions h.ext [Condition.Creating]) (creatingStack h.ext) w id
  have p3 : CallsOnly (fun c => ¬ BindingCreate c) w (patchStack env.faults h.kube
      (SetConditions h.ext [Condition.Creating]) (creatingStack h.ext) w).2 :=
    callsOnly_issue _ env.faults w _ _ (by rintro ⟨hv, _⟩; cases hv)
  have p4 := fun hF hlive => patchStack_ok env.faults hF h.kube
    (SetConditions h.ext [Condition.Creating]) (creatingStack h.ext) w
    (by rw [kns, kn]; exact hlive)
  generalize patchStack env.faults h.kube (SetConditions h.ext [Condition.Creating])
    (creatingStack h.ext) w = r1 at p1 p2 p3 p4 ⊢
  obtain ⟨err1, w1⟩ := r1
  cases err1 with
  | some e1 =>
    exact hfail e1 w1 p1 p2 p3 (fun hF hlive => by simpa using p4 hF hlive)
  | none =>
    simp only [] at p1 p2 p3 ⊢
    have hspec : (creatingHandler h).ext.Spec = h.ext.Spec := kspec
    obtain ⟨err2, q0, q1, q2, q3, q4⟩ := processRBAC_invalid_scope env (creatingHandler h) w1
      (by rw [hspec]; exact hrules) (by rw [hspec]; exact hscope)
    generalize processRBAC env (creatingHandler h) w1 = r2 at q0 q1 q2 q3 ⊢
    obtain ⟨e2, w2⟩ := r2
    simp only [] at q0 q1 q2 q3
    subst q0
    exact hfail err2 w2 (fun id => (q1 id).trans (p1 id)) (fun id => (q2 id).trans (p2 id))
      (callsOnly_trans p3 q3) (fun hF _ => q4 hF)

theorem create_invalid_scope_fails_witness :
    handlerOddScopeRules.ext.Spec.PermissionRules ≠ [] ∧
    (handlerOddScopeRules.ext.Spec.PermissionScope ≠ "" ∧
      handlerOddScopeRules.ext.Spec.PermissionScope ≠ "Namespaced" ∧
      handlerOddScopeRules.ext.Spec.PermissionScope ≠ "Cluster") ∧
    (create exampleEnv handlerOddScopeRules worldOddScopeRules).1.1 = resultRequeue ∧
    Condition.Available ∉
      (create exampleEnv handlerOddScopeRules worldOddScopeRules).2.1.Status.Conditions ∧
    (create exampleEnv handlerOddScopeRules worldOddScopeRules).2.1.Status.Conditions =
      [Condition.Creating,
       Condition.ReconcileError (Err.New "invalid permissionScope for stack")] :=
  have hw := create_invalid_scope_fails exampleEnv handlerOddScopeRules worldOddScopeRules
    (by decide) (by decide)
  ⟨by decide, by decide, hw.1, hw.2.2.1, by decide⟩

/-! ## The successful run of `create` -/

theorem fail_requeue (env : Env) (kube : ClusterId) (i : Stack) (err : Err) (w : World) :
    (fail env kube i err w).1.1 ≠ requeueOnSuccess := by
  show resultRequeue ≠ requeueOnSuccess
  decide

/-- A run of `create` that ends with the success result went through all of
its steps without error. -/
theorem create_success_inv (env : Env) (h : stackHandler) (w : World)
    (hs : (create env h w).1.1 = requeueOnSuccess) :
    ∃ w1 w2 w3 ext3 w4,
      patchStack env.faults h.kube (SetConditions h.ext [Condition.Creating])
        (creatingStack h.ext) w = (none, w1) ∧
      processRBAC env (creatingHandler h) w1 = (none, w2) ∧
      processCRDs env (creatingHandler h)
        [createListFulfilledCRDHandler (creatingHandler h),
         createNamespaceLabelsCRDHandler env (creatingHandler h),
         createMultipleParentLabelsCRDHandler env (creatingHandler h),
         createPersonaClusterRolesCRDHandler env (creatingHandler h)] w2 = (none, w3) ∧
      processDeployment env (creatingHandler h) w3 = (none, ext3, w4) ∧
      create env h w =
        ((requeueOnSuccess,
          (statusUpdateStack env.faults h.kube
            (SetConditions ext3 [Condition.Available, Condition.ReconcileSuccess]) w4).1),
          SetConditions ext3 [Condition.Available, Condition.ReconcileSuccess],
          (statusUpdateStack env.faults h.kube
            (SetConditions ext3 [Condition.Available, Condition.ReconcileSuccess]) w4).2) := by
  rw [create_eq] at hs ⊢
  generalize hr1 : patchStack env.faults h.kube (SetConditions h.ext [Condition.Creating])
    (creatingStack h.ext) w = r1 at hs ⊢
  obtain ⟨err1, w1⟩ := r1
  cases err1 with
  | some e => exact absurd hs (fail_requeue _ _ _ _ _)
  | none =>
    simp only [] at hs ⊢
    generalize hr2 : processRBAC env (creatingHandler h) w1 = r2 at hs ⊢
    obtain ⟨err2, w2⟩ := r2
    cases err2 with
    | some e => exact absurd hs (fail_requeue _ _ _ _ _)
    | none =>
      simp only [] at hs ⊢
      generalize hr3 : processCRDs env (creatingHandler h)
        [createListFulfilledCRDHandler (creatingHandler h),
         createNamespaceLabelsCRDHandler env (creatingHandler h),
         createMultipleParentLabelsCRDHandler env (creatingHandler h),
         createPersonaClusterRolesCRDHandler env (creatingHandler h)] w2 = r3 at hs ⊢
      obtain ⟨err3, w3⟩ := r3
      cases err3 with
      | some e => exact absurd hs (fail_requeue _ _ _ _ _)
      | none =>
        simp only [] at hs ⊢
        generalize hr4 : processDeployment env (creatingHandler h) w3 = r4 at hs ⊢
        obtain ⟨err4, ext3, w4⟩ := r4
        cases err4 with
        | some e => exact absurd hs (fail_requeue _ _ _ _ _)
        | none => exact ⟨w1, w2, w3, ext3, w4, rfl, hr2, hr3, hr4, rfl⟩

/-! ## The workload step -/

theorem getDeployment_ok (F : Faults) (id : ClusterId) (key : NamespacedName) (w w1 : World)
    (live : Deployment) (hg : getDeployment F id key w = (Except.ok live, w1)) :
    live ∈ (w.cluster id).Deployments ∧ live.Namespace = key.Namespace ∧
      live.Name = key.Name ∧
      (w.cluster id).Deployments.find?
        (fun o => o.Namespace = key.Namespace ∧ o.Name = key.Name) = some live ∧
      w1 = w.record ⟨id, Verb.get, Kind.Deployment, key.Namespace, key.Name, []⟩ := by
  have hw : (getDeployment F id key w).2 =
      w.record ⟨id, Verb.get, Kind.Deployment, key.Namespace, key.Name, []⟩ := by
    unfold getDeployment
    exact issueRead_world _ _ _ _
  rw [hg] at hw
  unfold getDeployment at hg
  unfold issueRead at hg
  cases hF : F w.log ⟨id, Verb.get, Kind.Deployment, key.Namespace, key.Name, []⟩ with
  | some e =>
    rw [hF] at hg
    cases hg
  | none =>
    rw [hF] at hg
    simp only [] at hg
    cases hfind : (w.cluster id).Deployments.find?
        (fun o => o.Namespace = key.Namespace ∧ o.Name = key.Name) with
    | none =>
      rw [hfind] at hg
      cases hg
    | some o =>
      rw [hfind] at hg
      simp only [Prod.mk.injEq, Except.ok.injEq] at hg
      obtain ⟨rfl, _⟩ := hg
      have hk := List.find?_some hfind
      simp only [decide_eq_true_eq] at hk
      exact ⟨List.mem_of_find?_eq_some hfind, hk.1, hk.2, rfl, hw⟩

theorem createDeployment_ok (F : Faults) (id : ClusterId) (d : Deployment) (w w2 : World)
    (hc : createDeployment F id d w = (none, w2)) :
    (w2.cluster id).Deployments = (w.cluster id).Deployments ++ [d] ∧
      ((w.cluster id).Deployments.any fun x => x.Namespace = d.Namespace ∧ x.Name = d.Name)
        = false := by
  unfold createDeployment issue at hc
  cases hF : F w.log ⟨id, Verb.create, Kind.Deployment, d.Namespace, d.Name, []⟩ with
  | some e =>
    rw [hF] at hc
    cases hc
  | none =>
    rw [hF] at hc
    simp only [] at hc
    cases hany : ((w.cluster id).Deployments.any
        fun x => decide (x.Namespace = d.Namespace ∧ x.Name = d.Name)) with
    | true =>
      rw [hany] at hc
      simp at hc
    | false =>
      rw [hany] at hc
      simp only [Bool.false_eq_true, if_false, Option.map_none', Prod.mk.injEq, true_and] at hc
      rw [← hc]
      simp

theorem getServiceAccount_world (F : Faults) (id : ClusterId) (key : NamespacedName)
    (w : World) :
    (getServiceAccount F id key w).2 =
      w.record ⟨id, Verb.get, Kind.ServiceAccount, key.Namespace, key.Name, []⟩ := by
  unfold getServiceAccount
  exact issueRead_world _ _ _ _

theorem getSecret_world (F : Faults) (id : ClusterId) (key : NamespacedName) (w : World) :
    (getSecret F id key w).2 =
      w.record ⟨id, Verb.get, Kind.Secret, key.Namespace, key.Name, []⟩ := by
  unfold getSecret
  exact issueRead_world _ _ _ _

theorem syncSATokenSecret_frame {β : Type} (proj : Cluster → β)
    (hproj : ∀ cl l, proj { cl with Secrets := l } = proj cl)
    (env : Env) (h : stackHandler) (owner : OwnerReference) (fromSARef toSecretRef : ObjectReference)
    (w : World) (id : ClusterId) :
    proj ((syncSATokenSecret env h owner fromSARef toSecretRef w).2.cluster id) =
      proj (w.cluster id) := by
  unfold syncSATokenSecret
  have h1 := getServiceAccount_world env.faults h.kube ⟨fromSARef.Namespace, fromSARef.Name⟩ w
  generalize getServiceAccount env.faults h.kube ⟨fromSARef.Namespace, fromSARef.Name⟩ w = r1
    at h1 ⊢
  obtain ⟨res1, w1⟩ := r1
  simp only [] at h1
  subst h1
  cases res1 with
  | error e =>
    simp only []
    split <;> simp
  | ok sa =>
    simp only []
    cases hsec : sa.Secrets with
    | nil => simp
    | cons ref rest =>
      simp only []
      have h2 := getSecret_world env.faults h.kube ⟨fromSARef.Namespace, ref.Name⟩
        (w.record ⟨h.kube, Verb.get, Kind.ServiceAccount, fromSARef.Namespace, fromSARef.Name, []⟩)
      generalize getSecret env.faults h.kube ⟨fromSARef.Namespace, ref.Name⟩
        (w.record ⟨h.kube, Verb.get, Kind.ServiceAccount, fromSARef.Namespace, fromSARef.Name, []⟩)
        = r2 at h2 ⊢
      obtain ⟨res2, w2⟩ := r2
      simp only [] at h2
      subst h2
      cases res2 with
      | error e => simp
      | ok sec =>
        simp only []
        have h3 := createSecret_frame proj hproj env.faults h.hostKube
          { Name := toSecretRef.Name, Namespace := toSecretRef.Namespace,
            OwnerReferences := [owner], Data := sec.Data }
          ((w.record ⟨h.kube, Verb.get, Kind.ServiceAccount, fromSARef.Namespace,
            fromSARef.Name, []⟩).record
            ⟨h.kube, Verb.get, Kind.Secret, fromSARef.Namespace, ref.Name, []⟩) id
        generalize createSecret env.faults h.hostKube
          { Name := toSecretRef.Name, Namespace := toSecretRef.Namespace,
            OwnerReferences := [owner], Data := sec.Data }
          ((w.record ⟨h.kube, Verb.get, Kind.ServiceAccount, fromSARef.Namespace,
            fromSARef.Name, []⟩).record
            ⟨h.kube, Verb.get, Kind.Secret, fromSARef.Namespace, ref.Name, []⟩) = r3 at h3 ⊢
        obtain ⟨err3, w3⟩ := r3
        simp only [] at h3 ⊢
        split
        · simpa using h3
        · simpa using h3

/-- A successful workload step sets `ControllerRef` to a reference to a
Deployment that is live in the host cluster under the key asked for. -/
theorem getOrCreate_success (env : Env) (h : stackHandler) (d : Deployment)
    (saRef saSecretRef : ObjectReference) (w w4 : World) (ext3 : Stack)
    (hok : processDeployment.getOrCreate env h d saRef saSecretRef w = (none, ext3, w4)) :
    ∃ d1 ∈ (w4.cluster h.hostKube).Deployments,
      d1.Namespace = d.Namespace ∧ d1.Name = d.Name ∧
      ext3 = { h.ext with Status := { h.ext.Status with
        ControllerRef := some (ReferenceToDeployment d1 deploymentGVK) } } := by
  -- the closing statements, from any Deployment live in `w2`
  have hfinish : ∀ (d1 : Deployment) (w2 : World),
      d1 ∈ (w2.cluster h.hostKube).Deployments → d1.Namespace = d.Namespace →
      d1.Name = d.Name →
      (match h.hostAwareConfig with
        | some _ =>
          match syncSATokenSecret env h (AsOwner (ReferenceToDeployment d1 deploymentGVK))
              saRef saSecretRef w2 with
          | (some err, w3) => (some (Err.Wrap err errFailedToSyncSASecret), h.ext, w3)
          | (none, w3) =>
            (none, { h.ext with Status := { h.ext.Status with
              ControllerRef := some (ReferenceToDeployment d1 deploymentGVK) } }, w3)
        | none =>
          (none, { h.ext with Status := { h.ext.Status with
            ControllerRef := some (ReferenceToDeployment d1 deploymentGVK) } }, w2))
        = (none, ext3, w4) →
      ∃ d1 ∈ (w4.cluster h.hostKube).Deployments,
        d1.Namespace = d.Namespace ∧ d1.Name = d.Name ∧
        ext3 = { h.ext with Status := { h.ext.Status with
          ControllerRef := some (ReferenceToDeployment d1 deploymentGVK) } } := by
    intro d1 w2 hmem hns hname hfin
    cases hcfg : h.hostAwareConfig with
    | none =>
      rw [hcfg] at hfin
      simp only [Prod.mk.injEq, true_and] at hfin
      obtain ⟨rfl, rfl⟩ := hfin
      exact ⟨d1, hmem, hns, hname, rfl⟩
    | some cfg =>
      rw [hcfg] at hfin
      simp only [] at hfin
      have hfr := syncSATokenSecret_frame (fun cl => cl.Deployments) (fun _ _ => rfl) env h
        (AsOwner (ReferenceToDeployment d1 deploymentGVK)) saRef saSecretRef w2 h.hostKube
      generalize syncSATokenSecret env h (AsOwner (ReferenceToDeployment d1 deploymentGVK))
        saRef saSecretRef w2 = r at hfin hfr
      obtain ⟨err, w3⟩ := r
      cases err with
      | some e => simp at hfin
      | none =>
        simp only [Prod.mk.injEq, true_and] at hfin hfr
        obtain ⟨rfl, rfl⟩ := hfin
        exact ⟨d1, by rw [hfr]; exact hmem, hns, hname, rfl⟩
  unfold processDeployment.getOrCreate at hok
  simp only [] at hok
  have hg := getDeployment_ok env.faults h.hostKube ⟨d.Namespace, d.Name⟩ w
  have hgw : (getDeployment env.faults h.hostKube ⟨d.Namespace, d.Name⟩ w).2 =
      w.record ⟨h.hostKube, Verb.get, Kind.Deployment, d.Namespace, d.Name, []⟩ := by
    unfold getDeployment
    exact issueRead_world _ _ _ _
  generalize getDeployment env.faults h.hostKube ⟨d.Namespace, d.Name⟩ w = r1 at hok hg hgw
  obtain ⟨res1, w1⟩ := r1
  cases res1 with
  | ok live =>
    simp only [] at hok
    obtain ⟨hmem, hns, hname, _, hw1⟩ := hg w1 live rfl
    refine hfinish live w1 ?_ hns hname hok
    rw [hw1, record_cluster]
    exact hmem
  | error e =>
    simp only [] at hok hgw
    split at hok
    · have hc := createDeployment_ok env.faults h.hostKube d w1
      generalize createDeployment env.faults h.hostKube d w1 = r2 at hok hc
      obtain ⟨err2, w2⟩ := r2
      cases err2 with
      | some e2 => simp at hok
      | none =>
        simp only [] at hok
        refine hfinish d w2 ?_ rfl rfl hok
        rw [(hc w2 rfl).1]
        simp
    · simp at hok

theorem processDeployment_success (env : Env) (h : stackHandler) (w w4 : World) (ext3 : Stack)
    (cd : ControllerDeployment) (htemplate : h.ext.Spec.ControllerDeployment = some cd)
    (hok : processDeployment env h w = (none, ext3, w4)) :
    ∃ d1 ∈ (w4.cluster h.hostKube).Deployments,
      ext3 = { h.ext with Status := { h.ext.Status with
        ControllerRef := some (ReferenceToDeployment d1 deploymentGVK) } } := by
  unfold processDeployment at hok
  rw [htemplate] at hok
  simp only [] at hok
  cases hcfg : h.hostAwareConfig with
  | none =>
    rw [hcfg] at hok
    simp only [] at hok
    obtain ⟨d1, hmem, _, _, hext⟩ := getOrCreate_success env h _ _ _ w w4 ext3 hok
    exact ⟨d1, hmem, hext⟩
  | some cfg =>
    rw [hcfg] at hok
    simp only [] at hok
    split at hok
    · simp at hok
    · obtain ⟨d1, hmem, _, _, hext⟩ := getOrCreate_success env h _ _ _ w w4 ext3 hok
      exact ⟨d1, hmem, hext⟩

/-! ## `ControllerRef` after a successful run (C20) -/

theorem mem_setCondition_of_mem (cs : List Condition) (new x : Condition) (hx : x ∈ cs)
    (ht : x.Type ≠ new.Type) : x ∈ setCondition cs new := by
  unfold setCondition
  split
  · exact List.mem_map.2 ⟨x, hx, by rw [if_neg ht]⟩
  · exact List.mem_append_left _ hx

theorem available_and_success_set (ext : Stack) :
    Condition.Available ∈
      (SetConditions ext [Condition.Available, Condition.ReconcileSuccess]).Status.Conditions ∧
    Condition.ReconcileSuccess ∈
      (SetConditions ext [Condition.Available, Condition.ReconcileSuccess]).Status.Conditions := by
  constructor
  · show Condition.Available ∈
      setCondition (setCondition ext.Status.Conditions Condition.Available)
        Condition.ReconcileSuccess
    exact mem_setCondition_of_mem _ _ _ (mem_setCondition _ _) (by decide)
  · show Condition.ReconcileSuccess ∈
      setCondition (setCondition ext.Status.Conditions Condition.Available)
        Condition.ReconcileSuccess
    exact mem_setCondition _ _

/-- C20 as stated fails: `stackA` declares no controller Deployment. The
creation pipeline completes (`Available` and `ReconcileSuccess` are set and
persisted), `ControllerRef` is still unset in memory and in the cluster, and
the next `Reconcile` of the Stack runs the creation pipeline again (it ends
with the requeue-after result of `create`, not with the empty result of
`update`, and patches the Stack once more). -/
theorem create_without_template_leaves_ref_unset :
    stackA.Spec.ControllerDeployment = none ∧
    (create exampleEnv handlerA worldFoo).1 = (requeueOnSuccess, none) ∧
    (create exampleEnv handlerA worldFoo).2.1.Status =
      { ControllerRef := none,
        Conditions := [Condition.Available, Condition.ReconcileSuccess] } ∧
    (create exampleEnv handlerA worldFoo).2.2.tenant.Stacks.map (fun s => s.Status) =
      [{ ControllerRef := none,
         Conditions := [Condition.Available, Condition.ReconcileSuccess] }] ∧
    (Reconcile exampleEnv exampleReconciler ⟨"ns", "a"⟩
      (create exampleEnv handlerA worldFoo).2.2).1 = (requeueOnSuccess, none) ∧
    ((Reconcile exampleEnv exampleReconciler ⟨"ns", "a"⟩
      (create exampleEnv handlerA worldFoo).2.2).2.log.drop
        (create exampleEnv handlerA worldFoo).2.2.log.length).take 2 =
      [⟨ClusterId.tenant, Verb.get, Kind.Stack, "ns", "a", []⟩,
       ⟨ClusterId.tenant, Verb.patch, Kind.Stack, "ns", "a", []⟩] := by
  decide

/-- C20, amended: for a Stack that declares a controller Deployment, if the
creation pipeline completes successfully (the success result is returned and
the status update persisted), then `Available` and `ReconcileSuccess` are
set, `Status.ControllerRef` is a reference to a Deployment that is live in
the host cluster, the live Stack carries that status, and `sync` on the
Stack as left behind takes the update branch. -/
theorem create_success_sets_controllerRef (env : Env) (h : stackHandler) (w : World)
    (cd : ControllerDeployment) (htemplate : h.ext.Spec.ControllerDeployment = some cd)
    (hs : (create env h w).1 = (requeueOnSuccess, none)) :
    Condition.Available ∈ (create env h w).2.1.Status.Conditions ∧
    Condition.ReconcileSuccess ∈ (create env h w).2.1.Status.Conditions ∧
    (∃ d ∈ ((create env h w).2.2.cluster h.hostKube).Deployments,
      (create env h w).2.1.Status.ControllerRef =
        some (ReferenceToDeployment d deploymentGVK)) ∧
    (∃ s ∈ ((create env h w).2.2.cluster h.kube).Stacks,
      s.Namespace = h.ext.Namespace ∧ s.Name = h.ext.Name) ∧
    (∀ s ∈ ((create env h w).2.2.cluster h.kube).Stacks,
      s.Namespace = h.ext.Namespace → s.Name = h.ext.Name →
        s.Status = (create env h w).2.1.Status) ∧
    (∀ w', sync env { h with ext := (create env h w).2.1 } w' =
      update { h with ext := (create env h w).2.1 } w') := by
  obtain ⟨kns, kn, kspec⟩ := creatingStack_key h.ext
  obtain ⟨w1, w2, w3, ext3, w4, _, _, _, hdep, hcreate⟩ :=
    create_success_inv env h w (congrArg Prod.fst hs)
  have hok : (statusUpdateStack env.faults h.kube
      (SetConditions ext3 [Condition.Available, Condition.ReconcileSuccess]) w4).1 = none := by
    have := congrArg Prod.snd hs
    rw [hcreate] at this
    exact this
  obtain ⟨d1, hd1, hext3⟩ := processDeployment_success env (creatingHandler h) w3 w4 ext3 cd
    (by show (creatingStack h.ext).Spec.ControllerDeployment = some cd; rw [kspec]; exact htemplate)
    hdep
  have hns3 : ext3.Namespace = h.ext.Namespace := by rw [hext3]; exact kns
  have hn3 : ext3.Name = h.ext.Name := by rw [hext3]; exact kn
  have href : (SetConditions ext3 [Condition.Available, Condition.ReconcileSuccess]
      ).Status.ControllerRef = some (ReferenceToDeployment d1 deploymentGVK) := by
    rw [hext3]
    rfl
  have hpers := statusUpdateStack_persisted env.faults w4 h.kube
    (SetConditions ext3 [Condition.Available, Condition.ReconcileSuccess]) hok
  rw [hcreate]
  refine ⟨(available_and_success_set ext3).1, (available_and_success_set ext3).2,
    ⟨d1, ?_, href⟩, ?_, ?_, ?_⟩
  · show d1 ∈ ((statusUpdateStack env.faults h.kube _ w4).2.cluster h.hostKube).Deployments
    rw [statusUpdateStack_frame (fun cl => cl.Deployments) (fun _ _ => rfl)]
    exact hd1
  · obtain ⟨s, hs1, hs2, hs3⟩ := hpers.1
    exact ⟨s, hs1, hs2.trans hns3, hs3.trans hn3⟩
  · intro s hs1 hs2 hs3
    exact hpers.2 s hs1 (hs2.trans hns3.symm) (hs3.trans hn3.symm)
  · intro w'
    unfold sync
    simp only []
    rw [href]

theorem create_success_sets_controllerRef_witness :
    handlerWithController.ext.Spec.ControllerDeployment =
      some { Name := "", Spec := exampleDeployment.Spec } ∧
    (create exampleEnv handlerWithController worldWithController).1 =
      (requeueOnSuccess, none) ∧
    Condition.Available ∈
      (create exampleEnv handlerWithController worldWithController).2.1.Status.Conditions ∧
    (create exampleEnv handlerWithController worldWithController).2.1.Status.ControllerRef =
      some { APIVersion := "apps/v1", Kind := "Deployment", Namespace := "ns",
             Name := "a-controller", UID := "" } ∧
    (create exampleEnv handlerWithController worldWithController).2.2.tenant.Deployments.map
      (fun d => (d.Namespace, d.Name)) = [("ns", "a-controller")] :=
  have hw := create_success_sets_controllerRef exampleEnv handlerWithController
    worldWithController { Name := "", Spec := exampleDeployment.Spec } rfl (by decide)
  ⟨rfl, by decide, hw.1, by decide, by decide⟩

/-! ## The label handlers (C11, C12) -/

theorem mapDelete_mapDelete (m : StringMap) (k : String) :
    mapDelete (mapDelete m k) k = mapDelete m k := by
  rw [mapDelete_eq_filter, mapDelete_eq_filter, List.filter_filter]
  apply List.filter_congr
  intro p _
  simp

theorem mapSet_mapSet (m : StringMap) (k v : String) :
    mapSet (mapSet m k v) k v = mapSet m k v := by
  unfold mapSet
  have : mapDelete ((k, v) :: mapDelete m k) k = mapDelete (mapDelete m k) k := by
    rw [mapDelete]
    simp
  rw [this, mapDelete_mapDelete]

/-- The merge patch that sets one label: applied to any live label map it
sets that label and nothing else. -/
theorem applyLabelPatch_mapSet (orig live : StringMap) (k v : String)
    (hnd : (orig.map Prod.fst).Nodup) (hne : mapGet orig k ≠ v) :
    applyLabelPatch orig (mapSet orig k v) live = mapSet live k v := by
  unfold applyLabelPatch
  have hremoved : (orig.map Prod.fst).filter (fun k' => !mapHas (mapSet orig k v) k') = [] := by
    rw [List.filter_eq_nil_iff]
    intro k' hk'
    have := (mapHas_iff orig k').2 hk'
    simp [mapHas_mapSet, this]
  have hchanged : (mapSet orig k v).filter
      (fun kv => !(mapHas orig kv.1 && decide (mapGet orig kv.1 = kv.2))) = [(k, v)] := by
    unfold mapSet
    rw [List.filter_cons_of_pos (by simp [hne])]
    congr 1
    rw [List.filter_eq_nil_iff]
    intro p hp
    rw [mapDelete_eq_filter] at hp
    obtain ⟨h1, h2⟩ := mapGet_of_mem_nodup orig hnd p (List.mem_filter.1 hp).1
    simp [h1, h2]
  rw [hremoved, hchanged]
  rfl

theorem needsLabel_iff (env : Env) (label value : String) (c : CustomResourceDefinition) :
    needsLabel env label value c = true ↔
      (mapGet c.Labels env.deps.LabelKubernetesManagedBy = env.deps.LabelValueStackManager ∧
        mapGet c.Labels label ≠ value) := by
  simp [needsLabel]

theorem labelCRDs_cons_skip (env : Env) (kube : ClusterId) (label value : String)
    (c : CustomResourceDefinition) (rest : List CustomResourceDefinition) (w : World)
    (hc : needsLabel env label value c = false) :
    labelCRDs env kube label value (c :: rest) w =
      ((labelCRDs env kube label value rest w).1,
        c :: (labelCRDs env kube label value rest w).2.1,
        (labelCRDs env kube label value rest w).2.2) := by
  have hc' : ¬ (mapGet c.Labels env.deps.LabelKubernetesManagedBy =
      env.deps.LabelValueStackManager ∧ mapGet c.Labels label ≠ value) := by
    rw [← needsLabel_iff, hc]
    simp
  rw [labelCRDs]
  by_cases hm : mapGet c.Labels env.deps.LabelKubernetesManagedBy =
      env.deps.LabelValueStackManager
  · have hv : mapGet c.Labels label = value := by
      by_contra hv
      exact hc' ⟨hm, hv⟩
    simp only [hm, ne_eq, not_true_eq_false, if_false, hv, if_true]
  · simp only [ne_eq, hm, not_false_eq_true, if_true]

theorem labelCRDs_cons_patch (env : Env) (kube : ClusterId) (label value : String)
    (c : CustomResourceDefinition) (rest : List CustomResourceDefinition) (w : World)
    (hc : needsLabel env label value c = true) :
    labelCRDs env kube label value (c :: rest) w =
      match patchCRD env.faults kube c (withLabel label value c) w with
      | (some err, w1) => (some err, withLabel label value c :: rest, w1)
      | (none, w1) =>
        ((labelCRDs env kube label value rest w1).1,
          withLabel label value c :: (labelCRDs env kube label value rest w1).2.1,
          (labelCRDs env kube label value rest w1).2.2) := by
  obtain ⟨hm, hv⟩ := (needsLabel_iff env label value c).1 hc
  rw [labelCRDs]
  simp only [hm, ne_eq, not_true_eq_false, if_false, hv]
  rfl

/-- A label handler leaves alone whatever is not a schema object. -/
theorem labelCRDs_frame {β : Type} (proj : Cluster → β)
    (hproj : ∀ cl l, proj { cl with CRDs := l } = proj cl)
    (env : Env) (kube : ClusterId) (label value : String)
    (cs : List CustomResourceDefinition) (w : World) (id : ClusterId) :
    proj ((labelCRDs env kube label value cs w).2.2.cluster id) = proj (w.cluster id) := by
  induction cs generalizing w with
  | nil => rfl
  | cons c rest ih =>
    cases hc : needsLabel env label value c with
    | false =>
      rw [labelCRDs_cons_skip env kube label value c rest w hc]
      exact ih w
    | true =>
      rw [labelCRDs_cons_patch env kube label value c rest w hc]
      have hp := patchCRD_frame proj hproj env.faults kube c (withLabel label value c) w id
      generalize patchCRD env.faults kube c (withLabel label value c) w = r at hp ⊢
      obtain ⟨err, w1⟩ := r
      cases err with
      | some e => exact hp
      | none => exact (ih w1).trans hp

/-- On a list none of whose objects needs the label, a label handler issues
no call and changes nothing. -/
theorem labelCRDs_skip (env : Env) (kube : ClusterId) (label value : String)
    (cs : List CustomResourceDefinition) (w : World)
    (hcs : ∀ c ∈ cs, needsLabel env label value c = false) :
    labelCRDs env kube label value cs w = (none, cs, w) := by
  induction cs with
  | nil => rfl
  | cons c rest ih =>
    rw [labelCRDs_cons_skip env kube label value c rest w (hcs c (List.mem_cons_self _ _)),
      ih (fun x hx => hcs x (List.mem_cons_of_mem _ hx))]

theorem needsLabel_withLabel (env : Env) (label value : String) (c : CustomResourceDefinition) :
    needsLabel env label value (withLabel label value c) = false := by
  unfold needsLabel withLabel
  simp [mapGet_mapSet]

theorem needsLabel_labelled (env : Env) (label value : String) (c : CustomResourceDefinition) :
    needsLabel env label value (labelled env label value c) = false := by
  unfold labelled
  cases hc : needsLabel env label value c with
  | false => simpa using hc
  | true => simpa using needsLabel_withLabel env label value c

theorem patchCRD_none_inv (F : Faults) (id : ClusterId) (orig modified : CustomResourceDefinition)
    (w : World) (hok : (patchCRD F id orig modified w).1 = none) :
    F w.log ⟨id, Verb.patch, Kind.CustomResourceDefinition, "", modified.Name, []⟩ = none ∧
      ((w.cluster id).CRDs.any fun x => decide (x.Name = modified.Name)) = true := by
  unfold patchCRD issue at hok
  cases hF : F w.log ⟨id, Verb.patch, Kind.CustomResourceDefinition, "", modified.Name, []⟩ with
  | some e =>
    rw [hF] at hok
    cases hok
  | none =>
    refine ⟨rfl, ?_⟩
    rw [hF] at hok
    simp only [] at hok
    cases hany : ((w.cluster id).CRDs.any fun x => decide (x.Name = modified.Name)) with
    | true => rfl
    | false =>
      rw [hany] at hok
      simp at hok

theorem withLabel_withLabel (label value : String) (x : CustomResourceDefinition) :
    withLabel label value (withLabel label value x) = withLabel label value x := by
  unfold withLabel
  simp only [mapSet_mapSet]

/-- What a successful run of a label handler does: it hands on each object
with the label set where it was needed, issues one patch per object that
needed the label, in list order, and every live object named like a patched
one has the label set and is otherwise as before. -/
theorem labelCRDs_success (env : Env) (kube : ClusterId) (label value : String)
    (cs : List CustomResourceDefinition) (w : World)
    (hok : (labelCRDs env kube label value cs w).1 = none)
    (hkeys : ∀ c ∈ cs, (c.Labels.map Prod.fst).Nodup) :
    (labelCRDs env kube label value cs w).2.1 = cs.map (labelled env label value) ∧
    (labelCRDs env kube label value cs w).2.2.log =
      w.log ++ (cs.filter (needsLabel env label value)).map (crdPatchCall kube) ∧
    ((labelCRDs env kube label value cs w).2.2.cluster kube).CRDs =
      (w.cluster kube).CRDs.map (fun x =>
        if x.Name ∈ (cs.filter (needsLabel env label value)).map (fun c => c.Name) then
          withLabel label value x
        else x) ∧
    ∀ c ∈ cs, needsLabel env label value c = true →
      ∃ x ∈ (w.cluster kube).CRDs, x.Name = c.Name := by
  induction cs generalizing w with
  | nil =>
    refine ⟨rfl, by simp [labelCRDs], ?_, by simp⟩
    simp [labelCRDs]
  | cons c rest ih =>
    have hkeys' : ∀ x ∈ rest, (x.Labels.map Prod.fst).Nodup :=
      fun x hx => hkeys x (List.mem_cons_of_mem _ hx)
    cases hc : needsLabel env label value c with
    | false =>
      rw [labelCRDs_cons_skip env kube label value c rest w hc] at hok ⊢
      obtain ⟨i1, i2, i3, i4⟩ := ih w hok hkeys'
      have hf : (c :: rest).filter (needsLabel env label value) =
          rest.filter (needsLabel env label value) :=
        List.filter_cons_of_neg (by simp [hc])
      rw [hf]
      refine ⟨?_, i2, i3, ?_⟩
      · show c :: _ = _
        rw [i1, List.map_cons]
        unfold labelled
        simp [hc]
      · intro x hx hnx
        rcases List.mem_cons.1 hx with rfl | hx
        · rw [hc] at hnx
          cases hnx
        · exact i4 x hx hnx
    | true =>
      obtain ⟨_, hv⟩ := (needsLabel_iff env label value c).1 hc
      rw [labelCRDs_cons_patch env kube label value c rest w hc] at hok ⊢
      have hp1 : (patchCRD env.faults kube c (withLabel label value c) w).1 = none := by
        generalize patchCRD env.faults kube c (withLabel label value c) w = r at hok
        obtain ⟨err, w1⟩ := r
        cases err with
        | some e => cases hok
        | none => rfl
      obtain ⟨hF, hlive⟩ := patchCRD_none_inv env.faults kube c (withLabel label value c) w hp1
      rw [patchCRD_of_live env.faults kube c (withLabel label value c) w hF hlive] at hok ⊢
      simp only [] at hok ⊢
      obtain ⟨i1, i2, i3, i4⟩ := ih _ hok hkeys'
      have hf : (c :: rest).filter (needsLabel env label value) =
          c :: rest.filter (needsLabel env label value) :=
        List.filter_cons_of_pos (by simp [hc])
      rw [hf]
      refine ⟨?_, ?_, ?_, ?_⟩
      · show withLabel label value c :: _ = _
        rw [i1, List.map_cons]
        unfold labelled
        simp [hc]
      · rw [i2]
        simp [crdPatchCall, withLabel]
      · rw [i3]
        simp only [setCluster_cluster_same, List.map_map, List.map_cons, List.mem_cons]
        apply List.map_congr_left
        intro x _
        simp only [Function.comp]
        by_cases hx : x.Name = c.Name
        · have hx' : x.Name = (withLabel label value c).Name := hx
          have hap : applyLabelPatch c.Labels (withLabel label value c).Labels x.Labels =
              mapSet x.Labels label value :=
            applyLabelPatch_mapSet c.Labels x.Labels label value
              (hkeys c (List.mem_cons_self _ _)) hv
          rw [if_pos hx', hap]
          have hw : ({ x with Labels := mapSet x.Labels label value } :
              CustomResourceDefinition) = withLabel label value x := rfl
          rw [hw, if_pos (Or.inl hx)]
          split
          · exact withLabel_withLabel label value x
          · rfl
        · have hx' : ¬ x.Name = (withLabel label value c).Name := hx
          rw [if_neg hx']
          simp only [hx, false_or]
      · intro x hx hnx
        rcases List.mem_cons.1 hx with rfl | hx
        · obtain ⟨y, hy, hname⟩ := List.any_eq_true.1 hlive
          exact ⟨y, hy, by simpa using hname⟩
        · obtain ⟨y, hy, hname⟩ := i4 x hx hnx
          simp only [setCluster_cluster_same] at hy
          obtain ⟨y0, hy0, rfl⟩ := List.mem_map.1 hy
          refine ⟨y0, by simpa using hy0, ?_⟩
          rw [← hname]
          split <;> rfl

theorem mem_names_needing (env : Env) (label value : String)
    (items cs : List CustomResourceDefinition)
    (hnames : (items.map fun x => x.Name).Nodup) (hsub : ∀ c ∈ cs, c ∈ items)
    (x : CustomResourceDefinition) (hx : x ∈ items) :
    x.Name ∈ (cs.filter (needsLabel env label value)).map (fun c => c.Name) ↔
      (x ∈ cs ∧ needsLabel env label value x = true) := by
  rw [List.mem_map]
  constructor
  · rintro ⟨c, hc, hname⟩
    obtain ⟨hc1, hc2⟩ := List.mem_filter.1 hc
    have : c = x := eq_of_name_eq_of_nodup items hnames c x (hsub c hc1) hx hname
    subst this
    exact ⟨hc1, hc2⟩
  · rintro ⟨h1, h2⟩
    exact ⟨x, List.mem_filter.2 ⟨h1, h2⟩, rfl⟩

/-- After a successful run of a label handler no object of the list it hands
on needs the label. -/
theorem labelCRDs_result_done (env : Env) (kube : ClusterId) (label value : String)
    (cs : List CustomResourceDefinition) (w : World)
    (hok : (labelCRDs env kube label value cs w).1 = none) :
    ∀ c ∈ (labelCRDs env kube label value cs w).2.1, needsLabel env label value c = false := by
  induction cs generalizing w with
  | nil =>
    intro c hc
    cases hc
  | cons c rest ih =>
    cases hc : needsLabel env label value c with
    | false =>
      rw [labelCRDs_cons_skip env kube label value c rest w hc] at hok ⊢
      intro x hx
      rcases List.mem_cons.1 hx with rfl | hx
      · exact hc
      · exact ih w hok x hx
    | true =>
      rw [labelCRDs_cons_patch env kube label value c rest w hc] at hok ⊢
      generalize patchCRD env.faults kube c (withLabel label value c) w = r at hok ⊢
      obtain ⟨err, w1⟩ := r
      cases err with
      | some e => cases hok
      | none =>
        intro x hx
        rcases List.mem_cons.1 hx with rfl | hx
        · exact needsLabel_withLabel env label value c
        · exact ih w1 hok x hx

/-- C11 as stated fails: `foos.example.org` carries the ownership marker
and both the namespace-member label of `ns` and the multi-parent label of
`ns/a`, with the value "false". It does not lack either label, yet each
handler patches it and sets its label to "true". -/
theorem label_handlers_patch_object_carrying_label :
    mapHas fooLabelledFalse.Labels (exampleEnv.deps.LabelNamespaceFmt handlerA.ext.Namespace)
        = true ∧
      mapHas fooLabelledFalse.Labels (exampleEnv.deps.MultiParentLabel handlerA.ext) = true ∧
      (createNamespaceLabelsCRDHandler exampleEnv handlerA [fooLabelledFalse]
        worldLabelledFalse).1 = none ∧
      (createNamespaceLabelsCRDHandler exampleEnv handlerA [fooLabelledFalse]
        worldLabelledFalse).2.2.log =
        [⟨ClusterId.tenant, Verb.patch, Kind.CustomResourceDefinition, "", "foos.example.org",
          []⟩] ∧
      ((createNamespaceLabelsCRDHandler exampleEnv handlerA [fooLabelledFalse]
        worldLabelledFalse).2.2.tenant.CRDs.map fun c => c.Labels) =
        [[("namespace.crossplane.io/ns", "true"),
          ("app.kubernetes.io/managed-by", "stack-manager"),
          ("parent.stacks.crossplane.io/ns-a", "false")]] ∧
      (createMultipleParentLabelsCRDHandler exampleEnv handlerA [fooLabelledFalse]
        worldLabelledFalse).1 = none ∧
      (createMultipleParentLabelsCRDHandler exampleEnv handlerA [fooLabelledFalse]
        worldLabelledFalse).2.2.log =
        [⟨ClusterId.tenant, Verb.patch, Kind.CustomResourceDefinition, "", "foos.example.org",
          []⟩] ∧
      ((createMultipleParentLabelsCRDHandler exampleEnv handlerA [fooLabelledFalse]
        worldLabelledFalse).2.2.tenant.CRDs.map fun c => c.Labels) =
        [[("parent.stacks.crossplane.io/ns-a", "true"),
          ("app.kubernetes.io/managed-by", "stack-manager"),
          ("namespace.crossplane.io/ns", "false")]] := by
  decide

/-- C11, amended: the namespace handler (with the namespace-member label of
the install namespace) and the multi-parent handler (with the Stack's
multi-parent label) are run on a list of live schema objects of a registry
with unique names and well-formed label maps. After a successful run the
objects patched are exactly the listed objects that carry the ownership
marker and do not carry the label with value "true" (the label is absent or
has another value): the patch calls issued are the patches of those objects
and no other, one per object and in list order when no object is listed
twice; each of those objects is live with the label set to "true" and every
other label as before; every other schema object is as before; and nothing
else changed in either cluster. -/
theorem label_handlers_patch_exactly (env : Env) (h : stackHandler) (handler : crdHandler)
    (label : String)
    (hh : (handler = createNamespaceLabelsCRDHandler env h ∧
        label = env.deps.LabelNamespaceFmt h.ext.Namespace) ∨
      (handler = createMultipleParentLabelsCRDHandler env h ∧
        label = env.deps.MultiParentLabel h.ext))
    (cs : List CustomResourceDefinition) (w : World)
    (hsub : ∀ c ∈ cs, c ∈ (w.cluster h.kube).CRDs)
    (hnames : ((w.cluster h.kube).CRDs.map fun x => x.Name).Nodup)
    (hkeys : ∀ x ∈ (w.cluster h.kube).CRDs, (x.Labels.map Prod.fst).Nodup)
    (hok : (handler cs w).1 = none) :
    (∃ calls, (handler cs w).2.2.log = w.log ++ calls ∧
      ∀ call, call ∈ calls ↔
        ∃ c ∈ cs,
          (mapGet c.Labels env.deps.LabelKubernetesManagedBy = env.deps.LabelValueStackManager ∧
            mapGet c.Labels label ≠ "true") ∧
          call = ⟨h.kube, Verb.patch, Kind.CustomResourceDefinition, "", c.Name, []⟩) ∧
    ((handler cs w).2.2.cluster h.kube).CRDs =
      (w.cluster h.kube).CRDs.map (fun x =>
        if x ∈ cs ∧
            mapGet x.Labels env.deps.LabelKubernetesManagedBy = env.deps.LabelValueStackManager ∧
            mapGet x.Labels label ≠ "true" then
          { x with Labels := mapSet x.Labels label "true" }
        else x) ∧
    (∀ (L : StringMap) (k : String),
      mapGet (mapSet L label "true") k = (if k = label then "true" else mapGet L k) ∧
      mapHas (mapSet L label "true") k = (decide (k = label) || mapHas L k)) ∧
    (∀ id, { (handler cs w).2.2.cluster id with CRDs := [] } = { w.cluster id with CRDs := [] }) ∧
    (∀ id, id ≠ h.kube → ((handler cs w).2.2.cluster id).CRDs = (w.cluster id).CRDs) ∧
    (cs.Nodup →
      (handler cs w).2.2.log = w.log ++
        (cs.filter (fun c =>
          decide (mapGet c.Labels env.deps.LabelKubernetesManagedBy =
            env.deps.LabelValueStackManager) &&
          decide (mapGet c.Labels label ≠ "true"))).map
          (fun c => ⟨h.kube, Verb.patch, Kind.CustomResourceDefinition, "", c.Name, []⟩)) := by
  have hhandler : handler = labelCRDs env h.kube label "true" := by
    rcases hh with ⟨rfl, rfl⟩ | ⟨rfl, rfl⟩ <;> rfl
  subst hhandler
  obtain ⟨_, s2, s3, _⟩ := labelCRDs_success env h.kube label "true" cs w hok
    (fun c hc => hkeys c (hsub c hc))
  refine ⟨⟨_, s2, ?_⟩, ?_, ?_, ?_, ?_, fun _ => s2⟩
  · intro call
    rw [List.mem_map]
    constructor
    · rintro ⟨c, hc, rfl⟩
      obtain ⟨hc1, hc2⟩ := List.mem_filter.1 hc
      exact ⟨c, hc1, (needsLabel_iff env label "true" c).1 hc2, rfl⟩
    · rintro ⟨c, hc1, hc2, rfl⟩
      exact ⟨c, List.mem_filter.2 ⟨hc1, (needsLabel_iff env label "true" c).2 hc2⟩, rfl⟩
  · rw [s3]
    apply List.map_congr_left
    intro x hx
    have hiff := mem_names_needing env label "true" _ cs hnames hsub x hx
    rw [needsLabel_iff] at hiff
    by_cases hcond : x ∈ cs ∧
        mapGet x.Labels env.deps.LabelKubernetesManagedBy = env.deps.LabelValueStackManager ∧
        mapGet x.Labels label ≠ "true"
    · rw [if_pos (hiff.2 hcond), if_pos hcond]
      rfl
    · rw [if_neg (fun hn => hcond (hiff.1 hn)), if_neg hcond]
  · intro L k
    exact ⟨mapGet_mapSet L label "true" k, mapHas_mapSet L label "true" k⟩
  · intro id
    exact labelCRDs_frame (fun cl : Cluster => ({ cl with CRDs := [] } : Cluster))
      (fun _ _ => rfl) env h.kube label "true" cs w id
  · intro id hid
    have hgen : ∀ (cs : List CustomResourceDefinition) (w : World),
        ((labelCRDs env h.kube label "true" cs w).2.2.cluster id).CRDs = (w.cluster id).CRDs := by
      intro cs
      induction cs with
      | nil => intro w; rfl
      | cons c rest ih =>
        intro w
        cases hc : needsLabel env label "true" c with
        | false =>
          rw [labelCRDs_cons_skip env h.kube label "true" c rest w hc]
          exact ih w
        | true =>
          rw [labelCRDs_cons_patch env h.kube label "true" c rest w hc]
          have hp : ((patchCRD env.faults h.kube c (withLabel label "true" c) w).2.cluster
              id).CRDs = (w.cluster id).CRDs := by
            unfold patchCRD issue
            cases env.faults w.log _ with
            | some e => simp
            | none => simp [setCluster_cluster, hid]
          generalize patchCRD env.faults h.kube c (withLabel label "true" c) w = r at hp ⊢
          obtain ⟨err, w1⟩ := r
          cases err with
          | some e => exact hp
          | none => exact (ih w1).trans hp
    exact hgen cs w

theorem label_handlers_patch_exactly_witness :
    (∀ c ∈ [fooCRD], c ∈ (worldFoo.cluster handlerA.kube).CRDs) ∧
    ((worldFoo.cluster handlerA.kube).CRDs.map fun x => x.Name).Nodup ∧
    (∀ x ∈ (worldFoo.cluster handlerA.kube).CRDs, (x.Labels.map Prod.fst).Nodup) ∧
    (createNamespaceLabelsCRDHandler exampleEnv handlerA [fooCRD] worldFoo).1 = none ∧
    ((createNamespaceLabelsCRDHandler exampleEnv handlerA [fooCRD] worldFoo).2.2.cluster
        handlerA.kube).CRDs =
      [{ fooCRD with
         Labels := [("namespace.crossplane.io/ns", "true"),
                    ("app.kubernetes.io/managed-by", "stack-manager")] }] :=
  have hw := label_handlers_patch_exactly exampleEnv handlerA
    (createNamespaceLabelsCRDHandler exampleEnv handlerA) "namespace.crossplane.io/ns"
    (Or.inl ⟨rfl, rfl⟩) [fooCRD] worldFoo (by decide) (by decide) (by decide) (by decide)
  ⟨by decide, by decide, by decide, by decide, by rw [hw.2.1]; decide⟩

/-- C12: running a label handler (the namespace handler or the multi-parent
handler) a second time on the list a first successful run handed on issues
no call and changes nothing, in whatever world it is run; and on a registry
with unique names and well-formed label maps the same holds for every list of
objects, live after the first run, that are named like objects of the first
list. -/
theorem label_handlers_idempotent (env : Env) (h : stackHandler) (handler : crdHandler)
    (hh : handler = createNamespaceLabelsCRDHandler env h ∨
      handler = createMultipleParentLabelsCRDHandler env h)
    (cs : List CustomResourceDefinition) (w : World)
    (hok : (handler cs w).1 = none) :
    (∀ w', handler (handler cs w).2.1 w' = (none, (handler cs w).2.1, w')) ∧
    ((∀ c ∈ cs, c ∈ (w.cluster h.kube).CRDs) →
      ((w.cluster h.kube).CRDs.map fun x => x.Name).Nodup →
      (∀ x ∈ (w.cluster h.kube).CRDs, (x.Labels.map Prod.fst).Nodup) →
      ∀ cs2 : List CustomResourceDefinition,
        (∀ c ∈ cs2, c ∈ ((handler cs w).2.2.cluster h.kube).CRDs ∧
          c.Name ∈ cs.map fun x => x.Name) →
        ∀ w', handler cs2 w' = (none, cs2, w')) := by
  obtain ⟨label, hhandler⟩ : ∃ label, handler = labelCRDs env h.kube label "true" := by
    rcases hh with rfl | rfl
    · exact ⟨_, rfl⟩
    · exact ⟨_, rfl⟩
  subst hhandler
  constructor
  · intro w'
    exact labelCRDs_skip env h.kube label "true" _ w'
      (labelCRDs_result_done env h.kube label "true" cs w hok)
  · intro hsub hnames hkeys cs2 hcs2 w'
    obtain ⟨_, _, s3, _⟩ := labelCRDs_success env h.kube label "true" cs w hok
      (fun c hc => hkeys c (hsub c hc))
    apply labelCRDs_skip
    intro c hc
    obtain ⟨hlive, hname⟩ := hcs2 c hc
    rw [s3] at hlive
    obtain ⟨x, hx, rfl⟩ := List.mem_map.1 hlive
    have hiff := mem_names_needing env label "true" _ cs hnames hsub x hx
    split
    · exact needsLabel_withLabel env label "true" x
    · rename_i hnot
      have hxname : x.Name ∈ cs.map fun x => x.Name := by
        have := hname
        split at this
        · exact this
        · exact this
      obtain ⟨c0, hc0, hc0name⟩ := List.mem_map.1 hxname
      have hc0x : c0 = x :=
        eq_of_name_eq_of_nodup _ hnames c0 x (hsub c0 hc0) hx hc0name
      subst hc0x
      cases hn : needsLabel env label "true" c0 with
      | false => rfl
      | true => exact absurd (hiff.2 ⟨hc0, hn⟩) hnot

theorem label_handlers_idempotent_witness :
    (createMultipleParentLabelsCRDHandler exampleEnv handlerA [fooCRD] worldFoo).1 = none ∧
    (∀ w', createMultipleParentLabelsCRDHandler exampleEnv handlerA
        (createMultipleParentLabelsCRDHandler exampleEnv handlerA [fooCRD] worldFoo).2.1 w' =
      (none, (createMultipleParentLabelsCRDHandler exampleEnv handlerA [fooCRD] worldFoo).2.1,
        w')) ∧
    (∀ w', createMultipleParentLabelsCRDHandler exampleEnv handlerA
        ((createMultipleParentLabelsCRDHandler exampleEnv handlerA [fooCRD] worldFoo).2.2.cluster
          handlerA.kube).CRDs w' =
      (none,
        ((createMultipleParentLabelsCRDHandler exampleEnv handlerA [fooCRD] worldFoo).2.2.cluster
          handlerA.kube).CRDs, w')) :=
  have hw := label_handlers_idempotent exampleEnv handlerA
    (createMultipleParentLabelsCRDHandler exampleEnv handlerA) (Or.inr rfl) [fooCRD] worldFoo
    (by decide)
  ⟨by decide, hw.1, hw.2 (by decide) (by decide) (by decide) _ (by decide)⟩

/-! ## Label release touches only the Stack's own labels (C13) -/

theorem releaseKeeps_other (env : Env) (h : stackHandler) (orig : StringMap) (k : String)
    (h1 : k ≠ env.deps.MultiParentLabel h.ext)
    (h2 : k ≠ env.deps.LabelNamespaceFmt h.ext.Namespace) :
    releaseKeeps env h orig k = true := by
  unfold releaseKeeps
  simp [h1, h2]

/-- The calls of the release loop: patches of listed objects that carry the
ownership marker. -/
theorem removeCRDLabels_loop_patches (env : Env) (h : stackHandler)
    (cs : List CustomResourceDefinition) (w : World) :
    CallsOnly (fun call => ∃ c ∈ cs,
        mapGet c.Labels env.deps.LabelKubernetesManagedBy = env.deps.LabelValueStackManager ∧
        call = crdPatchCall h.kube c) w (removeCRDLabels.loop env h cs w).2 := by
  induction cs generalizing w with
  | nil => exact callsOnly_refl _ _
  | cons c rest ih =>
    have hrest : CallsOnly (fun call => ∃ c' ∈ c :: rest,
          mapGet c'.Labels env.deps.LabelKubernetesManagedBy = env.deps.LabelValueStackManager ∧
          call = crdPatchCall h.kube c') w (removeCRDLabels.loop env h rest w).2 :=
      callsOnly_mono (fun call ⟨c', hc', hm⟩ => ⟨c', List.mem_cons_of_mem _ hc', hm⟩) (ih w)
    rw [removeCRDLabels.loop]
    by_cases hm : mapGet c.Labels env.deps.LabelKubernetesManagedBy =
        env.deps.LabelValueStackManager
    · simp only [hm, ne_eq, not_true_eq_false, if_false]
      have hp : CallsOnly (fun call => ∃ c' ∈ c :: rest,
          mapGet c'.Labels env.deps.LabelKubernetesManagedBy = env.deps.LabelValueStackManager ∧
          call = crdPatchCall h.kube c') w
          (patchCRD env.faults h.kube c
            { c with Labels := removeCRDLabels.labels env h c.Labels } w).2 :=
        callsOnly_issue _ env.faults w _ _ ⟨c, List.mem_cons_self _ _, hm, rfl⟩
      generalize patchCRD env.faults h.kube c
        { c with Labels := removeCRDLabels.labels env h c.Labels } w = r at hp ⊢
      obtain ⟨err, w1⟩ := r
      cases err with
      | some e => exact hp
      | none =>
        exact callsOnly_trans hp
          (callsOnly_mono (fun call ⟨c', hc', hm'⟩ => ⟨c', List.mem_cons_of_mem _ hc', hm'⟩)
            (ih w1))
    · simp only [ne_eq, hm, not_false_eq_true, if_true]
      exact hrest

theorem removeCRDLabels_loop_frame {β : Type} (proj : Cluster → β)
    (hproj : ∀ cl l, proj { cl with CRDs := l } = proj cl)
    (env : Env) (h : stackHandler) (cs : List CustomResourceDefinition) (w : World)
    (id : ClusterId) :
    proj ((removeCRDLabels.loop env h cs w).2.cluster id) = proj (w.cluster id) := by
  induction cs generalizing w with
  | nil => rfl
  | cons c rest ih =>
    rw [removeCRDLabels.loop]
    split
    · exact ih w
    · have hp := patchCRD_frame proj hproj env.faults h.kube c
        { c with Labels := removeCRDLabels.labels env h c.Labels } w id
      generalize patchCRD env.faults h.kube c
        { c with Labels := removeCRDLabels.labels env h c.Labels } w = r at hp ⊢
      obtain ⟨err, w1⟩ := r
      cases err with
      | some e => exact hp
      | none => exact (ih w1).trans hp

/-- The release loop on objects of a registry with unique names and
well-formed label maps, without faults: no error, and each object of the
registry is left as `ReleasedFrom` allows. -/
theorem removeCRDLabels_loop_released (env : Env) (h : stackHandler)
    (hF : ∀ l c, env.faults l c = none)
    (items : List CustomResourceDefinition)
    (hnames : (items.map fun x => x.Name).Nodup)
    (hkeys : ∀ x ∈ items, (x.Labels.map Prod.fst).Nodup)
    (cs : List CustomResourceDefinition) (hcs : ∀ c ∈ cs, c ∈ items)
    (w : World) (hw : (w.cluster h.kube).CRDs = items) :
    (removeCRDLabels.loop env h cs w).1 = none ∧
    ∃ g : CustomResourceDefinition → CustomResourceDefinition,
      ((removeCRDLabels.loop env h cs w).2.cluster h.kube).CRDs = items.map g ∧
      ∀ x ∈ items, ReleasedFrom env h x (g x) := by
  have key := removeCRDLabels_loop_invariant env h hF
    (fun rest cl =>
      (∀ c ∈ rest, c ∈ items) ∧
      ∃ g : CustomResourceDefinition → CustomResourceDefinition,
        cl = items.map g ∧ ∀ x ∈ items, ReleasedFrom env h x (g x))
    ?_ ?_ cs w ?_
  · exact ⟨key.1, key.2.2⟩
  · rintro c rest cl ⟨hmem, hg⟩ _
    exact ⟨fun c' hc' => hmem c' (List.mem_cons_of_mem _ hc'), hg⟩
  · rintro c rest cl ⟨hmem, g, hcl, hg⟩ hman
    have hc : c ∈ items := hmem c (List.mem_cons_self _ _)
    have hname : ∀ x ∈ items, (g x).Name = x.Name := by
      intro x hx
      rw [(hg x hx).1]
    refine ⟨?_, fun c' hc' => hmem c' (List.mem_cons_of_mem _ hc'), ?_⟩
    · rw [hcl]
      exact List.any_eq_true.2 ⟨g c, List.mem_map.2 ⟨c, hc, rfl⟩, by simpa using hname c hc⟩
    · refine ⟨fun x =>
        if (g x).Name = c.Name then
          { g x with Labels :=
              applyLabelPatch c.Labels (removeCRDLabels.labels env h c.Labels) (g x).Labels }
        else g x, ?_, ?_⟩
      · rw [hcl, List.map_map]
        rfl
      · intro x hx
        obtain ⟨r1, r2, r3, r4⟩ := hg x hx
        have hfield : ∀ L, ({ g x with Labels := L } : CustomResourceDefinition) =
            { x with Labels := L } := by
          intro L
          rw [r1]
        show ReleasedFrom env h x
          (if (g x).Name = c.Name then
            { g x with Labels :=
                applyLabelPatch c.Labels (removeCRDLabels.labels env h c.Labels) (g x).Labels }
           else g x)
        by_cases hxc : (g x).Name = c.Name
        · have hxeq : x = c :=
            eq_of_name_eq_of_nodup items hnames x c hx hc ((hname x hx).symm.trans hxc)
          rw [if_pos hxc, release_patch_eq_filter env h c.Labels (g x).Labels (hkeys c hc)]
          refine ⟨hfield _, ?_, ?_, ?_⟩
          · intro kv hkv
            exact r2 kv (List.mem_filter.1 hkv).1
          · intro kv hkv h1 h2
            exact List.mem_filter.2 ⟨r3 kv hkv h1 h2, releaseKeeps_other env h _ _ h1 h2⟩
          · intro hunm
            rw [hxeq] at hunm
            exact absurd hman hunm
        · rw [if_neg hxc]
          exact ⟨r1, r2, r3, r4⟩
  · rw [hw]
    exact ⟨hcs, id, (List.map_id _).symm, fun x _ =>
      ⟨rfl, fun _ hkv => hkv, fun _ hkv _ _ => hkv, fun _ => rfl⟩⟩

/-- C13: on a registry with unique names and well-formed label maps and
without injected faults, `removeCRDLabels` returns no error, whether or not
the schema objects the Stack declares are present in the cluster; every
schema object is left with its own fields and with labels among those it
had, and keeps every label other than this Stack's multi-parent label and the
namespace-member label of its install namespace; an object without the
ownership marker is left as it was, and no patch is issued for it: the calls
are the listing and patches of matched objects that carry the marker. Nothing
but labels of schema objects changes. -/
theorem removeCRDLabels_touches_own_labels (env : Env) (h : stackHandler) (w : World)
    (hF : ∀ l c, env.faults l c = none)
    (hnames : ((w.cluster h.kube).CRDs.map fun x => x.Name).Nodup)
    (hkeys : ∀ x ∈ (w.cluster h.kube).CRDs, (x.Labels.map Prod.fst).Nodup) :
    (removeCRDLabels env h w).1 = none ∧
    (∃ g : CustomResourceDefinition → CustomResourceDefinition,
      ((removeCRDLabels env h w).2.cluster h.kube).CRDs = (w.cluster h.kube).CRDs.map g ∧
      ∀ x ∈ (w.cluster h.kube).CRDs, ReleasedFrom env h x (g x)) ∧
    (∃ calls, (removeCRDLabels env h w).2.log = w.log ++ calls ∧
      (∀ call ∈ calls,
        call = ⟨h.kube, Verb.list, Kind.CustomResourceDefinition, "", "", []⟩ ∨
        ∃ c ∈ (w.cluster h.kube).CRDs,
          mapGet c.Labels env.deps.LabelKubernetesManagedBy = env.deps.LabelValueStackManager ∧
          (∃ d ∈ h.ext.Spec.CRDs, descriptorMatches d c = true) ∧
          call = ⟨h.kube, Verb.patch, Kind.CustomResourceDefinition, "", c.Name, []⟩) ∧
      ∀ x ∈ (w.cluster h.kube).CRDs,
        mapGet x.Labels env.deps.LabelKubernetesManagedBy ≠ env.deps.LabelValueStackManager →
        (⟨h.kube, Verb.patch, Kind.CustomResourceDefinition, "", x.Name, []⟩ : Call) ∉ calls) ∧
    (∀ id, { (removeCRDLabels env h w).2.cluster id with CRDs := [] } =
      { w.cluster id with CRDs := [] }) := by
  -- the loop that runs, its list and its start world
  obtain ⟨cs, w0, hrun, hcs, hcl, hlog⟩ : ∃ cs w0,
      removeCRDLabels env h w = removeCRDLabels.loop env h cs w0 ∧
      (∀ c ∈ cs, c ∈ (w.cluster h.kube).CRDs ∧
        ∃ d ∈ h.ext.Spec.CRDs, descriptorMatches d c = true) ∧
      (∀ id, w0.cluster id = w.cluster id) ∧
      CallsOnly (fun call =>
        call = ⟨h.kube, Verb.list, Kind.CustomResourceDefinition, "", "", []⟩) w w0 := by
    by_cases hne : h.ext.Spec.CRDs = []
    · refine ⟨[], w, ?_, by simp, fun _ => rfl, callsOnly_refl _ _⟩
      simp [removeCRDLabels, crdsFromStack, hne]
    · refine ⟨_, _, removeCRDLabels_of_nofault env h w hF hne, ?_, fun id => by simp,
        ⟨[_], rfl, by simp⟩⟩
      intro c hc
      exact (mem_collect _ _ c).1 hc
  rw [hrun]
  obtain ⟨hnone, g, hg, hrel⟩ := removeCRDLabels_loop_released env h hF (w.cluster h.kube).CRDs
    hnames hkeys cs (fun c hc => (hcs c hc).1) w0 (by rw [hcl h.kube])
  obtain ⟨calls0, hcalls0, hP0⟩ := hlog
  obtain ⟨calls1, hcalls1, hP1⟩ := removeCRDLabels_loop_patches env h cs w0
  refine ⟨hnone, ⟨g, hg, hrel⟩, ⟨calls0 ++ calls1, ?_, ?_, ?_⟩, ?_⟩
  · rw [hcalls1, hcalls0, List.append_assoc]
  · intro call hcall
    rcases List.mem_append.1 hcall with hc0 | hc1
    · exact Or.inl (hP0 call hc0)
    · obtain ⟨c, hc, hm, rfl⟩ := hP1 call hc1
      exact Or.inr ⟨c, (hcs c hc).1, hm, (hcs c hc).2, rfl⟩
  · intro x hx hunm hmem
    rcases List.mem_append.1 hmem with hc0 | hc1
    · have := hP0 _ hc0
      simp at this
    · obtain ⟨c, hc, hm, hcall⟩ := hP1 _ hc1
      have hname : x.Name = c.Name := by
        have := congrArg Call.Name hcall
        exact this
      have hxc : x = c :=
        eq_of_name_eq_of_nodup _ hnames x c hx (hcs c hc).1 hname
      rw [hxc] at hunm
      exact hunm hm
  · intro id
    rw [removeCRDLabels_loop_frame (fun cl : Cluster => ({ cl with CRDs := [] } : Cluster))
      (fun _ _ => rfl) env h cs w0 id, hcl id]

theorem removeCRDLabels_touches_own_labels_witness :
    (∀ l c, exampleEnv.faults l c = none) ∧
    ((worldRelease.cluster handlerBDeleting.kube).CRDs.map fun x => x.Name).Nodup ∧
    (∀ x ∈ (worldRelease.cluster handlerBDeleting.kube).CRDs, (x.Labels.map Prod.fst).Nodup) ∧
    (removeCRDLabels exampleEnv handlerBDeleting worldRelease).1 = none ∧
    (removeCRDLabels exampleEnv handlerBDeleting worldRelease).2.tenant.CRDs =
      [{ sharedCRD with
         Labels := [("app.kubernetes.io/managed-by", "stack-manager"),
                    ("namespace.crossplane.io/ns", "true"),
                    ("parent.stacks.crossplane.io/ns-a", "true")] },
       barCRD] ∧
    crdListFulfilled handlerBDeleting.ext.Spec.CRDs
      (worldReleaseNoCRD.cluster handlerBDeleting.kube).CRDs ≠ none ∧
    (removeCRDLabels exampleEnv handlerBDeleting worldReleaseNoCRD).1 = none :=
  ⟨fun _ _ => rfl, by decide, by decide,
    (removeCRDLabels_touches_own_labels exampleEnv handlerBDeleting worldRelease
      (fun _ _ => rfl) (by decide) (by decide)).1,
    by decide, by decide, by decide⟩

/-! ## Creation only adds: the `Extends` relation -/

theorem extends_refl (cl : Cluster) : Extends cl cl :=
  ⟨⟨[], by simp⟩, ⟨[], by simp⟩, ⟨[], by simp⟩, ⟨[], by simp⟩, ⟨[], by simp⟩, ⟨[], by simp⟩, rfl⟩

theorem extends_trans {a b c : Cluster} (h1 : Extends a b) (h2 : Extends b c) : Extends a c := by
  obtain ⟨⟨e1, a1⟩, ⟨e2, a2⟩, ⟨e3, a3⟩, ⟨e4, a4⟩, ⟨e5, a5⟩, ⟨e6, a6⟩, a7⟩ := h1
  obtain ⟨⟨f1, b1⟩, ⟨f2, b2⟩, ⟨f3, b3⟩, ⟨f4, b4⟩, ⟨f5, b5⟩, ⟨f6, b6⟩, b7⟩ := h2
  exact ⟨⟨e1 ++ f1, by rw [b1, a1, List.append_assoc]⟩,
    ⟨e2 ++ f2, by rw [b2, a2, List.append_assoc]⟩,
    ⟨e3 ++ f3, by rw [b3, a3, List.append_assoc]⟩,
    ⟨e4 ++ f4, by rw [b4, a4, List.append_assoc]⟩,
    ⟨e5 ++ f5, by rw [b5, a5, List.append_assoc]⟩,
    ⟨e6 ++ f6, by rw [b6, a6, List.append_assoc]⟩, b7.trans a7⟩

theorem worldExtends_refl (w : World) : WorldExtends w w := fun _ => extends_refl _

theorem worldExtends_trans {a b c : World} (h1 : WorldExtends a b) (h2 : WorldExtends b c) :
    WorldExtends a c := fun id => extends_trans (h1 id) (h2 id)

theorem worldExtends_record (w : World) (c : Call) : WorldExtends w (w.record c) := by
  intro id
  rw [record_cluster]
  exact extends_refl _

theorem issue_extends (F : Faults) (w : World) (c : Call)
    (serve : Cluster → Option ApiErr × Cluster) (hserve : ∀ cl, Extends cl (serve cl).2) :
    WorldExtends w (issue F w c serve).2 := by
  intro id
  unfold issue
  cases F w.log c with
  | some e =>
    simp only [record_cluster]
    exact extends_refl _
  | none =>
    simp only [setCluster_cluster, record_cluster]
    by_cases hid : id = c.client
    · rw [if_pos hid, hid]
      exact hserve _
    · rw [if_neg hid]
      exact extends_refl _

theorem issueRead_extends {α : Type} (F : Faults) (w : World) (c : Call)
    (read : Cluster → Except ApiErr α) : WorldExtends w (issueRead F w c read).2 := by
  rw [issueRead_world]
  exact worldExtends_record w c

theorem createServiceAccount_extends (F : Faults) (id : ClusterId) (o : ServiceAccount)
    (w : World) : WorldExtends w (createServiceAccount F id o w).2 := by
  unfold createServiceAccount
  apply issue_extends
  intro cl
  split
  · exact extends_refl _
  · exact ⟨⟨[o], rfl⟩, ⟨[], by simp⟩, ⟨[], by simp⟩, ⟨[], by simp⟩, ⟨[], by simp⟩,
      ⟨[], by simp⟩, rfl⟩

theorem createClusterRole_extends (F : Faults) (id : ClusterId) (o : ClusterRole) (w : World) :
    WorldExtends w (createClusterRole F id o w).2 := by
  unfold createClusterRole
  apply issue_extends
  intro cl
  split
  · exact extends_refl _
  · exact ⟨⟨[], by simp⟩, ⟨[o], rfl⟩, ⟨[], by simp⟩, ⟨[], by simp⟩, ⟨[], by simp⟩,
      ⟨[], by simp⟩, rfl⟩

theorem createRoleBinding_extends (F : Faults) (id : ClusterId) (o : RoleBinding) (w : World) :
    WorldExtends w (createRoleBinding F id o w).2 := by
  unfold createRoleBinding
  apply issue_extends
  intro cl
  split
  · exact extends_refl _
  · exact ⟨⟨[], by simp⟩, ⟨[], by simp⟩, ⟨[o], rfl⟩, ⟨[], by simp⟩, ⟨[], by simp⟩,
      ⟨[], by simp⟩, rfl⟩

theorem createClusterRoleBindingObject_extends (F : Faults) (id : ClusterId)
    (o : ClusterRoleBinding) (w : World) :
    WorldExtends w (createClusterRoleBindingObject F id o w).2 := by
  unfold createClusterRoleBindingObject
  apply issue_extends
  intro cl
  split
  · exact extends_refl _
  · exact ⟨⟨[], by simp⟩, ⟨[], by simp⟩, ⟨[], by simp⟩, ⟨[o], rfl⟩, ⟨[], by simp⟩,
      ⟨[], by simp⟩, rfl⟩

theorem createDeployment_extends (F : Faults) (id : ClusterId) (o : Deployment) (w : World) :
    WorldExtends w (createDeployment F id o w).2 := by
  unfold createDeployment
  apply issue_extends
  intro cl
  split
  · exact extends_refl _
  · exact ⟨⟨[], by simp⟩, ⟨[], by simp⟩, ⟨[], by simp⟩, ⟨[], by simp⟩, ⟨[o], rfl⟩,
      ⟨[], by simp⟩, rfl⟩

theorem createSecret_extends (F : Faults) (id : ClusterId) (o : Secret) (w : World) :
    WorldExtends w (createSecret F id o w).2 := by
  unfold createSecret
  apply issue_extends
  intro cl
  split
  · exact extends_refl _
  · exact ⟨⟨[], by simp⟩, ⟨[], by simp⟩, ⟨[], by simp⟩, ⟨[], by simp⟩, ⟨[], by simp⟩,
      ⟨[o], rfl⟩, rfl⟩

theorem extends_of_crds_only (cl cl' : Cluster)
    (h : ({ cl' with CRDs := [] } : Cluster) = { cl with CRDs := [] }) : Extends cl cl' := by
  have e1 : cl'.ServiceAccounts = cl.ServiceAccounts := by
    have := congrArg Cluster.ServiceAccounts h
    exact this
  have e2 : cl'.ClusterRoles = cl.ClusterRoles := by
    have := congrArg Cluster.ClusterRoles h
    exact this
  have e3 : cl'.RoleBindings = cl.RoleBindings := by
    have := congrArg Cluster.RoleBindings h
    exact this
  have e4 : cl'.ClusterRoleBindings = cl.ClusterRoleBindings := by
    have := congrArg Cluster.ClusterRoleBindings h
    exact this
  have e5 : cl'.Deployments = cl.Deployments := by
    have := congrArg Cluster.Deployments h
    exact this
  have e6 : cl'.Secrets = cl.Secrets := by
    have := congrArg Cluster.Secrets h
    exact this
  have e7 : cl'.Stacks = cl.Stacks := by
    have := congrArg Cluster.Stacks h
    exact this
  exact ⟨⟨[], by simp [e1]⟩, ⟨[], by simp [e2]⟩, ⟨[], by simp [e3]⟩, ⟨[], by simp [e4]⟩,
    ⟨[], by simp [e5]⟩, ⟨[], by simp [e6]⟩, by rw [e7]⟩

theorem patchCRD_extends (F : Faults) (id : ClusterId) (orig modified : CustomResourceDefinition)
    (w : World) : WorldExtends w (patchCRD F id orig modified w).2 := fun id' =>
  extends_of_crds_only _ _
    (patchCRD_frame (fun cl : Cluster => ({ cl with CRDs := [] } : Cluster)) (fun _ _ => rfl)
      F id orig modified w id')

theorem labelCRDs_extends (env : Env) (kube : ClusterId) (label value : String)
    (cs : List CustomResourceDefinition) (w : World) :
    WorldExtends w (labelCRDs env kube label value cs w).2.2 := fun id =>
  extends_of_crds_only _ _
    (labelCRDs_frame (fun cl : Cluster => ({ cl with CRDs := [] } : Cluster)) (fun _ _ => rfl)
      env kube label value cs w id)

theorem extends_of_stacks_only (cl cl' : Cluster)
    (h : ({ cl' with Stacks := [] } : Cluster) = { cl with Stacks := [] })
    (hs : (cl'.Stacks.map fun s => (s.Namespace, s.Name, s.Finalizers)) =
      (cl.Stacks.map fun s => (s.Namespace, s.Name, s.Finalizers))) : Extends cl cl' := by
  have e1 : cl'.ServiceAccounts = cl.ServiceAccounts := by
    have := congrArg Cluster.ServiceAccounts h
    exact this
  have e2 : cl'.ClusterRoles = cl.ClusterRoles := by
    have := congrArg Cluster.ClusterRoles h
    exact this
  have e3 : cl'.RoleBindings = cl.RoleBindings := by
    have := congrArg Cluster.RoleBindings h
    exact this
  have e4 : cl'.ClusterRoleBindings = cl.ClusterRoleBindings := by
    have := congrArg Cluster.ClusterRoleBindings h
    exact this
  have e5 : cl'.Deployments = cl.Deployments := by
    have := congrArg Cluster.Deployments h
    exact this
  have e6 : cl'.Secrets = cl.Secrets := by
    have := congrArg Cluster.Secrets h
    exact this
  exact ⟨⟨[], by simp [e1]⟩, ⟨[], by simp [e2]⟩, ⟨[], by simp [e3]⟩, ⟨[], by simp [e4]⟩,
    ⟨[], by simp [e5]⟩, ⟨[], by simp [e6]⟩, hs⟩

theorem statusUpdateStack_extends (F : Faults) (id : ClusterId) (o : Stack) (w : World) :
    WorldExtends w (statusUpdateStack F id o w).2 := fun id' =>
  extends_of_stacks_only _ _
    (statusUpdateStack_frame (fun cl : Cluster => ({ cl with Stacks := [] } : Cluster))
      (fun _ _ => rfl) F id o w id')
    (stacks_key_finalizers_issue_status F w id o id')

theorem createDeploymentClusterRole_extends (env : Env) (h : stackHandler) (labels : StringMap)
    (w : World) : WorldExtends w (createDeploymentClusterRole env h labels w).2 := by
  unfold createDeploymentClusterRole
  simp only []
  have h1 := createClusterRole_extends env.faults h.kube
    { Name := env.deps.PersonaRoleName h.ext "system", Labels := labels,
      Rules := h.ext.Spec.PermissionRules } w
  generalize createClusterRole env.faults h.kube
    { Name := env.deps.PersonaRoleName h.ext "system", Labels := labels,
      Rules := h.ext.Spec.PermissionRules } w = r at h1 ⊢
  obtain ⟨err, w1⟩ := r
  simp only []
  split <;> exact h1

theorem createNamespacedRoleBinding_extends (env : Env) (h : stackHandler) (name : String)
    (owner : OwnerReference) (w : World) :
    WorldExtends w (createNamespacedRoleBinding env h name owner w).2 := by
  unfold createNamespacedRoleBinding
  simp only []
  have h1 := createRoleBinding_extends env.faults h.kube
    { Name := h.ext.Name, Namespace := h.ext.Namespace, OwnerReferences := [owner],
      RoleRef := { APIGroup := rbacGroupName, Kind := "ClusterRole", Name := name },
      Subjects := [{ Name := h.ext.Name, Namespace := h.ext.Namespace,
                     Kind := ServiceAccountKind }] } w
  generalize createRoleBinding env.faults h.kube
    { Name := h.ext.Name, Namespace := h.ext.Namespace, OwnerReferences := [owner],
      RoleRef := { APIGroup := rbacGroupName, Kind := "ClusterRole", Name := name },
      Subjects := [{ Name := h.ext.Name, Namespace := h.ext.Namespace,
                     Kind := ServiceAccountKind }] } w = r at h1 ⊢
  obtain ⟨err, w1⟩ := r
  simp only []
  split <;> exact h1

theorem createClusterRoleBinding_extends (env : Env) (h : stackHandler) (name : String)
    (labels : StringMap) (w : World) :
    WorldExtends w (createClusterRoleBinding env h name labels w).2 := by
  unfold createClusterRoleBinding
  simp only []
  have h1 := createClusterRoleBindingObject_extends env.faults h.kube
    { Name := h.ext.Name, Labels := labels,
      RoleRef := { APIGroup := rbacGroupName, Kind := "ClusterRole", Name := name },
      Subjects := [{ Name := h.ext.Name, Namespace := h.ext.Namespace,
                     Kind := ServiceAccountKind }] } w
  generalize createClusterRoleBindingObject env.faults h.kube
    { Name := h.ext.Name, Labels := labels,
      RoleRef := { APIGroup := rbacGroupName, Kind := "ClusterRole", Name := name },
      Subjects := [{ Name := h.ext.Name, Namespace := h.ext.Namespace,
                     Kind := ServiceAccountKind }] } w = r at h1 ⊢
  obtain ⟨err, w1⟩ := r
  simp only []
  split <;> exact h1

theorem processRBAC_extends (env : Env) (h : stackHandler) (w : World) :
    WorldExtends w (processRBAC env h w).2 := by
  unfold processRBAC
  split
  · exact worldExtends_refl w
  · simp only []
    have h1 := createServiceAccount_extends env.faults h.kube
      { Name := h.ext.Name, Namespace := h.ext.Namespace,
        OwnerReferences := [AsOwner (ReferenceToStack h.ext env.deps.StackGroupVersionKind)],
        Annotations := h.ext.Spec.ServiceAccountAnnotations, Secrets := [] } w
    generalize createServiceAccount env.faults h.kube
      { Name := h.ext.Name, Namespace := h.ext.Namespace,
        OwnerReferences := [AsOwner (ReferenceToStack h.ext env.deps.StackGroupVersionKind)],
        Annotations := h.ext.Spec.ServiceAccountAnnotations, Secrets := [] } w = r1 at h1 ⊢
    obtain ⟨err1, w1⟩ := r1
    simp only [] at h1 ⊢
    split
    · exact h1
    · have h2 := createDeploymentClusterRole_extends env h (env.deps.ParentLabels h.ext) w1
      generalize createDeploymentClusterRole env h (env.deps.ParentLabels h.ext) w1 = r2 at h2 ⊢
      obtain ⟨⟨name, err2⟩, w2⟩ := r2
      simp only [] at h2 ⊢
      cases err2 with
      | some e => exact worldExtends_trans h1 h2
      | none =>
        simp only []
        split
        · exact worldExtends_trans h1
            (worldExtends_trans h2 (createClusterRoleBinding_extends env h _ _ w2))
        · split
          · exact worldExtends_trans h1
              (worldExtends_trans h2 (createNamespacedRoleBinding_extends env h _ _ w2))
          · exact worldExtends_trans h1 h2

theorem createPersonaClusterRoles_extends (env : Env) (h : stackHandler)
    (crds : List CustomResourceDefinition) (personas : List String) (w : World) :
    WorldExtends w (createPersonaClusterRoles env h crds personas w).2 := by
  induction personas generalizing w with
  | nil => exact worldExtends_refl w
  | cons p rest ih =>
    unfold createPersonaClusterRoles
    have h1 := createClusterRole_extends env.faults h.kube (personaClusterRole env h p crds) w
    generalize createClusterRole env.faults h.kube (personaClusterRole env h p crds) w = r
      at h1 ⊢
    obtain ⟨err, w1⟩ := r
    simp only [] at h1 ⊢
    split
    · exact h1
    · exact worldExtends_trans h1 (ih w1)

theorem run_extends (hs : List crdHandler)
    (hhs : ∀ handler ∈ hs, ∀ crds w, WorldExtends w (handler crds w).2.2)
    (crds : List CustomResourceDefinition) (w : World) :
    WorldExtends w (processCRDs.run hs crds w).2 := by
  induction hs generalizing crds w with
  | nil => exact worldExtends_refl w
  | cons handler rest ih =>
    unfold processCRDs.run
    have h1 := hhs handler (List.mem_cons_self _ _) crds w
    generalize handler crds w = r at h1 ⊢
    obtain ⟨err, crds1, w1⟩ := r
    cases err with
    | some e => exact h1
    | none =>
      exact worldExtends_trans h1
        (ih (fun x hx => hhs x (List.mem_cons_of_mem _ hx)) crds1 w1)

theorem crdsFromStack_extends (env : Env) (h : stackHandler) (w : World) :
    WorldExtends w (crdsFromStack env h w).2 := by
  intro id
  rw [crdsFromStack_cluster]
  exact extends_refl _

theorem create_handlers_extend (env : Env) (h : stackHandler) :
    ∀ handler ∈ [createListFulfilledCRDHandler h, createNamespaceLabelsCRDHandler env h,
        createMultipleParentLabelsCRDHandler env h, createPersonaClusterRolesCRDHandler env h],
      ∀ crds w, WorldExtends w (handler crds w).2.2 := by
  intro handler hmem crds w
  simp only [List.mem_cons, List.mem_singleton, List.not_mem_nil, or_false] at hmem
  rcases hmem with rfl | rfl | rfl | rfl
  · exact worldExtends_refl w
  · exact labelCRDs_extends env h.kube _ _ crds w
  · exact labelCRDs_extends env h.kube _ _ crds w
  · exact createPersonaClusterRoles_extends env h crds env.personaOrder w

theorem processCRDs_extends (env : Env) (h : stackHandler) (w : World) :
    WorldExtends w (processCRDs env h
      [createListFulfilledCRDHandler h, createNamespaceLabelsCRDHandler env h,
       createMultipleParentLabelsCRDHandler env h, createPersonaClusterRolesCRDHandler env h]
      w).2 := by
  unfold processCRDs
  have h1 := crdsFromStack_extends env h w
  generalize crdsFromStack env h w = r at h1 ⊢
  obtain ⟨res, w1⟩ := r
  cases res with
  | error e => exact h1
  | ok crds => exact worldExtends_trans h1 (run_extends _ (create_handlers_extend env h) crds w1)

theorem getDeployment_world (F : Faults) (id : ClusterId) (key : NamespacedName) (w : World) :
    (getDeployment F id key w).2 =
      w.record ⟨id, Verb.get, Kind.Deployment, key.Namespace, key.Name, []⟩ := by
  unfold getDeployment
  exact issueRead_world _ _ _ _

/-- The workload step touches Deployments and Secrets only. -/
theorem getOrCreate_frame {β : Type} (proj : Cluster → β)
    (hd : ∀ cl l, proj { cl with Deployments := l } = proj cl)
    (hs : ∀ cl l, proj { cl with Secrets := l } = proj cl)
    (env : Env) (h : stackHandler) (d : Deployment) (saRef saSecretRef : ObjectReference)
    (w : World) (id : ClusterId) :
    proj ((processDeployment.getOrCreate env h d saRef saSecretRef w).2.2.cluster id) =
      proj (w.cluster id) := by
  have hfinish : ∀ (d1 : Deployment) (w2 : World),
      proj ((match h.hostAwareConfig with
        | some _ =>
          match syncSATokenSecret env h (AsOwner (ReferenceToDeployment d1 deploymentGVK))
              saRef saSecretRef w2 with
          | (some err, w3) => (some (Err.Wrap err errFailedToSyncSASecret), h.ext, w3)
          | (none, w3) =>
            (none, { h.ext with Status := { h.ext.Status with
              ControllerRef := some (ReferenceToDeployment d1 deploymentGVK) } }, w3)
        | none =>
          ((none, { h.ext with Status := { h.ext.Status with
            ControllerRef := some (ReferenceToDeployment d1 deploymentGVK) } }, w2) :
              Option Err × Stack × World)).2.2.cluster id) = proj (w2.cluster id) := by
    intro d1 w2
    cases h.hostAwareConfig with
    | none => rfl
    | some cfg =>
      simp only []
      have hfr := syncSATokenSecret_frame proj hs env h
        (AsOwner (ReferenceToDeployment d1 deploymentGVK)) saRef saSecretRef w2 id
      generalize syncSATokenSecret env h (AsOwner (ReferenceToDeployment d1 deploymentGVK))
        saRef saSecretRef w2 = r at hfr ⊢
      obtain ⟨err, w3⟩ := r
      cases err <;> exact hfr
  unfold processDeployment.getOrCreate
  simp only []
  have hgw := getDeployment_world env.faults h.hostKube ⟨d.Namespace, d.Name⟩ w
  generalize getDeployment env.faults h.hostKube ⟨d.Namespace, d.Name⟩ w = r1 at hgw ⊢
  obtain ⟨res1, w1⟩ := r1
  simp only [] at hgw
  subst hgw
  cases res1 with
  | ok live =>
    refine (hfinish live _).trans ?_
    simp
  | error e =>
    simp only []
    split
    · have hc := createDeployment_frame proj hd env.faults h.hostKube d
        (w.record ⟨h.hostKube, Verb.get, Kind.Deployment, d.Namespace, d.Name, []⟩) id
      generalize createDeployment env.faults h.hostKube d
        (w.record ⟨h.hostKube, Verb.get, Kind.Deployment, d.Namespace, d.Name, []⟩) = r2
        at hc ⊢
      obtain ⟨err2, w2⟩ := r2
      cases err2 with
      | some e2 => simpa using hc
      | none =>
        simp only [] at hc
        refine (hfinish d w2).trans ?_
        rw [hc]
        simp
    · simp

theorem processDeployment_frame {β : Type} (proj : Cluster → β)
    (hd : ∀ cl l, proj { cl with Deployments := l } = proj cl)
    (hs : ∀ cl l, proj { cl with Secrets := l } = proj cl)
    (env : Env) (h : stackHandler) (w : World) (id : ClusterId) :
    proj ((processDeployment env h w).2.2.cluster id) = proj (w.cluster id) := by
  unfold processDeployment
  cases h.ext.Spec.ControllerDeployment with
  | none => rfl
  | some cd =>
    simp only []
    cases hcfg : h.hostAwareConfig with
    | none =>
      simp only []
      exact getOrCreate_frame proj hd hs env h _ _ _ w id
    | some cfg =>
      simp only []
      split
      · rfl
      · exact getOrCreate_frame proj hd hs env h _ _ _ w id

/-! ## Calls that find their work done -/

theorem quiet_refl (w : World) : Quiet w w := ⟨fun _ => rfl, callsOnly_refl _ _⟩

theorem quiet_trans {a b c : World} (h1 : Quiet a b) (h2 : Quiet b c) : Quiet a c :=
  ⟨fun id => (h2.1 id).trans (h1.1 id), callsOnly_trans h1.2 h2.2⟩

theorem quiet_record (w : World) (c : Call) (hc : IdleCall c) : Quiet w (w.record c) :=
  ⟨fun id => record_cluster w c id, ⟨[c], rfl, by simpa using hc⟩⟩

theorem worldExtends_of_same {a b c : World} (h : WorldExtends a b)
    (hsame : ∀ id, c.cluster id = b.cluster id) : WorldExtends a c := by
  intro id
  rw [hsame id]
  exact h id

theorem setCluster_self (w : World) (id : ClusterId) : w.setCluster id (w.cluster id) = w := by
  cases id <;> rfl

/-- A call whose server function leaves the cluster as it is only extends
the trace. -/
theorem issue_noop (F : Faults) (hF : ∀ l c, F l c = none) (w : World) (c : Call)
    (serve : Cluster → Option ApiErr × Cluster)
    (hserve : (serve (w.cluster c.client)).2 = w.cluster c.client) :
    issue F w c serve = ((serve (w.cluster c.client)).1.map Err.Api, w.record c) := by
  rw [issue_of_none F w c serve (hF _ _), hserve]
  have : (w.record c).setCluster c.client (w.cluster c.client) = w.record c := by
    have := setCluster_self (w.record c) c.client
    rw [record_cluster] at this
    exact this
  rw [this]

theorem createServiceAccount_exists (F : Faults) (hF : ∀ l c, F l c = none) (id : ClusterId)
    (o : ServiceAccount) (w : World)
    (hex : ((w.cluster id).ServiceAccounts.any
      fun x => decide (x.Namespace = o.Namespace ∧ x.Name = o.Name)) = true) :
    createServiceAccount F id o w =
      (some (Err.Api ApiErr.AlreadyExists),
        w.record ⟨id, Verb.create, Kind.ServiceAccount, o.Namespace, o.Name, []⟩) := by
  unfold createServiceAccount
  rw [issue_noop F hF]
  · simp only [Call.client]
    rw [if_pos hex]
    rfl
  · simp only [Call.client]
    rw [if_pos hex]

theorem createClusterRole_exists (F : Faults) (hF : ∀ l c, F l c = none) (id : ClusterId)
    (o : ClusterRole) (w : World)
    (hex : ((w.cluster id).ClusterRoles.any fun x => decide (x.Name = o.Name)) = true) :
    createClusterRole F id o w =
      (some (Err.Api ApiErr.AlreadyExists),
        w.record ⟨id, Verb.create, Kind.ClusterRole, "", o.Name, []⟩) := by
  unfold createClusterRole
  rw [issue_noop F hF]
  · simp only [Call.client]
    rw [if_pos hex]
    rfl
  · simp only [Call.client]
    rw [if_pos hex]

theorem createRoleBinding_exists (F : Faults) (hF : ∀ l c, F l c = none) (id : ClusterId)
    (o : RoleBinding) (w : World)
    (hex : ((w.cluster id).RoleBindings.any
      fun x => decide (x.Namespace = o.Namespace ∧ x.Name = o.Name)) = true) :
    createRoleBinding F id o w =
      (some (Err.Api ApiErr.AlreadyExists),
        w.record ⟨id, Verb.create, Kind.RoleBinding, o.Namespace, o.Name, []⟩) := by
  unfold createRoleBinding
  rw [issue_noop F hF]
  · simp only [Call.client]
    rw [if_pos hex]
    rfl
  · simp only [Call.client]
    rw [if_pos hex]

theorem createClusterRoleBindingObject_exists (F : Faults) (hF : ∀ l c, F l c = none)
    (id : ClusterId) (o : ClusterRoleBinding) (w : World)
    (hex : ((w.cluster id).ClusterRoleBindings.any fun x => decide (x.Name = o.Name)) = true) :
    createClusterRoleBindingObject F id o w =
      (some (Err.Api ApiErr.AlreadyExists),
        w.record ⟨id, Verb.create, Kind.ClusterRoleBinding, "", o.Name, []⟩) := by
  unfold createClusterRoleBindingObject
  rw [issue_noop F hF]
  · simp only [Call.client]
    rw [if_pos hex]
    rfl
  · simp only [Call.client]
    rw [if_pos hex]

theorem createSecret_exists (F : Faults) (hF : ∀ l c, F l c = none) (id : ClusterId)
    (o : Secret) (w : World)
    (hex : ((w.cluster id).Secrets.any
      fun x => decide (x.Namespace = o.Namespace ∧ x.Name = o.Name)) = true) :
    createSecret F id o w =
      (some (Err.Api ApiErr.AlreadyExists),
        w.record ⟨id, Verb.create, Kind.Secret, o.Namespace, o.Name, []⟩) := by
  unfold createSecret
  rw [issue_noop F hF]
  · simp only [Call.client]
    rw [if_pos hex]
    rfl
  · simp only [Call.client]
    rw [if_pos hex]

/-! Without faults the object is there after a create, be it new or old. -/

theorem createServiceAccount_after (F : Faults) (hF : ∀ l c, F l c = none) (id : ClusterId)
    (o : ServiceAccount) (w : World) :
    (((createServiceAccount F id o w).2.cluster id).ServiceAccounts.any
      fun x => decide (x.Namespace = o.Namespace ∧ x.Name = o.Name)) = true := by
  unfold createServiceAccount
  rw [issue_of_none F w _ _ (hF _ _)]
  simp only [setCluster_cluster_same, Call.client]
  split
  · assumption
  · simp

theorem createClusterRole_after (F : Faults) (hF : ∀ l c, F l c = none) (id : ClusterId)
    (o : ClusterRole) (w : World) :
    (((createClusterRole F id o w).2.cluster id).ClusterRoles.any
      fun x => decide (x.Name = o.Name)) = true := by
  unfold createClusterRole
  rw [issue_of_none F w _ _ (hF _ _)]
  simp only [setCluster_cluster_same, Call.client]
  split
  · assumption
  · simp

theorem createRoleBinding_after (F : Faults) (hF : ∀ l c, F l c = none) (id : ClusterId)
    (o : RoleBinding) (w : World) :
    (((createRoleBinding F id o w).2.cluster id).RoleBindings.any
      fun x => decide (x.Namespace = o.Namespace ∧ x.Name = o.Name)) = true := by
  unfold createRoleBinding
  rw [issue_of_none F w _ _ (hF _ _)]
  simp only [setCluster_cluster_same, Call.client]
  split
  · assumption
  · simp

theorem createClusterRoleBindingObject_after (F : Faults) (hF : ∀ l c, F l c = none)
    (id : ClusterId) (o : ClusterRoleBinding) (w : World) :
    (((createClusterRoleBindingObject F id o w).2.cluster id).ClusterRoleBindings.any
      fun x => decide (x.Name = o.Name)) = true := by
  unfold createClusterRoleBindingObject
  rw [issue_of_none F w _ _ (hF _ _)]
  simp only [setCluster_cluster_same, Call.client]
  split
  · assumption
  · simp

theorem createSecret_after (F : Faults) (hF : ∀ l c, F l c = none) (id : ClusterId)
    (o : Secret) (w : World) :
    (((createSecret F id o w).2.cluster id).Secrets.any
      fun x => decide (x.Namespace = o.Namespace ∧ x.Name = o.Name)) = true := by
  unfold createSecret
  rw [issue_of_none F w _ _ (hF _ _)]
  simp only [setCluster_cluster_same, Call.client]
  split
  · assumption
  · simp

/-! What is there stays there under `Extends`. -/

theorem any_append_of_any {α : Type} (l e : List α) (p : α → Bool) (h : l.any p = true) :
    (l ++ e).any p = true := by
  rw [List.any_append, h]
  rfl

theorem find_append_of_find {α : Type} (l e : List α) (p : α → Bool) (a : α)
    (h : l.find? p = some a) : (l ++ e).find? p = some a := by
  rw [List.find?_append, h]
  rfl

theorem map_eq_self_of_forall {α : Type} (l : List α) (f : α → α) (hf : ∀ x ∈ l, f x = x) :
    l.map f = l := by
  induction l with
  | nil => rfl
  | cons a rest ih =>
    rw [List.map_cons, hf a (List.mem_cons_self _ _),
      ih (fun x hx => hf x (List.mem_cons_of_mem _ hx))]

theorem patchStack_none_inv (F : Faults) (id : ClusterId) (orig modified : Stack) (w w1 : World)
    (hok : patchStack F id orig modified w = (none, w1)) :
    ((w.cluster id).Stacks.any
      fun x => decide (x.Namespace = modified.Namespace ∧ x.Name = modified.Name)) = true ∧
    (w1.cluster id).Stacks = (w.cluster id).Stacks.map (fun x =>
      if x.Namespace = modified.Namespace ∧ x.Name = modified.Name then
        (if modified.Finalizers = orig.Finalizers then x
         else { x with Finalizers := modified.Finalizers })
      else x) := by
  unfold patchStack issue at hok
  cases hF : F w.log ⟨id, Verb.patch, Kind.Stack, modified.Namespace, modified.Name, []⟩ with
  | some e =>
    rw [hF] at hok
    cases hok
  | none =>
    rw [hF] at hok
    simp only [Call.client] at hok
    cases hany : ((w.cluster id).Stacks.any
        fun x => decide (x.Namespace = modified.Namespace ∧ x.Name = modified.Name)) with
    | false =>
      rw [hany] at hok
      simp at hok
    | true =>
      refine ⟨rfl, ?_⟩
      rw [hany] at hok
      simp only [if_true, Option.map_none', Prod.mk.injEq, true_and] at hok
      rw [← hok]
      simp

/-- A finalizer patch that succeeded once finds nothing to change when it is
issued again on Stacks with the same keys and finalizers. -/
theorem patchStack_rerun (F : Faults) (hF : ∀ l c, F l c = none) (id : ClusterId)
    (orig modified : Stack) (w w1 w' : World)
    (hok : patchStack F id orig modified w = (none, w1))
    (hproj : ((w'.cluster id).Stacks.map fun s => (s.Namespace, s.Name, s.Finalizers)) =
      ((w1.cluster id).Stacks.map fun s => (s.Namespace, s.Name, s.Finalizers))) :
    patchStack F id orig modified w' =
      (none, w'.record ⟨id, Verb.patch, Kind.Stack, modified.Namespace, modified.Name, []⟩) := by
  obtain ⟨hany, hw1⟩ := patchStack_none_inv F id orig modified w w1 hok
  -- what holds of the Stacks of `w1`, and so of those of `w'`
  have h1 : ∀ t ∈ ((w1.cluster id).Stacks.map fun s => (s.Namespace, s.Name, s.Finalizers)),
      t.1 = modified.Namespace → t.2.1 = modified.Name →
        modified.Finalizers ≠ orig.Finalizers → t.2.2 = modified.Finalizers := by
    intro t ht hns hname hne
    rw [hw1, List.map_map] at ht
    obtain ⟨x, _, rfl⟩ := List.mem_map.1 ht
    simp only [Function.comp] at hns hname ⊢
    by_cases hk : x.Namespace = modified.Namespace ∧ x.Name = modified.Name
    · rw [if_pos hk, if_neg hne]
    · rw [if_neg hk] at hns hname
      exact absurd ⟨hns, hname⟩ hk
  have h2 : ∃ t ∈ ((w1.cluster id).Stacks.map fun s => (s.Namespace, s.Name, s.Finalizers)),
      t.1 = modified.Namespace ∧ t.2.1 = modified.Name := by
    obtain ⟨x, hx, hk⟩ := List.any_eq_true.1 hany
    simp only [decide_eq_true_eq] at hk
    by_cases hfin : modified.Finalizers = orig.Finalizers
    · refine ⟨(x.Namespace, x.Name, x.Finalizers), ?_, hk⟩
      rw [hw1, List.map_map]
      exact List.mem_map.2 ⟨x, hx, by simp [Function.comp, hk, hfin]⟩
    · refine ⟨(x.Namespace, x.Name, modified.Finalizers), ?_, hk⟩
      rw [hw1, List.map_map]
      exact List.mem_map.2 ⟨x, hx, by simp [Function.comp, hk, hfin]⟩
  rw [← hproj] at h1 h2
  have hany' : ((w'.cluster id).Stacks.any
      fun x => decide (x.Namespace = modified.Namespace ∧ x.Name = modified.Name)) = true := by
    obtain ⟨t, ht, hk⟩ := h2
    obtain ⟨x, hx, rfl⟩ := List.mem_map.1 ht
    exact List.any_eq_true.2 ⟨x, hx, by simpa using hk⟩
  unfold patchStack
  rw [issue_noop F hF]
  · simp only [Call.client]
    rw [if_pos hany']
    rfl
  · simp only [Call.client]
    rw [if_pos hany']
    simp only []
    have : (w'.cluster id).Stacks.map (fun x =>
        if x.Namespace = modified.Namespace ∧ x.Name = modified.Name then
          (if modified.Finalizers = orig.Finalizers then x
           else { x with Finalizers := modified.Finalizers })
        else x) = (w'.cluster id).Stacks := by
      apply map_eq_self_of_forall
      intro x hx
      by_cases hk : x.Namespace = modified.Namespace ∧ x.Name = modified.Name
      · rw [if_pos hk]
        by_cases hfin : modified.Finalizers = orig.Finalizers
        · rw [if_pos hfin]
        · rw [if_neg hfin]
          have := h1 _ (List.mem_map.2 ⟨x, hx, rfl⟩) hk.1 hk.2 hfin
          simp only at this
          rw [← this]
      · rw [if_neg hk]
    rw [this]

/-- A status update that succeeded once finds nothing to change when it is
issued again on the Stacks it left. -/
theorem statusUpdateStack_rerun (F : Faults) (hF : ∀ l c, F l c = none) (id : ClusterId)
    (o : Stack) (w w' : World) (hok : (statusUpdateStack F id o w).1 = none)
    (hst : (w'.cluster id).Stacks = ((statusUpdateStack F id o w).2.cluster id).Stacks) :
    statusUpdateStack F id o w' =
      (none, w'.record ⟨id, Verb.statusUpdate, Kind.Stack, o.Namespace, o.Name, []⟩) := by
  obtain ⟨⟨s, hs, hkey⟩, hall⟩ := statusUpdateStack_persisted F w id o hok
  rw [← hst] at hs hall
  have hany' : ((w'.cluster id).Stacks.any
      fun x => decide (x.Namespace = o.Namespace ∧ x.Name = o.Name)) = true :=
    List.any_eq_true.2 ⟨s, hs, by simpa using hkey⟩
  unfold statusUpdateStack
  rw [issue_noop F hF]
  · simp only [Call.client]
    rw [if_pos hany']
    rfl
  · simp only [Call.client]
    rw [if_pos hany']
    simp only []
    have : (w'.cluster id).Stacks.map (fun x =>
        if x.Namespace = o.Namespace ∧ x.Name = o.Name then { x with Status := o.Status }
        else x) = (w'.cluster id).Stacks := by
      apply map_eq_self_of_forall
      intro x hx
      by_cases hk : x.Namespace = o.Namespace ∧ x.Name = o.Name
      · rw [if_pos hk, ← hall x hx hk.1 hk.2]
      · rw [if_neg hk]
    rw [this]

/-! ## The RBAC step, run again -/

theorem idleCall_mk (id : ClusterId) (verb : Verb) (kind : Kind) (ns name : String)
    (sel : StringMap)
    (h : (verb = Verb.patch → kind ≠ Kind.CustomResourceDefinition) ∧
      (verb = Verb.create → kind ≠ Kind.Deployment)) :
    IdleCall ⟨id, verb, kind, ns, name, sel⟩ :=
  ⟨fun hc => h.1 hc.1 hc.2, fun hc => h.2 hc.1 hc.2⟩

theorem rbacPresent_of_extends (env : Env) (h : stackHandler) (cl cl' : Cluster)
    (hext : Extends cl cl') (hp : RBACPresent env h cl) : RBACPresent env h cl' := by
  obtain ⟨⟨e1, a1⟩, ⟨e2, a2⟩, ⟨e3, a3⟩, ⟨e4, a4⟩, _, _, _⟩ := hext
  obtain ⟨p1, p2, p3⟩ := hp
  refine ⟨?_, ?_, ?_⟩
  · rw [a1]
    exact any_append_of_any _ _ _ p1
  · rw [a2]
    exact any_append_of_any _ _ _ p2
  · rcases p3 with ⟨s, p⟩ | ⟨s1, s2, p⟩
    · left
      rw [a4]
      exact ⟨s, any_append_of_any _ _ _ p⟩
    · right
      rw [a3]
      exact ⟨s1, s2, any_append_of_any _ _ _ p⟩

/-- After a successful RBAC step without faults, the objects it stands for
are present. -/
theorem processRBAC_after (env : Env) (h : stackHandler) (hF : ∀ l c, env.faults l c = none)
    (w : World) (hrules : ¬ h.ext.Spec.PermissionRules.length = 0)
    (hok : (processRBAC env h w).1 = none) :
    RBACPresent env h ((processRBAC env h w).2.cluster h.kube) := by
  unfold processRBAC at hok ⊢
  rw [if_neg hrules] at hok ⊢
  simp only [] at hok ⊢
  have a1 := createServiceAccount_after env.faults hF h.kube
    { Name := h.ext.Name, Namespace := h.ext.Namespace,
      OwnerReferences := [AsOwner (ReferenceToStack h.ext env.deps.StackGroupVersionKind)],
      Annotations := h.ext.Spec.ServiceAccountAnnotations, Secrets := [] } w
  generalize createServiceAccount env.faults h.kube
    { Name := h.ext.Name, Namespace := h.ext.Namespace,
      OwnerReferences := [AsOwner (ReferenceToStack h.ext env.deps.StackGroupVersionKind)],
      Annotations := h.ext.Spec.ServiceAccountAnnotations, Secrets := [] } w = r1 at a1 hok ⊢
  obtain ⟨err1, w1⟩ := r1
  simp only [] at a1 hok ⊢
  by_cases hc1 : err1 ≠ none ∧ (!IsAlreadyExists err1) = true
  · rw [if_pos hc1] at hok
    obtain ⟨e1, rfl⟩ := Option.ne_none_iff_exists'.1 hc1.1
    cases hok
  · rw [if_neg hc1] at hok ⊢
    have b0 := createDeploymentClusterRole_world env h w1
    have b1 := createClusterRole_after env.faults hF h.kube (systemClusterRole env h) w1
    have b2 := createDeploymentClusterRole_extends env h (env.deps.ParentLabels h.ext) w1
    rw [← b0] at b1
    generalize createDeploymentClusterRole env h (env.deps.ParentLabels h.ext) w1 = r2
      at b1 b2 hok ⊢
    obtain ⟨⟨name, err2⟩, w2⟩ := r2
    cases err2 with
    | some e => cases hok
    | none =>
      simp only [] at b1 b2 hok ⊢
      have sa2 : ((w2.cluster h.kube).ServiceAccounts.any
          fun x => decide (x.Namespace = h.ext.Namespace ∧ x.Name = h.ext.Name)) = true := by
        obtain ⟨⟨e, he⟩, _⟩ := b2 h.kube
        rw [he]
        exact any_append_of_any _ _ _ a1
      by_cases hs1 : h.ext.Spec.PermissionScope = ClusterScoped
      · rw [if_pos hs1]
        unfold createClusterRoleBinding
        simp only []
        have c1 := createClusterRoleBindingObject_after env.faults hF h.kube
          { Name := h.ext.Name, Labels := env.deps.ParentLabels h.ext,
            RoleRef := { APIGroup := rbacGroupName, Kind := "ClusterRole", Name := name },
            Subjects := [{ Name := h.ext.Name, Namespace := h.ext.Namespace,
                           Kind := ServiceAccountKind }] } w2
        have c2 := createClusterRoleBindingObject_extends env.faults h.kube
          { Name := h.ext.Name, Labels := env.deps.ParentLabels h.ext,
            RoleRef := { APIGroup := rbacGroupName, Kind := "ClusterRole", Name := name },
            Subjects := [{ Name := h.ext.Name, Namespace := h.ext.Namespace,
                           Kind := ServiceAccountKind }] } w2
        generalize createClusterRoleBindingObject env.faults h.kube
          { Name := h.ext.Name, Labels := env.deps.ParentLabels h.ext,
            RoleRef := { APIGroup := rbacGroupName, Kind := "ClusterRole", Name := name },
            Subjects := [{ Name := h.ext.Name, Namespace := h.ext.Namespace,
                           Kind := ServiceAccountKind }] } w2 = r3 at c1 c2 ⊢
        obtain ⟨err3, w3⟩ := r3
        simp only [] at c1 c2 ⊢
        have hw3 : ∀ (x : Option Err × World), x.2 = w3 →
            RBACPresent env h (x.2.cluster h.kube) := by
          intro x hx
          rw [hx]
          obtain ⟨⟨e1, he1⟩, ⟨e2, he2⟩, _⟩ := c2 h.kube
          refine ⟨?_, ?_, Or.inl ⟨hs1, c1⟩⟩
          · rw [he1]
            exact any_append_of_any _ _ _ sa2
          · rw [he2]
            exact any_append_of_any _ _ _ b1
        split <;> exact hw3 _ rfl
      · rw [if_neg hs1] at hok ⊢
        by_cases hs2 : h.ext.Spec.PermissionScope = "" ∨
            h.ext.Spec.PermissionScope = NamespaceScoped
        · rw [if_pos hs2]
          unfold createNamespacedRoleBinding
          simp only []
          have c1 := createRoleBinding_after env.faults hF h.kube
            { Name := h.ext.Name, Namespace := h.ext.Namespace,
              OwnerReferences :=
                [AsOwner (ReferenceToStack h.ext env.deps.StackGroupVersionKind)],
              RoleRef := { APIGroup := rbacGroupName, Kind := "ClusterRole", Name := name },
              Subjects := [{ Name := h.ext.Name, Namespace := h.ext.Namespace,
                             Kind := ServiceAccountKind }] } w2
          have c2 := createRoleBinding_extends env.faults h.kube
            { Name := h.ext.Name, Namespace := h.ext.Namespace,
              OwnerReferences :=
                [AsOwner (ReferenceToStack h.ext env.deps.StackGroupVersionKind)],
              RoleRef := { APIGroup := rbacGroupName, Kind := "ClusterRole", Name := name },
              Subjects := [{ Name := h.ext.Name, Namespace := h.ext.Namespace,
                             Kind := ServiceAccountKind }] } w2
          generalize createRoleBinding env.faults h.kube
            { Name := h.ext.Name, Namespace := h.ext.Namespace,
              OwnerReferences :=
                [AsOwner (ReferenceToStack h.ext env.deps.StackGroupVersionKind)],
              RoleRef := { APIGroup := rbacGroupName, Kind := "ClusterRole", Name := name },
              Subjects := [{ Name := h.ext.Name, Namespace := h.ext.Namespace,
                             Kind := ServiceAccountKind }] } w2 = r3 at c1 c2 ⊢
          obtain ⟨err3, w3⟩ := r3
          simp only [] at c1 c2 ⊢
          have hw3 : ∀ (x : Option Err × World), x.2 = w3 →
              RBACPresent env h (x.2.cluster h.kube) := by
            intro x hx
            rw [hx]
            obtain ⟨⟨e1, he1⟩, ⟨e2, he2⟩, _⟩ := c2 h.kube
            refine ⟨?_, ?_, Or.inr ⟨hs1, hs2, c1⟩⟩
            · rw [he1]
              exact any_append_of_any _ _ _ sa2
            · rw [he2]
              exact any_append_of_any _ _ _ b1
          split <;> exact hw3 _ rfl
        · rw [if_neg hs2] at hok
          cases hok

/-- With the objects present and no faults, the RBAC step succeeds and adds
nothing. -/
theorem processRBAC_present (env : Env) (h : stackHandler) (hF : ∀ l c, env.faults l c = none)
    (w : World)
    (hp : ¬ h.ext.Spec.PermissionRules.length = 0 → RBACPresent env h (w.cluster h.kube)) :
    ∃ w', processRBAC env h w = (none, w') ∧ Quiet w w' := by
  unfold processRBAC
  by_cases hrules : h.ext.Spec.PermissionRules.length = 0
  · rw [if_pos hrules]
    exact ⟨w, rfl, quiet_refl w⟩
  · rw [if_neg hrules]
    obtain ⟨p1, p2, p3⟩ := hp hrules
    simp only []
    rw [createServiceAccount_exists env.faults hF h.kube _ w p1]
    simp only [IsAlreadyExists, ne_eq, reduceCtorEq, not_false_eq_true, Bool.not_true,
      Bool.false_eq_true, and_false, if_false]
    unfold createDeploymentClusterRole
    simp only []
    rw [createClusterRole_exists env.faults hF h.kube _ _ (by rw [record_cluster]; exact p2)]
    simp only [IsAlreadyExists, ne_eq, reduceCtorEq, not_false_eq_true, Bool.not_true,
      Bool.false_eq_true, and_false, if_false]
    rcases p3 with ⟨s, p⟩ | ⟨s1, s2, p⟩
    · rw [if_pos s]
      unfold createClusterRoleBinding
      simp only []
      rw [createClusterRoleBindingObject_exists env.faults hF h.kube _ _
        (by rw [record_cluster, record_cluster]; exact p)]
      simp only [IsAlreadyExists, ne_eq, reduceCtorEq, not_false_eq_true, Bool.not_true,
        Bool.false_eq_true, and_false, if_false]
      refine ⟨_, rfl, ?_⟩
      exact quiet_trans (quiet_trans
        (quiet_record w _ (idleCall_mk _ _ _ _ _ _ (by decide)))
        (quiet_record _ _ (idleCall_mk _ _ _ _ _ _ (by decide))))
        (quiet_record _ _ (idleCall_mk _ _ _ _ _ _ (by decide)))
    · rw [if_neg s1, if_pos s2]
      unfold createNamespacedRoleBinding
      simp only []
      rw [createRoleBinding_exists env.faults hF h.kube _ _
        (by rw [record_cluster, record_cluster]; exact p)]
      simp only [IsAlreadyExists, ne_eq, reduceCtorEq, not_false_eq_true, Bool.not_true,
        Bool.false_eq_true, and_false, if_false]
      refine ⟨_, rfl, ?_⟩
      exact quiet_trans (quiet_trans
        (quiet_record w _ (idleCall_mk _ _ _ _ _ _ (by decide)))
        (quiet_record _ _ (idleCall_mk _ _ _ _ _ _ (by decide))))
        (quiet_record _ _ (idleCall_mk _ _ _ _ _ _ (by decide)))

/-! ## The schema step, run again -/

theorem crdsFromStack_nofault (env : Env) (h : stackHandler) (hF : ∀ l c, env.faults l c = none)
    (w : World) :
    ∃ w0, crdsFromStack env h w =
        (Except.ok (crdsFromStack.collect (w.cluster h.kube).CRDs h.ext.Spec.CRDs), w0) ∧
      Quiet w w0 := by
  unfold crdsFromStack
  by_cases h0 : h.ext.Spec.CRDs.length = 0
  · rw [if_pos h0, List.eq_nil_of_length_eq_zero h0]
    exact ⟨w, rfl, quiet_refl w⟩
  · rw [if_neg h0, listCRDs_of_none env.faults h.kube w (hF _ _)]
    exact ⟨_, rfl, quiet_record w _ (idleCall_mk _ _ _ _ _ _ (by decide))⟩

theorem createPersonaClusterRoles_after (env : Env) (h : stackHandler)
    (hF : ∀ l c, env.faults l c = none) (crds : List CustomResourceDefinition)
    (personas : List String) (w : World) :
    ∀ p ∈ personas,
      (((createPersonaClusterRoles env h crds personas w).2.cluster h.kube).ClusterRoles.any
        fun x => decide (x.Name = env.deps.PersonaRoleName h.ext p)) = true := by
  induction personas generalizing w with
  | nil =>
    intro p hp
    cases hp
  | cons q rest ih =>
    intro p hp
    unfold createPersonaClusterRoles
    have h1 := createClusterRole_after env.faults hF h.kube (personaClusterRole env h q crds) w
    have h2 := createClusterRole_answer env.faults hF h.kube (personaClusterRole env h q crds) w
    generalize createClusterRole env.faults h.kube (personaClusterRole env h q crds) w = r
      at h1 h2 ⊢
    obtain ⟨err, w1⟩ := r
    simp only [] at h1 h2 ⊢
    rw [if_neg (absorbed_of_create_answer err h2)]
    rcases List.mem_cons.1 hp with rfl | hp
    · obtain ⟨_, ⟨e, he⟩, _⟩ := createPersonaClusterRoles_extends env h crds rest w1 h.kube
      rw [he]
      exact any_append_of_any _ _ _ h1
    · exact ih w1 p hp

theorem createPersonaClusterRoles_present (env : Env) (h : stackHandler)
    (hF : ∀ l c, env.faults l c = none) (crds : List CustomResourceDefinition)
    (personas : List String) (w : World)
    (hp : ∀ p ∈ personas,
      ((w.cluster h.kube).ClusterRoles.any
        fun x => decide (x.Name = env.deps.PersonaRoleName h.ext p)) = true) :
    ∃ w', createPersonaClusterRoles env h crds personas w = (none, w') ∧ Quiet w w' := by
  induction personas generalizing w with
  | nil => exact ⟨w, rfl, quiet_refl w⟩
  | cons q rest ih =>
    unfold createPersonaClusterRoles
    rw [createClusterRole_exists env.faults hF h.kube (personaClusterRole env h q crds) w
      (hp q (List.mem_cons_self _ _))]
    simp only [IsAlreadyExists, ne_eq, reduceCtorEq, not_false_eq_true, Bool.not_true,
      Bool.false_eq_true, and_false, if_false]
    obtain ⟨w', hw', hq⟩ := ih
      (w.record ⟨h.kube, Verb.create, Kind.ClusterRole, "",
        (personaClusterRole env h q crds).Name, []⟩)
      (fun p hp' => by rw [record_cluster]; exact hp p (List.mem_cons_of_mem _ hp'))
    exact ⟨w', hw', quiet_trans (quiet_record w _ (idleCall_mk _ _ _ _ _ _ (by decide))) hq⟩

theorem createPersonaClusterRoles_crds (env : Env) (h : stackHandler)
    (crds : List CustomResourceDefinition) (personas : List String) (w : World)
    (id : ClusterId) :
    ((createPersonaClusterRoles env h crds personas w).2.cluster id).CRDs =
      (w.cluster id).CRDs := by
  induction personas generalizing w with
  | nil => rfl
  | cons q rest ih =>
    unfold createPersonaClusterRoles
    have h1 := createClusterRole_frame (fun cl => cl.CRDs) (fun _ _ => rfl) env.faults h.kube
      (personaClusterRole env h q crds) w id
    generalize createClusterRole env.faults h.kube (personaClusterRole env h q crds) w = r
      at h1 ⊢
    obtain ⟨err, w1⟩ := r
    simp only [] at h1 ⊢
    split
    · exact h1
    · exact (ih w1).trans h1

/-- A run of the four schema handlers of `create` that returns no error went
through each of them without error. -/
theorem run_create_handlers_inv (env : Env) (h : stackHandler)
    (crds : List CustomResourceDefinition) (w0 w3 : World)
    (hok : processCRDs.run
      [createListFulfilledCRDHandler h, createNamespaceLabelsCRDHandler env h,
       createMultipleParentLabelsCRDHandler env h, createPersonaClusterRolesCRDHandler env h]
      crds w0 = (none, w3)) :
    crdListFulfilled h.ext.Spec.CRDs crds = none ∧
    ∃ crdsA wA crdsB wB,
      labelCRDs env h.kube (env.deps.LabelNamespaceFmt h.ext.Namespace) "true" crds w0 =
        (none, crdsA, wA) ∧
      labelCRDs env h.kube (env.deps.MultiParentLabel h.ext) "true" crdsA wA =
        (none, crdsB, wB) ∧
      createPersonaClusterRoles env h crdsB env.personaOrder wB = (none, w3) := by
  simp only [processCRDs.run, createListFulfilledCRDHandler] at hok
  cases hful : crdListFulfilled h.ext.Spec.CRDs crds with
  | some e =>
    rw [hful] at hok
    cases hok
  | none =>
    rw [hful] at hok
    simp only [] at hok
    refine ⟨rfl, ?_⟩
    have e1 : createNamespaceLabelsCRDHandler env h crds w0 =
        labelCRDs env h.kube (env.deps.LabelNamespaceFmt h.ext.Namespace) "true" crds w0 := rfl
    rw [e1] at hok
    generalize labelCRDs env h.kube (env.deps.LabelNamespaceFmt h.ext.Namespace) "true" crds w0
      = rA at hok ⊢
    obtain ⟨errA, crdsA, wA⟩ := rA
    cases errA with
    | some e => cases hok
    | none =>
      simp only [] at hok
      have e2 : createMultipleParentLabelsCRDHandler env h crdsA wA =
          labelCRDs env h.kube (env.deps.MultiParentLabel h.ext) "true" crdsA wA := rfl
      rw [e2] at hok
      generalize hB : labelCRDs env h.kube (env.deps.MultiParentLabel h.ext) "true" crdsA wA
        = rB at hok
      obtain ⟨errB, crdsB, wB⟩ := rB
      cases errB with
      | some e => cases hok
      | none =>
        simp only [createPersonaClusterRolesCRDHandler] at hok
        generalize hP : createPersonaClusterRoles env h crdsB env.personaOrder wB = rP at hok
        obtain ⟨errP, wP⟩ := rP
        cases errP with
        | some e => cases hok
        | none =>
          simp only [Prod.mk.injEq, true_and] at hok
          subst hok
          exact ⟨crdsA, wA, crdsB, wB, rfl, hB, hP⟩

theorem needsLabel_labelled_other (env : Env) (l1 l2 : String) (z : CustomResourceDefinition)
    (hz : needsLabel env l1 "true" z = false) :
    needsLabel env l1 "true" (labelled env l2 "true" z) = false := by
  unfold labelled
  cases h2 : needsLabel env l2 "true" z with
  | false => simpa using hz
  | true =>
    simp only [if_true]
    obtain ⟨hman, _⟩ := (needsLabel_iff env l2 "true" z).1 h2
    have hget : mapGet z.Labels l1 = "true" := by
      by_contra hne
      have := (needsLabel_iff env l1 "true" z).2 ⟨hman, hne⟩
      rw [hz] at this
      cases this
    cases hn : needsLabel env l1 "true" (withLabel l2 "true" z) with
    | false => rfl
    | true =>
      exfalso
      obtain ⟨_, hne⟩ := (needsLabel_iff env l1 "true" _).1 hn
      apply hne
      show mapGet (mapSet z.Labels l2 "true") l1 = "true"
      rw [mapGet_mapSet]
      split
      · rfl
      · exact hget

theorem labelled_fields (env : Env) (label value : String) (x : CustomResourceDefinition) :
    (labelled env label value x).Name = x.Name ∧
    (labelled env label value x).Group = x.Group ∧
    (labelled env label value x).Kind = x.Kind ∧
    (labelled env label value x).Versions = x.Versions := by
  unfold labelled
  split <;> exact ⟨rfl, rfl, rfl, rfl⟩

theorem labelled_keys (env : Env) (label value : String) (x : CustomResourceDefinition)
    (hx : (x.Labels.map Prod.fst).Nodup) :
    ((labelled env label value x).Labels.map Prod.fst).Nodup := by
  unfold labelled
  split
  · exact nodup_keys_mapSet x.Labels label value hx
  · exact hx

/-- The registry after a successful run of a label handler on objects of a
registry with unique names: each listed object is as the handler makes it,
every other one as before. -/
theorem labelCRDs_registry (env : Env) (kube : ClusterId) (label : String)
    (R cs : List CustomResourceDefinition)
    (hnames : (R.map fun x => x.Name).Nodup)
    (hkeys : ∀ x ∈ R, (x.Labels.map Prod.fst).Nodup) (hsub : ∀ c ∈ cs, c ∈ R)
    (w wA : World) (csA : List CustomResourceDefinition) (hR : (w.cluster kube).CRDs = R)
    (hA : labelCRDs env kube label "true" cs w = (none, csA, wA)) :
    csA = cs.map (labelled env label "true") ∧
    (wA.cluster kube).CRDs =
      R.map (fun x => if x ∈ cs then labelled env label "true" x else x) := by
  have hok : (labelCRDs env kube label "true" cs w).1 = none := by rw [hA]
  obtain ⟨s1, _, s3, _⟩ := labelCRDs_success env kube label "true" cs w hok
    (fun c hc => hkeys c (hsub c hc))
  rw [hA] at s1 s3
  simp only [] at s1 s3
  refine ⟨s1, ?_⟩
  rw [s3, hR]
  apply List.map_congr_left
  intro x hx
  have hiff := mem_names_needing env label "true" R cs hnames hsub x hx
  by_cases hxc : x ∈ cs
  · rw [if_pos hxc]
    unfold labelled
    cases hn : needsLabel env label "true" x with
    | true => rw [if_pos (hiff.2 ⟨hxc, hn⟩)]; simp
    | false =>
      rw [if_neg (fun hm => by have := (hiff.1 hm).2; rw [hn] at this; cases this)]
      simp
  · rw [if_neg hxc, if_neg (fun hm => hxc (hiff.1 hm).1)]

/-- After both label handlers ran successfully on the matched objects of a
registry with unique names and well-formed label maps, the registry holds the
same objects with labels changed at most, and no matched object needs either
label. -/
theorem labels_settled (env : Env) (kube : ClusterId) (l1 l2 : String)
    (R cs : List CustomResourceDefinition)
    (hnames : (R.map fun x => x.Name).Nodup)
    (hkeys : ∀ x ∈ R, (x.Labels.map Prod.fst).Nodup) (hsub : ∀ c ∈ cs, c ∈ R)
    (w wA wB : World) (csA csB : List CustomResourceDefinition)
    (hR : (w.cluster kube).CRDs = R)
    (hA : labelCRDs env kube l1 "true" cs w = (none, csA, wA))
    (hB : labelCRDs env kube l2 "true" csA wA = (none, csB, wB)) :
    ∃ g : CustomResourceDefinition → CustomResourceDefinition,
      (wB.cluster kube).CRDs = R.map g ∧
      ∀ x ∈ R, (g x).Group = x.Group ∧ (g x).Kind = x.Kind ∧ (g x).Versions = x.Versions ∧
        (x ∈ cs → needsLabel env l1 "true" (g x) = false ∧
          needsLabel env l2 "true" (g x) = false) := by
  obtain ⟨a1, a2⟩ := labelCRDs_registry env kube l1 R cs hnames hkeys hsub w wA csA hR hA
  -- the registry after the first handler
  have hnamesA : ((R.map fun x => if x ∈ cs then labelled env l1 "true" x else x).map
      fun x => x.Name).Nodup := by
    rw [List.map_map]
    have : ((fun x : CustomResourceDefinition => x.Name) ∘
        fun x => if x ∈ cs then labelled env l1 "true" x else x) = fun x => x.Name := by
      funext x
      simp only [Function.comp]
      split
      · exact (labelled_fields env l1 "true" x).1
      · rfl
    rw [this]
    exact hnames
  have hkeysA : ∀ y ∈ R.map (fun x => if x ∈ cs then labelled env l1 "true" x else x),
      (y.Labels.map Prod.fst).Nodup := by
    intro y hy
    obtain ⟨x, hx, rfl⟩ := List.mem_map.1 hy
    split
    · exact labelled_keys env l1 "true" x (hkeys x hx)
    · exact hkeys x hx
  have hsubA : ∀ c ∈ csA, c ∈ R.map (fun x => if x ∈ cs then labelled env l1 "true" x else x) := by
    intro c hc
    rw [a1] at hc
    obtain ⟨x, hx, rfl⟩ := List.mem_map.1 hc
    exact List.mem_map.2 ⟨x, hsub x hx, by rw [if_pos hx]⟩
  obtain ⟨_, b2⟩ := labelCRDs_registry env kube l2 _ csA hnamesA hkeysA hsubA wA wB csB a2 hB
  refine ⟨fun x =>
    (fun y => if y ∈ csA then labelled env l2 "true" y else y)
      (if x ∈ cs then labelled env l1 "true" x else x), ?_, ?_⟩
  · rw [b2, List.map_map]
    rfl
  · intro x hx
    refine ⟨?_, ?_, ?_, ?_⟩
    · simp only []
      split <;> split <;>
        simp [(labelled_fields env l1 "true" x).2.1,
          (labelled_fields env l2 "true" (labelled env l1 "true" x)).2.1,
          (labelled_fields env l2 "true" x).2.1]
    · simp only []
      split <;> split <;>
        simp [(labelled_fields env l1 "true" x).2.2.1,
          (labelled_fields env l2 "true" (labelled env l1 "true" x)).2.2.1,
          (labelled_fields env l2 "true" x).2.2.1]
    · simp only []
      split <;> split <;>
        simp [(labelled_fields env l1 "true" x).2.2.2,
          (labelled_fields env l2 "true" (labelled env l1 "true" x)).2.2.2,
          (labelled_fields env l2 "true" x).2.2.2]
    · intro hxc
      have hzA : labelled env l1 "true" x ∈ csA := by
        rw [a1]
        exact List.mem_map.2 ⟨x, hxc, rfl⟩
      simp only [hxc, if_true, hzA]
      exact ⟨needsLabel_labelled_other env l1 l2 _ (needsLabel_labelled env l1 "true" x),
        needsLabel_labelled env l2 "true" _⟩

theorem descriptorMatches_of_fields (d : TypeMeta) (x y : CustomResourceDefinition)
    (hg : y.Group = x.Group) (hk : y.Kind = x.Kind) (hv : y.Versions = x.Versions) :
    descriptorMatches d y = descriptorMatches d x := by
  unfold descriptorMatches CustomResourceDefinition.versionNames
  rw [hg, hk, hv]

theorem any_map_of_forall {α : Type} (l : List α) (g : α → α) (p : α → Bool)
    (hp : ∀ x ∈ l, p (g x) = p x) : (l.map g).any p = l.any p := by
  induction l with
  | nil => rfl
  | cons a rest ih =>
    rw [List.map_cons, List.any_cons, List.any_cons, hp a (List.mem_cons_self _ _),
      ih (fun x hx => hp x (List.mem_cons_of_mem _ hx))]

/-- The schema step of `create`, run again after a successful run: on a
world that extends the one the first run left and has its registry, it
succeeds, patches no schema object and adds nothing. -/
theorem processCRDs_rerun (env : Env) (h : stackHandler) (hF : ∀ l c, env.faults l c = none)
    (w w3 w' : World)
    (hnames : ((w.cluster h.kube).CRDs.map fun x => x.Name).Nodup)
    (hkeys : ∀ x ∈ (w.cluster h.kube).CRDs, (x.Labels.map Prod.fst).Nodup)
    (hok : processCRDs env h
      [createListFulfilledCRDHandler h, createNamespaceLabelsCRDHandler env h,
       createMultipleParentLabelsCRDHandler env h, createPersonaClusterRolesCRDHandler env h]
      w = (none, w3))
    (hext : WorldExtends w3 w')
    (hcrds : (w'.cluster h.kube).CRDs = (w3.cluster h.kube).CRDs) :
    ∃ w'', processCRDs env h
      [createListFulfilledCRDHandler h, createNamespaceLabelsCRDHandler env h,
       createMultipleParentLabelsCRDHandler env h, createPersonaClusterRolesCRDHandler env h]
      w' = (none, w'') ∧ Quiet w' w'' := by
  -- the first run
  obtain ⟨w0, hcf, hq0⟩ := crdsFromStack_nofault env h hF w
  unfold processCRDs at hok
  rw [hcf] at hok
  simp only [] at hok
  obtain ⟨hful, crdsA, wA, crdsB, wB, hA, hB, hP⟩ := run_create_handlers_inv env h _ w0 w3 hok
  obtain ⟨g, hg, hprops⟩ := labels_settled env h.kube _ _ (w.cluster h.kube).CRDs
    (crdsFromStack.collect (w.cluster h.kube).CRDs h.ext.Spec.CRDs) hnames hkeys
    (fun c hc => ((mem_collect _ _ c).1 hc).1) w0 wA wB crdsA crdsB (by rw [hq0.1]) hA hB
  have hreg : (w'.cluster h.kube).CRDs = (w.cluster h.kube).CRDs.map g := by
    have hw3 := createPersonaClusterRoles_crds env h crdsB env.personaOrder wB h.kube
    rw [hP] at hw3
    rw [hcrds, hw3, hg]
  have hpers : ∀ p ∈ env.personaOrder,
      ((w'.cluster h.kube).ClusterRoles.any
        fun x => decide (x.Name = env.deps.PersonaRoleName h.ext p)) = true := by
    intro p hp
    have := createPersonaClusterRoles_after env h hF crdsB env.personaOrder wB p hp
    rw [hP] at this
    obtain ⟨_, ⟨e, he⟩, _⟩ := hext h.kube
    rw [he]
    exact any_append_of_any _ _ _ this
  have hmatch : ∀ d, ∀ x ∈ (w.cluster h.kube).CRDs,
      descriptorMatches d (g x) = descriptorMatches d x := by
    intro d x hx
    obtain ⟨f1, f2, f3, _⟩ := hprops x hx
    exact descriptorMatches_of_fields d x (g x) f1 f2 f3
  -- the second run
  obtain ⟨w0', hcf', hq0'⟩ := crdsFromStack_nofault env h hF w'
  unfold processCRDs
  rw [hcf', hreg]
  simp only []
  have hful' : crdListFulfilled h.ext.Spec.CRDs
      (crdsFromStack.collect ((w.cluster h.kube).CRDs.map g) h.ext.Spec.CRDs) = none := by
    rw [crdListFulfilled_collect,
      crdListFulfilled_congr h.ext.Spec.CRDs (w.cluster h.kube).CRDs _
        (fun d _ => any_map_of_forall _ g _ (hmatch d)),
      ← crdListFulfilled_collect]
    exact hful
  have hdone : ∀ c ∈ crdsFromStack.collect ((w.cluster h.kube).CRDs.map g) h.ext.Spec.CRDs,
      needsLabel env (env.deps.LabelNamespaceFmt h.ext.Namespace) "true" c = false ∧
      needsLabel env (env.deps.MultiParentLabel h.ext) "true" c = false := by
    intro c hc
    obtain ⟨hmem, d, hd, hm⟩ := (mem_collect _ _ c).1 hc
    obtain ⟨x, hx, rfl⟩ := List.mem_map.1 hmem
    rw [hmatch d x hx] at hm
    exact (hprops x hx).2.2.2 ((mem_collect _ _ x).2 ⟨hx, d, hd, hm⟩)
  simp only [processCRDs.run, createListFulfilledCRDHandler, hful']
  have e1 : ∀ crds w, createNamespaceLabelsCRDHandler env h crds w =
      labelCRDs env h.kube (env.deps.LabelNamespaceFmt h.ext.Namespace) "true" crds w :=
    fun _ _ => rfl
  have e2 : ∀ crds w, createMultipleParentLabelsCRDHandler env h crds w =
      labelCRDs env h.kube (env.deps.MultiParentLabel h.ext) "true" crds w := fun _ _ => rfl
  rw [e1, labelCRDs_skip env h.kube _ "true" _ w0' (fun c hc => (hdone c hc).1)]
  simp only []
  rw [e2, labelCRDs_skip env h.kube _ "true" _ w0' (fun c hc => (hdone c hc).2)]
  simp only [createPersonaClusterRolesCRDHandler]
  obtain ⟨w'', hw'', hq''⟩ := createPersonaClusterRoles_present env h hF
    (crdsFromStack.collect ((w.cluster h.kube).CRDs.map g) h.ext.Spec.CRDs) env.personaOrder w0'
    (fun p hp => by rw [hq0'.1]; exact hpers p hp)
  rw [hw'']
  exact ⟨w'', rfl, quiet_trans hq0' hq''⟩

/-! ## The workload step, run again -/

theorem getDeployment_found (F : Faults) (hF : ∀ l c, F l c = none) (id : ClusterId)
    (key : NamespacedName) (w : World) (live : Deployment)
    (hfind : (w.cluster id).Deployments.find?
      (fun o => o.Namespace = key.Namespace ∧ o.Name = key.Name) = some live) :
    getDeployment F id key w =
      (Except.ok live, w.record ⟨id, Verb.get, Kind.Deployment, key.Namespace, key.Name, []⟩) := by
  unfold getDeployment issueRead
  rw [hF]
  simp only [Call.client, hfind]

theorem getServiceAccount_found (F : Faults) (hF : ∀ l c, F l c = none) (id : ClusterId)
    (key : NamespacedName) (w : World) (live : ServiceAccount)
    (hfind : (w.cluster id).ServiceAccounts.find?
      (fun o => o.Namespace = key.Namespace ∧ o.Name = key.Name) = some live) :
    getServiceAccount F id key w =
      (Except.ok live,
        w.record ⟨id, Verb.get, Kind.ServiceAccount, key.Namespace, key.Name, []⟩) := by
  unfold getServiceAccount issueRead
  rw [hF]
  simp only [Call.client, hfind]

theorem getSecret_found (F : Faults) (hF : ∀ l c, F l c = none) (id : ClusterId)
    (key : NamespacedName) (w : World) (live : Secret)
    (hfind : (w.cluster id).Secrets.find?
      (fun o => o.Namespace = key.Namespace ∧ o.Name = key.Name) = some live) :
    getSecret F id key w =
      (Except.ok live, w.record ⟨id, Verb.get, Kind.Secret, key.Namespace, key.Name, []⟩) := by
  unfold getSecret issueRead
  rw [hF]
  simp only [Call.client, hfind]

theorem getServiceAccount_ok (F : Faults) (id : ClusterId) (key : NamespacedName) (w w1 : World)
    (live : ServiceAccount) (hg : getServiceAccount F id key w = (Except.ok live, w1)) :
    (w.cluster id).ServiceAccounts.find?
        (fun o => o.Namespace = key.Namespace ∧ o.Name = key.Name) = some live ∧
      w1 = w.record ⟨id, Verb.get, Kind.ServiceAccount, key.Namespace, key.Name, []⟩ := by
  have hw := getServiceAccount_world F id key w
  rw [hg] at hw
  unfold getServiceAccount issueRead at hg
  cases hF : F w.log ⟨id, Verb.get, Kind.ServiceAccount, key.Namespace, key.Name, []⟩ with
  | some e =>
    rw [hF] at hg
    cases hg
  | none =>
    rw [hF] at hg
    simp only [] at hg
    cases hfind : (w.cluster id).ServiceAccounts.find?
        (fun o => o.Namespace = key.Namespace ∧ o.Name = key.Name) with
    | none =>
      rw [hfind] at hg
      cases hg
    | some o =>
      rw [hfind] at hg
      simp only [Prod.mk.injEq, Except.ok.injEq] at hg
      obtain ⟨rfl, _⟩ := hg
      exact ⟨rfl, hw⟩

theorem getSecret_ok (F : Faults) (id : ClusterId) (key : NamespacedName) (w w1 : World)
    (live : Secret) (hg : getSecret F id key w = (Except.ok live, w1)) :
    (w.cluster id).Secrets.find?
        (fun o => o.Namespace = key.Namespace ∧ o.Name = key.Name) = some live ∧
      w1 = w.record ⟨id, Verb.get, Kind.Secret, key.Namespace, key.Name, []⟩ := by
  have hw := getSecret_world F id key w
  rw [hg] at hw
  unfold getSecret issueRead at hg
  cases hF : F w.log ⟨id, Verb.get, Kind.Secret, key.Namespace, key.Name, []⟩ with
  | some e =>
    rw [hF] at hg
    cases hg
  | none =>
    rw [hF] at hg
    simp only [] at hg
    cases hfind : (w.cluster id).Secrets.find?
        (fun o => o.Namespace = key.Namespace ∧ o.Name = key.Name) with
    | none =>
      rw [hfind] at hg
      cases hg
    | some o =>
      rw [hfind] at hg
      simp only [Prod.mk.injEq, Except.ok.injEq] at hg
      obtain ⟨rfl, _⟩ := hg
      exact ⟨rfl, hw⟩

theorem syncSATokenSecret_extends (env : Env) (h : stackHandler) (owner : OwnerReference)
    (fromSARef toSecretRef : ObjectReference) (w : World) :
    WorldExtends w (syncSATokenSecret env h owner fromSARef toSecretRef w).2 := by
  unfold syncSATokenSecret
  have h1 := getServiceAccount_world env.faults h.kube ⟨fromSARef.Namespace, fromSARef.Name⟩ w
  generalize getServiceAccount env.faults h.kube ⟨fromSARef.Namespace, fromSARef.Name⟩ w = r1
    at h1 ⊢
  obtain ⟨res1, w1⟩ := r1
  simp only [] at h1
  subst h1
  cases res1 with
  | error e =>
    simp only []
    split <;> exact worldExtends_record w _
  | ok sa =>
    simp only []
    cases hsec : sa.Secrets with
    | nil => exact worldExtends_record w _
    | cons ref rest =>
      simp only []
      have h2 := getSecret_world env.faults h.kube ⟨fromSARef.Namespace, ref.Name⟩
        (w.record ⟨h.kube, Verb.get, Kind.ServiceAccount, fromSARef.Namespace, fromSARef.Name, []⟩)
      generalize getSecret env.faults h.kube ⟨fromSARef.Namespace, ref.Name⟩
        (w.record ⟨h.kube, Verb.get, Kind.ServiceAccount, fromSARef.Namespace, fromSARef.Name, []⟩)
        = r2 at h2 ⊢
      obtain ⟨res2, w2⟩ := r2
      simp only [] at h2
      subst h2
      have hrec : WorldExtends w
          ((w.record ⟨h.kube, Verb.get, Kind.ServiceAccount, fromSARef.Namespace,
            fromSARef.Name, []⟩).record
            ⟨h.kube, Verb.get, Kind.Secret, fromSARef.Namespace, ref.Name, []⟩) :=
        worldExtends_trans (worldExtends_record w _) (worldExtends_record _ _)
      cases res2 with
      | error e => exact hrec
      | ok sec =>
        simp only []
        have h3 := createSecret_extends env.faults h.hostKube
          { Name := toSecretRef.Name, Namespace := toSecretRef.Namespace,
            OwnerReferences := [owner], Data := sec.Data }
          ((w.record ⟨h.kube, Verb.get, Kind.ServiceAccount, fromSARef.Namespace,
            fromSARef.Name, []⟩).record
            ⟨h.kube, Verb.get, Kind.Secret, fromSARef.Namespace, ref.Name, []⟩)
        generalize createSecret env.faults h.hostKube
          { Name := toSecretRef.Name, Namespace := toSecretRef.Namespace,
            OwnerReferences := [owner], Data := sec.Data }
          ((w.record ⟨h.kube, Verb.get, Kind.ServiceAccount, fromSARef.Namespace,
            fromSARef.Name, []⟩).record
            ⟨h.kube, Verb.get, Kind.Secret, fromSARef.Namespace, ref.Name, []⟩) = r3 at h3 ⊢
        obtain ⟨err3, w3⟩ := r3
        simp only [] at h3 ⊢
        split <;> exact worldExtends_trans hrec h3

/-- The secret sync, run again after a successful run on a world that extends
the one it left: it succeeds and adds nothing. -/
theorem syncSATokenSecret_rerun (env : Env) (h : stackHandler)
    (hF : ∀ l c, env.faults l c = none) (owner : OwnerReference)
    (fromSARef toSecretRef : ObjectReference) (w w3 w' : World)
    (hok : syncSATokenSecret env h owner fromSARef toSecretRef w = (none, w3))
    (hext : WorldExtends w3 w') :
    ∃ w'', syncSATokenSecret env h owner fromSARef toSecretRef w' = (none, w'') ∧
      Quiet w' w'' := by
  have hext0 := syncSATokenSecret_extends env h owner fromSARef toSecretRef w
  rw [hok] at hext0
  simp only [] at hext0
  unfold syncSATokenSecret at hok
  have h1 := getServiceAccount_ok env.faults h.kube ⟨fromSARef.Namespace, fromSARef.Name⟩ w
  generalize getServiceAccount env.faults h.kube ⟨fromSARef.Namespace, fromSARef.Name⟩ w = r1
    at h1 hok
  obtain ⟨res1, w1⟩ := r1
  cases res1 with
  | error e =>
    simp only [] at hok
    split at hok <;> cases hok
  | ok sa =>
    obtain ⟨hsa, rfl⟩ := h1 w1 sa rfl
    simp only [] at hok
    cases hsec : sa.Secrets with
    | nil =>
      rw [hsec] at hok
      cases hok
    | cons ref rest =>
      rw [hsec] at hok
      simp only [] at hok
      have h2 := getSecret_ok env.faults h.kube ⟨fromSARef.Namespace, ref.Name⟩
        (w.record ⟨h.kube, Verb.get, Kind.ServiceAccount, fromSARef.Namespace, fromSARef.Name, []⟩)
      generalize getSecret env.faults h.kube ⟨fromSARef.Namespace, ref.Name⟩
        (w.record ⟨h.kube, Verb.get, Kind.ServiceAccount, fromSARef.Namespace, fromSARef.Name, []⟩)
        = r2 at h2 hok
      obtain ⟨res2, w2⟩ := r2
      cases res2 with
      | error e => cases hok
      | ok sec =>
        obtain ⟨hsec2, rfl⟩ := h2 w2 sec rfl
        rw [record_cluster] at hsec2
        simp only [] at hok
        have h3 := createSecret_after env.faults hF h.hostKube
          { Name := toSecretRef.Name, Namespace := toSecretRef.Namespace,
            OwnerReferences := [owner], Data := sec.Data }
          ((w.record ⟨h.kube, Verb.get, Kind.ServiceAccount, fromSARef.Namespace,
            fromSARef.Name, []⟩).record
            ⟨h.kube, Verb.get, Kind.Secret, fromSARef.Namespace, ref.Name, []⟩)
        generalize createSecret env.faults h.hostKube
          { Name := toSecretRef.Name, Namespace := toSecretRef.Namespace,
            OwnerReferences := [owner], Data := sec.Data }
          ((w.record ⟨h.kube, Verb.get, Kind.ServiceAccount, fromSARef.Namespace,
            fromSARef.Name, []⟩).record
            ⟨h.kube, Verb.get, Kind.Secret, fromSARef.Namespace, ref.Name, []⟩) = r3 at h3 hok
        obtain ⟨err3, w3'⟩ := r3
        simp only [] at h3 hok
        have hw3 : w3' = w3 := by
          split at hok
          · rename_i hc
            obtain ⟨e, he⟩ := Option.ne_none_iff_exists'.1 hc.1
            rw [he] at hok
            cases hok
          · exact (Prod.mk.injEq _ _ _ _ ▸ hok).2
        subst hw3
        -- what the second run finds
        have ext03 := worldExtends_trans hext0 hext
        have fsa : (w'.cluster h.kube).ServiceAccounts.find?
            (fun o => o.Namespace = fromSARef.Namespace ∧ o.Name = fromSARef.Name) = some sa := by
          obtain ⟨⟨e, he⟩, _⟩ := ext03 h.kube
          rw [he]
          exact find_append_of_find _ _ _ _ hsa
        have fsec : (w'.cluster h.kube).Secrets.find?
            (fun o => o.Namespace = fromSARef.Namespace ∧ o.Name = ref.Name) = some sec := by
          obtain ⟨_, _, _, _, _, ⟨e, he⟩, _⟩ := ext03 h.kube
          rw [he]
          exact find_append_of_find _ _ _ _ hsec2
        have fhost : ((w'.cluster h.hostKube).Secrets.any
            fun x => decide (x.Namespace = toSecretRef.Namespace ∧ x.Name = toSecretRef.Name))
            = true := by
          obtain ⟨_, _, _, _, _, ⟨e, he⟩, _⟩ := hext h.hostKube
          rw [he]
          exact any_append_of_any _ _ _ h3
        unfold syncSATokenSecret
        rw [getServiceAccount_found env.faults hF h.kube _ w' sa fsa]
        simp only [hsec]
        rw [getSecret_found env.faults hF h.kube ⟨fromSARef.Namespace, ref.Name⟩ _ sec
          (by rw [record_cluster]; exact fsec)]
        simp only []
        rw [createSecret_exists env.faults hF h.hostKube _ _
          (by rw [record_cluster, record_cluster]; exact fhost)]
        simp only [IsAlreadyExists, ne_eq, reduceCtorEq, not_false_eq_true, Bool.not_true,
          Bool.false_eq_true, and_false, if_false]
        refine ⟨_, rfl, ?_⟩
        exact quiet_trans (quiet_trans
          (quiet_record w' _ (idleCall_mk _ _ _ _ _ _ (by decide)))
          (quiet_record _ _ (idleCall_mk _ _ _ _ _ _ (by decide))))
          (quiet_record _ _ (idleCall_mk _ _ _ _ _ _ (by decide)))

theorem getOrCreate_extends (env : Env) (h : stackHandler) (d : Deployment)
    (saRef saSecretRef : ObjectReference) (w : World) :
    WorldExtends w (processDeployment.getOrCreate env h d saRef saSecretRef w).2.2 := by
  have hfinish : ∀ (d1 : Deployment) (w2 : World),
      WorldExtends w2 ((match h.hostAwareConfig with
        | some _ =>
          match syncSATokenSecret env h (AsOwner (ReferenceToDeployment d1 deploymentGVK))
              saRef saSecretRef w2 with
          | (some err, w3) => (some (Err.Wrap err errFailedToSyncSASecret), h.ext, w3)
          | (none, w3) =>
            (none, { h.ext with Status := { h.ext.Status with
              ControllerRef := some (ReferenceToDeployment d1 deploymentGVK) } }, w3)
        | none =>
          ((none, { h.ext with Status := { h.ext.Status with
            ControllerRef := some (ReferenceToDeployment d1 deploymentGVK) } }, w2) :
              Option Err × Stack × World)).2.2) := by
    intro d1 w2
    cases h.hostAwareConfig with
    | none => exact worldExtends_refl w2
    | some cfg =>
      simp only []
      have hfr := syncSATokenSecret_extends env h
        (AsOwner (ReferenceToDeployment d1 deploymentGVK)) saRef saSecretRef w2
      generalize syncSATokenSecret env h (AsOwner (ReferenceToDeployment d1 deploymentGVK))
        saRef saSecretRef w2 = r at hfr ⊢
      obtain ⟨err, w3⟩ := r
      cases err <;> exact hfr
  unfold processDeployment.getOrCreate
  simp only []
  have hgw := getDeployment_world env.faults h.hostKube ⟨d.Namespace, d.Name⟩ w
  generalize getDeployment env.faults h.hostKube ⟨d.Namespace, d.Name⟩ w = r1 at hgw ⊢
  obtain ⟨res1, w1⟩ := r1
  simp only [] at hgw
  subst hgw
  cases res1 with
  | ok live => exact worldExtends_trans (worldExtends_record w _) (hfinish live _)
  | error e =>
    simp only []
    split
    · have hc := createDeployment_extends env.faults h.hostKube d
        (w.record ⟨h.hostKube, Verb.get, Kind.Deployment, d.Namespace, d.Name, []⟩)
      generalize createDeployment env.faults h.hostKube d
        (w.record ⟨h.hostKube, Verb.get, Kind.Deployment, d.Namespace, d.Name, []⟩) = r2
        at hc ⊢
      obtain ⟨err2, w2⟩ := r2
      cases err2 with
      | some e2 => exact worldExtends_trans (worldExtends_record w _) hc
      | none =>
        exact worldExtends_trans (worldExtends_record w _) (worldExtends_trans hc (hfinish d w2))
    · exact worldExtends_record w _

theorem processDeployment_extends (env : Env) (h : stackHandler) (w : World) :
    WorldExtends w (processDeployment env h w).2.2 := by
  unfold processDeployment
  cases h.ext.Spec.ControllerDeployment with
  | none => exact worldExtends_refl w
  | some cd =>
    simp only []
    cases hcfg : h.hostAwareConfig with
    | none =>
      simp only []
      exact getOrCreate_extends env h _ _ _ w
    | some cfg =>
      simp only []
      split
      · exact worldExtends_refl w
      · exact getOrCreate_extends env h _ _ _ w

/-- The get-or-create of the workload, run again after a successful run on a
world that extends the one it left: the Deployment is found by the get, the
same `ControllerRef` is set, and nothing is added. -/
theorem getOrCreate_rerun (env : Env) (h : stackHandler) (hF : ∀ l c, env.faults l c = none)
    (d : Deployment) (saRef saSecretRef : ObjectReference) (w w4 w' : World) (ext3 : Stack)
    (hok : processDeployment.getOrCreate env h d saRef saSecretRef w = (none, ext3, w4))
    (hext : WorldExtends w4 w') :
    ∃ w'', processDeployment.getOrCreate env h d saRef saSecretRef w' = (none, ext3, w'') ∧
      Quiet w' w'' := by
  -- rerunning the closing statements, from a Deployment found in `w2`
  have hfinish : ∀ (d1 : Deployment) (w2 : World),
      (match h.hostAwareConfig with
        | some _ =>
          match syncSATokenSecret env h (AsOwner (ReferenceToDeployment d1 deploymentGVK))
              saRef saSecretRef w2 with
          | (some err, w3) => (some (Err.Wrap err errFailedToSyncSASecret), h.ext, w3)
          | (none, w3) =>
            (none, { h.ext with Status := { h.ext.Status with
              ControllerRef := some (ReferenceToDeployment d1 deploymentGVK) } }, w3)
        | none =>
          ((none, { h.ext with Status := { h.ext.Status with
            ControllerRef := some (ReferenceToDeployment d1 deploymentGVK) } }, w2) :
              Option Err × Stack × World)) = (none, ext3, w4) →
      ∀ v : World, (∀ id, v.cluster id = w'.cluster id) →
      ∃ w'', (match h.hostAwareConfig with
        | some _ =>
          match syncSATokenSecret env h (AsOwner (ReferenceToDeployment d1 deploymentGVK))
              saRef saSecretRef v with
          | (some err, w3) => (some (Err.Wrap err errFailedToSyncSASecret), h.ext, w3)
          | (none, w3) =>
            (none, { h.ext with Status := { h.ext.Status with
              ControllerRef := some (ReferenceToDeployment d1 deploymentGVK) } }, w3)
        | none =>
          ((none, { h.ext with Status := { h.ext.Status with
            ControllerRef := some (ReferenceToDeployment d1 deploymentGVK) } }, v) :
              Option Err × Stack × World)) = (none, ext3, w'') ∧ Quiet v w'' := by
    intro d1 w2 hfin v hv
    cases hcfg : h.hostAwareConfig with
    | none =>
      rw [hcfg] at hfin
      simp only [Prod.mk.injEq, true_and] at hfin ⊢
      exact ⟨v, ⟨hfin.1, rfl⟩, quiet_refl v⟩
    | some cfg =>
      rw [hcfg] at hfin
      simp only [] at hfin ⊢
      generalize hsync : syncSATokenSecret env h
        (AsOwner (ReferenceToDeployment d1 deploymentGVK)) saRef saSecretRef w2 = r at hfin
      obtain ⟨err, w3⟩ := r
      cases err with
      | some e => simp at hfin
      | none =>
        simp only [Prod.mk.injEq, true_and] at hfin
        obtain ⟨hext3, rfl⟩ := hfin
        obtain ⟨w'', hw'', hq⟩ := syncSATokenSecret_rerun env h hF _ saRef saSecretRef w2 w3 v
          hsync (worldExtends_of_same hext hv)
        rw [hw'']
        exact ⟨w'', by rw [hext3], hq⟩
  -- the first run leaves a Deployment under the key, found first
  have hfirst : ∃ d1 w2,
      (w4.cluster h.hostKube).Deployments.find?
        (fun o => o.Namespace = d.Namespace ∧ o.Name = d.Name) = some d1 ∧
      (match h.hostAwareConfig with
        | some _ =>
          match syncSATokenSecret env h (AsOwner (ReferenceToDeployment d1 deploymentGVK))
              saRef saSecretRef w2 with
          | (some err, w3) => (some (Err.Wrap err errFailedToSyncSASecret), h.ext, w3)
          | (none, w3) =>
            (none, { h.ext with Status := { h.ext.Status with
              ControllerRef := some (ReferenceToDeployment d1 deploymentGVK) } }, w3)
        | none =>
          ((none, { h.ext with Status := { h.ext.Status with
            ControllerRef := some (ReferenceToDeployment d1 deploymentGVK) } }, w2) :
              Option Err × Stack × World)) = (none, ext3, w4) := by
    -- the closing statements only append Secrets
    have hkeep : ∀ (d1 : Deployment) (w2 : World) (found : Deployment),
        (w2.cluster h.hostKube).Deployments.find?
          (fun o => o.Namespace = d.Namespace ∧ o.Name = d.Name) = some found →
        (match h.hostAwareConfig with
          | some _ =>
            match syncSATokenSecret env h (AsOwner (ReferenceToDeployment d1 deploymentGVK))
                saRef saSecretRef w2 with
            | (some err, w3) => (some (Err.Wrap err errFailedToSyncSASecret), h.ext, w3)
            | (none, w3) =>
              (none, { h.ext with Status := { h.ext.Status with
                ControllerRef := some (ReferenceToDeployment d1 deploymentGVK) } }, w3)
          | none =>
            ((none, { h.ext with Status := { h.ext.Status with
              ControllerRef := some (ReferenceToDeployment d1 deploymentGVK) } }, w2) :
                Option Err × Stack × World)) = (none, ext3, w4) →
        (w4.cluster h.hostKube).Deployments.find?
          (fun o => o.Namespace = d.Namespace ∧ o.Name = d.Name) = some found := by
      intro d1 w2 found hfound hfin
      cases hcfg : h.hostAwareConfig with
      | none =>
        rw [hcfg] at hfin
        simp only [Prod.mk.injEq, true_and] at hfin
        rw [← hfin.2]
        exact hfound
      | some cfg =>
        rw [hcfg] at hfin
        simp only [] at hfin
        have hfr := syncSATokenSecret_frame (fun cl => cl.Deployments) (fun _ _ => rfl) env h
          (AsOwner (ReferenceToDeployment d1 deploymentGVK)) saRef saSecretRef w2 h.hostKube
        generalize syncSATokenSecret env h (AsOwner (ReferenceToDeployment d1 deploymentGVK))
          saRef saSecretRef w2 = r at hfin hfr
        obtain ⟨err, w3⟩ := r
        cases err with
        | some e => simp at hfin
        | none =>
          simp only [Prod.mk.injEq, true_and] at hfin hfr
          rw [← hfin.2, hfr]
          exact hfound
    unfold processDeployment.getOrCreate at hok
    simp only [] at hok
    have hg := getDeployment_ok env.faults h.hostKube ⟨d.Namespace, d.Name⟩ w
    have hgw := getDeployment_world env.faults h.hostKube ⟨d.Namespace, d.Name⟩ w
    generalize getDeployment env.faults h.hostKube ⟨d.Namespace, d.Name⟩ w = r1 at hok hg hgw
    obtain ⟨res1, w1⟩ := r1
    simp only [] at hgw
    subst hgw
    cases res1 with
    | ok live =>
      simp only [] at hok
      obtain ⟨_, _, _, hfind, _⟩ := hg _ live rfl
      exact ⟨live, _, hkeep live _ live (by rw [record_cluster]; exact hfind) hok, hok⟩
    | error e =>
      simp only [] at hok
      split at hok
      · have hc := createDeployment_ok env.faults h.hostKube d
          (w.record ⟨h.hostKube, Verb.get, Kind.Deployment, d.Namespace, d.Name, []⟩)
        generalize createDeployment env.faults h.hostKube d
          (w.record ⟨h.hostKube, Verb.get, Kind.Deployment, d.Namespace, d.Name, []⟩) = r2
          at hok hc
        obtain ⟨err2, w2⟩ := r2
        cases err2 with
        | some e2 => simp at hok
        | none =>
          simp only [] at hok
          obtain ⟨happ, hnone⟩ := hc w2 rfl
          have hfind : (w2.cluster h.hostKube).Deployments.find?
              (fun o => o.Namespace = d.Namespace ∧ o.Name = d.Name) = some d := by
            rw [happ, List.find?_append]
            have hleft : List.find?
                (fun o => decide (o.Namespace = d.Namespace ∧ o.Name = d.Name))
                ((w.record ⟨h.hostKube, Verb.get, Kind.Deployment, d.Namespace, d.Name,
                  []⟩).cluster h.hostKube).Deployments = none := by
              rw [List.find?_eq_none]
              intro x hx hp
              have hany : (((w.record ⟨h.hostKube, Verb.get, Kind.Deployment, d.Namespace,
                  d.Name, []⟩).cluster h.hostKube).Deployments.any
                  fun x => decide (x.Namespace = d.Namespace ∧ x.Name = d.Name)) = true :=
                List.any_eq_true.2 ⟨x, hx, hp⟩
              rw [hnone] at hany
              cases hany
            rw [hleft]
            simp
          exact ⟨d, w2, hkeep d w2 d hfind hok, hok⟩
      · simp at hok
  obtain ⟨d1, w2, hfind, hfin⟩ := hfirst
  have hfind' : (w'.cluster h.hostKube).Deployments.find?
      (fun o => o.Namespace = d.Namespace ∧ o.Name = d.Name) = some d1 := by
    obtain ⟨_, _, _, _, ⟨e, he⟩, _⟩ := hext h.hostKube
    rw [he]
    exact find_append_of_find _ _ _ _ hfind
  unfold processDeployment.getOrCreate
  simp only []
  rw [getDeployment_found env.faults hF h.hostKube ⟨d.Namespace, d.Name⟩ w' d1 hfind']
  simp only []
  obtain ⟨w'', hw'', hq⟩ := hfinish d1 w2 hfin
    (w'.record ⟨h.hostKube, Verb.get, Kind.Deployment, d.Namespace, d.Name, []⟩)
    (fun id => record_cluster _ _ id)
  exact ⟨w'', hw'', quiet_trans (quiet_record w' _ (idleCall_mk _ _ _ _ _ _ (by decide))) hq⟩

/-- The workload step, run again after a successful run on a world that
extends the one it left. -/
theorem processDeployment_rerun (env : Env) (h : stackHandler)
    (hF : ∀ l c, env.faults l c = none) (w w4 w' : World) (ext3 : Stack)
    (hok : processDeployment env h w = (none, ext3, w4)) (hext : WorldExtends w4 w') :
    ∃ w'', processDeployment env h w' = (none, ext3, w'') ∧ Quiet w' w'' := by
  unfold processDeployment at hok ⊢
  cases htemplate : h.ext.Spec.ControllerDeployment with
  | none =>
    rw [htemplate] at hok
    simp only [Prod.mk.injEq, true_and] at hok ⊢
    exact ⟨w', ⟨hok.1, rfl⟩, quiet_refl w'⟩
  | some cd =>
    rw [htemplate] at hok
    simp only [] at hok ⊢
    cases hcfg : h.hostAwareConfig with
    | none =>
      rw [hcfg] at hok
      simp only [] at hok ⊢
      exact getOrCreate_rerun env h hF _ _ _ w w4 w' ext3 hok hext
    | some cfg =>
      rw [hcfg] at hok
      simp only [] at hok ⊢
      split at hok
      · simp at hok
      · exact getOrCreate_rerun env h hF _ _ _ w w4 w' ext3 hok hext

/-! ## Creation is idempotent (C18) -/

/-- C18: no fault is injected, the registry has unique names and well-formed
label maps, and a first run of `create` on the Stack completed successfully.
Then a second run of `create` for the same Stack, on the world the first run
left, succeeds again and leaves the same Stack in memory; no object is added,
removed or changed in either cluster (so every create it issues is answered
already-exists); and it issues no patch of a schema object and no create of a
Deployment (the workload is found by the get). -/
theorem create_idempotent (env : Env) (h : stackHandler) (w : World)
    (hF : ∀ l c, env.faults l c = none)
    (hnames : ((w.cluster h.kube).CRDs.map fun x => x.Name).Nodup)
    (hkeys : ∀ x ∈ (w.cluster h.kube).CRDs, (x.Labels.map Prod.fst).Nodup)
    (hs : (create env h w).1 = (requeueOnSuccess, none)) :
    (create env h (create env h w).2.2).1 = (requeueOnSuccess, none) ∧
    (create env h (create env h w).2.2).2.1 = (create env h w).2.1 ∧
    (∀ id, (create env h (create env h w).2.2).2.2.cluster id =
      (create env h w).2.2.cluster id) ∧
    CallsOnly
      (fun c => ¬ (c.verb = Verb.patch ∧ c.kind = Kind.CustomResourceDefinition) ∧
        ¬ (c.verb = Verb.create ∧ c.kind = Kind.Deployment))
      (create env h w).2.2 (create env h (create env h w).2.2).2.2 := by
  obtain ⟨kns, kn, kspec⟩ := creatingStack_key h.ext
  -- the first run
  obtain ⟨w1, w2, w3, ext3, w4, e1, e2, e3, e4, ecreate⟩ :=
    create_success_inv env h w (congrArg Prod.fst hs)
  have hokS : (statusUpdateStack env.faults h.kube
      (SetConditions ext3 [Condition.Available, Condition.ReconcileSuccess]) w4).1 = none := by
    have := congrArg Prod.snd hs
    rw [ecreate] at this
    exact this
  have x12 : WorldExtends w1 w2 := by
    have := processRBAC_extends env (creatingHandler h) w1
    rw [e2] at this
    exact this
  have x23 : WorldExtends w2 w3 := by
    have := processCRDs_extends env (creatingHandler h) w2
    rw [e3] at this
    exact this
  have x34 : WorldExtends w3 w4 := by
    have := processDeployment_extends env (creatingHandler h) w3
    rw [e4] at this
    exact this
  have x4F := statusUpdateStack_extends env.faults h.kube
    (SetConditions ext3 [Condition.Available, Condition.ReconcileSuccess]) w4
  have hcrds2 : (w2.cluster h.kube).CRDs = (w.cluster h.kube).CRDs := by
    have a := patchStack_frame (fun cl => cl.CRDs) (fun _ _ => rfl) env.faults h.kube
      (SetConditions h.ext [Condition.Creating]) (creatingStack h.ext) w h.kube
    rw [e1] at a
    have b := (processRBAC_preSchema env (creatingHandler h) w1).2.1 h.kube
    rw [e2] at b
    exact b.trans a
  have hcrdsF : ((statusUpdateStack env.faults h.kube
      (SetConditions ext3 [Condition.Available, Condition.ReconcileSuccess]) w4).2.cluster
        h.kube).CRDs = (w3.cluster h.kube).CRDs := by
    have a := processDeployment_frame (fun cl => cl.CRDs) (fun _ _ => rfl) (fun _ _ => rfl) env
      (creatingHandler h) w3 h.kube
    rw [e4] at a
    rw [statusUpdateStack_frame (fun cl => cl.CRDs) (fun _ _ => rfl)]
    exact a
  have hrbac : ¬ (creatingHandler h).ext.Spec.PermissionRules.length = 0 →
      RBACPresent env (creatingHandler h) (w2.cluster h.kube) := by
    intro hrules
    have := processRBAC_after env (creatingHandler h) hF w1 hrules (by rw [e2])
    rw [e2] at this
    exact this
  rw [ecreate]
  simp only []
  generalize hwF : (statusUpdateStack env.faults h.kube
    (SetConditions ext3 [Condition.Available, Condition.ReconcileSuccess]) w4).2 = wF
    at x4F hcrdsF
  -- the second run
  have b1 := patchStack_rerun env.faults hF h.kube (SetConditions h.ext [Condition.Creating])
    (creatingStack h.ext) w w1 wF e1
    ((worldExtends_trans x12 (worldExtends_trans x23 (worldExtends_trans x34 x4F)))
      h.kube).2.2.2.2.2.2
  have q1 : Quiet wF (wF.record ⟨h.kube, Verb.patch, Kind.Stack,
      (creatingStack h.ext).Namespace, (creatingStack h.ext).Name, []⟩) :=
    quiet_record wF _ (idleCall_mk _ _ _ _ _ _ (by decide))
  obtain ⟨v2, b2, q2⟩ := processRBAC_present env (creatingHandler h) hF
    (wF.record ⟨h.kube, Verb.patch, Kind.Stack, (creatingStack h.ext).Namespace,
      (creatingStack h.ext).Name, []⟩)
    (fun hrules => by
      rw [record_cluster]
      exact rbacPresent_of_extends env (creatingHandler h) _ _
        ((worldExtends_trans x23 (worldExtends_trans x34 x4F)) h.kube) (hrbac hrules))
  have q12 := quiet_trans q1 q2
  obtain ⟨v3, b3, q3⟩ := processCRDs_rerun env (creatingHandler h) hF w2 w3 v2
    (by
      show ((w2.cluster h.kube).CRDs.map fun x => x.Name).Nodup
      rw [hcrds2]
      exact hnames)
    (by
      show ∀ x ∈ (w2.cluster h.kube).CRDs, (x.Labels.map Prod.fst).Nodup
      rw [hcrds2]
      exact hkeys) e3
    (worldExtends_of_same (worldExtends_trans x34 x4F) q12.1)
    (by
      show (v2.cluster h.kube).CRDs = (w3.cluster h.kube).CRDs
      rw [q12.1 h.kube]
      exact hcrdsF)
  have q13 := quiet_trans q12 q3
  obtain ⟨v4, b4, q4⟩ := processDeployment_rerun env (creatingHandler h) hF w3 w4 v3 ext3 e4
    (worldExtends_of_same x4F q13.1)
  have q14 := quiet_trans q13 q4
  have b5 := statusUpdateStack_rerun env.faults hF h.kube
    (SetConditions ext3 [Condition.Available, Condition.ReconcileSuccess]) w4 v4 hokS
    (by rw [hwF, q14.1 h.kube])
  have q5 : Quiet v4 (v4.record ⟨h.kube, Verb.statusUpdate, Kind.Stack,
      (SetConditions ext3 [Condition.Available, Condition.ReconcileSuccess]).Namespace,
      (SetConditions ext3 [Condition.Available, Condition.ReconcileSuccess]).Name, []⟩) :=
    quiet_record v4 _ (idleCall_mk _ _ _ _ _ _ (by decide))
  have q15 := quiet_trans q14 q5
  rw [create_eq, b1]
  simp only []
  rw [b2]
  simp only []
  rw [b3]
  simp only []
  rw [b4]
  simp only []
  rw [b5]
  exact ⟨rfl, trivial, q15.1, q15.2⟩

theorem create_idempotent_witness :
    (∀ l c, exampleEnv.faults l c = none) ∧
    ((worldHosted.cluster handlerHosted.kube).CRDs.map fun x => x.Name).Nodup ∧
    (∀ x ∈ (worldHosted.cluster handlerHosted.kube).CRDs, (x.Labels.map Prod.fst).Nodup) ∧
    (create exampleEnv handlerHosted worldHosted).1 = (requeueOnSuccess, none) ∧
    (create exampleEnv handlerHosted (create exampleEnv handlerHosted worldHosted).2.2).1 =
      (requeueOnSuccess, none) ∧
    (∀ id, (create exampleEnv handlerHosted
        (create exampleEnv handlerHosted worldHosted).2.2).2.2.cluster id =
      (create exampleEnv handlerHosted worldHosted).2.2.cluster id) :=
  have hw := create_idempotent exampleEnv handlerHosted worldHosted (fun _ _ => rfl)
    (by decide) (by decide) (by decide)
  ⟨fun _ _ => rfl, by decide, by decide, by decide, hw.1, hw.2.2.1⟩

/-! ## The prepared workload (C21) -/

theorem mapHas_mapSet_self (m : StringMap) (k v : String) : mapHas (mapSet m k v) k = true := by
  unfold mapSet
  simp [mapHas]

theorem exampleTruncate_length (s : String) (n k : Int) (hn : 0 ≤ n) :
    ((exampleTruncate s n k).length : Int) ≤ n := by
  unfold exampleTruncate
  have h1 : (String.mk (s.data.take n.toNat)).length = (s.data.take n.toNat).length := rfl
  rw [h1]
  have h2 : (s.data.take n.toNat).length ≤ n.toNat := List.length_take_le _ _
  have h3 : ((n.toNat : Nat) : Int) = n := Int.toNat_of_nonneg hn
  omega

/-- C21: for a Stack with a controller Deployment template, `prepareDeployment`
names the Deployment by the truncated Stack name followed by `-controller`
(within the label-value limit when the truncation helper keeps its length
bound, and the same for every Stack of that name), puts it in the Stack's
namespace, copies the template's spec (replica count, pod spec, pod labels
other than `app`), makes the pod template use the service account named after
the Stack, names the pod template like the Deployment, selects exactly
`app = name` and labels the pod template with it, so that the selector matches
the pod template. -/
theorem prepareDeployment_normalises (env : Env) (h : stackHandler) (d : Deployment)
    (cd : ControllerDeployment) (htemplate : h.ext.Spec.ControllerDeployment = some cd)
    (hlimit : (("-controller".length : Nat) : Int) ≤ env.deps.LabelValueLength)
    (htruncate : ∀ (s : String) (n k : Int), 0 ≤ n → ((env.deps.Truncate s n k).length : Int) ≤ n) :
    (prepareDeployment env h d).Name =
        env.deps.Truncate h.ext.Name
          (env.deps.LabelValueLength - (("-controller".length : Nat) : Int))
          env.deps.DefaultSuffixLength ++ "-controller" ∧
      (((prepareDeployment env h d).Name.length : Nat) : Int) ≤ env.deps.LabelValueLength ∧
      (∀ (h2 : stackHandler) (d2 : Deployment), h2.ext.Name = h.ext.Name →
        h2.ext.Spec.ControllerDeployment ≠ none →
        (prepareDeployment env h2 d2).Name = (prepareDeployment env h d).Name) ∧
      (prepareDeployment env h d).Namespace = h.ext.Namespace ∧
      (prepareDeployment env h d).Spec.Replicas = cd.Spec.Replicas ∧
      (prepareDeployment env h d).Spec.Template.Spec =
        { cd.Spec.Template.Spec with ServiceAccountName := h.ext.Name } ∧
      (prepareDeployment env h d).Spec.Template.Spec.ServiceAccountName = h.ext.Name ∧
      (prepareDeployment env h d).Spec.Template.Name = (prepareDeployment env h d).Name ∧
      (∀ k, k ≠ "app" →
        mapHas (prepareDeployment env h d).Spec.Template.Labels k =
            mapHas cd.Spec.Template.Labels k ∧
          mapGet (prepareDeployment env h d).Spec.Template.Labels k =
            mapGet cd.Spec.Template.Labels k) ∧
      (prepareDeployment env h d).Spec.Selector =
        some { MatchLabels := [("app", (prepareDeployment env h d).Name)],
               MatchExpressions := [] } ∧
      mapHas (prepareDeployment env h d).Spec.Template.Labels "app" = true ∧
      mapGet (prepareDeployment env h d).Spec.Template.Labels "app" =
        (prepareDeployment env h d).Name ∧
      matchesSelector [("app", (prepareDeployment env h d).Name)]
        (prepareDeployment env h d).Spec.Template.Labels = true := by
  have hname : (prepareDeployment env h d).Name =
      env.deps.Truncate h.ext.Name
        (env.deps.LabelValueLength - (("-controller".length : Nat) : Int))
        env.deps.DefaultSuffixLength ++ "-controller" := by
    unfold prepareDeployment
    rw [htemplate]
  have hlabels : (prepareDeployment env h d).Spec.Template.Labels =
      mapSet cd.Spec.Template.Labels "app" (prepareDeployment env h d).Name := by
    unfold prepareDeployment
    rw [htemplate]
    rfl
  have happ : mapGet (prepareDeployment env h d).Spec.Template.Labels "app" =
      (prepareDeployment env h d).Name := by
    rw [hlabels, mapGet_mapSet, if_pos rfl]
  have hhas : mapHas (prepareDeployment env h d).Spec.Template.Labels "app" = true := by
    rw [hlabels]
    exact mapHas_mapSet_self _ _ _
  refine ⟨hname, ?_, ?_, ?_, ?_, ?_, ?_, ?_, ?_, ?_, hhas, happ, ?_⟩
  · rw [hname, String.length_append]
    have := htruncate h.ext.Name
      (env.deps.LabelValueLength - (("-controller".length : Nat) : Int))
      env.deps.DefaultSuffixLength (by omega)
    push_cast
    omega
  · intro h2 d2 hsame hsome
    cases hcd2 : h2.ext.Spec.ControllerDeployment with
    | none => exact absurd hcd2 hsome
    | some cd2 =>
      rw [hname]
      unfold prepareDeployment
      rw [hcd2, hsame]
  · unfold prepareDeployment
    rw [htemplate]
  · unfold prepareDeployment
    rw [htemplate]
  · unfold prepareDeployment
    rw [htemplate]
  · unfold prepareDeployment
    rw [htemplate]
  · unfold prepareDeployment
    rw [htemplate]
  · intro k hk
    rw [hlabels, mapHas_mapSet, mapGet_mapSet, if_neg hk]
    simp [hk]
  · unfold prepareDeployment
    rw [htemplate]
  · unfold matchesSelector
    simp [hhas, happ]

theorem prepareDeployment_normalises_witness :
    handlerLongName.ext.Spec.ControllerDeployment =
        some { Name := "", Spec := exampleDeployment.Spec } ∧
      (prepareDeployment truncatingEnv handlerLongName emptyDeployment).Name =
        "a-stack-with-a-name-that-is-much-longer-than-fifty-t-controller" ∧
      (((prepareDeployment truncatingEnv handlerLongName emptyDeployment).Name.length : Nat)
        : Int) ≤ 63 :=
  ⟨rfl, by decide,
    (prepareDeployment_normalises truncatingEnv handlerLongName emptyDeployment
      { Name := "", Spec := exampleDeployment.Spec } rfl (by decide)
      (fun s n k hn => exampleTruncate_length s n k hn)).2.1⟩
/-! ## The token secret copy (C23) -/

theorem createSecret_log (F : Faults) (id : ClusterId) (o : Secret) (w : World) :
    (createSecret F id o w).2.log =
      w.log ++ [⟨id, Verb.create, Kind.Secret, o.Namespace, o.Name, []⟩] := by
  unfold createSecret
  exact issue_log _ _ _ _

/-- A `Create` of a Secret that answers nil appended the Secret to the
cluster of its client and left the other cluster alone. -/
theorem createSecret_ok (F : Faults) (id : ClusterId) (o : Secret) (w : World)
    (hc : (createSecret F id o w).1 = none) :
    ((createSecret F id o w).2.cluster id).Secrets = (w.cluster id).Secrets ++ [o] ∧
      ((w.cluster id).Secrets.any fun x => x.Namespace = o.Namespace ∧ x.Name = o.Name)
        = false ∧
      ∀ id2, id2 ≠ id → (createSecret F id o w).2.cluster id2 = w.cluster id2 := by
  unfold createSecret at hc ⊢
  cases hF : F w.log ⟨id, Verb.create, Kind.Secret, o.Namespace, o.Name, []⟩ with
  | some e =>
    rw [issue_of_fault F w _ _ e hF] at hc
    cases hc
  | none =>
    rw [issue_of_none F w _ _ hF] at hc ⊢
    simp only [Call.client] at hc ⊢
    cases hany : ((w.cluster id).Secrets.any
        fun x => decide (x.Namespace = o.Namespace ∧ x.Name = o.Name)) with
    | true =>
      rw [hany] at hc
      simp at hc
    | false =>
      simp only [Bool.false_eq_true, if_false, setCluster_cluster, if_true, record_cluster]
      exact ⟨trivial, trivial, fun id2 hne => if_neg hne⟩

/-- A `Create` that answers already-exists, from the server or from the
oracle, leaves both clusters as they were. -/
theorem createSecret_exists_unchanged (F : Faults) (id : ClusterId) (o : Secret) (w : World)
    (hc : (createSecret F id o w).1 = some (Err.Api ApiErr.AlreadyExists)) (id2 : ClusterId) :
    (createSecret F id o w).2.cluster id2 = w.cluster id2 := by
  unfold createSecret at hc ⊢
  cases hF : F w.log ⟨id, Verb.create, Kind.Secret, o.Namespace, o.Name, []⟩ with
  | some e =>
    rw [issue_of_fault F w _ _ e hF]
    simp only [record_cluster]
  | none =>
    rw [issue_of_none F w _ _ hF] at hc ⊢
    simp only [Call.client] at hc ⊢
    cases hany : ((w.cluster id).Secrets.any
        fun x => decide (x.Namespace = o.Namespace ∧ x.Name = o.Name)) with
    | true =>
      simp only [if_true, setCluster_cluster, record_cluster]
      split
      · rename_i h
        rw [h]
      · rfl
    | false =>
      rw [hany] at hc
      simp at hc

/-- The secret sync from the second read on, once the service account was
read with a first secret reference. -/
theorem syncSATokenSecret_of_account (env : Env) (h : stackHandler) (owner : OwnerReference)
    (fromSARef toSecretRef : ObjectReference) (w w1 : World) (sa : ServiceAccount)
    (ref : ObjectReference) (rest : List ObjectReference)
    (hsa : getServiceAccount env.faults h.kube ⟨fromSARef.Namespace, fromSARef.Name⟩ w =
      (Except.ok sa, w1))
    (hrefs : sa.Secrets = ref :: rest) :
    syncSATokenSecret env h owner fromSARef toSecretRef w =
      match getSecret env.faults h.kube ⟨fromSARef.Namespace, ref.Name⟩ w1 with
      | (Except.error err, w2) =>
        (some (Err.Wrap err errFailedToGetServiceAccountTokenSecret), w2)
      | (Except.ok saSecret, w2) =>
        if (createSecret env.faults h.hostKube
              { Name := toSecretRef.Name, Namespace := toSecretRef.Namespace,
                OwnerReferences := [owner], Data := saSecret.Data } w2).1 ≠ none ∧
            !IsAlreadyExists (createSecret env.faults h.hostKube
              { Name := toSecretRef.Name, Namespace := toSecretRef.Namespace,
                OwnerReferences := [owner], Data := saSecret.Data } w2).1 then
          (Wrap (createSecret env.faults h.hostKube
              { Name := toSecretRef.Name, Namespace := toSecretRef.Namespace,
                OwnerReferences := [owner], Data := saSecret.Data } w2).1
            errFailedToCreateTokenSecret,
            (createSecret env.faults h.hostKube
              { Name := toSecretRef.Name, Namespace := toSecretRef.Namespace,
                OwnerReferences := [owner], Data := saSecret.Data } w2).2)
        else
          (none, (createSecret env.faults h.hostKube
              { Name := toSecretRef.Name, Namespace := toSecretRef.Namespace,
                OwnerReferences := [owner], Data := saSecret.Data } w2).2) := by
  unfold syncSATokenSecret
  rw [hsa]
  simp only []
  rw [hrefs]


/-- The trace of the secret sync once both reads succeeded. -/
theorem syncSATokenSecret_log_of_reads (env : Env) (h : stackHandler) (owner : OwnerReference)
    (fromSARef toSecretRef : ObjectReference) (w w1 w2 : World) (sa : ServiceAccount)
    (ref : ObjectReference) (rest : List ObjectReference) (saSecret : Secret)
    (hsa : getServiceAccount env.faults h.kube ⟨fromSARef.Namespace, fromSARef.Name⟩ w =
      (Except.ok sa, w1))
    (hrefs : sa.Secrets = ref :: rest)
    (hsec : getSecret env.faults h.kube ⟨fromSARef.Namespace, ref.Name⟩ w1 =
      (Except.ok saSecret, w2)) :
    (syncSATokenSecret env h owner fromSARef toSecretRef w).2.log =
      w.log ++
        [⟨h.kube, Verb.get, Kind.ServiceAccount, fromSARef.Namespace, fromSARef.Name, []⟩,
         ⟨h.kube, Verb.get, Kind.Secret, fromSARef.Namespace, ref.Name, []⟩,
         ⟨h.hostKube, Verb.create, Kind.Secret, toSecretRef.Namespace, toSecretRef.Name, []⟩] := by
  obtain ⟨_, hw1⟩ := getServiceAccount_ok env.faults h.kube _ w w1 sa hsa
  obtain ⟨_, hw2⟩ := getSecret_ok env.faults h.kube _ w1 w2 saSecret hsec
  have hlog2 : w2.log = w.log ++
      [⟨h.kube, Verb.get, Kind.ServiceAccount, fromSARef.Namespace, fromSARef.Name, []⟩,
       ⟨h.kube, Verb.get, Kind.Secret, fromSARef.Namespace, ref.Name, []⟩] := by
    rw [hw2, hw1]
    simp [World.record]
  rw [syncSATokenSecret_of_account env h owner fromSARef toSecretRef w w1 sa ref rest hsa hrefs,
    hsec]
  simp only []
  split
  · simp only [createSecret_log, hlog2]
    simp
  · simp only [createSecret_log, hlog2]
    simp
/-- C23: for a tenant service account with a first secret reference,
`syncSATokenSecret` reads, after the account, the secret of that name in the
namespace of the account on the tenant cluster; when that read succeeds it
issues one create on the host cluster for a secret named and placed as the
target reference says, owned by the given owner alone, with the Data of the
tenant secret as read. A create answered nil leaves exactly that secret added
to the host cluster; a create answered already-exists is returned as success
and leaves every object of both clusters as it was; any other answer is
returned wrapped. -/
theorem syncSATokenSecret_copies_token (env : Env) (h : stackHandler) (owner : OwnerReference)
    (fromSARef toSecretRef : ObjectReference) (w w1 : World) (sa : ServiceAccount)
    (ref : ObjectReference) (rest : List ObjectReference)
    (hsa : getServiceAccount env.faults h.kube ⟨fromSARef.Namespace, fromSARef.Name⟩ w =
      (Except.ok sa, w1))
    (hrefs : sa.Secrets = ref :: rest) :
    sa.Namespace = fromSARef.Namespace ∧
    (w.log ++ [⟨h.kube, Verb.get, Kind.ServiceAccount, fromSARef.Namespace, fromSARef.Name, []⟩,
        ⟨h.kube, Verb.get, Kind.Secret, fromSARef.Namespace, ref.Name, []⟩]) <+:
      (syncSATokenSecret env h owner fromSARef toSecretRef w).2.log ∧
    ∀ (saSecret : Secret) (w2 : World),
      getSecret env.faults h.kube ⟨fromSARef.Namespace, ref.Name⟩ w1 = (Except.ok saSecret, w2) →
      (w.cluster h.kube).Secrets.find?
          (fun o => o.Namespace = fromSARef.Namespace ∧ o.Name = ref.Name) = some saSecret ∧
      (syncSATokenSecret env h owner fromSARef toSecretRef w).2.log =
        w.log ++
          [⟨h.kube, Verb.get, Kind.ServiceAccount, fromSARef.Namespace, fromSARef.Name, []⟩,
           ⟨h.kube, Verb.get, Kind.Secret, fromSARef.Namespace, ref.Name, []⟩,
           ⟨h.hostKube, Verb.create, Kind.Secret, toSecretRef.Namespace, toSecretRef.Name, []⟩] ∧
      ((createSecret env.faults h.hostKube
            { Name := toSecretRef.Name, Namespace := toSecretRef.Namespace,
              OwnerReferences := [owner], Data := saSecret.Data } w2).1 = none →
          (syncSATokenSecret env h owner fromSARef toSecretRef w).1 = none ∧
          ((syncSATokenSecret env h owner fromSARef toSecretRef w).2.cluster h.hostKube).Secrets =
            (w.cluster h.hostKube).Secrets ++
              [{ Name := toSecretRef.Name, Namespace := toSecretRef.Namespace,
                 OwnerReferences := [owner], Data := saSecret.Data }]) ∧
      ((createSecret env.faults h.hostKube
            { Name := toSecretRef.Name, Namespace := toSecretRef.Namespace,
              OwnerReferences := [owner], Data := saSecret.Data } w2).1 =
            some (Err.Api ApiErr.AlreadyExists) →
          (syncSATokenSecret env h owner fromSARef toSecretRef w).1 = none ∧
          ∀ id, (syncSATokenSecret env h owner fromSARef toSecretRef w).2.cluster id =
            w.cluster id) ∧
      (∀ e, (createSecret env.faults h.hostKube
            { Name := toSecretRef.Name, Namespace := toSecretRef.Namespace,
              OwnerReferences := [owner], Data := saSecret.Data } w2).1 = some e →
          e ≠ Err.Api ApiErr.AlreadyExists →
          (syncSATokenSecret env h owner fromSARef toSecretRef w).1 =
            some (Err.Wrap e errFailedToCreateTokenSecret)) := by
  have hsync := syncSATokenSecret_of_account env h owner fromSARef toSecretRef w w1 sa ref rest
    hsa hrefs
  obtain ⟨hfind1, hw1⟩ := getServiceAccount_ok env.faults h.kube _ w w1 sa hsa
  have hkey := List.find?_some hfind1
  simp only [decide_eq_true_eq] at hkey
  refine ⟨hkey.1, ?_, ?_⟩
  · rw [hsync]
    have hw2 := getSecret_world env.faults h.kube ⟨fromSARef.Namespace, ref.Name⟩ w1
    generalize getSecret env.faults h.kube ⟨fromSARef.Namespace, ref.Name⟩ w1 = r2 at hw2 ⊢
    obtain ⟨res, w2⟩ := r2
    simp only [] at hw2
    have hlog2 : w2.log = w.log ++
        [⟨h.kube, Verb.get, Kind.ServiceAccount, fromSARef.Namespace, fromSARef.Name, []⟩,
         ⟨h.kube, Verb.get, Kind.Secret, fromSARef.Namespace, ref.Name, []⟩] := by
      rw [hw2, hw1]
      simp [World.record]
    cases res with
    | error err =>
      simp only []
      rw [hlog2]
    | ok saSecret =>
      simp only []
      split
      · simp only [createSecret_log, hlog2]
        exact List.prefix_append _ _
      · simp only [createSecret_log, hlog2]
        exact List.prefix_append _ _
  · intro saSecret w2 hsec
    obtain ⟨hfind2, hw2⟩ := getSecret_ok env.faults h.kube _ w1 w2 saSecret hsec
    have hcl : ∀ id, w2.cluster id = w.cluster id := by
      intro id
      rw [hw2, hw1, record_cluster, record_cluster]
    have hlog2 : w2.log = w.log ++
        [⟨h.kube, Verb.get, Kind.ServiceAccount, fromSARef.Namespace, fromSARef.Name, []⟩,
         ⟨h.kube, Verb.get, Kind.Secret, fromSARef.Namespace, ref.Name, []⟩] := by
      rw [hw2, hw1]
      simp [World.record]
    rw [hsync, hsec]
    simp only []
    refine ⟨?_, ?_, ?_, ?_, ?_⟩
    · rw [hw1, record_cluster] at hfind2
      exact hfind2
    · split
      · simp only [createSecret_log, hlog2]
        simp
      · simp only [createSecret_log, hlog2]
        simp
    · intro hnone
      have hok := createSecret_ok env.faults h.hostKube _ w2 hnone
      rw [if_neg (by rw [hnone]; simp)]
      refine ⟨rfl, ?_⟩
      rw [hok.1, hcl]
    · intro hex
      rw [if_neg (by rw [hex]; simp [IsAlreadyExists])]
      refine ⟨rfl, ?_⟩
      intro id
      rw [createSecret_exists_unchanged env.faults h.hostKube _ w2 hex id, hcl]
    · intro e he hne
      have hnot : IsAlreadyExists (some e) = false := by
        cases e with
        | Api a =>
          cases a with
          | AlreadyExists => exact absurd rfl hne
          | NotFound => rfl
          | Other msg => rfl
        | New msg => rfl
        | Errorf f a => rfl
        | Wrap c m => rfl
      rw [he, if_pos (by simp [hnot])]
      rfl

theorem syncSATokenSecret_copies_token_witness :
    ((syncSATokenSecret exampleEnv handlerHosted exampleOwner exampleSARef exampleTokenRef
        worldHosted).1 = none ∧
      ((syncSATokenSecret exampleEnv handlerHosted exampleOwner exampleSARef exampleTokenRef
        worldHosted).2.cluster ClusterId.host).Secrets =
        [{ Name := "ns.a", Namespace := "host-ns", OwnerReferences := [exampleOwner],
           Data := [("token", [1, 2, 3])] }]) ∧
    ((syncSATokenSecret exampleEnv handlerHosted exampleOwner exampleSARef exampleTokenRef
        worldHostedSynced).1 = none ∧
      ∀ id, (syncSATokenSecret exampleEnv handlerHosted exampleOwner exampleSARef exampleTokenRef
        worldHostedSynced).2.cluster id = worldHostedSynced.cluster id) :=
  ⟨((syncSATokenSecret_copies_token exampleEnv handlerHosted exampleOwner exampleSARef
        exampleTokenRef worldHosted _ _ _ [] rfl rfl).2.2 exampleTenantSecret _ rfl).2.2.1 rfl,
   ((syncSATokenSecret_copies_token exampleEnv handlerHosted exampleOwner exampleSARef
        exampleTokenRef worldHostedSynced _ _ _ [] rfl rfl).2.2 exampleTenantSecret _ rfl).2.2.2.1
      rfl⟩
/-! ## The token secret reference of the relocated workload (C22) -/

/-- A successful secret sync read the service account asked for and issued
the create of the target secret. -/
theorem syncSATokenSecret_success_calls (env : Env) (h : stackHandler) (owner : OwnerReference)
    (fromSARef toSecretRef : ObjectReference) (w w3 : World)
    (hok : syncSATokenSecret env h owner fromSARef toSecretRef w = (none, w3)) :
    (⟨h.kube, Verb.get, Kind.ServiceAccount, fromSARef.Namespace, fromSARef.Name, []⟩ : Call)
        ∈ w3.log ∧
      (⟨h.hostKube, Verb.create, Kind.Secret, toSecretRef.Namespace, toSecretRef.Name, []⟩ : Call)
        ∈ w3.log := by
  have h1 := getServiceAccount_ok env.faults h.kube ⟨fromSARef.Namespace, fromSARef.Name⟩ w
  cases hr1 : getServiceAccount env.faults h.kube ⟨fromSARef.Namespace, fromSARef.Name⟩ w with
  | mk res1 w1 =>
    cases res1 with
    | error e =>
      unfold syncSATokenSecret at hok
      rw [hr1] at hok
      simp only [] at hok
      split at hok <;> cases hok
    | ok sa =>
      cases hsec : sa.Secrets with
      | nil =>
        unfold syncSATokenSecret at hok
        rw [hr1] at hok
        simp only [] at hok
        rw [hsec] at hok
        cases hok
      | cons ref rest =>
        cases hr2 : getSecret env.faults h.kube ⟨fromSARef.Namespace, ref.Name⟩ w1 with
        | mk res2 w2 =>
          cases res2 with
          | error e =>
            rw [syncSATokenSecret_of_account env h owner fromSARef toSecretRef w w1 sa ref rest
              hr1 hsec, hr2] at hok
            cases hok
          | ok sec =>
            have hlog := syncSATokenSecret_log_of_reads env h owner fromSARef toSecretRef w w1 w2
              sa ref rest sec hr1 hsec hr2
            rw [hok] at hlog
            simp only [] at hlog
            rw [hlog]
            simp

/-- In host-aware mode a successful get-or-create ended with a successful
secret sync for the two references it was given, run on a world whose host
Deployments are those found, with the prepared Deployment appended when it
was created. -/
theorem getOrCreate_hosted_inv (env : Env) (h : stackHandler) (d : Deployment)
    (saRef saSecretRef : ObjectReference) (w w4 : World) (ext3 : Stack) (cfg : HostedConfig)
    (hcfg : h.hostAwareConfig = some cfg)
    (hok : processDeployment.getOrCreate env h d saRef saSecretRef w = (none, ext3, w4)) :
    ∃ owner w2, syncSATokenSecret env h owner saRef saSecretRef w2 = (none, w4) ∧
      ((w2.cluster h.hostKube).Deployments = (w.cluster h.hostKube).Deployments ∨
        (w2.cluster h.hostKube).Deployments = (w.cluster h.hostKube).Deployments ++ [d]) := by
  have hfinish : ∀ (d1 : Deployment) (w2 : World),
      (match h.hostAwareConfig with
        | some _ =>
          match syncSATokenSecret env h (AsOwner (ReferenceToDeployment d1 deploymentGVK))
              saRef saSecretRef w2 with
          | (some err, w3) => (some (Err.Wrap err errFailedToSyncSASecret), h.ext, w3)
          | (none, w3) =>
            (none, { h.ext with Status := { h.ext.Status with
              ControllerRef := some (ReferenceToDeployment d1 deploymentGVK) } }, w3)
        | none =>
          (none, { h.ext with Status := { h.ext.Status with
            ControllerRef := some (ReferenceToDeployment d1 deploymentGVK) } }, w2))
        = (none, ext3, w4) →
      syncSATokenSecret env h (AsOwner (ReferenceToDeployment d1 deploymentGVK))
        saRef saSecretRef w2 = (none, w4) := by
    intro d1 w2 hfin
    rw [hcfg] at hfin
    simp only [] at hfin
    generalize syncSATokenSecret env h (AsOwner (ReferenceToDeployment d1 deploymentGVK))
      saRef saSecretRef w2 = r at hfin ⊢
    obtain ⟨err, w3⟩ := r
    cases err with
    | some e => simp at hfin
    | none =>
      simp only [Prod.mk.injEq, true_and] at hfin
      obtain ⟨_, rfl⟩ := hfin
      rfl
  unfold processDeployment.getOrCreate at hok
  simp only [] at hok
  have hg := getDeployment_world env.faults h.hostKube ⟨d.Namespace, d.Name⟩ w
  generalize getDeployment env.faults h.hostKube ⟨d.Namespace, d.Name⟩ w = r1 at hok hg
  obtain ⟨res1, w1⟩ := r1
  simp only [] at hg
  cases res1 with
  | ok live =>
    simp only [] at hok
    refine ⟨_, w1, hfinish live w1 hok, Or.inl ?_⟩
    rw [hg, record_cluster]
  | error e =>
    simp only [] at hok
    split at hok
    · have hc := createDeployment_ok env.faults h.hostKube d w1
      generalize createDeployment env.faults h.hostKube d w1 = r2 at hok hc
      obtain ⟨err2, w2⟩ := r2
      cases err2 with
      | some e2 => simp at hok
      | none =>
        simp only [] at hok
        refine ⟨_, w2, hfinish d w2 hok, Or.inr ?_⟩
        rw [(hc w2 rfl).1, hg, record_cluster]
    · simp at hok

/-- With a host config the relocated Deployment mounts the token secret it
was handed, after the volumes of the Deployment given. -/
theorem prepareHostAwareDeployment_volumes (env : Env) (h : stackHandler) (d : Deployment)
    (tokenSecret : String) (cfg : HostedConfig) (hcfg : h.hostAwareConfig = some cfg) :
    (prepareHostAwareDeployment env h d tokenSecret).1 = none ∧
      (prepareHostAwareDeployment env h d tokenSecret).2.Spec.Template.Spec.Volumes =
        d.Spec.Template.Spec.Volumes ++
          [{ Name := saVolumeName, VolumeSource := VolumeSource.Secret tokenSecret }] := by
  unfold prepareHostAwareDeployment prepareHostAwarePodSpec
  rw [hcfg]
  exact ⟨rfl, rfl⟩

/-- C22, amended: in host-aware mode, the token secret reference used by
a successful `processDeployment` is `ObjectReferenceOnHost` applied to the
name of the Stack's service account (the Stack's own name, which
`prepareDeployment` forces into the pod template) and the Stack's namespace:
the service account read on the tenant is the one of that name, the secret
created on the host has the name and namespace of that reference, and a
Deployment created by the step mounts the secret of that name as `sa-token`. -/
theorem processDeployment_token_secret_of_account (env : Env) (h : stackHandler)
    (w w4 : World) (ext3 : Stack) (cd : ControllerDeployment) (cfg : HostedConfig)
    (htemplate : h.ext.Spec.ControllerDeployment = some cd)
    (hcfg : h.hostAwareConfig = some cfg)
    (hok : processDeployment env h w = (none, ext3, w4)) :
    (⟨h.kube, Verb.get, Kind.ServiceAccount, h.ext.Namespace, h.ext.Name, []⟩ : Call)
        ∈ w4.log ∧
      (⟨h.hostKube, Verb.create, Kind.Secret,
          (env.deps.ObjectReferenceOnHost cfg h.ext.Name h.ext.Namespace).Namespace,
          (env.deps.ObjectReferenceOnHost cfg h.ext.Name h.ext.Namespace).Name, []⟩ : Call)
        ∈ w4.log ∧
      ∀ d1 ∈ (w4.cluster h.hostKube).Deployments, d1 ∉ (w.cluster h.hostKube).Deployments →
        ({ Name := saVolumeName,
           VolumeSource := VolumeSource.Secret
             (env.deps.ObjectReferenceOnHost cfg h.ext.Name h.ext.Namespace).Name } : Volume)
          ∈ d1.Spec.Template.Spec.Volumes := by
  have hsa : (prepareDeployment env h emptyDeployment).Spec.Template.Spec.ServiceAccountName =
      h.ext.Name := by
    unfold prepareDeployment
    rw [htemplate]
  have hns : (prepareDeployment env h emptyDeployment).Namespace = h.ext.Namespace := by
    unfold prepareDeployment
    rw [htemplate]
  unfold processDeployment at hok
  rw [htemplate] at hok
  simp only [] at hok
  rw [hcfg] at hok
  simp only [hsa, hns] at hok
  obtain ⟨hperr, hpvol⟩ := prepareHostAwareDeployment_volumes env h
    (prepareDeployment env h emptyDeployment)
    (env.deps.ObjectReferenceOnHost cfg h.ext.Name h.ext.Namespace).Name cfg hcfg
  generalize prepareHostAwareDeployment env h (prepareDeployment env h emptyDeployment)
    (env.deps.ObjectReferenceOnHost cfg h.ext.Name h.ext.Namespace).Name = p at hok hperr hpvol
  obtain ⟨perr, d1⟩ := p
  simp only [] at hperr hpvol
  subst hperr
  simp only [] at hok
  obtain ⟨owner, w2, hsync, hdep⟩ := getOrCreate_hosted_inv env h d1 _ _ w w4 ext3 cfg hcfg hok
  obtain ⟨hc1, hc2⟩ := syncSATokenSecret_success_calls env h owner _ _ w2 w4 hsync
  refine ⟨hc1, hc2, ?_⟩
  intro x hx hnew
  have hfr := syncSATokenSecret_frame (fun cl => cl.Deployments) (fun _ _ => rfl) env h owner
    { APIVersion := "", Kind := "", UID := "", Name := h.ext.Name, Namespace := h.ext.Namespace }
    (env.deps.ObjectReferenceOnHost cfg h.ext.Name h.ext.Namespace) w2 h.hostKube
  rw [hsync] at hfr
  simp only [] at hfr
  rw [hfr] at hx
  rcases hdep with hsame | happ
  · rw [hsame] at hx
    exact absurd hx hnew
  · rw [happ, List.mem_append, List.mem_singleton] at hx
    rcases hx with hx | rfl
    · exact absurd hx hnew
    · rw [hpvol]
      simp

/-- C22 as stated fails: for the Stack `ns/a` in host-aware mode the workload
is named `a-controller` in the tenant naming and `ns.a-controller` on the
host, while the secret that `processDeployment` creates on the host and mounts
into the workload is `ns.a`, the host name of the service account: no secret
is created under the host name of the workload, in either naming. -/
theorem processDeployment_token_secret_not_of_workload :
    (processDeployment exampleEnv handlerHosted worldHosted).1 = none ∧
      (prepareDeployment exampleEnv handlerHosted emptyDeployment).Name = "a-controller" ∧
      (prepareDeployment exampleEnv handlerHosted emptyDeployment).Namespace = "ns" ∧
      ((processDeployment exampleEnv handlerHosted worldHosted).2.2.host.Deployments.map
        fun d => (d.Namespace, d.Name, d.Spec.Template.Spec.Volumes)) =
        [("host-ns", "ns.a-controller",
          [{ Name := "sa-token", VolumeSource := VolumeSource.Secret "ns.a" }])] ∧
      ((processDeployment exampleEnv handlerHosted worldHosted).2.2.host.Secrets.map
        fun s => (s.Namespace, s.Name)) = [("host-ns", "ns.a")] ∧
      (exampleEnv.deps.ObjectReferenceOnHost exampleHostedConfig "a-controller" "ns").Name =
        "ns.a-controller" ∧
      (⟨ClusterId.host, Verb.create, Kind.Secret,
          (exampleEnv.deps.ObjectReferenceOnHost exampleHostedConfig "a-controller" "ns").Namespace,
          (exampleEnv.deps.ObjectReferenceOnHost exampleHostedConfig "a-controller" "ns").Name,
          []⟩ : Call) ∉ (processDeployment exampleEnv handlerHosted worldHosted).2.2.log ∧
      (⟨ClusterId.host, Verb.create, Kind.Secret,
          (exampleEnv.deps.ObjectReferenceOnHost exampleHostedConfig
            "ns.a-controller" "host-ns").Namespace,
          (exampleEnv.deps.ObjectReferenceOnHost exampleHostedConfig
            "ns.a-controller" "host-ns").Name,
          []⟩ : Call) ∉ (processDeployment exampleEnv handlerHosted worldHosted).2.2.log := by
  decide

theorem processDeployment_token_secret_of_account_witness :
    handlerHosted.ext.Spec.ControllerDeployment =
        some { Name := "", Spec := exampleDeployment.Spec } ∧
      handlerHosted.hostAwareConfig = some exampleHostedConfig ∧
      (processDeployment exampleEnv handlerHosted worldHosted).1 = none ∧
      (⟨ClusterId.host, Verb.create, Kind.Secret, "host-ns", "ns.a", []⟩ : Call)
        ∈ (processDeployment exampleEnv handlerHosted worldHosted).2.2.log :=
  ⟨rfl, rfl, rfl,
    (processDeployment_token_secret_of_account exampleEnv handlerHosted worldHosted
      (processDeployment exampleEnv handlerHosted worldHosted).2.2
      (processDeployment exampleEnv handlerHosted worldHosted).2.1
      { Name := "", Spec := exampleDeployment.Spec } exampleHostedConfig rfl rfl rfl).2.1⟩
/-! ## The failure exit of the dispatcher (C24) -/

theorem IgnoreNotFound_eq_some (e : Option Err) (err : Err) (h : IgnoreNotFound e = some err) :
    e = some err := by
  unfold IgnoreNotFound at h
  split at h
  · cases h
  · exact h

/-- Every run of `create` either returns the success result or is `fail` on
the error of the step that failed, in the world that step left. -/
theorem create_fails_through_fail (env : Env) (h : stackHandler) (w : World) :
    (create env h w).1.1 = requeueOnSuccess ∨
      ∃ ext err wk, create env h w = fail env h.kube ext err wk ∧
        (patchStack env.faults h.kube (SetConditions h.ext [Condition.Creating])
            (creatingStack h.ext) w = (some err, wk) ∨
          (∃ w1, processRBAC env (creatingHandler h) w1 = (some err, wk)) ∨
          (∃ w2, processCRDs env (creatingHandler h)
            [createListFulfilledCRDHandler (creatingHandler h),
             createNamespaceLabelsCRDHandler env (creatingHandler h),
             createMultipleParentLabelsCRDHandler env (creatingHandler h),
             createPersonaClusterRolesCRDHandler env (creatingHandler h)] w2 = (some err, wk)) ∨
          (∃ w3, processDeployment env (creatingHandler h) w3 = (some err, ext, wk))) := by
  rw [create_eq]
  cases hr1 : patchStack env.faults h.kube (SetConditions h.ext [Condition.Creating])
      (creatingStack h.ext) w with
  | mk e1 w1 =>
    cases e1 with
    | some err => exact Or.inr ⟨_, err, w1, rfl, Or.inl rfl⟩
    | none =>
      simp only []
      cases hr2 : processRBAC env (creatingHandler h) w1 with
      | mk e2 w2 =>
        cases e2 with
        | some err => exact Or.inr ⟨_, err, w2, rfl, Or.inr (Or.inl ⟨w1, hr2⟩)⟩
        | none =>
          simp only []
          cases hr3 : processCRDs env (creatingHandler h)
              [createListFulfilledCRDHandler (creatingHandler h),
               createNamespaceLabelsCRDHandler env (creatingHandler h),
               createMultipleParentLabelsCRDHandler env (creatingHandler h),
               createPersonaClusterRolesCRDHandler env (creatingHandler h)] w2 with
          | mk e3 w3 =>
            cases e3 with
            | some err => exact Or.inr ⟨_, err, w3, rfl, Or.inr (Or.inr (Or.inl ⟨w2, hr3⟩))⟩
            | none =>
              simp only []
              cases hr4 : processDeployment env (creatingHandler h) w3 with
              | mk e4 rest =>
                obtain ⟨ext3, w4⟩ := rest
                cases e4 with
                | some err =>
                  exact Or.inr ⟨ext3, err, w4, rfl, Or.inr (Or.inr (Or.inr ⟨w3, hr4⟩))⟩
                | none => exact Or.inl rfl

/-- Every run of `delete` either returns the empty result without error or is
`fail` on the error of the step that failed, in the world that step left. -/
theorem delete_fails_through_fail (env : Env) (h : stackHandler) (w : World) :
    (delete env h w).1 = (emptyResult, none) ∨
      ∃ ext err wk, delete env h w = fail env h.kube ext err wk ∧
        ((∃ w0, deleteAllOfDeployments env.faults h.hostKube (env.deps.ParentLabels h.ext)
            (stackControllerNamespace h) w0 = (some err, wk)) ∨
          (∃ w0, deleteAllOfJobs env.faults h.hostKube (env.deps.ParentLabels h.ext)
            (stackControllerNamespace h) w0 = (some err, wk)) ∨
          (∃ w0, deleteAllOfClusterRoles env.faults h.kube (env.deps.ParentLabels h.ext) w0 =
            (some err, wk)) ∨
          (∃ w0, deleteAllOfClusterRoleBindings env.faults h.kube (env.deps.ParentLabels h.ext)
            w0 = (some err, wk)) ∨
          (∃ w0, removeCRDLabels env h w0 = (some err, wk)) ∨
          (∃ w0, updateStack env.faults h.kube (RemoveFinalizer h.ext stacksFinalizer) w0 =
            (some err, wk))) := by
  unfold delete
  simp only []
  cases hi1 : IgnoreNotFound (deleteAllOfDeployments env.faults h.hostKube
      (env.deps.ParentLabels h.ext) (stackControllerNamespace h) w).1 with
  | some err =>
    exact Or.inr ⟨_, err, _, rfl, Or.inl ⟨w, Prod.ext (IgnoreNotFound_eq_some _ _ hi1) rfl⟩⟩
  | none =>
    simp only []
    cases hi2 : IgnoreNotFound (deleteAllOfJobs env.faults h.hostKube
        (env.deps.ParentLabels h.ext) (stackControllerNamespace h)
        (deleteAllOfDeployments env.faults h.hostKube
          (env.deps.ParentLabels h.ext) (stackControllerNamespace h) w).2).1 with
    | some err =>
      exact Or.inr ⟨_, err, _, rfl,
        Or.inr (Or.inl ⟨_, Prod.ext (IgnoreNotFound_eq_some _ _ hi2) rfl⟩)⟩
    | none =>
      simp only []
      generalize (deleteAllOfJobs env.faults h.hostKube
        (env.deps.ParentLabels h.ext) (stackControllerNamespace h)
        (deleteAllOfDeployments env.faults h.hostKube
          (env.deps.ParentLabels h.ext) (stackControllerNamespace h) w).2).2 = wj
      cases hi3 : IgnoreNotFound (deleteAllOfClusterRoles env.faults h.kube
          (env.deps.ParentLabels h.ext) wj).1 with
      | some err =>
        exact Or.inr ⟨_, err, _, rfl,
          Or.inr (Or.inr (Or.inl ⟨_, Prod.ext (IgnoreNotFound_eq_some _ _ hi3) rfl⟩))⟩
      | none =>
        simp only []
        generalize (deleteAllOfClusterRoles env.faults h.kube
          (env.deps.ParentLabels h.ext) wj).2 = wr
        cases hi4 : IgnoreNotFound (deleteAllOfClusterRoleBindings env.faults h.kube
            (env.deps.ParentLabels h.ext) wr).1 with
        | some err =>
          exact Or.inr ⟨_, err, _, rfl,
            Or.inr (Or.inr (Or.inr (Or.inl ⟨_, Prod.ext (IgnoreNotFound_eq_some _ _ hi4) rfl⟩)))⟩
        | none =>
          simp only []
          generalize (deleteAllOfClusterRoleBindings env.faults h.kube
            (env.deps.ParentLabels h.ext) wr).2 = wb
          cases hi5 : (removeCRDLabels env h wb).1 with
          | some err =>
            exact Or.inr ⟨_, err, _, rfl,
              Or.inr (Or.inr (Or.inr (Or.inr (Or.inl ⟨_, Prod.ext hi5 rfl⟩))))⟩
          | none =>
            simp only []
            generalize (removeCRDLabels env h wb).2 = wl
            cases hi6 : (updateStack env.faults h.kube (RemoveFinalizer h.ext stacksFinalizer)
                wl).1 with
            | some err =>
              exact Or.inr ⟨_, err, _, rfl,
                Or.inr (Or.inr (Or.inr (Or.inr (Or.inr ⟨_, Prod.ext hi6 rfl⟩))))⟩
            | none => exact Or.inl rfl

/-- C24 as stated fails: `ns/a` declares a schema that the registry lacks, so
its creation fails at the fulfillment step; the dispatcher sets
`ReconcileError` and persists it, and the result it returns is
`{Requeue: true}` with a zero `RequeueAfter`: the result asks for a requeue
and names no delay. -/
theorem failed_step_result_names_no_delay :
    (Reconcile exampleEnv exampleReconciler ⟨"ns", "a"⟩ worldNoCRD).1 =
        ({ Requeue := true, RequeueAfter := 0 }, none) ∧
      ((Reconcile exampleEnv exampleReconciler ⟨"ns", "a"⟩ worldNoCRD).2.tenant.Stacks.map
        fun s => s.Status.Conditions.map fun c => c.Type) =
        [[ConditionType.Ready, ConditionType.Synced]] ∧
      ¬ ∃ delay : Nat, 0 < delay ∧
        (Reconcile exampleEnv exampleReconciler ⟨"ns", "a"⟩ worldNoCRD).1.1.RequeueAfter =
          delay := by
  refine ⟨by decide, by decide, ?_⟩
  rintro ⟨delay, hpos, hd⟩
  have h0 : (Reconcile exampleEnv exampleReconciler ⟨"ns", "a"⟩ worldNoCRD).1.1.RequeueAfter
      = 0 := by decide
  omega

/-- C24, amended: every failing run of `create` or `delete` is `fail` on
the error of the step that failed. `fail` sets `ReconcileError(err)` on the
Stack, hands that Stack to `Status().Update` as its only call (so the
condition is persisted whenever that update answers nil), and returns the
fixed result `{Requeue: true}`, whatever the error: the result carries no
delay (`RequeueAfter` is zero), where the success result carries the
10-second `RequeueAfter` and no requeue flag. -/
theorem step_error_sets_condition_and_requeues (env : Env) (h : stackHandler) (w : World) :
    ((create env h w).1.1 = requeueOnSuccess ∨
      ∃ ext err wk, create env h w = fail env h.kube ext err wk ∧
        (patchStack env.faults h.kube (SetConditions h.ext [Condition.Creating])
            (creatingStack h.ext) w = (some err, wk) ∨
          (∃ w1, processRBAC env (creatingHandler h) w1 = (some err, wk)) ∨
          (∃ w2, processCRDs env (creatingHandler h)
            [createListFulfilledCRDHandler (creatingHandler h),
             createNamespaceLabelsCRDHandler env (creatingHandler h),
             createMultipleParentLabelsCRDHandler env (creatingHandler h),
             createPersonaClusterRolesCRDHandler env (creatingHandler h)] w2 = (some err, wk)) ∨
          (∃ w3, processDeployment env (creatingHandler h) w3 = (some err, ext, wk)))) ∧
    ((delete env h w).1 = (emptyResult, none) ∨
      ∃ ext err wk, delete env h w = fail env h.kube ext err wk ∧
        ((∃ w0, deleteAllOfDeployments env.faults h.hostKube (env.deps.ParentLabels h.ext)
            (stackControllerNamespace h) w0 = (some err, wk)) ∨
          (∃ w0, deleteAllOfJobs env.faults h.hostKube (env.deps.ParentLabels h.ext)
            (stackControllerNamespace h) w0 = (some err, wk)) ∨
          (∃ w0, deleteAllOfClusterRoles env.faults h.kube (env.deps.ParentLabels h.ext) w0 =
            (some err, wk)) ∨
          (∃ w0, deleteAllOfClusterRoleBindings env.faults h.kube (env.deps.ParentLabels h.ext)
            w0 = (some err, wk)) ∨
          (∃ w0, removeCRDLabels env h w0 = (some err, wk)) ∨
          (∃ w0, updateStack env.faults h.kube (RemoveFinalizer h.ext stacksFinalizer) w0 =
            (some err, wk)))) ∧
    ∀ (kube : ClusterId) (i : Stack) (err : Err) (wk : World),
      (fail env kube i err wk).1.1 = resultRequeue ∧
      (fail env kube i err wk).1.1.Requeue = true ∧
      (fail env kube i err wk).1.1.RequeueAfter = 0 ∧
      requeueOnSuccess.Requeue = false ∧
      requeueOnSuccess.RequeueAfter = 10 * 1000000000 ∧
      (fail env kube i err wk).2.1 = SetConditions i [Condition.ReconcileError err] ∧
      Condition.ReconcileError err ∈ (fail env kube i err wk).2.1.Status.Conditions ∧
      (fail env kube i err wk).2.2.log =
        wk.log ++ [⟨kube, Verb.statusUpdate, Kind.Stack, i.Namespace, i.Name, []⟩] ∧
      ((fail env kube i err wk).1.2 = none →
        (∃ s ∈ ((fail env kube i err wk).2.2.cluster kube).Stacks,
          s.Namespace = i.Namespace ∧ s.Name = i.Name) ∧
        ∀ s ∈ ((fail env kube i err wk).2.2.cluster kube).Stacks,
          s.Namespace = i.Namespace → s.Name = i.Name →
          Condition.ReconcileError err ∈ s.Status.Conditions) := by
  refine ⟨create_fails_through_fail env h w, delete_fails_through_fail env h w, ?_⟩
  intro kube i err wk
  have hmem : Condition.ReconcileError err ∈
      (SetConditions i [Condition.ReconcileError err]).Status.Conditions := by
    show Condition.ReconcileError err ∈
      [Condition.ReconcileError err].foldl setCondition i.Status.Conditions
    exact mem_setCondition _ _
  refine ⟨rfl, rfl, rfl, rfl, rfl, rfl, hmem, ?_, ?_⟩
  · show (statusUpdateStack env.faults kube _ wk).2.log = _
    unfold statusUpdateStack
    rw [issue_log]
    rfl
  · intro hok
    have hp := statusUpdateStack_persisted env.faults wk kube
      (SetConditions i [Condition.ReconcileError err]) hok
    refine ⟨hp.1, ?_⟩
    intro s hs hns hname
    have := hp.2 s hs hns hname
    rw [this]
    exact hmem

theorem step_error_sets_condition_and_requeues_witness :
    (fail exampleEnv ClusterId.tenant stackA (Err.New "step failed") worldNoCRD).1.2 = none ∧
      ((∃ s ∈ ((fail exampleEnv ClusterId.tenant stackA (Err.New "step failed")
            worldNoCRD).2.2.cluster ClusterId.tenant).Stacks,
          s.Namespace = stackA.Namespace ∧ s.Name = stackA.Name) ∧
        ∀ s ∈ ((fail exampleEnv ClusterId.tenant stackA (Err.New "step failed")
            worldNoCRD).2.2.cluster ClusterId.tenant).Stacks,
          s.Namespace = stackA.Namespace → s.Name = stackA.Name →
          Condition.ReconcileError (Err.New "step failed") ∈ s.Status.Conditions) :=
  ⟨rfl,
    ((step_error_sets_condition_and_requeues exampleEnv handlerA worldNoCRD).2.2
      ClusterId.tenant stackA (Err.New "step failed") worldNoCRD).2.2.2.2.2.2.2.2 rfl⟩
/-! ## Composition patches and transforms (C25, C26, C27) -/

/-- `Patch.Apply` hands `ToFieldPath` to `SetValue` as it is: it never writes
at another path. -/
theorem Apply_writes_at_ToFieldPath {Obj Content : Type} (lib : FieldLibrary Obj Content)
    (c : Patch) (fromObj toObj : Obj) :
    Patch.Apply lib c fromObj toObj =
      Patch.Apply { lib with SetValue := fun m _ v => lib.SetValue m c.ToFieldPath v } c
        fromObj toObj :=
  rfl

/-- C25, a defect of the code: `Apply` has no statement that replaces an empty
`ToFieldPath` by `FromFieldPath`; the write is `SetValue` at the empty path,
whatever `FromFieldPath` is. For the patch from `spec.size` with `ToFieldPath`
left empty, the source holding `spec.size = "large"` and a target without that
field, `Apply` returns nil and the target is as before: nothing is written at
`spec.size`. With `ToFieldPath` spelled out the value is written there. -/
theorem Apply_empty_ToFieldPath_writes_no_field :
    Patch.Apply flatLibrary patchSamePath exampleSource exampleTarget =
        Outcome.ret (none, exampleTarget) ∧
      flatGet exampleSource "spec.size" = Except.ok (Value.string "large") ∧
      flatGet exampleTarget "spec.size" =
        Except.error (Err.Errorf "%s: no such field" ["spec.size"]) ∧
      Patch.Apply flatLibrary { patchSamePath with ToFieldPath := "spec.size" }
          exampleSource exampleTarget =
        Outcome.ret (none, ("spec.size", Value.string "large") :: exampleTarget) ∧
      ∀ (Obj Content : Type) (lib : FieldLibrary Obj Content) (fromPath : String)
        (transforms : List Transform) (fromObj toObj : Obj),
        Patch.Apply lib
            { FromFieldPath := fromPath, ToFieldPath := "", Transforms := transforms }
            fromObj toObj =
          Patch.Apply { lib with SetValue := fun m _ v => lib.SetValue m "" v }
            { FromFieldPath := fromPath, ToFieldPath := "", Transforms := transforms }
            fromObj toObj := by
  refine ⟨by decide, rfl, rfl, by decide, ?_⟩
  intro Obj Content lib fromPath transforms fromObj toObj
  exact Apply_writes_at_ToFieldPath lib _ fromObj toObj

theorem errConfigMissing_ne_errTypeNotSupported (s t : String) :
    errConfigMissing s ≠ errTypeNotSupported t := by
  intro h
  have hd := congrArg String.data h
  unfold errConfigMissing errTypeNotSupported at hd
  simp only [String.data_append] at hd
  have h0 := congrArg List.head? hd
  have hl : ("given type ".data ++ s.data ++ " requires configuration".data).head? = some 'g' :=
    rfl
  have hr : ("transform type ".data ++ t.data ++ " is not supported".data).head? = some 't' :=
    rfl
  rw [hl, hr] at h0
  exact absurd h0 (by decide)

/-- The switch of `Transform` never leaves the nil interface. -/
theorem transformer_ne_nil (t : Transform) : t.transformer ≠ Except.ok none := by
  unfold Transform.transformer
  split
  · intro h
    cases h
  · split
    · intro h
      cases h
    · intro h
      cases h

/-- `Transform` never returns the configuration error. -/
theorem Transform_never_config_error (t : Transform) (input out : Value) (ty : String) :
    t.Transform input ≠ Outcome.ret (out, some (Err.New (errConfigMissing ty))) := by
  unfold Transform.Transform
  cases htr : t.transformer with
  | error err =>
    simp only []
    unfold Transform.transformer at htr
    split at htr
    · cases htr
    · split at htr
      · cases htr
      · simp only [Except.error.injEq] at htr
        subst htr
        intro h
        simp only [Outcome.ret.injEq, Prod.mk.injEq, Option.some.injEq, Err.New.injEq] at h
        exact errConfigMissing_ne_errTypeNotSupported _ _ h.2.symm
  | ok tr =>
    cases tr with
    | none => exact absurd htr (transformer_ne_nil t)
    | some transformer =>
      simp only []
      cases transformer.Resolve input with
      | panic msg =>
        intro h
        cases h
      | ret r =>
        obtain ⟨o, err⟩ := r
        cases err with
        | none =>
          intro h
          cases h
        | some e =>
          intro h
          cases h

/-- C26, a defect of the code: with `Type` math and `Math` unset, `Transform`
panics for every input: the interface `transformer` holds the nil
`*MathTransform`, the test `transformer == nil` is false, and `Resolve` runs
on the nil receiver. With `Type` map and `Map` unset it panics for every
string input and for the nil input, and returns the unsupported-type error of
`Resolve` for other inputs. No Transform and input yield the error
"given type ... requires configuration". The rest is as claimed: a `Type`
that is neither math nor map yields "transform type ... is not supported",
and with the configuration set the result is that of `Resolve`, an error
wrapped as "... transform could not resolve". -/
theorem Transform_unset_configuration_panics :
    (∀ (mp : Option MapTransform) (input : Value),
      Transform.Transform { «Type» := "math", Math := none, Map := mp } input =
        Outcome.panic nilDereference) ∧
    (∀ (mt : Option MathTransform) (s : String),
      Transform.Transform { «Type» := "map", Math := mt, Map := none } (Value.string s) =
        Outcome.panic nilDereference) ∧
    (∀ (mt : Option MathTransform),
      Transform.Transform { «Type» := "map", Math := mt, Map := none } Value.nil =
        Outcome.panic nilDereference) ∧
    (∀ (mt : Option MathTransform) (i : Int),
      Transform.Transform { «Type» := "map", Math := mt, Map := none } (Value.int64 i) =
        Outcome.ret (Value.nil,
          some (Err.Wrap (Err.New "type int64 is not supported for map transform")
            "map transform could not resolve"))) ∧
    (∀ (t : Transform) (input out : Value) (ty : String),
      t.Transform input ≠ Outcome.ret (out, some (Err.New (errConfigMissing ty)))) ∧
    (∀ (ty : String) (mt : Option MathTransform) (mp : Option MapTransform) (input : Value),
      ty ≠ "math" → ty ≠ "map" →
      Transform.Transform { «Type» := ty, Math := mt, Map := mp } input =
        Outcome.ret (Value.nil,
          some (Err.New ("transform type " ++ ty ++ " is not supported")))) ∧
    (∀ (m : MathTransform) (mp : Option MapTransform) (input : Value),
      Transform.Transform { «Type» := "math", Math := some m, Map := mp } input =
        match MathTransform.Resolve (some m) input with
        | Outcome.panic msg => Outcome.panic msg
        | Outcome.ret (out, err) => Outcome.ret (out, Wrap err "math transform could not resolve")) ∧
    (∀ (mt : Option MathTransform) (m : MapTransform) (input : Value),
      Transform.Transform { «Type» := "map", Math := mt, Map := some m } input =
        match MapTransform.Resolve (some m) input with
        | Outcome.panic msg => Outcome.panic msg
        | Outcome.ret (out, err) => Outcome.ret (out, Wrap err "map transform could not resolve")) := by
  refine ⟨fun _ _ => rfl, fun _ _ => rfl, fun _ => rfl, fun _ _ => rfl,
    Transform_never_config_error, ?_, fun _ _ _ => rfl, fun _ _ _ => rfl⟩
  intro ty mt mp input h1 h2
  unfold Transform.Transform Transform.transformer
  simp only [TransformTypeMath, TransformTypeMap, if_neg h1, if_neg h2]
  rfl

theorem Transform_unset_configuration_panics_witness :
    Transform.Transform { «Type» := "bogus", Math := none, Map := none } (Value.string "x") =
      Outcome.ret (Value.nil, some (Err.New "transform type bogus is not supported")) :=
  Transform_unset_configuration_panics.2.2.2.2.2.1 "bogus" none none (Value.string "x")
    (by decide) (by decide)

/-- C27, a defect of the code: for the nil input `MapTransform.Resolve` panics:
the default case calls `reflect.TypeOf(input).String()`, and `reflect.TypeOf`
of the nil interface is nil. The rest is as claimed: a string that is a key of
`Pairs` yields the mapped value and no error, a string that is not a key
yields "given value ... is not found in map", and an input of any other
dynamic type yields "type ... is not supported for map transform" with the
type as `reflect` prints it. -/
theorem MapTransform_Resolve_nil_input_panics :
    (∀ (m : MapTransform),
      MapTransform.Resolve (some m) Value.nil = Outcome.panic nilDereference) ∧
    (∀ (m : MapTransform) (s : String), mapHas m.Pairs s = true →
      MapTransform.Resolve (some m) (Value.string s) =
        Outcome.ret (Value.string (mapGet m.Pairs s), none)) ∧
    (∀ (m : MapTransform) (s : String), mapHas m.Pairs s = false →
      MapTransform.Resolve (some m) (Value.string s) =
        Outcome.ret (Value.nil,
          some (Err.New ("given value " ++ s ++ " is not found in map")))) ∧
    (∀ (m : MapTransform) (i : Int),
      MapTransform.Resolve (some m) (Value.int64 i) =
        Outcome.ret (Value.nil, some (Err.New "type int64 is not supported for map transform"))) ∧
    (∀ (m : MapTransform) (i : Int),
      MapTransform.Resolve (some m) (Value.int i) =
        Outcome.ret (Value.nil, some (Err.New "type int is not supported for map transform"))) ∧
    (∀ (m : MapTransform) (ty content : String),
      MapTransform.Resolve (some m) (Value.other ty content) =
        Outcome.ret (Value.nil,
          some (Err.New ("type " ++ ty ++ " is not supported for map transform")))) := by
  refine ⟨fun _ => rfl, ?_, ?_, fun _ _ => rfl, fun _ _ => rfl, fun _ _ _ => rfl⟩
  · intro m s hs
    unfold MapTransform.Resolve
    simp [hs]
  · intro m s hs
    unfold MapTransform.Resolve
    simp [hs, errMapNotFound]

theorem MapTransform_Resolve_nil_input_panics_witness :
    MapTransform.Resolve (some { Pairs := [("small", "t3.small")] }) (Value.string "small") =
        Outcome.ret (Value.string "t3.small", none) ∧
      MapTransform.Resolve (some { Pairs := [("small", "t3.small")] }) (Value.string "huge") =
        Outcome.ret (Value.nil, some (Err.New "given value huge is not found in map")) :=
  ⟨MapTransform_Resolve_nil_input_panics.2.1 { Pairs := [("small", "t3.small")] } "small"
      (by decide),
    MapTransform_Resolve_nil_input_panics.2.2.1 { Pairs := [("small", "t3.small")] } "huge"
      (by decide)⟩
end Crossplane
